import Mathlib

/-!
# Vest-OS terminal I/O pipeline: a shallow embedding

The definitions below transcribe the C sources of the keyboard driver
(`src/drivers/tty/keyboard.c`), the VGA text driver (`src/drivers/tty/vga.c`),
the TTY line discipline (`src/drivers/tty/tty.c`) and the terminal escape
interpreter (`src/kernel/terminal.c`).

Conventions
* a C `char` / `uint8_t` is a `Nat` (its byte value); arithmetic that can leave
  the range of the C type is reduced explicitly (`% 256`, `% 65536`, ...);
* a C array is a function from the index to the element, and an array store
  `a[i] = v` is `Function.update a i v`;
* global C state is passed explicitly;
* code that can loop without bound takes a fuel argument and returns `none`
  when the fuel is used up.
-/

namespace VestOS

/-! ## Keyboard driver (`src/drivers/tty/keyboard.c`, `include/drivers/keyboard.h`) -/

/-- Type `key_state_t`. -/
inductive key_state_t where
  | KEY_RELEASED
  | KEY_PRESSED
  deriving DecidableEq, Repr

/-- Type `modifier_keys_t` (one-bit fields). -/
structure modifier_keys_t where
  left_shift : Bool := false
  right_shift : Bool := false
  left_ctrl : Bool := false
  right_ctrl : Bool := false
  left_alt : Bool := false
  right_alt : Bool := false
  caps_lock : Bool := false
  num_lock : Bool := false
  scroll_lock : Bool := false
  deriving DecidableEq, Repr

/-- Type `keyboard_event_t`. -/
structure keyboard_event_t where
  scancode : Nat := 0
  ascii : Nat := 0
  state : key_state_t := key_state_t.KEY_RELEASED
  modifiers : modifier_keys_t := {}
  deriving DecidableEq, Repr

/-- Constant `KEYBOARD_BUFFER_SIZE`. -/
def KEYBOARD_BUFFER_SIZE : Nat := 256

/-- Type `keyboard_buffer_t`: the static `keyboard_buffer`. -/
structure keyboard_buffer_t where
  buffer : Nat → keyboard_event_t
  head : Nat
  tail : Nat
  count : Nat

/-- Table `scancode_to_ascii_table_set1[128]`; the initialiser lists 103 entries and
the remaining entries are zero, which `getD _ 0` supplies. -/
def scancode_to_ascii_table_set1 : List Nat :=
  [ 0, 0, 49, 50, 51, 52, 53, 54, 55, 56, 57, 48, 45, 61, 8,
    9, 113, 119, 101, 114, 116, 121, 117, 105, 111, 112, 91, 93, 10,
    0, 97, 115, 100, 102, 103, 104, 106, 107, 108, 59, 39, 96,
    0, 92, 122, 120, 99, 118, 98, 110, 109, 44, 46, 47, 0,
    42, 0, 32, 0, 0, 0, 0, 0, 0, 0, 0, 0, 0, 0, 0, 0,
    0, 0, 0, 0, 0, 0, 0, 0, 0, 45, 0, 53, 0, 43, 0, 0,
    0, 0, 0, 0, 0, 0, 0, 0, 0, 0, 0, 0, 0, 0, 0, 0 ]

/-- Table `scancode_to_ascii_shift_table_set1[128]`. -/
def scancode_to_ascii_shift_table_set1 : List Nat :=
  [ 0, 0, 33, 64, 35, 36, 37, 94, 38, 42, 40, 41, 95, 43, 8,
    9, 81, 87, 69, 82, 84, 89, 85, 73, 79, 80, 123, 125, 10,
    0, 65, 83, 68, 70, 71, 72, 74, 75, 76, 58, 34, 126,
    0, 124, 90, 88, 67, 86, 66, 78, 77, 60, 62, 63, 0,
    42, 0, 32, 0, 0, 0, 0, 0, 0, 0, 0, 0, 0, 0, 0, 0,
    0, 0, 0, 0, 0, 0, 0, 0, 0, 45, 0, 53, 0, 43, 0, 0,
    0, 0, 0, 0, 0, 0, 0, 0, 0, 0, 0, 0, 0, 0, 0, 0 ]

/-- Function `scancode_to_ascii` (keyboard.c 191-229). -/
def scancode_to_ascii (scancode : Nat) (modifiers : modifier_keys_t) : Nat :=
  if scancode ≥ 128 then 0
  else
    let ascii :=
      if modifiers.left_shift || modifiers.right_shift then
        scancode_to_ascii_shift_table_set1.getD scancode 0
      else
        scancode_to_ascii_table_set1.getD scancode 0
    -- Caps Lock
    let ascii :=
      if modifiers.caps_lock ∧ ascii ≥ 97 ∧ ascii ≤ 122 then ascii - 97 + 65
      else if modifiers.caps_lock ∧ ascii ≥ 65 ∧ ascii ≤ 90 then ascii - 65 + 97
      else ascii
    -- Num Lock
    if modifiers.num_lock then
      if scancode = 0x47 then 55
      else if scancode = 0x48 then 56
      else if scancode = 0x49 then 57
      else if scancode = 0x4B then 52
      else if scancode = 0x4C then 53
      else if scancode = 0x4D then 54
      else if scancode = 0x4F then 49
      else if scancode = 0x50 then 50
      else if scancode = 0x51 then 51
      else if scancode = 0x52 then 48
      else if scancode = 0x53 then 46
      else ascii
    else ascii

/-- Function `buffer_push_event` (keyboard.c 398-408). -/
def buffer_push_event (event : keyboard_event_t) (kb : keyboard_buffer_t) : keyboard_buffer_t :=
  let kb :=
    if kb.count ≥ KEYBOARD_BUFFER_SIZE then
      { kb with head := (kb.head + 1) % KEYBOARD_BUFFER_SIZE, count := kb.count - 1 }
    else kb
  { kb with
    buffer := Function.update kb.buffer kb.tail event
    tail := (kb.tail + 1) % KEYBOARD_BUFFER_SIZE
    count := kb.count + 1 }

/-- Function `buffer_pop_event` (keyboard.c 413-423): the return code, the contents of
`*event` afterwards, and the buffer afterwards. -/
def buffer_pop_event (event : keyboard_event_t) (kb : keyboard_buffer_t) :
    Int × keyboard_event_t × keyboard_buffer_t :=
  if kb.count = 0 then (-1, event, kb)
  else
    (0, kb.buffer kb.head,
      { kb with head := (kb.head + 1) % KEYBOARD_BUFFER_SIZE, count := kb.count - 1 })

/-- Function `keyboard_read_event` (keyboard.c 246-252); the pointer argument is `none`
when null and otherwise holds the current contents of the pointed-to event. -/
def keyboard_read_event (event : Option keyboard_event_t) (kb : keyboard_buffer_t) :
    Int × Option keyboard_event_t × keyboard_buffer_t :=
  match event with
  | none => (-2, none, kb)
  | some ev =>
    let r := buffer_pop_event ev kb
    (r.1, some r.2.1, r.2.2)

/-- Function `keyboard_has_event` (keyboard.c 257-259). -/
def keyboard_has_event (kb : keyboard_buffer_t) : Bool := decide (kb.count > 0)

/-- Function `keyboard_flush` (keyboard.c 264-268). -/
def keyboard_flush (kb : keyboard_buffer_t) : keyboard_buffer_t :=
  { kb with head := 0, tail := 0, count := 0 }

/-- A run of `buffer_push_event` calls, one per event, in list order. -/
def push_events (events : List keyboard_event_t) (kb : keyboard_buffer_t) : keyboard_buffer_t :=
  events.foldl (fun q e => buffer_push_event e q) kb

/-- A run of `n` successive `keyboard_read_event` calls into the same event variable:
the list of (return code, event read) pairs, and the buffer afterwards. -/
def read_events : Nat → keyboard_event_t → keyboard_buffer_t →
    List (Int × Option keyboard_event_t) × keyboard_buffer_t
  | 0, _, kb => ([], kb)
  | n + 1, ev, kb =>
    let r := keyboard_read_event (some ev) kb
    let rest := read_events n (r.2.1.getD ev) r.2.2
    ((r.1, r.2.1) :: rest.1, rest.2)

/-! ## VGA text driver (`src/drivers/tty/vga.c`, `include/drivers/vga.h`) -/

/-- Constant `VGA_WIDTH`. -/
def VGA_WIDTH : Nat := 80

/-- Constant `VGA_HEIGHT`. -/
def VGA_HEIGHT : Nat := 25

/-- Constant `VGA_SIZE`. -/
def VGA_SIZE : Nat := VGA_WIDTH * VGA_HEIGHT

/-- Type `vga_cell_t`. -/
structure vga_cell_t where
  character : Nat
  color : Nat
  deriving DecidableEq, Repr

/-- Type `vga_cursor_t` (two `uint8_t`). -/
structure vga_cursor_t where
  x : Nat
  y : Nat
  deriving DecidableEq, Repr

/-- Type `vga_state_t`: the static `vga_state`. The field `buffer` is the memory the C
pointer `buffer` addresses (the text grid, cell `y * 80 + x`). The field `crtc_cursor`
stands for the cursor-location register pair (CRTC 0x0E/0x0F) that `vga_set_cursor` and
`vga_show_cursor` program through `outb`; the other port writes are not modelled. -/
structure vga_state_t where
  buffer : Nat → vga_cell_t
  cursor : vga_cursor_t
  foreground_color : Nat
  background_color : Nat
  current_color : Nat
  tab_size : Nat
  auto_scroll : Nat
  crtc_cursor : Nat

/-- Function `vga_make_color` (vga.h 202-204), result converted to `uint8_t`. -/
def vga_make_color (fg bg : Nat) : Nat := (fg ||| (bg <<< 4)) % 256

/-- Function `vga_set_cursor` (vga.c 86-108); the arguments are converted to `uint8_t`. -/
def vga_set_cursor (x y : Nat) (s : vga_state_t) : vga_state_t :=
  let x := x % 256
  let y := y % 256
  let x := if x ≥ VGA_WIDTH then VGA_WIDTH - 1 else x
  let y := if y ≥ VGA_HEIGHT then VGA_HEIGHT - 1 else y
  { s with cursor := { x := x, y := y }, crtc_cursor := (y * VGA_WIDTH + x) % 65536 }

/-- Function `vga_get_cursor` (vga.c 113-115). -/
def vga_get_cursor (s : vga_state_t) : vga_cursor_t := s.cursor

/-- Function `vga_clear` (vga.c 52-65). -/
def vga_clear (s : vga_state_t) : vga_state_t :=
  let blank : vga_cell_t := { character := 32, color := s.current_color }
  let s := { s with
    buffer := (List.range VGA_SIZE).foldl (fun b i => Function.update b i blank) s.buffer }
  vga_set_cursor 0 0 s

/-- Function `vga_set_color` (vga.c 70-74); the fields are `uint8_t`. -/
def vga_set_color (foreground background : Nat) (s : vga_state_t) : vga_state_t :=
  { s with
    foreground_color := foreground % 256
    background_color := background % 256
    current_color := vga_make_color foreground background }

/-- Function `vga_get_color` (vga.c 79-81). -/
def vga_get_color (s : vga_state_t) : Nat := s.current_color

/-- Function `vga_show_cursor` (vga.c 120-138). -/
def vga_show_cursor (s : vga_state_t) : vga_state_t :=
  { s with crtc_cursor := (s.cursor.y * VGA_WIDTH + s.cursor.x) % 65536 }

/-- Function `vga_put_char_at` (vga.c 152-160). -/
def vga_put_char_at (x y ch color : Nat) (s : vga_state_t) : vga_state_t :=
  if x ≥ VGA_WIDTH ∨ y ≥ VGA_HEIGHT then s
  else
    { s with buffer := Function.update s.buffer (y * VGA_WIDTH + x) { character := ch, color := color } }

/-- Function `vga_scroll_line` (vga.c 213-229). -/
def vga_scroll_line (s : vga_state_t) : vga_state_t :=
  let b := (List.range ((VGA_HEIGHT - 1) * VGA_WIDTH)).foldl
    (fun b i => Function.update b i (b (i + VGA_WIDTH))) s.buffer
  let last_line := (VGA_HEIGHT - 1) * VGA_WIDTH
  let blank : vga_cell_t := { character := 32, color := s.current_color }
  { s with
    buffer := (List.range VGA_WIDTH).foldl (fun b i => Function.update b (last_line + i) blank) b }

/-- Function `vga_scroll_lines` (vga.c 234-261); the argument is a `uint8_t`. -/
def vga_scroll_lines (lines : Nat) (s : vga_state_t) : vga_state_t :=
  if lines = 0 then s
  else if lines ≥ VGA_HEIGHT then vga_clear s
  else
    let move_count := (VGA_HEIGHT - lines) * VGA_WIDTH
    let b := (List.range move_count).foldl
      (fun b i => Function.update b i (b (i + lines * VGA_WIDTH))) s.buffer
    let start_clear := (VGA_HEIGHT - lines) * VGA_WIDTH
    let clear_count := lines * VGA_WIDTH
    let blank : vga_cell_t := { character := 32, color := s.current_color }
    { s with
      buffer := (List.range clear_count).foldl
        (fun b i => Function.update b (start_clear + i) blank) b }

/-- Function `vga_new_line` (vga.c 266-279); `cursor.y++` is a `uint8_t` increment. -/
def vga_new_line (s : vga_state_t) : vga_state_t :=
  let s := { s with cursor := { x := 0, y := (s.cursor.y + 1) % 256 } }
  if s.cursor.y ≥ VGA_HEIGHT then
    if s.auto_scroll ≠ 0 then
      let s := vga_scroll_line s
      { s with cursor := { s.cursor with y := VGA_HEIGHT - 1 } }
    else
      { s with cursor := { s.cursor with y := VGA_HEIGHT - 1 } }
  else s

/-- Function `vga_backspace` (vga.c 295-305). -/
def vga_backspace (s : vga_state_t) : vga_state_t :=
  if s.cursor.x > 0 then
    let s := { s with cursor := { s.cursor with x := s.cursor.x - 1 } }
    vga_put_char_at s.cursor.x s.cursor.y 32 s.current_color s
  else if s.cursor.y > 0 then
    let s := { s with cursor := { x := VGA_WIDTH - 1, y := s.cursor.y - 1 } }
    vga_put_char_at s.cursor.x s.cursor.y 32 s.current_color s
  else s

/-- The `while` loop of `vga_tab` (vga.c 287-289): one unit of fuel per iteration. -/
def vga_tab_loop (put_char : Nat → vga_state_t → Option vga_state_t) (next_tab : Nat) :
    Nat → vga_state_t → Option vga_state_t
  | 0, _ => none
  | fuel + 1, s =>
    if s.cursor.x < next_tab ∧ s.cursor.x < VGA_WIDTH then
      (put_char 32 s).bind (vga_tab_loop put_char next_tab fuel)
    else some s

/-- Function `vga_tab` (vga.c 284-290). It calls `vga_put_char`, which calls it: the
callee is the argument `put_char`, and `vga_put_char` ties the knot. `next_tab` is a
`uint8_t`. A zero `tab_size` (a division by zero in C) is read as Lean's `x / 0 = 0`. -/
def vga_tab (put_char : Nat → vga_state_t → Option vga_state_t) (fuel : Nat)
    (s : vga_state_t) : Option vga_state_t :=
  let next_tab := ((s.cursor.x / s.tab_size + 1) * s.tab_size) % 256
  vga_tab_loop put_char next_tab fuel s

/-- Function `vga_put_char` (vga.c 165-195). The fuel bounds the nesting of calls and the
iterations of the loop in `vga_tab`; `none` means the fuel ran out. -/
def vga_put_char : Nat → Nat → vga_state_t → Option vga_state_t
  | 0, _, _ => none
  | fuel + 1, ch, s =>
    let r : Option vga_state_t :=
      if ch = 10 then some (vga_new_line s)
      else if ch = 9 then vga_tab (vga_put_char fuel) fuel s
      else if ch = 8 then some (vga_backspace s)
      else if ch = 13 then some (vga_set_cursor 0 s.cursor.y s)
      else if ch ≥ 32 ∧ ch ≤ 126 then
        let s := vga_put_char_at s.cursor.x s.cursor.y ch s.current_color s
        let s := { s with cursor := { s.cursor with x := (s.cursor.x + 1) % 256 } }
        if s.cursor.x ≥ VGA_WIDTH then some (vga_new_line s) else some s
      else some s
    r.map vga_show_cursor

/-- A run of `vga_put_char` calls, one per character, in list order (the loop of
`vga_put_string`, vga.c 205-207). -/
def vga_put_chars (fuel : Nat) : List Nat → vga_state_t → Option vga_state_t
  | [], s => some s
  | ch :: rest, s => (vga_put_char fuel ch s).bind (vga_put_chars fuel rest)

/-- Function `vga_init` (vga.c 29-47). -/
def vga_init (s : vga_state_t) : vga_state_t :=
  let s := { s with
    cursor := { x := 0, y := 0 }
    foreground_color := 7
    background_color := 0
    current_color := vga_make_color 7 0
    tab_size := 8
    auto_scroll := 1 }
  vga_show_cursor (vga_clear s)

/-! ## TTY line discipline (`src/drivers/tty/tty.c`, `include/drivers/tty.h`) -/

/-- Constant `MAX_TTYS`. -/
def MAX_TTYS : Nat := 8

/-- Constant `TTY_BUFFER_SIZE`. -/
def TTY_BUFFER_SIZE : Nat := 4096

/-- Constant `TTY_MAX_LINE_LENGTH`. -/
def TTY_MAX_LINE_LENGTH : Nat := 1024

/-- Type `tty_state_t`. -/
inductive tty_state_t where
  | TTY_STATE_CLOSED
  | TTY_STATE_OPEN
  | TTY_STATE_READY
  | TTY_STATE_ERROR
  deriving DecidableEq, Repr

/-- Type `tty_mode_t`. -/
inductive tty_mode_t where
  | TTY_MODE_COOKED
  | TTY_MODE_RAW
  deriving DecidableEq, Repr

/-- Type `tty_config_t`: six `uint8_t` flags, true when non-zero. -/
structure tty_config_t where
  echo : Nat
  canonical : Nat
  signal_en : Nat
  crlf : Nat
  tab_expand : Nat
  flow_control : Nat
  deriving DecidableEq, Repr

/-- Constant `default_tty_config` (tty.c 19-26). -/
def default_tty_config : tty_config_t :=
  { echo := 1, canonical := 1, signal_en := 1, crlf := 1, tab_expand := 1, flow_control := 0 }

/-- Type `tty_line_discipline_t`; the indices and counts are `uint16_t`. -/
structure tty_line_discipline_t where
  input_buffer : Nat → Nat
  line_buffer : Nat → Nat
  output_buffer : Nat → Nat
  input_head : Nat
  input_tail : Nat
  input_count : Nat
  line_pos : Nat
  line_count : Nat
  output_head : Nat
  output_tail : Nat
  output_count : Nat

/-- Type `tty_device_t`. The three function pointers, which the code below never reads,
are left out. The counters are `uint32_t`. The field `name` is the C string held in
`char name[TTY_NAME_MAX]`, without its terminating NUL. -/
structure tty_device_t where
  minor : Int
  state : tty_state_t
  mode : tty_mode_t
  config : tty_config_t
  line : tty_line_discipline_t
  foreground_color : Nat
  background_color : Nat
  current_color : Nat
  cursor : vga_cursor_t
  cursor_visible : Nat
  input_timeout : Nat
  bytes_read : Nat
  bytes_written : Nat
  lines_processed : Nat
  characters_processed : Nat
  name : List Nat := []

/-- Type `tty_manager_t`: the static `tty_manager`. -/
structure tty_manager_t where
  ttys : Nat → tty_device_t
  current_tty : Int
  tty_count : Int
  initialized : Nat

/-- The global state the TTY layer works on: the static `tty_manager` of tty.c and the
static `vga_state` of vga.c. The field `display_trace` is a ghost record, in call order,
of the characters the TTY layer hands to `vga_put_char`; no code reads it. -/
structure kernel_state where
  tty_manager : tty_manager_t
  vga_state : vga_state_t
  display_trace : List Nat

/-- The device `tty_manager.ttys[i]`. -/
def kernel_state.tty (k : kernel_state) (i : Nat) : tty_device_t := k.tty_manager.ttys i

/-- A store through a `tty_device_t *` that points at `tty_manager.ttys[i]`. -/
def kernel_state.set_tty (k : kernel_state) (i : Nat) (t : tty_device_t) : kernel_state :=
  { k with tty_manager := { k.tty_manager with ttys := Function.update k.tty_manager.ttys i t } }

/-- Function `tty_is_valid_minor` (tty.h 296-298). -/
def tty_is_valid_minor (minor : Int) : Bool := decide (minor ≥ 0 ∧ minor < MAX_TTYS)

/-- Function `tty_get_device` (tty.c 347-358): `none` is the null pointer, `some i` the
pointer to `tty_manager.ttys[i]`. -/
def tty_get_device (minor : Int) (k : kernel_state) : Option Nat :=
  if ¬ tty_is_valid_minor minor then none
  else if (k.tty minor.toNat).state = tty_state_t.TTY_STATE_CLOSED then none
  else some minor.toNat

/-- Function `tty_buffer_putchar` (tty.c 547-558) on the input ring of a line discipline
(every call in tty.c passes the input ring and `TTY_BUFFER_SIZE`): the return code and
the line discipline afterwards. `count` is a `uint16_t`. -/
def tty_buffer_putchar (line : tty_line_discipline_t) (size ch : Nat) :
    Int × tty_line_discipline_t :=
  if line.input_count ≥ size then (-1, line)
  else
    (0, { line with
      input_buffer := Function.update line.input_buffer line.input_tail ch
      input_tail := (line.input_tail + 1) % size
      input_count := (line.input_count + 1) % 65536 })

/-- The loop `for (i = 0; i < spaces; i++) tty_putchar(tty->minor, ' ')` of
`tty_line_discipline_output` (tty.c 481-483), `n` iterations left. -/
def tty_put_spaces (putchar : Int → Nat → kernel_state → Option (Int × kernel_state))
    (i : Nat) : Nat → kernel_state → Option kernel_state
  | 0, k => some k
  | n + 1, k =>
    match putchar (k.tty i).minor 32 k with
    | none => none
    | some r => tty_put_spaces putchar i n r.2

/-- The three statements `vga_set_color(...); vga_put_char(ch); tty->cursor =
vga_get_cursor();` (tty.c 395-397 and 489-491) for the device at index `i`. -/
def tty_render_char (fuel : Nat) (i : Nat) (ch : Nat) (k : kernel_state) : Option kernel_state :=
  let vs := vga_set_color (k.tty i).foreground_color (k.tty i).background_color k.vga_state
  match vga_put_char fuel ch vs with
  | none => none
  | some vs =>
    let k := { k with vga_state := vs, display_trace := k.display_trace ++ [ch] }
    some (k.set_tty i { k.tty i with cursor := vga_get_cursor vs })

/-- Function `tty_line_discipline_output` (tty.c 472-495) for the device at index `i`.
It calls `tty_putchar`, which reaches it again through `tty_write`: the callee is the
argument `putchar`, and `tty_write` ties the knot. -/
def tty_line_discipline_output
    (putchar : Int → Nat → kernel_state → Option (Int × kernel_state)) (fuel : Nat)
    (i : Nat) (ch : Nat) (k : kernel_state) : Option (Int × kernel_state) :=
  -- CR-LF
  let k1 : Option kernel_state :=
    if (k.tty i).config.crlf ≠ 0 ∧ ch = 10 then
      (putchar (k.tty i).minor 13 k).map (fun r => r.2)
    else some k
  match k1 with
  | none => none
  | some k =>
    -- Tab
    if (k.tty i).config.tab_expand ≠ 0 ∧ ch = 9 then
      let spaces := 8 - ((k.tty i).cursor.x % 8)
      (tty_put_spaces putchar i spaces k).map (fun k => (0, k))
    else if (k.tty i).minor = k.tty_manager.current_tty then
      (tty_render_char fuel i ch k).map (fun k => (0, k))
    else some (0, k)

/-- Function `tty_process_output_char` (tty.c 389-401) for the device at index `i`. -/
def tty_process_output_char
    (putchar : Int → Nat → kernel_state → Option (Int × kernel_state)) (fuel : Nat)
    (i : Nat) (ch : Nat) (k : kernel_state) : Option (Int × kernel_state) :=
  if (k.tty i).mode = tty_mode_t.TTY_MODE_COOKED then
    tty_line_discipline_output putchar fuel i ch k
  else if (k.tty i).minor = k.tty_manager.current_tty then
    (tty_render_char fuel i ch k).map (fun k => (0, k))
  else some (0, k)

/-- The `for` loop of `tty_write` (tty.c 248-255): `n` iterations left, `j` the loop
index, `bytes_written` the local counter. -/
def tty_write_loop (process : Nat → kernel_state → Option (Int × kernel_state))
    (i : Nat) (data : Nat → Nat) : Nat → Nat → Nat → kernel_state → Option (Nat × kernel_state)
  | 0, _, bytes_written, k => some (bytes_written, k)
  | n + 1, j, bytes_written, k =>
    match process (data j) k with
    | none => none
    | some r =>
      if r.1 = 0 then
        let k := r.2
        let k := k.set_tty i
          { k.tty i with bytes_written := ((k.tty i).bytes_written + 1) % 4294967296 }
        tty_write_loop process i data n (j + 1) (bytes_written + 1) k
      else some (bytes_written, r.2)

/-- Function `tty_write` (tty.c 236-261). `data` is `none` for a null pointer. The
closing `tty_flush(minor)` changes no state (tty.c 500-508). The fuel bounds the nesting
of calls (`tty_write` reaches itself through `tty_putchar`) and is handed on to
`vga_put_char`. -/
def tty_write : Nat → Int → Option (Nat → Nat) → Nat → kernel_state → Option (Int × kernel_state)
  | 0, _, _, _, _ => none
  | fuel + 1, minor, data, size, k =>
    match tty_get_device minor k, data with
    | some i, some d =>
      if size = 0 then some (-1, k)
      else if (k.tty i).state ≠ tty_state_t.TTY_STATE_READY then some (-1, k)
      else
        (tty_write_loop
          (tty_process_output_char
            (fun m c k => tty_write fuel m (some (fun _ => c)) 1 k) fuel i)
          i d size 0 0 k).map (fun r => ((r.1 : Int), r.2))
    | _, _ => some (-1, k)

/-- Function `tty_putchar` (tty.c 266-268). -/
def tty_putchar (fuel : Nat) (minor : Int) (ch : Nat) (k : kernel_state) :
    Option (Int × kernel_state) :=
  tty_write fuel minor (some (fun _ => ch)) 1 k

/-- The loop of `tty_line_discipline_input` (tty.c 417-424) that copies the line buffer
into the input ring: `n` iterations left, `j` the loop index. -/
def tty_copy_line : Nat → Nat → tty_line_discipline_t → tty_line_discipline_t
  | 0, _, line => line
  | n + 1, j, line =>
    tty_copy_line n (j + 1) (tty_buffer_putchar line TTY_BUFFER_SIZE (line.line_buffer j)).2

/-- Function `tty_line_discipline_input` (tty.c 406-467) for the device at index `i`.
The decrement `line_pos--` is guarded by `line_pos > 0` and cannot wrap; the unguarded
`line_count--` is a `uint16_t` decrement. -/
def tty_line_discipline_input
    (putchar : Int → Nat → kernel_state → Option (Int × kernel_state))
    (i : Nat) (ch : Nat) (k : kernel_state) : Option (Int × kernel_state) :=
  let r : Option kernel_state :=
    if ch = 10 ∨ ch = 13 then
      let k1 : Option kernel_state :=
        if (k.tty i).config.echo ≠ 0 then
          match putchar (k.tty i).minor 13 k with
          | none => none
          | some r => (putchar (r.2.tty i).minor 10 r.2).map (fun r => r.2)
        else some k
      k1.map (fun k =>
        let line := tty_copy_line (k.tty i).line.line_count 0 (k.tty i).line
        let line := (tty_buffer_putchar line TTY_BUFFER_SIZE 10).2
        let line := { line with line_count := 0, line_pos := 0 }
        k.set_tty i { k.tty i with
          line := line
          lines_processed := ((k.tty i).lines_processed + 1) % 4294967296 })
    else if ch = 8 then
      if (k.tty i).line.line_pos > 0 then
        let t := k.tty i
        let k := k.set_tty i { t with line := { t.line with
          line_pos := t.line.line_pos - 1
          line_count := (t.line.line_count + 65535) % 65536 } }
        if (k.tty i).config.echo ≠ 0 then
          match putchar (k.tty i).minor 8 k with
          | none => none
          | some r =>
            match putchar (r.2.tty i).minor 32 r.2 with
            | none => none
            | some r => (putchar (r.2.tty i).minor 8 r.2).map (fun r => r.2)
        else some k
      else some k
    else
      if (k.tty i).line.line_count < TTY_MAX_LINE_LENGTH - 1 then
        let t := k.tty i
        let k := k.set_tty i { t with line := { t.line with
          line_buffer := Function.update t.line.line_buffer t.line.line_pos ch
          line_pos := (t.line.line_pos + 1) % 65536
          line_count := (t.line.line_count + 1) % 65536 } }
        if (k.tty i).config.echo ≠ 0 then
          (putchar (k.tty i).minor ch k).map (fun r => r.2)
        else some k
      else some k
  r.map (fun k =>
    (0, k.set_tty i { k.tty i with
      characters_processed := ((k.tty i).characters_processed + 1) % 4294967296 }))

/-- Function `tty_process_input_char` (tty.c 373-384) for the device at index `i`. -/
def tty_process_input_char
    (putchar : Int → Nat → kernel_state → Option (Int × kernel_state))
    (i : Nat) (ch : Nat) (k : kernel_state) : Option (Int × kernel_state) :=
  if (k.tty i).mode = tty_mode_t.TTY_MODE_COOKED then
    tty_line_discipline_input putchar i ch k
  else
    let r := tty_buffer_putchar (k.tty i).line TTY_BUFFER_SIZE ch
    some (r.1, k.set_tty i { k.tty i with line := r.2 })

/-- Function `tty_input_char` (tty.c 273-284). -/
def tty_input_char (fuel : Nat) (minor : Int) (ch : Nat) (k : kernel_state) :
    Option (Int × kernel_state) :=
  match tty_get_device minor k with
  | none => some (-1, k)
  | some i =>
    if (k.tty i).state ≠ tty_state_t.TTY_STATE_READY then some (-1, k)
    else tty_process_input_char (tty_putchar fuel) i ch k

/-- A run of `tty_input_char` calls on one device, one per character, in list order. -/
def tty_input_chars (fuel : Nat) (minor : Int) : List Nat → kernel_state → Option kernel_state
  | [], k => some k
  | ch :: rest, k =>
    match tty_input_char fuel minor ch k with
    | none => none
    | some r => tty_input_chars fuel minor rest r.2

/-- The `while` loop of `tty_read` (tty.c 208-228) for the device at index `i`: `n` is
`size - bytes_read`; the result is the final `bytes_read`, the caller's buffer and the
state. -/
def tty_read_loop (i : Nat) : Nat → Nat → (Nat → Nat) → kernel_state →
    Nat × (Nat → Nat) × kernel_state
  | 0, bytes_read, buffer, k => (bytes_read, buffer, k)
  | n + 1, bytes_read, buffer, k =>
    let t := k.tty i
    if t.line.input_count > 0 then
      let ch := t.line.input_buffer t.line.input_head
      let k := k.set_tty i { t with
        line := { t.line with
          input_head := (t.line.input_head + 1) % TTY_BUFFER_SIZE
          input_count := t.line.input_count - 1 }
        bytes_read := (t.bytes_read + 1) % 4294967296 }
      tty_read_loop i n (bytes_read + 1) (Function.update buffer bytes_read ch) k
    else (bytes_read, buffer, k)

/-- Function `tty_read` (tty.c 196-231): the return value, the caller's buffer
afterwards (`none` for a null pointer) and the state afterwards. -/
def tty_read (minor : Int) (buffer : Option (Nat → Nat)) (size : Nat) (k : kernel_state) :
    Int × Option (Nat → Nat) × kernel_state :=
  match tty_get_device minor k, buffer with
  | some i, some b =>
    if size = 0 then (-1, buffer, k)
    else if (k.tty i).state ≠ tty_state_t.TTY_STATE_READY then (-1, buffer, k)
    else
      let r := tty_read_loop i size 0 b k
      ((r.1 : Int), some r.2.1, r.2.2)
  | _, _ => (-1, buffer, k)

/-- Function `tty_set_color` (tty.c 513-524); the fields are `uint8_t`. -/
def tty_set_color (minor : Int) (foreground background : Nat) (k : kernel_state) :
    Int × kernel_state :=
  match tty_get_device minor k with
  | none => (-1, k)
  | some i =>
    (0, k.set_tty i { k.tty i with
      foreground_color := foreground % 256
      background_color := background % 256
      current_color := vga_make_color foreground background })

/-- Function `tty_clear` (tty.c 529-542). -/
def tty_clear (minor : Int) (k : kernel_state) : Int × kernel_state :=
  match tty_get_device minor k with
  | none => (-1, k)
  | some i =>
    if (k.tty i).minor = k.tty_manager.current_tty then
      let k := { k with vga_state := vga_clear k.vga_state }
      (0, k.set_tty i { k.tty i with cursor := { x := 0, y := 0 } })
    else (0, k)

/-- Modelled from the spec: `tty_set_cursor` is declared in tty.h (line 252) and called by
terminal.c, but no source file defines it. The spec says that a cursor-affecting dispatch
"pushes the new position down to the bound TTYDevice/Display Surface": the device records
the position and, when it is the foreground device, the display cursor is set to it
(the shape of `tty_clear`). The arguments are `uint8_t`. -/
def tty_set_cursor (minor : Int) (x y : Nat) (k : kernel_state) : Int × kernel_state :=
  match tty_get_device minor k with
  | none => (-1, k)
  | some i =>
    let k := k.set_tty i { k.tty i with cursor := { x := x % 256, y := y % 256 } }
    if (k.tty i).minor = k.tty_manager.current_tty then
      (0, { k with vga_state := vga_set_cursor x y k.vga_state })
    else (0, k)

/-- Function `tty_flush_input` (tty.c 582-595). -/
def tty_flush_input (minor : Int) (k : kernel_state) : Int × kernel_state :=
  match tty_get_device minor k with
  | none => (-1, k)
  | some i =>
    let t := k.tty i
    (0, k.set_tty i { t with line := { t.line with
      input_head := 0, input_tail := 0, input_count := 0, line_pos := 0, line_count := 0 } })

/-- Function `tty_flush_output` (tty.c 600-611). -/
def tty_flush_output (minor : Int) (k : kernel_state) : Int × kernel_state :=
  match tty_get_device minor k with
  | none => (-1, k)
  | some i =>
    let t := k.tty i
    (0, k.set_tty i { t with line := { t.line with
      output_head := 0, output_tail := 0, output_count := 0 } })

/-- Function `tty_has_data` (tty.c 616-623). -/
def tty_has_data (minor : Int) (k : kernel_state) : Bool :=
  match tty_get_device minor k with
  | none => false
  | some i => decide ((k.tty i).line.input_count > 0)

/-! ## Terminal escape interpreter (`src/kernel/terminal.c`, `include/kernel/terminal.h`) -/

/-- Type `terminal_state_t`. -/
inductive terminal_state_t where
  | TERMINAL_STATE_INACTIVE
  | TERMINAL_STATE_ACTIVE
  | TERMINAL_STATE_FOCUSED
  | TERMINAL_STATE_SUSPENDED
  deriving DecidableEq, Repr

/-- Type `terminal_type_t`. -/
inductive terminal_type_t where
  | TERMINAL_TYPE_CONSOLE
  | TERMINAL_TYPE_SERIAL
  | TERMINAL_TYPE_NETWORK
  | TERMINAL_TYPE_VIRTUAL
  deriving DecidableEq, Repr

/-- Type `terminal_control_t`. -/
inductive terminal_control_t where
  | TERM_CTRL_NONE
  | TERM_CTRL_CURSOR_UP
  | TERM_CTRL_CURSOR_DOWN
  | TERM_CTRL_CURSOR_LEFT
  | TERM_CTRL_CURSOR_RIGHT
  | TERM_CTRL_CURSOR_HOME
  | TERM_CTRL_CURSOR_END
  | TERM_CTRL_CLEAR_LINE
  | TERM_CTRL_CLEAR_SCREEN
  | TERM_CTRL_SAVE_CURSOR
  | TERM_CTRL_RESTORE_CURSOR
  | TERM_CTRL_SCROLL_UP
  | TERM_CTRL_SCROLL_DOWN
  | TERM_CTRL_COLOR_SET
  | TERM_CTRL_COLOR_RESET
  deriving DecidableEq, Repr

/-- Constants `ANSI_STATE_NONE`, `ANSI_STATE_ESCAPE`, `ANSI_STATE_CSI` (terminal.c 20-22). -/
def ANSI_STATE_NONE : Nat := 0

/-- See `ANSI_STATE_NONE`. -/
def ANSI_STATE_ESCAPE : Nat := 1

/-- See `ANSI_STATE_NONE`. -/
def ANSI_STATE_CSI : Nat := 2

/-- Type `terminal_t`. The description, which no code reads or writes apart from the
`memset` of the whole record, is left out. The field `cursor`, which terminal.c reads
and writes (`terminal->cursor.x`, `terminal->cursor.y`), is missing from the declaration
in terminal.h; it is taken to be a `vga_cursor_t`, the type of the cursor of a
`tty_device_t` and of the `uint8_t` arguments of `terminal_move_cursor`. The field `name`
is the C string held in `char name[32]`, without its terminating NUL; the ids are
`uint32_t`. -/
structure terminal_t where
  state : terminal_state_t
  tty_minor : Int
  width : Nat
  height : Nat
  default_fg : Nat
  default_bg : Nat
  auto_wrap : Bool
  insert_mode : Bool
  cursor_visible : Bool
  bell_enabled : Bool
  history_enabled : Bool
  escape_state : Nat
  escape_buffer : Nat → Nat
  escape_pos : Nat
  cursor : vga_cursor_t
  type : terminal_type_t := terminal_type_t.TERMINAL_TYPE_CONSOLE
  name : List Nat := []
  session_id : Nat := 0
  process_id : Nat := 0

/-- A store `terminal->escape_buffer[index] = ch` (terminal.c 331, 337, 349, 353, 359).
In `terminal_t` (terminal.h 74-76) the fields `uint8_t escape_state`,
`char escape_buffer[32]` and `uint8_t escape_pos` are declared one after the other and all
have the size and alignment of a byte, so the byte `escape_buffer[32]` is the field
`escape_pos`: a store at index 32 overwrites the position. `escape_pos` is the last
declared field; a store at an index above 32 falls outside the declared fields of the
record (into its padding or into the object that follows it in memory, which is not
followed here) and the byte is kept in `escape_buffer` at that index. -/
def escape_store (t : terminal_t) (index ch : Nat) : terminal_t :=
  if index = 32 then { t with escape_pos := ch % 256 }
  else { t with escape_buffer := Function.update t.escape_buffer index ch }

/-- A load `terminal->escape_buffer[index]` with an `int` index: index -1 is the byte in
front of the array, the field `escape_state`, and index 32 the byte behind it, the field
`escape_pos` (terminal.h 74-76). -/
def escape_load (t : terminal_t) (index : Int) : Nat :=
  if index = -1 then t.escape_state
  else if index = 32 then t.escape_pos
  else t.escape_buffer index.toNat

/-- Function `terminal_reset_escape_state` (terminal.c 485-489). -/
def terminal_reset_escape_state (t : terminal_t) : terminal_t :=
  { t with
    escape_state := ANSI_STATE_NONE
    escape_pos := 0
    escape_buffer := fun i => if i < 32 then 0 else t.escape_buffer i }

/-- The C library predicate `isspace` in the C locale. -/
def c_isspace (c : Nat) : Bool := decide (c = 32 ∨ (9 ≤ c ∧ c ≤ 13))

/-- The C library predicate `isdigit`. -/
def c_isdigit (c : Nat) : Bool := decide (48 ≤ c ∧ c ≤ 57)

/-- The digits of a `%d` conversion: the value read so far and the rest of the input. -/
def scan_digits : List Nat → Nat → Nat × List Nat
  | [], acc => (acc, [])
  | c :: rest, acc =>
    if c_isdigit c then scan_digits rest (acc * 10 + (c - 48)) else (acc, c :: rest)

/-- One `%d` conversion of `sscanf`: white space is skipped, a sign is optional, at least
one digit is needed; `none` is a matching failure. The value is not reduced to the range
of `int`. -/
def scan_int (s : List Nat) : Option (Int × List Nat) :=
  let s := s.dropWhile c_isspace
  let signed : Bool × List Nat :=
    match s with
    | 45 :: r => (true, r)
    | 43 :: r => (false, r)
    | _ => (false, s)
  match signed.2 with
  | [] => none
  | c :: _ =>
    if c_isdigit c then
      let r := scan_digits signed.2 0
      some (if signed.1 then -(r.1 : Int) else (r.1 : Int), r.2)
    else none

/-- Modelled from the spec: `sscanf` is called by terminal.c and defined nowhere in the
sources; this is the C library behaviour of `sscanf(params, "%d;%d", &param1, &param2)`,
the "1 or 2 semicolon-delimited integer parameters (default 1 when absent)" of the spec:
a variable keeps its previous value when its conversion is not reached. -/
def sscanf_params (params : List Nat) (param1 param2 : Int) : Int × Int :=
  match scan_int params with
  | none => (param1, param2)
  | some r1 =>
    match r1.2 with
    | 59 :: rest =>
      match scan_int rest with
      | none => (r1.1, param2)
      | some r2 => (r1.1, r2.1)
    | _ => (r1.1, param2)

/-- The C string that starts at `escape_buffer + 2`: the bytes up to the first NUL, read to
the end of the record, that is at the indices 2 to 31 of the array and then at the byte of
`escape_pos`. -/
def escape_params (t : terminal_t) : List Nat :=
  ((List.range 31).map (fun j => escape_load t ((2 + j : Nat) : Int))).takeWhile
    (fun c => c ≠ 0)

/-- Function `terminal_set_colors` (terminal.c 508-517). -/
def terminal_set_colors (t : terminal_t) (foreground background : Nat) (k : kernel_state) :
    Int × terminal_t × kernel_state :=
  let t := { t with default_fg := foreground, default_bg := background }
  let r := tty_set_color t.tty_minor foreground background k
  (r.1, t, r.2)

/-- Function `terminal_clear_screen` (terminal.c 522-528). -/
def terminal_clear_screen (t : terminal_t) (k : kernel_state) : Int × kernel_state :=
  tty_clear t.tty_minor k

/-- The loops `for (i = 0; i < param1 && c > lo; i++) c--` of `terminal_execute_control`
(terminal.c 415-417 and 436-438): `n` iterations left. -/
def cursor_dec_loop : Nat → Nat → Nat
  | 0, c => c
  | n + 1, c => if c > 0 then cursor_dec_loop n ((c + 255) % 256) else c

/-- The loops `for (i = 0; i < param1 && c < limit - 1; i++) c++` of
`terminal_execute_control` (terminal.c 422-424 and 429-431): `n` iterations left; the
comparison is made in `int`. -/
def cursor_inc_loop (limit : Nat) : Nat → Nat → Nat
  | 0, c => c
  | n + 1, c => if (c : Int) < (limit : Int) - 1 then cursor_inc_loop limit n ((c + 1) % 256) else c

/-- Function `terminal_execute_control` (terminal.c 404-480); `params` is never null at
its call sites. An `int` stored into a cursor field is converted to `uint8_t`. -/
def terminal_execute_control (t : terminal_t) (ctrl : terminal_control_t)
    (params : List Nat) (k : kernel_state) : Int × terminal_t × kernel_state :=
  let p := sscanf_params params 1 1
  let param1 := p.1
  let param2 := p.2
  match ctrl with
  | terminal_control_t.TERM_CTRL_CURSOR_UP =>
    let t := { t with cursor := { t.cursor with y := cursor_dec_loop param1.toNat t.cursor.y } }
    (0, t, (tty_set_cursor t.tty_minor t.cursor.x t.cursor.y k).2)
  | terminal_control_t.TERM_CTRL_CURSOR_DOWN =>
    let t := { t with cursor := { t.cursor with
      y := cursor_inc_loop t.height param1.toNat t.cursor.y } }
    (0, t, (tty_set_cursor t.tty_minor t.cursor.x t.cursor.y k).2)
  | terminal_control_t.TERM_CTRL_CURSOR_RIGHT =>
    let t := { t with cursor := { t.cursor with
      x := cursor_inc_loop t.width param1.toNat t.cursor.x } }
    (0, t, (tty_set_cursor t.tty_minor t.cursor.x t.cursor.y k).2)
  | terminal_control_t.TERM_CTRL_CURSOR_LEFT =>
    let t := { t with cursor := { t.cursor with x := cursor_dec_loop param1.toNat t.cursor.x } }
    (0, t, (tty_set_cursor t.tty_minor t.cursor.x t.cursor.y k).2)
  | terminal_control_t.TERM_CTRL_CURSOR_HOME =>
    let t := { t with cursor :=
      { x := ((param2 - 1) % 256).toNat, y := ((param1 - 1) % 256).toNat } }
    (0, t, (tty_set_cursor t.tty_minor t.cursor.x t.cursor.y k).2)
  | terminal_control_t.TERM_CTRL_CLEAR_SCREEN =>
    if param1 = 2 then (0, t, (terminal_clear_screen t k).2) else (0, t, k)
  | terminal_control_t.TERM_CTRL_CLEAR_LINE => (0, t, k)
  | terminal_control_t.TERM_CTRL_COLOR_SET =>
    if param1 = 0 then
      let r := terminal_set_colors t t.default_fg t.default_bg k
      (0, r.2.1, r.2.2)
    else if 30 ≤ param1 ∧ param1 ≤ 37 then
      let r := terminal_set_colors t (param1 - 30).toNat t.default_bg k
      (0, r.2.1, r.2.2)
    else if 40 ≤ param1 ∧ param1 ≤ 47 then
      let r := terminal_set_colors t t.default_fg (param1 - 40).toNat k
      (0, r.2.1, r.2.2)
    else (0, t, k)
  | _ => (0, t, k)

/-- Function `terminal_process_csi_sequence` (terminal.c 373-399). -/
def terminal_process_csi_sequence (t : terminal_t) (k : kernel_state) :
    Int × terminal_t × kernel_state :=
  let params := escape_params t
  let cmd := escape_load t ((t.escape_pos : Int) - 1)
  if cmd = 65 then terminal_execute_control t terminal_control_t.TERM_CTRL_CURSOR_UP params k
  else if cmd = 66 then
    terminal_execute_control t terminal_control_t.TERM_CTRL_CURSOR_DOWN params k
  else if cmd = 67 then
    terminal_execute_control t terminal_control_t.TERM_CTRL_CURSOR_RIGHT params k
  else if cmd = 68 then
    terminal_execute_control t terminal_control_t.TERM_CTRL_CURSOR_LEFT params k
  else if cmd = 72 then
    terminal_execute_control t terminal_control_t.TERM_CTRL_CURSOR_HOME params k
  else if cmd = 74 then
    terminal_execute_control t terminal_control_t.TERM_CTRL_CLEAR_SCREEN params k
  else if cmd = 75 then
    terminal_execute_control t terminal_control_t.TERM_CTRL_CLEAR_LINE params k
  else if cmd = 109 then
    terminal_execute_control t terminal_control_t.TERM_CTRL_COLOR_SET params k
  else (0, t, k)

/-- Function `terminal_parse_ansi_escape` (terminal.c 325-368): the return value (1 when the
byte is consumed, 0 otherwise), the terminal and the state afterwards. `escape_pos` is a
`uint8_t`. In `escape_buffer[escape_pos++] = ch` the index is the position before the
increment and the element is written after the incremented position, so that at index 32,
where the element is the position itself, the position ends as `ch`. -/
def terminal_parse_ansi_escape (t : terminal_t) (ch : Nat) (k : kernel_state) :
    Int × terminal_t × kernel_state :=
  if t.escape_state = ANSI_STATE_NONE then
    if ch = 27 then
      let t := { t with escape_state := ANSI_STATE_ESCAPE, escape_pos := 0 }
      let t := escape_store { t with escape_pos := (t.escape_pos + 1) % 256 } t.escape_pos ch
      (1, t, k)
    else (0, t, k)
  else if t.escape_state = ANSI_STATE_ESCAPE then
    let t := escape_store { t with escape_pos := (t.escape_pos + 1) % 256 } t.escape_pos ch
    if ch = 91 then (1, { t with escape_state := ANSI_STATE_CSI }, k)
    else (1, terminal_reset_escape_state t, k)
  else if t.escape_state = ANSI_STATE_CSI then
    let t := escape_store { t with escape_pos := (t.escape_pos + 1) % 256 } t.escape_pos ch
    if (ch ≥ 65 ∧ ch ≤ 90) ∨ (ch ≥ 97 ∧ ch ≤ 122) then
      let t := escape_store t t.escape_pos 0
      let r := terminal_process_csi_sequence t k
      (1, terminal_reset_escape_state r.2.1, r.2.2)
    else (0, t, k)
  else (0, t, k)

/-- The parsing loop of `terminal_write` (terminal.c 300-305): `n` iterations left, `j` the
loop index. The local counter `written` is never read and is left out. -/
def terminal_parse_loop (data : Nat → Nat) : Nat → Nat → terminal_t → kernel_state →
    terminal_t × kernel_state
  | 0, _, t, k => (t, k)
  | n + 1, j, t, k =>
    let r := terminal_parse_ansi_escape t (data j) k
    terminal_parse_loop data n (j + 1) r.2.1 r.2.2

/-- Function `terminal_write` (terminal.c 293-309): `none` for `terminal` or `data` is the
null pointer. -/
def terminal_write (fuel : Nat) (terminal : Option terminal_t) (data : Option (Nat → Nat))
    (size : Nat) (k : kernel_state) : Option (Int × Option terminal_t × kernel_state) :=
  match terminal, data with
  | some t, some d =>
    if size = 0 then some (-1, terminal, k)
    else
      let r := terminal_parse_loop d size 0 t k
      (tty_write fuel r.1.tty_minor data size r.2).map (fun w => (w.1, some r.1, w.2))
  | _, _ => some (-1, terminal, k)

/-- The C array that holds the bytes of a list (zero beyond its end). -/
def bytes (l : List Nat) : Nat → Nat := fun j => l.getD j 0

/-! ## Definitions used to state the properties -/

/-- The events a key event queue holds, oldest first: `count` slots from `head` on. -/
def kb_contents (kb : keyboard_buffer_t) : List keyboard_event_t :=
  (List.range kb.count).map (fun i => kb.buffer ((kb.head + i) % KEYBOARD_BUFFER_SIZE))

/-- The ring-buffer invariant of the key event queue. -/
def kb_inv (kb : keyboard_buffer_t) : Prop :=
  kb.head < 256 ∧ kb.count ≤ 256 ∧ kb.tail = (kb.head + kb.count) % 256

/-- The last `n` elements of a list (the whole list when it is shorter). -/
def take_last {α : Type} (n : Nat) (l : List α) : List α := l.drop (l.length - n)

/-- An empty key event queue in a well-formed state: no event stored, and the read and
write indices coincide inside the array. -/
def kb_empty (kb : keyboard_buffer_t) : Prop :=
  kb.count = 0 ∧ kb.tail = kb.head ∧ kb.head < KEYBOARD_BUFFER_SIZE

/-- A byte is an ASCII letter, 'a'..'z' or 'A'..'Z'. -/
def is_letter (c : Nat) : Prop := (97 ≤ c ∧ c ≤ 122) ∨ (65 ≤ c ∧ c ≤ 90)

instance (c : Nat) : Decidable (is_letter c) := by unfold is_letter; infer_instance

/-- The other-case form of a letter: lower case to upper case and back. -/
def swap_case (c : Nat) : Nat :=
  if 97 ≤ c ∧ c ≤ 122 then c - 32 else if 65 ≤ c ∧ c ≤ 90 then c + 32 else c

/-- The table entry selected by the shift flags alone. -/
def table_entry (scancode : Nat) (m : modifier_keys_t) : Nat :=
  if m.left_shift = true ∨ m.right_shift = true then
    scancode_to_ascii_shift_table_set1.getD scancode 0
  else scancode_to_ascii_table_set1.getD scancode 0

/-- A printable byte, as `vga_put_char` tests it: space to tilde. -/
def printable (ch : Nat) : Prop := 32 ≤ ch ∧ ch ≤ 126

instance (ch : Nat) : Decidable (printable ch) := by unfold printable; infer_instance

/-- A display state with every cell blank, light grey on black, as `vga_init` leaves the
grid, and the cursor at column `x` of row `y`. -/
def vga_blank_at (x y : Nat) : vga_state_t :=
  { buffer := fun _ => { character := 32, color := 7 }
    cursor := { x := x, y := y }
    foreground_color := 7
    background_color := 0
    current_color := 7
    tab_size := 8
    auto_scroll := 1
    crtc_cursor := y * 80 + x }

/-- The state after the printable branch of `vga_put_char`. -/
def vga_put_printable (ch : Nat) (s : vga_state_t) : vga_state_t :=
  let s := vga_put_char_at s.cursor.x s.cursor.y ch s.current_color s
  let s := { s with cursor := { s.cursor with x := (s.cursor.x + 1) % 256 } }
  vga_show_cursor (if s.cursor.x ≥ VGA_WIDTH then vga_new_line s else s)

/-- The result of `vga_put_char` for a byte other than a tab, which needs no loop. -/
def vga_put_char_notab (ch : Nat) (s : vga_state_t) : vga_state_t :=
  (vga_put_char 1 ch s).getD s

/-- The state after `tty_render_char` for a byte other than a tab. -/
def render (i ch : Nat) (k : kernel_state) : kernel_state :=
  let vs := vga_put_char_notab ch
    (vga_set_color (k.tty i).foreground_color (k.tty i).background_color k.vga_state)
  let k := { k with vga_state := vs, display_trace := k.display_trace ++ [ch] }
  k.set_tty i { k.tty i with cursor := vs.cursor }

/-- The statement `tty->bytes_written++` of `tty_write`. -/
def count_byte (i : Nat) (k : kernel_state) : kernel_state :=
  k.set_tty i { k.tty i with bytes_written := ((k.tty i).bytes_written + 1) % 4294967296 }

/-- The device at index `i` is Ready, carries its own index as minor number, and is the
foreground device. -/
def ready_fg (i : Nat) (k : kernel_state) : Prop :=
  i < 8 ∧ (k.tty i).minor = (i : Int) ∧ (k.tty i).state = tty_state_t.TTY_STATE_READY ∧
    k.tty_manager.current_tty = (i : Int)

/-- The device at index `i` is Ready and carries its own index as minor number. -/
def ready_dev (i : Nat) (k : kernel_state) : Prop :=
  i < 8 ∧ (k.tty i).minor = (i : Int) ∧ (k.tty i).state = tty_state_t.TTY_STATE_READY

/-- The statement `tty->characters_processed++` that ends `tty_line_discipline_input`. -/
def count_char (i : Nat) (k : kernel_state) : kernel_state :=
  k.set_tty i { k.tty i with
    characters_processed := ((k.tty i).characters_processed + 1) % 4294967296 }

/-- The statements `tty->line.line_pos--; tty->line.line_count--;` of the backspace case. -/
def erase_last (i : Nat) (k : kernel_state) : kernel_state :=
  k.set_tty i { k.tty i with line := { (k.tty i).line with
    line_pos := (k.tty i).line.line_pos - 1
    line_count := ((k.tty i).line.line_count + 65535) % 65536 } }

/-- The statements of the default case of `tty_line_discipline_input` that store a
character in the line buffer. -/
def append_char (i ch : Nat) (k : kernel_state) : kernel_state :=
  k.set_tty i { k.tty i with line := { (k.tty i).line with
    line_buffer := Function.update (k.tty i).line.line_buffer (k.tty i).line.line_pos ch
    line_pos := ((k.tty i).line.line_pos + 1) % 65536
    line_count := ((k.tty i).line.line_count + 1) % 65536 } }

/-- The statements of the CR/LF case of `tty_line_discipline_input` after the echo: the
line buffer and a line feed are copied into the input ring, the line buffer is reset and
the line is counted. -/
def commit_line (i : Nat) (k : kernel_state) : kernel_state :=
  k.set_tty i { k.tty i with
    line := { (tty_buffer_putchar
        (tty_copy_line (k.tty i).line.line_count 0 (k.tty i).line) TTY_BUFFER_SIZE 10).2 with
      line_count := 0, line_pos := 0 }
    lines_processed := ((k.tty i).lines_processed + 1) % 4294967296 }

/-- A line discipline with empty buffers. -/
def empty_line : tty_line_discipline_t :=
  { input_buffer := fun _ => 0, line_buffer := fun _ => 0, output_buffer := fun _ => 0
    input_head := 0, input_tail := 0, input_count := 0, line_pos := 0, line_count := 0
    output_head := 0, output_tail := 0, output_count := 0 }

/-- The console device tty0 as `tty_register` sets it up, opened and Ready in Cooked mode,
with configuration `cfg`, `pending` characters in the line-edit buffer and its cursor at
column `x` of row `y`. -/
def console_tty (cfg : tty_config_t) (pending x y : Nat) : tty_device_t :=
  { minor := 0, state := tty_state_t.TTY_STATE_READY, mode := tty_mode_t.TTY_MODE_COOKED
    config := cfg, line := { empty_line with line_pos := pending, line_count := pending }
    foreground_color := 7, background_color := 0, current_color := 7
    cursor := { x := x, y := y }, cursor_visible := 1, input_timeout := 0
    bytes_read := 0, bytes_written := 0, lines_processed := 0, characters_processed := 0 }

/-- A device slot that is not registered: all zero, hence Closed. -/
def closed_tty : tty_device_t :=
  { minor := 0, state := tty_state_t.TTY_STATE_CLOSED, mode := tty_mode_t.TTY_MODE_COOKED
    config := { echo := 0, canonical := 0, signal_en := 0, crlf := 0, tab_expand := 0,
                flow_control := 0 }
    line := empty_line
    foreground_color := 0, background_color := 0, current_color := 0
    cursor := { x := 0, y := 0 }, cursor_visible := 0, input_timeout := 0
    bytes_read := 0, bytes_written := 0, lines_processed := 0, characters_processed := 0 }

/-- A system with the console tty0 Ready and in the foreground, the other seven slots
Closed, and a blank display with the cursor at column `x` of row `y`. -/
def console_state (cfg : tty_config_t) (pending x y : Nat) : kernel_state :=
  { tty_manager :=
      { ttys := fun j => if j = 0 then console_tty cfg pending x y else closed_tty
        current_tty := 0, tty_count := 1, initialized := 1 }
    vga_state := vga_blank_at x y
    display_trace := [] }

/-- The statement `terminal->escape_buffer[terminal->escape_pos++] = ch`, as it stands in
`terminal_parse_ansi_escape`. -/
def esc_push (t : terminal_t) (ch : Nat) : terminal_t :=
  escape_store { t with escape_pos := (t.escape_pos + 1) % 256 } t.escape_pos ch

/-- The statement `terminal->escape_buffer[terminal->escape_pos] = 0` that ends a
sequence, as it stands in `terminal_parse_ansi_escape`. -/
def esc_terminate (t : terminal_t) : terminal_t :=
  escape_store t t.escape_pos 0

/-- The final bytes that the switch of `terminal_process_csi_sequence` (terminal.c 377-394)
tells apart, the constants `ANSI_CSI_*` of terminal.c 26-33, each with the control that
its case hands to `terminal_execute_control`. -/
def csi_commands : List (Nat × terminal_control_t) :=
  [(65, terminal_control_t.TERM_CTRL_CURSOR_UP), (66, terminal_control_t.TERM_CTRL_CURSOR_DOWN),
    (67, terminal_control_t.TERM_CTRL_CURSOR_RIGHT), (68, terminal_control_t.TERM_CTRL_CURSOR_LEFT),
    (72, terminal_control_t.TERM_CTRL_CURSOR_HOME), (74, terminal_control_t.TERM_CTRL_CLEAR_SCREEN),
    (75, terminal_control_t.TERM_CTRL_CLEAR_LINE), (109, terminal_control_t.TERM_CTRL_COLOR_SET)]

/-- The terminal after ESC has been taken from the reset state. -/
def esc_start (t : terminal_t) : terminal_t :=
  esc_push { t with escape_state := ANSI_STATE_ESCAPE, escape_pos := 0 } 27

/-- The terminal after ESC and `[` have been taken from the reset state. -/
def csi_start (t : terminal_t) : terminal_t :=
  { esc_push (esc_start t) 91 with escape_state := ANSI_STATE_CSI }

/-- The interpreter is in state CSI and has buffered ESC, `[` and then the bytes `l`. -/
def csi_acc (t : terminal_t) (l : List Nat) : Prop :=
  t.escape_state = ANSI_STATE_CSI ∧ t.escape_pos = 2 + l.length ∧
    ∀ j, j < l.length → t.escape_buffer (2 + j) = l.getD j 0

/-- The fields of a terminal that parsing alone never changes. -/
def terminal_base (t : terminal_t) : Int × Nat × Nat × Nat × Nat × vga_cursor_t :=
  (t.tty_minor, t.width, t.height, t.default_fg, t.default_bg, t.cursor)

/-- The state after `tty_write` has processed the plain bytes `l` on the foreground
device: each is rendered and counted. -/
def write_plain (i : Nat) (l : List Nat) (k : kernel_state) : kernel_state :=
  l.foldl (fun k c => count_byte i (render i c k)) k

/-- The display after the bytes `l`, none of them a tab, have been rendered by a device with
colours `fg` and `bg`. -/
def vga_write_plain (fg bg : Nat) (l : List Nat) (v : vga_state_t) : vga_state_t :=
  l.foldl (fun v c => vga_put_char_notab c (vga_set_color fg bg v)) v

/-- The state after `tty_clear` on the foreground device. -/
def cleared (i : Nat) (k : kernel_state) : kernel_state :=
  let k := { k with vga_state := vga_clear k.vga_state }
  k.set_tty i { k.tty i with cursor := { x := 0, y := 0 } }

/-- The state after `tty_set_cursor` on the foreground device. -/
def cursor_set (i x y : Nat) (k : kernel_state) : kernel_state :=
  let k := k.set_tty i { k.tty i with cursor := { x := x % 256, y := y % 256 } }
  { k with vga_state := vga_set_cursor x y k.vga_state }

/-- The console terminal as `terminal_create` sets it up: bound to tty0, 80 x 25, light
grey on black, escape interpreter in its reset state. -/
def console_terminal : terminal_t :=
  { state := terminal_state_t.TERMINAL_STATE_FOCUSED, tty_minor := 0, width := 80, height := 25
    default_fg := 7, default_bg := 0
    auto_wrap := true, insert_mode := false, cursor_visible := true, bell_enabled := true
    history_enabled := true
    escape_state := ANSI_STATE_NONE, escape_buffer := fun _ => 0, escape_pos := 0
    cursor := { x := 0, y := 0 } }

/-- The bytes the input ring of a line discipline holds, oldest first. -/
def ring_contents (l : tty_line_discipline_t) : List Nat :=
  (List.range l.input_count).map (fun j => l.input_buffer ((l.input_head + j) % 4096))

/-- The ring-buffer invariant of the input ring. -/
def ring_inv (l : tty_line_discipline_t) : Prop :=
  l.input_head < 4096 ∧ l.input_count ≤ 4096 ∧
    l.input_tail = (l.input_head + l.input_count) % 4096

/-- What input processing of one character leaves as it is on the device at index `i`. -/
def input_frame (i : Nat) (k k2 : kernel_state) : Prop :=
  (k2.tty i).config = (k.tty i).config ∧ (k2.tty i).mode = (k.tty i).mode ∧
  (k2.tty i).state = (k.tty i).state ∧ (k2.tty i).minor = (k.tty i).minor ∧
  (k2.tty i).lines_processed = (k.tty i).lines_processed ∧
  k2.tty_manager.current_tty = k.tty_manager.current_tty

/-- What `tty_putchar` leaves as it is on the device at index `i`: the line discipline
and the fields of `input_frame`. -/
def echo_frame (i : Nat) (k k2 : kernel_state) : Prop :=
  (k2.tty i).line = (k.tty i).line ∧ input_frame i k k2

/-- The input ring of `l2` is that of `l`. -/
def ring_same (l l2 : tty_line_discipline_t) : Prop :=
  l2.input_buffer = l.input_buffer ∧ l2.input_head = l.input_head ∧
    l2.input_tail = l.input_tail ∧ l2.input_count = l.input_count

/-! ## Device life cycle (`src/drivers/tty/tty.c`) and the terminal registry (`src/kernel/terminal.c`) -/

/-- The text that `vsnprintf` (string.c 249-366) makes of the format
"\r\nVest-OS TTY %s ready\r\n" with the argument `name`, before it is cut to the size of
the caller's buffer: the literal bytes around the bytes of the name. -/
def tty_ready_text (name : List Nat) : List Nat :=
  [13, 10, 86, 101, 115, 116, 45, 79, 83, 32, 84, 84, 89, 32] ++ name ++
    [32, 114, 101, 97, 100, 121, 13, 10]

/-- Function `tty_printf` (tty.c 289-303): `text` is the formatted text; `vsnprintf` stores
at most 511 bytes of it in the 512-byte buffer and returns their number. -/
def tty_printf (fuel : Nat) (minor : Int) (text : List Nat) (k : kernel_state) :
    Option (Int × kernel_state) :=
  let buffer := text.take 511
  if buffer.length > 0 then tty_write fuel minor (some (bytes buffer)) buffer.length k
  else some (0, k)

/-- Function `tty_register` (tty.c 79-121): the pointer returned (`none` is null) and the
state afterwards. `strncpy` copies at most `TTY_NAME_MAX - 1` = 15 bytes of the name. -/
def tty_register (name : Option (List Nat)) (minor : Int) (k : kernel_state) :
    Option Nat × kernel_state :=
  match name with
  | none => (none, k)
  | some nm =>
    if ¬ tty_is_valid_minor minor then (none, k)
    else if (k.tty minor.toNat).state ≠ tty_state_t.TTY_STATE_CLOSED then (none, k)
    else
      let t : tty_device_t :=
        { minor := minor
          state := tty_state_t.TTY_STATE_CLOSED
          mode := tty_mode_t.TTY_MODE_COOKED
          config := default_tty_config
          line := empty_line
          foreground_color := 7
          background_color := 0
          current_color := vga_make_color 7 0
          cursor := { x := 0, y := 0 }
          cursor_visible := 1
          input_timeout := 0
          bytes_read := 0
          bytes_written := 0
          lines_processed := 0
          characters_processed := 0
          name := nm.take 15 }
      let k := k.set_tty minor.toNat t
      (some minor.toNat,
        { k with tty_manager := { k.tty_manager with tty_count := k.tty_manager.tty_count + 1 } })

/-- Function `tty_open` (tty.c 145-168): the return code and the state afterwards; `none`
when the welcome message does not get written within `fuel`. -/
def tty_open (fuel : Nat) (minor : Int) (k : kernel_state) : Option (Int × kernel_state) :=
  match tty_get_device minor k with
  | none => some (-1, k)
  | some i =>
    if (k.tty i).state ≠ tty_state_t.TTY_STATE_CLOSED then some (-1, k)
    else
      let k := k.set_tty i { k.tty i with line := empty_line }
      let k := k.set_tty i { k.tty i with state := tty_state_t.TTY_STATE_OPEN }
      if minor = k.tty_manager.current_tty then
        match tty_printf fuel minor (tty_ready_text (k.tty i).name) k with
        | none => none
        | some r =>
          some (0, r.2.set_tty i { r.2.tty i with state := tty_state_t.TTY_STATE_READY })
      else some (0, k)

/-- Function `tty_close` (tty.c 173-191). -/
def tty_close (minor : Int) (k : kernel_state) : Int × kernel_state :=
  match tty_get_device minor k with
  | none => (-1, k)
  | some i =>
    if (k.tty i).state = tty_state_t.TTY_STATE_CLOSED then (0, k)
    else
      let k := (tty_flush_input minor k).2
      let k := (tty_flush_output minor k).2
      (0, k.set_tty i { k.tty i with state := tty_state_t.TTY_STATE_CLOSED })

/-- Function `tty_save_cursor_state` (tty.c 563-567) on the device at index `i`. -/
def tty_save_cursor_state (i : Nat) (k : kernel_state) : kernel_state :=
  if (k.tty i).minor = k.tty_manager.current_tty then
    k.set_tty i { k.tty i with cursor := vga_get_cursor k.vga_state }
  else k

/-- Function `tty_restore_cursor_state` (tty.c 572-577) on the device at index `i`. -/
def tty_restore_cursor_state (i : Nat) (k : kernel_state) : kernel_state :=
  if (k.tty i).minor = k.tty_manager.current_tty then
    let v := vga_set_cursor (k.tty i).cursor.x (k.tty i).cursor.y k.vga_state
    { k with vga_state := vga_set_color (k.tty i).foreground_color (k.tty i).background_color v }
  else k

/-- Function `tty_switch` (tty.c 308-335); the return code of `tty_open` is not looked
at. -/
def tty_switch (fuel : Nat) (minor : Int) (k : kernel_state) : Option (Int × kernel_state) :=
  if ¬ tty_is_valid_minor minor then some (-1, k)
  else
    let old_tty := k.tty_manager.current_tty.toNat
    let new_tty := minor.toNat
    let k := if (k.tty old_tty).state = tty_state_t.TTY_STATE_READY
      then tty_save_cursor_state old_tty k else k
    let k := { k with tty_manager := { k.tty_manager with current_tty := minor } }
    let opened := if (k.tty new_tty).state = tty_state_t.TTY_STATE_CLOSED
      then (tty_open fuel minor k).map (fun r => r.2) else some k
    match opened with
    | none => none
    | some k =>
      let k := if (k.tty new_tty).state = tty_state_t.TTY_STATE_READY
        then tty_restore_cursor_state new_tty k else k
      some (0, k)

/-- Function `tty_get_current` (tty.c 340-342). -/
def tty_get_current (k : kernel_state) : Int := k.tty_manager.current_tty

/-- Type `terminal_manager_t`: the static `terminal_manager`. The session list, which the
functions below never read, is left out. -/
structure terminal_manager_t where
  terminals : Nat → terminal_t
  terminal_count : Int
  active_terminal : Int
  focused_terminal : Int
  next_session_id : Nat
  initialized : Nat

/-- The global state the terminal layer works on: the static `terminal_manager` of
terminal.c and the state of the TTY layer below it. -/
structure system_state where
  terminal_manager : terminal_manager_t
  kernel : kernel_state

/-- The terminal `terminal_manager.terminals[i]`. -/
def system_state.terminal (s : system_state) (i : Nat) : terminal_t :=
  s.terminal_manager.terminals i

/-- A store through a `terminal_t *` that points at `terminal_manager.terminals[i]`. -/
def system_state.set_terminal (s : system_state) (i : Nat) (t : terminal_t) : system_state :=
  { s with terminal_manager :=
      { s.terminal_manager with terminals := Function.update s.terminal_manager.terminals i t } }

/-- The record after `memset(terminal, 0, sizeof(terminal_t))`: every field is zero; the
bytes past the 32-byte escape buffer are not part of the array and keep what they hold. -/
def terminal_memset_zero (t : terminal_t) : terminal_t :=
  { state := terminal_state_t.TERMINAL_STATE_INACTIVE
    tty_minor := 0
    width := 0
    height := 0
    default_fg := 0
    default_bg := 0
    auto_wrap := false
    insert_mode := false
    cursor_visible := false
    bell_enabled := false
    history_enabled := false
    escape_state := 0
    escape_buffer := fun i => if i < 32 then 0 else t.escape_buffer i
    escape_pos := 0
    cursor := { x := 0, y := 0 }
    type := terminal_type_t.TERMINAL_TYPE_CONSOLE
    name := []
    session_id := 0
    process_id := 0 }

/-- The slot search of `terminal_create` (terminal.c 88-94): `n` iterations left, `i` the
loop index; `none` is `slot == -1`. -/
def find_free_slot (m : terminal_manager_t) : Nat → Nat → Option Nat
  | 0, _ => none
  | n + 1, i =>
    if (m.terminals i).state = terminal_state_t.TERMINAL_STATE_INACTIVE then some i
    else find_free_slot m n (i + 1)

/-- Function `terminal_create` (terminal.c 80-138): the pointer returned (`none` is null,
`some i` points at slot `i`) and the state afterwards. `strncpy` copies at most 31 bytes of
the name. -/
def terminal_create (fuel : Nat) (name : Option (List Nat)) (type : terminal_type_t)
    (tty_minor : Int) (s : system_state) : Option (Option Nat × system_state) :=
  match name with
  | none => some (none, s)
  | some nm =>
    if ¬ tty_is_valid_minor tty_minor then some (none, s)
    else
      match find_free_slot s.terminal_manager MAX_TTYS 0 with
      | none => some (none, s)
      | some slot =>
        let t := terminal_memset_zero (s.terminal slot)
        let t := { t with
          name := nm.take 31
          type := type
          state := terminal_state_t.TERMINAL_STATE_ACTIVE
          tty_minor := tty_minor
          session_id := 0
          process_id := 0 }
        let t := { t with width := VGA_WIDTH % 256, height := VGA_HEIGHT % 256,
                          default_fg := 7, default_bg := 0 }
        let t := { t with auto_wrap := true, insert_mode := false, cursor_visible := true,
                          bell_enabled := true, history_enabled := true }
        let t := terminal_reset_escape_state t
        let s := s.set_terminal slot t
        match tty_open fuel tty_minor s.kernel with
        | none => none
        | some r =>
          let s := { s with kernel := r.2 }
          if r.1 ≠ 0 then some (none, s)
          else
            some (some slot, { s with terminal_manager := { s.terminal_manager with
              terminal_count := s.terminal_manager.terminal_count + 1 } })

/-- Function `terminal_destroy` (terminal.c 143-161); `some i` points at slot `i`. -/
def terminal_destroy (terminal : Option Nat) (s : system_state) : Int × system_state :=
  match terminal with
  | none => (-1, s)
  | some i =>
    let s := { s with kernel := (tty_close (s.terminal i).tty_minor s.kernel).2 }
    let t := terminal_memset_zero (s.terminal i)
    let s := s.set_terminal i { t with state := terminal_state_t.TERMINAL_STATE_INACTIVE }
    (0, { s with terminal_manager := { s.terminal_manager with
      terminal_count := s.terminal_manager.terminal_count - 1 } })

/-- The index search of `terminal_switch_to` (terminal.c 220-226) for a pointer at slot
`p`: `n` iterations left, `i` the loop index; `none` is `index == -1`. -/
def find_terminal_index (p : Nat) : Nat → Nat → Option Nat
  | 0, _ => none
  | n + 1, i => if i = p then some i else find_terminal_index p n (i + 1)

/-- Function `terminal_switch_to` (terminal.c 212-252); `some p` points at slot `p` (a
`p` of 8 or more stands for a terminal that is not in the registry). The return code of
`tty_switch` is not looked at. -/
def terminal_switch_to (fuel : Nat) (terminal : Option Nat) (s : system_state) :
    Option (Int × system_state) :=
  match terminal with
  | none => some (-1, s)
  | some p =>
    match find_terminal_index p MAX_TTYS 0 with
    | none => some (-1, s)
    | some index =>
      let s :=
        if s.terminal_manager.active_terminal ≥ 0 then
          let current := s.terminal_manager.active_terminal.toNat
          if (s.terminal current).state = terminal_state_t.TERMINAL_STATE_FOCUSED then
            s.set_terminal current { s.terminal current with
              state := terminal_state_t.TERMINAL_STATE_ACTIVE }
          else s
        else s
      match tty_switch fuel (s.terminal p).tty_minor s.kernel with
      | none => none
      | some r =>
        let s := { s with kernel := r.2 }
        let s := s.set_terminal p { s.terminal p with
          state := terminal_state_t.TERMINAL_STATE_FOCUSED }
        some (0, { s with terminal_manager := { s.terminal_manager with
          active_terminal := (index : Int)
          focused_terminal := (index : Int) } })

/-- Function `terminal_set_focus` (terminal.c 257-266): the pointer difference
`terminal - terminal_manager.terminals` of a pointer at slot `p` is `p`. -/
def terminal_set_focus (terminal : Option Nat) (s : system_state) : Int × system_state :=
  match terminal with
  | none => (-1, s)
  | some p =>
    (0, { s with terminal_manager := { s.terminal_manager with focused_terminal := (p : Int) } })

/-- Function `terminal_get_active` (terminal.c 271-277). -/
def terminal_get_active (s : system_state) : Option Nat :=
  if s.terminal_manager.active_terminal < 0 then none
  else some s.terminal_manager.active_terminal.toNat

/-- Function `terminal_get_focused` (terminal.c 282-288). -/
def terminal_get_focused (s : system_state) : Option Nat :=
  if s.terminal_manager.focused_terminal < 0 then none
  else some s.terminal_manager.focused_terminal.toNat

/-- A terminal slot as `memset` leaves it: Inactive, every field zero. -/
def free_terminal : terminal_t := terminal_memset_zero console_terminal

/-- A registry with two terminals: slot 0 is the Focused console on tty0, slot 1 an Active
terminal bound to tty1, the other slots are free; the active and the focused index are 0.
The TTY layer below has tty0 Ready in the foreground and tty1 registered and Closed. -/
def two_terminal_state : system_state :=
  { terminal_manager :=
      { terminals := fun j =>
          if j = 0 then console_terminal
          else if j = 1 then
            { console_terminal with
              state := terminal_state_t.TERMINAL_STATE_ACTIVE, tty_minor := 1 }
          else free_terminal
        terminal_count := 2
        active_terminal := 0
        focused_terminal := 0
        next_session_id := 1
        initialized := 1 }
    kernel := (tty_register (some [116, 116, 121, 49]) 1 (console_state default_tty_config 0 0 0)).2 }

/-- The registry has exactly one Focused slot among its eight. -/
def exactly_one_focused (s : system_state) : Prop :=
  ∃ a : Nat, a < 8 ∧ ∀ j, j < 8 →
    ((s.terminal j).state = terminal_state_t.TERMINAL_STATE_FOCUSED ↔ j = a)

/-- The registry has exactly one Focused slot, and it is the slot at the active index. -/
def focused_at_active (s : system_state) : Prop :=
  ∃ a : Nat, a < 8 ∧ s.terminal_manager.active_terminal = (a : Int) ∧ ∀ j, j < 8 →
    ((s.terminal j).state = terminal_state_t.TERMINAL_STATE_FOCUSED ↔ j = a)

/-- The first step of `terminal_switch_to` (terminal.c 234-239): the terminal at the active
index, when it is Focused, becomes Active. -/
def demote_active (s : system_state) : system_state :=
  if s.terminal_manager.active_terminal ≥ 0 then
    if (s.terminal s.terminal_manager.active_terminal.toNat).state
        = terminal_state_t.TERMINAL_STATE_FOCUSED then
      s.set_terminal s.terminal_manager.active_terminal.toNat
        { s.terminal s.terminal_manager.active_terminal.toNat with
          state := terminal_state_t.TERMINAL_STATE_ACTIVE }
    else s
  else s

/-- The TTY layer as `tty_init` leaves it: the display initialised, tty0 registered (and so
Closed) and chosen as the foreground device, the other seven slots unregistered. -/
def boot_kernel : kernel_state :=
  let k : kernel_state :=
    { tty_manager := { ttys := fun _ => closed_tty, current_tty := 0, tty_count := 0,
                       initialized := 0 }
      vga_state := vga_blank_at 0 0
      display_trace := [] }
  let k := (tty_register (some [116, 116, 121, 48]) 0 k).2
  { k with tty_manager := { k.tty_manager with current_tty := 0, initialized := 1 } }

/-- The system when `terminal_manager_init` calls `terminal_create`: the registry all
zero, the TTY layer initialised. -/
def boot_state : system_state :=
  { terminal_manager :=
      { terminals := fun _ => free_terminal, terminal_count := 0, active_terminal := 0,
        focused_terminal := 0, next_session_id := 0, initialized := 0 }
    kernel := boot_kernel }

/-- The bytes of the name "console". -/
def console_name : List Nat := [99, 111, 110, 115, 111, 108, 101]

/-- The record `terminal_create` writes into the slot it has chosen (terminal.c 104-126),
`old` being what the slot held. -/
def created_terminal (nm : List Nat) (type : terminal_type_t) (tty_minor : Int)
    (old : terminal_t) : terminal_t :=
  let t := terminal_memset_zero old
  let t := { t with
    name := nm.take 31
    type := type
    state := terminal_state_t.TERMINAL_STATE_ACTIVE
    tty_minor := tty_minor
    session_id := 0
    process_id := 0 }
  let t := { t with width := VGA_WIDTH % 256, height := VGA_HEIGHT % 256,
                    default_fg := 7, default_bg := 0 }
  let t := { t with auto_wrap := true, insert_mode := false, cursor_visible := true,
                    bell_enabled := true, history_enabled := true }
  terminal_reset_escape_state t

/-- The system after the call `terminal_create("console", TERMINAL_TYPE_CONSOLE, 0)` of
`terminal_manager_init`: slot 0 has been written, nothing else has changed. -/
def boot_created : system_state :=
  boot_state.set_terminal 0
    (created_terminal console_name terminal_type_t.TERMINAL_TYPE_CONSOLE 0 (boot_state.terminal 0))

/-- The value of a string of decimal digits. -/
def decimal_value (ds : List Nat) : Nat := ds.foldl (fun a c => a * 10 + (c - 48)) 0

/-- The first parameter of a CSI sequence whose parameter bytes are the digits `ds`: their
decimal value, and 1 when there is none. -/
def csi_parameter (ds : List Nat) : Nat := if ds = [] then 1 else decimal_value ds

/-- The colours an SGR parameter `n` selects, given the terminal's default colours `fg` and
`bg` (terminal.c 460-472); `none` when the parameter is not handled. -/
def sgr_colors (n fg bg : Nat) : Option (Nat × Nat) :=
  if n = 0 then some (fg, bg)
  else if 30 ≤ n ∧ n ≤ 37 then some (n - 30, bg)
  else if 40 ≤ n ∧ n ≤ 47 then some (fg, n - 40)
  else none

/-- A system like `console_state` with the console in Raw mode: tty0 Ready and in the
foreground with configuration `cfg`, empty buffers, a blank display with the cursor at the
origin. -/
def raw_console_state (cfg : tty_config_t) : kernel_state :=
  { tty_manager :=
      { ttys := fun j =>
          if j = 0 then { console_tty cfg 0 0 0 with mode := tty_mode_t.TTY_MODE_RAW }
          else closed_tty
        current_tty := 0, tty_count := 1, initialized := 1 }
    vga_state := vga_blank_at 0 0
    display_trace := [] }

/-- A system like `console_state` whose console holds the bytes `l` (at most 4096 of them)
unread in its input ring. -/
def console_with_input (l : List Nat) : kernel_state :=
  { tty_manager :=
      { ttys := fun j =>
          if j = 0 then
            { console_tty default_tty_config 0 0 0 with
              line := { empty_line with
                input_buffer := bytes l
                input_tail := l.length % 4096
                input_count := l.length } }
          else closed_tty
        current_tty := 0, tty_count := 1, initialized := 1 }
    vga_state := vga_blank_at 0 0
    display_trace := [] }

/-- The keypad scancodes that Num Lock overrides (keyboard.c 215-225). -/
def keypad_scancodes : List Nat :=
  [0x47, 0x48, 0x49, 0x4B, 0x4C, 0x4D, 0x4F, 0x50, 0x51, 0x52, 0x53]

/-! ## Scancode processing (`src/drivers/tty/keyboard.c`) -/

/-- Constants `KEYBOARD_LED_SCROLL_LOCK`, `KEYBOARD_LED_NUM_LOCK`, `KEYBOARD_LED_CAPS_LOCK`
(keyboard.h 40-42). -/
def KEYBOARD_LED_SCROLL_LOCK : Nat := 0x01

/-- See `KEYBOARD_LED_SCROLL_LOCK`. -/
def KEYBOARD_LED_NUM_LOCK : Nat := 0x02

/-- See `KEYBOARD_LED_SCROLL_LOCK`. -/
def KEYBOARD_LED_CAPS_LOCK : Nat := 0x04

/-- The static variables of keyboard.c that the scancode path works on: `keyboard_buffer`,
`keyboard_modifiers` and `keyboard_leds` (a `uint8_t`). The handler pointer `user_handler`
is an argument of `process_scancode`. -/
structure keyboard_state where
  keyboard_buffer : keyboard_buffer_t
  keyboard_modifiers : modifier_keys_t
  keyboard_leds : Nat

/-- Function `keyboard_set_leds` (keyboard.c 273-291): the LED byte is recorded. The
dialogue with the controller that follows (two waits bounded by 100000 polls each and two
port writes) changes no variable of the driver and is not modelled. -/
def keyboard_set_leds (leds : Nat) (ks : keyboard_state) : keyboard_state :=
  { ks with keyboard_leds := leds % 256 }

/-- Function `update_modifiers` (keyboard.c 150-186). -/
def update_modifiers (scancode : Nat) (state : key_state_t) (ks : keyboard_state) :
    keyboard_state :=
  let pressed : Bool := decide (state = key_state_t.KEY_PRESSED)
  if scancode = 0x2A then
    { ks with keyboard_modifiers := { ks.keyboard_modifiers with left_shift := pressed } }
  else if scancode = 0x36 then
    { ks with keyboard_modifiers := { ks.keyboard_modifiers with right_shift := pressed } }
  else if scancode = 0x1D then
    { ks with keyboard_modifiers := { ks.keyboard_modifiers with left_ctrl := pressed } }
  else if scancode = 0x38 then
    { ks with keyboard_modifiers := { ks.keyboard_modifiers with left_alt := pressed } }
  else if scancode = 0x3A then
    if state = key_state_t.KEY_PRESSED then
      let ks := { ks with keyboard_modifiers :=
        { ks.keyboard_modifiers with caps_lock := !ks.keyboard_modifiers.caps_lock } }
      let ks := { ks with keyboard_leds := ks.keyboard_leds ^^^ KEYBOARD_LED_CAPS_LOCK }
      keyboard_set_leds ks.keyboard_leds ks
    else ks
  else if scancode = 0x45 then
    if state = key_state_t.KEY_PRESSED then
      let ks := { ks with keyboard_modifiers :=
        { ks.keyboard_modifiers with num_lock := !ks.keyboard_modifiers.num_lock } }
      let ks := { ks with keyboard_leds := ks.keyboard_leds ^^^ KEYBOARD_LED_NUM_LOCK }
      keyboard_set_leds ks.keyboard_leds ks
    else ks
  else if scancode = 0x46 then
    if state = key_state_t.KEY_PRESSED then
      let ks := { ks with keyboard_modifiers :=
        { ks.keyboard_modifiers with scroll_lock := !ks.keyboard_modifiers.scroll_lock } }
      let ks := { ks with keyboard_leds := ks.keyboard_leds ^^^ KEYBOARD_LED_SCROLL_LOCK }
      keyboard_set_leds ks.keyboard_leds ks
    else ks
  else ks

/-- Function `process_scancode` (keyboard.c 117-145); the argument is a `uint8_t`. The
handler `user_handler` (`none` when null) works on a state `env` of its own and may fail to
return (`none`). The result is the event built, the keyboard state and the handler's state
afterwards. -/
def process_scancode {κ : Type} (user_handler : Option (keyboard_event_t → κ → Option κ))
    (scancode : Nat) (ks : keyboard_state) (env : κ) :
    Option (keyboard_event_t × keyboard_state × κ) :=
  let event : keyboard_event_t :=
    { scancode := 0, ascii := 0, state := key_state_t.KEY_RELEASED, modifiers := {} }
  let event : keyboard_event_t :=
    if scancode &&& 0x80 ≠ 0 then { event with state := key_state_t.KEY_RELEASED }
    else { event with state := key_state_t.KEY_PRESSED }
  let scancode := if scancode &&& 0x80 ≠ 0 then scancode &&& 0x7F else scancode
  let event := { event with scancode := scancode, modifiers := ks.keyboard_modifiers }
  let ks := update_modifiers scancode event.state ks
  let event := { event with ascii := scancode_to_ascii scancode ks.keyboard_modifiers }
  let handled : Option κ :=
    match user_handler with
    | none => some env
    | some f => f event env
  handled.map (fun env =>
    (event, { ks with keyboard_buffer := buffer_push_event event ks.keyboard_buffer }, env))

/-- Function `tty_keyboard_handler` (tty.c 363-368), the handler `tty_init` installs. -/
def tty_keyboard_handler (fuel : Nat) (event : keyboard_event_t) (k : kernel_state) :
    Option kernel_state :=
  let current_tty := tty_get_current k
  if event.state = key_state_t.KEY_PRESSED ∧ event.ascii ≠ 0 then
    (tty_input_char fuel current_tty event.ascii k).map (fun r => r.2)
  else some k

/-- The scancodes `update_modifiers` reacts to. -/
def modifier_scancodes : List Nat := [0x2A, 0x36, 0x1D, 0x38, 0x3A, 0x45, 0x46]

/-- The call `if (user_handler) user_handler(&event)` of `process_scancode`: the handler's
state afterwards, `none` when the handler does not return. -/
def run_handler {κ : Type} (user_handler : Option (keyboard_event_t → κ → Option κ))
    (event : keyboard_event_t) (env : κ) : Option κ :=
  match user_handler with
  | none => some env
  | some f => f event env

/-- The cursor is on the 80x25 grid. -/
def cursor_in_grid (s : vga_state_t) : Prop := s.cursor.x < 80 ∧ s.cursor.y < 25

instance (s : vga_state_t) : Decidable (cursor_in_grid s) := by
  unfold cursor_in_grid; infer_instance

/-- The display operations of vga.c that move the cursor or the grid: one constructor per
function, with the function's arguments. -/
inductive vga_op where
  | put_char (ch : Nat)
  | set_cursor (x y : Nat)
  | clear
  | scroll_line
  | scroll_lines (lines : Nat)
  | backspace
  | new_line

/-- One display operation; `none` when `vga_put_char` runs out of fuel. -/
def vga_apply (fuel : Nat) (op : vga_op) (s : vga_state_t) : Option vga_state_t :=
  match op with
  | vga_op.put_char ch => vga_put_char fuel ch s
  | vga_op.set_cursor x y => some (vga_set_cursor x y s)
  | vga_op.clear => some (vga_clear s)
  | vga_op.scroll_line => some (vga_scroll_line s)
  | vga_op.scroll_lines lines => some (vga_scroll_lines lines s)
  | vga_op.backspace => some (vga_backspace s)
  | vga_op.new_line => some (vga_new_line s)

/-- A run of display operations in list order. -/
def vga_run (fuel : Nat) : List vga_op → vga_state_t → Option vga_state_t
  | [], s => some s
  | op :: rest, s => (vga_apply fuel op s).bind (vga_run fuel rest)

/-- Function `vga_copy_region` (vga.c 334-349). The arguments are `uint8_t` values; the
sums of the bounds check are computed in `int` and do not wrap. The loops run over the rows
and, within a row, over the columns, each in increasing order. -/
def vga_copy_region (src_x src_y dst_x dst_y width height : Nat) (s : vga_state_t) :
    vga_state_t :=
  if src_x + width > VGA_WIDTH ∨ src_y + height > VGA_HEIGHT ∨
      dst_x + width > VGA_WIDTH ∨ dst_y + height > VGA_HEIGHT then s
  else
    { s with
      buffer := (List.range height).foldl
        (fun b y => (List.range width).foldl
          (fun b x =>
            let src_index := (src_y + y) * VGA_WIDTH + (src_x + x)
            let dst_index := (dst_y + y) * VGA_WIDTH + (dst_x + x)
            Function.update b dst_index (b src_index)) b)
        s.buffer }

/-- Function `vga_fill_region` (vga.c 354-366). -/
def vga_fill_region (x y width height ch color : Nat) (s : vga_state_t) : vga_state_t :=
  if x + width > VGA_WIDTH ∨ y + height > VGA_HEIGHT then s
  else
    (List.range height).foldl
      (fun s dy => (List.range width).foldl
        (fun s dx => vga_put_char_at (x + dx) (y + dy) ch color s) s)
      s

/-- A run of cell copies, one per (destination index, source index) pair, in list
order. -/
def copy_cells (pairs : List (Nat × Nat)) (b : Nat → vga_cell_t) : Nat → vga_cell_t :=
  pairs.foldl (fun b p => Function.update b p.1 (b p.2)) b

/-- The (destination index, source index) pairs of `vga_copy_region` in the order of its
loops. -/
def region_pairs (src_x src_y dst_x dst_y width height : Nat) : List (Nat × Nat) :=
  (List.range height).flatMap (fun y => (List.range width).map
    (fun x => ((dst_y + y) * 80 + (dst_x + x), (src_y + y) * 80 + (src_x + x))))

/-- The blank display with the letters A, B, C in the first three cells of row 0. -/
def abc_display : vga_state_t :=
  { vga_blank_at 3 0 with
    buffer := fun j =>
      if j = 0 then { character := 65, color := 7 }
      else if j = 1 then { character := 66, color := 7 }
      else if j = 2 then { character := 67, color := 7 }
      else { character := 32, color := 7 } }

/-- What output leaves as it is, on every device: the line discipline, the state, the mode,
the configuration, the minor number and the input counters; and the foreground device. -/
def line_frame (k k2 : kernel_state) : Prop :=
  (∀ j, (k2.tty j).line = (k.tty j).line ∧ (k2.tty j).state = (k.tty j).state ∧
    (k2.tty j).mode = (k.tty j).mode ∧ (k2.tty j).config = (k.tty j).config ∧
    (k2.tty j).minor = (k.tty j).minor ∧
    (k2.tty j).characters_processed = (k.tty j).characters_processed ∧
    (k2.tty j).lines_processed = (k.tty j).lines_processed) ∧
  k2.tty_manager.current_tty = k.tty_manager.current_tty

/-- Modelled from the spec: `tty_set_mode` is declared in tty.h (line 204) and defined in no
source file. The spec lists "get/set terminal mode" among the operations by device minor:
the mode of the device is set, and -1 is returned when there is no such open device (the
shape of `tty_set_color`). -/
def tty_set_mode (minor : Int) (mode : tty_mode_t) (k : kernel_state) : Int × kernel_state :=
  match tty_get_device minor k with
  | none => (-1, k)
  | some i => (0, k.set_tty i { k.tty i with mode := mode })

/-- The invariant of a line discipline: the input ring is well formed, the line position is
the line count, and the line count is at most 1023. -/
def line_inv (l : tty_line_discipline_t) : Prop :=
  ring_inv l ∧ l.line_pos = l.line_count ∧ l.line_count ≤ 1023

/-- The line discipline of a freshly opened device: `tty_open` has zeroed it. -/
def fresh_line (l : tty_line_discipline_t) : Prop :=
  l.input_head = 0 ∧ l.input_tail = 0 ∧ l.input_count = 0 ∧ l.line_pos = 0 ∧ l.line_count = 0

/-- The operations on the input side of a device: a character arriving, a read of up to
`size` bytes, a flush of the input, a close, and a change of mode. -/
inductive tty_op where
  | input (ch : Nat)
  | read (size : Nat)
  | flush
  | close
  | set_mode (mode : tty_mode_t)

/-- One operation on the device with minor number `i`; `none` when the echo of an input
character does not return within the fuel. -/
def tty_apply (fuel i : Nat) (op : tty_op) (k : kernel_state) : Option kernel_state :=
  match op with
  | tty_op.input ch => (tty_input_char fuel (i : Int) ch k).map (fun r => r.2)
  | tty_op.read size => some (tty_read (i : Int) (some (fun _ => 0)) size k).2.2
  | tty_op.flush => some (tty_flush_input (i : Int) k).2
  | tty_op.close => some (tty_close (i : Int) k).2
  | tty_op.set_mode mode => some (tty_set_mode (i : Int) mode k).2

/-- A run of operations on the device with minor number `i`, in list order. -/
def tty_run (fuel i : Nat) : List tty_op → kernel_state → Option kernel_state
  | [], k => some k
  | op :: rest, k => (tty_apply fuel i op k).bind (tty_run fuel i rest)

/-- The operations on the key event queue: a push, a pop and a flush. -/
inductive kb_op where
  | push (event : keyboard_event_t)
  | pop
  | flush

/-- One operation on the key event queue. -/
def kb_apply (op : kb_op) (kb : keyboard_buffer_t) : keyboard_buffer_t :=
  match op with
  | kb_op.push event => buffer_push_event event kb
  | kb_op.pop => (buffer_pop_event {} kb).2.2
  | kb_op.flush => keyboard_flush kb

/-- A run of operations on the key event queue, in list order. -/
def kb_run (ops : List kb_op) (kb : keyboard_buffer_t) : keyboard_buffer_t :=
  ops.foldl (fun q op => kb_apply op q) kb

/-- The bytes the output translation of a Cooked device with CR-LF translation adds while
`tty_write` processes the byte `c`: one carriage return before a line feed. -/
def translated_extra (t : tty_device_t) (c : Nat) : Nat :=
  if c = 10 ∧ t.mode = tty_mode_t.TTY_MODE_COOKED ∧ t.config.crlf ≠ 0 then 1 else 0

/-- The keyboard controller as the driver sees it through its two ports. What a read
returns is decided by the hardware: `status n` is the value of the `n`-th read of the status
port 0x64 and `data n` that of the `n`-th read of the data port 0x60; `status_reads` and
`data_reads` count the reads made so far. `commands` and `data_written` record, latest
last, the bytes written to the command port and to the data port. -/
structure keyboard_port where
  status : Nat → Nat
  data : Nat → Nat
  status_reads : Nat
  data_reads : Nat
  commands : List Nat
  data_written : List Nat

/-- Constants `KEYBOARD_STATUS_OUT_BUF_FULL` and `KEYBOARD_STATUS_IN_BUF_FULL`
(keyboard.h 19-20). -/
def KEYBOARD_STATUS_OUT_BUF_FULL : Nat := 0x01

/-- See `KEYBOARD_STATUS_OUT_BUF_FULL`. -/
def KEYBOARD_STATUS_IN_BUF_FULL : Nat := 0x02

/-- Constants `KEYBOARD_CMD_SET_RATE` and `KEYBOARD_CMD_RESET` (keyboard.h 33, 37). -/
def KEYBOARD_CMD_SET_RATE : Nat := 0xF3

/-- See `KEYBOARD_CMD_SET_RATE`. -/
def KEYBOARD_CMD_RESET : Nat := 0xFF

/-- Function `keyboard_is_output_buffer_full` (keyboard.h 213-215): one read of the status
port. -/
def keyboard_is_output_buffer_full (p : keyboard_port) : Nat × keyboard_port :=
  (p.status p.status_reads &&& KEYBOARD_STATUS_OUT_BUF_FULL,
    { p with status_reads := p.status_reads + 1 })

/-- Function `keyboard_is_input_buffer_full` (keyboard.h 217-219): one read of the status
port. -/
def keyboard_is_input_buffer_full (p : keyboard_port) : Nat × keyboard_port :=
  (p.status p.status_reads &&& KEYBOARD_STATUS_IN_BUF_FULL,
    { p with status_reads := p.status_reads + 1 })

/-- Function `keyboard_read_data` (keyboard.h 221-223). -/
def keyboard_read_data (p : keyboard_port) : Nat × keyboard_port :=
  (p.data p.data_reads % 256, { p with data_reads := p.data_reads + 1 })

/-- Function `keyboard_write_data` (keyboard.h 225-227). -/
def keyboard_write_data (data : Nat) (p : keyboard_port) : keyboard_port :=
  { p with data_written := p.data_written ++ [data % 256] }

/-- Function `keyboard_write_command` (keyboard.h 229-231). -/
def keyboard_write_command (command : Nat) (p : keyboard_port) : keyboard_port :=
  { p with commands := p.commands ++ [command % 256] }

/-- The loop of `wait_for_keyboard_ready` (keyboard.c 429-433), `n` iterations left: the
value returned when the loop returns (`none` when it runs out) and the port afterwards. -/
def wait_ready_loop : Nat → keyboard_port → Option Int × keyboard_port
  | 0, p => (none, p)
  | n + 1, p =>
    let r := keyboard_is_input_buffer_full p
    if r.1 = 0 then (some 0, r.2) else wait_ready_loop n r.2

/-- Function `wait_for_keyboard_ready` (keyboard.c 428-435). -/
def wait_for_keyboard_ready (p : keyboard_port) : Int × keyboard_port :=
  let r := wait_ready_loop 100000 p
  match r.1 with
  | some v => (v, r.2)
  | none => (-1, r.2)

/-- The loop of `keyboard_reset` (keyboard.c 359-368), `n` iterations left. -/
def reset_response_loop : Nat → keyboard_port → Option Int × keyboard_port
  | 0, p => (none, p)
  | n + 1, p =>
    let f := keyboard_is_output_buffer_full p
    if f.1 ≠ 0 then
      let d := keyboard_read_data f.2
      if d.1 = 0xAA then (some 0, d.2)
      else if d.1 = 0xFC then (some (-1), d.2)
      else reset_response_loop n d.2
    else reset_response_loop n f.2

/-- Function `keyboard_reset` (keyboard.c 351-371). -/
def keyboard_reset (p : keyboard_port) : Int × keyboard_port :=
  let w := wait_for_keyboard_ready p
  if w.1 ≠ 0 then (-1, w.2)
  else
    let p := keyboard_write_command KEYBOARD_CMD_RESET w.2
    let r := reset_response_loop 1000 p
    match r.1 with
    | some v => (v, r.2)
    | none => (-1, r.2)

/-- Function `keyboard_set_repeat_rate` (keyboard.c 303-326); the arguments are
`uint8_t`. -/
def keyboard_set_repeat_rate (delay rate : Nat) (p : keyboard_port) : Int × keyboard_port :=
  if delay > 3 ∨ rate > 31 then (-1, p)
  else
    let w := wait_for_keyboard_ready p
    if w.1 ≠ 0 then (-1, w.2)
    else
      let p := keyboard_write_command KEYBOARD_CMD_SET_RATE w.2
      let w := wait_for_keyboard_ready p
      if w.1 ≠ 0 then (-1, w.2)
      else
        let param := ((delay <<< 5) ||| rate) % 256
        (0, keyboard_write_data param w.2)

/-- A controller that reports the same status on every read and answers every data read
with the same byte. -/
def constant_port (status data : Nat) : keyboard_port :=
  { status := fun _ => status, data := fun _ => data, status_reads := 0, data_reads := 0
    commands := [], data_written := [] }

/-! ## Properties -/

theorem take_last_append_take_last {α : Type} (n : Nat) (a b : List α) :
    take_last n (take_last n a ++ b) = take_last n (a ++ b) := by
  unfold take_last
  have h1 : (a ++ b).drop (a.length - n) = a.drop (a.length - n) ++ b :=
    List.drop_append_of_le_length (by omega)
  rw [← h1, List.drop_drop]
  congr 1
  simp only [List.length_drop, List.length_append]
  omega

theorem kb_contents_length (kb : keyboard_buffer_t) : (kb_contents kb).length = kb.count := by
  simp [kb_contents]

theorem kb_contents_getElem (kb : keyboard_buffer_t) (i : Nat) (h : i < (kb_contents kb).length) :
    (kb_contents kb)[i] = kb.buffer ((kb.head + i) % 256) := by
  simp [kb_contents, KEYBOARD_BUFFER_SIZE]

theorem push_inv (e : keyboard_event_t) (kb : keyboard_buffer_t) (h : kb_inv kb) :
    kb_inv (buffer_push_event e kb) := by
  obtain ⟨h1, h2, h3⟩ := h
  unfold buffer_push_event kb_inv KEYBOARD_BUFFER_SIZE
  by_cases hc : kb.count ≥ 256
  · simp only [hc, if_true]
    refine ⟨Nat.mod_lt _ (by norm_num), by omega, ?_⟩
    omega
  · simp only [hc, if_false]
    refine ⟨h1, by omega, ?_⟩
    omega

theorem push_contents (e : keyboard_event_t) (kb : keyboard_buffer_t) (h : kb_inv kb) :
    kb_contents (buffer_push_event e kb) = take_last 256 (kb_contents kb ++ [e]) := by
  obtain ⟨h1, h2, h3⟩ := h
  apply List.ext_getElem
  · rw [kb_contents_length]
    simp only [take_last, List.length_drop, List.length_append, kb_contents_length,
      List.length_singleton, buffer_push_event, KEYBOARD_BUFFER_SIZE]
    by_cases hc : kb.count ≥ 256
    · simp only [hc, if_true]; omega
    · simp only [hc, if_false]; omega
  · intro i hi1 hi2
    rw [kb_contents_getElem]
    simp only [kb_contents_length, take_last, List.length_drop, List.length_append,
      List.length_singleton] at hi2
    simp only [take_last, List.getElem_drop, kb_contents_length, List.length_append,
      List.length_singleton]
    by_cases hc : kb.count ≥ 256
    · have hc' : kb.count = 256 := by omega
      simp only [buffer_push_event, KEYBOARD_BUFFER_SIZE, hc, if_true]
      by_cases hi : i < 255
      · rw [List.getElem_append_left (by rw [kb_contents_length]; omega), kb_contents_getElem,
          Function.update_noteq (by omega)]
        congr 1; omega
      · rw [List.getElem_append_right (by rw [kb_contents_length]; omega)]
        simp only [List.getElem_singleton]
        have : ((kb.head + 1) % 256 + i) % 256 = kb.tail := by omega
        rw [this, Function.update_same]
    · simp only [buffer_push_event, KEYBOARD_BUFFER_SIZE, hc, if_false]
      by_cases hi : i < kb.count
      · rw [List.getElem_append_left (by rw [kb_contents_length]; omega), kb_contents_getElem,
          Function.update_noteq (by omega)]
        congr 1; omega
      · rw [List.getElem_append_right (by rw [kb_contents_length]; omega)]
        simp only [List.getElem_singleton]
        have : (kb.head + i) % 256 = kb.tail := by omega
        rw [this, Function.update_same]

theorem push_events_spec (events : List keyboard_event_t) :
    ∀ kb : keyboard_buffer_t, kb_inv kb →
      kb_inv (push_events events kb) ∧
      kb_contents (push_events events kb) = take_last 256 (kb_contents kb ++ events) := by
  induction events with
  | nil =>
    intro kb h
    refine ⟨h, ?_⟩
    simp only [push_events, List.foldl_nil, List.append_nil, take_last]
    rw [kb_contents_length, Nat.sub_eq_zero_of_le h.2.1, List.drop_zero]
  | cons e es ih =>
    intro kb h
    have h' := push_inv e kb h
    obtain ⟨i1, i2⟩ := ih (buffer_push_event e kb) h'
    refine ⟨i1, ?_⟩
    have : push_events (e :: es) kb = push_events es (buffer_push_event e kb) := rfl
    rw [this, i2, push_contents e kb h, take_last_append_take_last]
    simp

theorem read_events_spec : ∀ (n : Nat) (kb : keyboard_buffer_t) (ev : keyboard_event_t),
    kb_inv kb → kb.count = n →
    read_events n ev kb =
      ((kb_contents kb).map (fun e => ((0 : Int), some e)),
        { kb with head := (kb.head + n) % 256, count := 0 }) := by
  intro n
  induction n with
  | zero =>
    intro kb ev h hc
    obtain ⟨h1, h2, h3⟩ := h
    simp only [read_events, kb_contents, hc, List.range_zero, List.map_nil, Nat.add_zero,
      Nat.mod_eq_of_lt h1]
    rw [← hc]
  | succ n ih =>
    intro kb ev h hc
    obtain ⟨h1, h2, h3⟩ := h
    have hne : kb.count ≠ 0 := by omega
    have hinv : kb_inv { kb with head := (kb.head + 1) % 256, count := kb.count - 1 } := by
      refine ⟨Nat.mod_lt _ (by norm_num), ?_, ?_⟩
      · show kb.count - 1 ≤ 256
        omega
      · show kb.tail = ((kb.head + 1) % 256 + (kb.count - 1)) % 256
        omega
    have hstep := ih { kb with head := (kb.head + 1) % 256, count := kb.count - 1 }
      (kb.buffer kb.head) hinv (by show kb.count - 1 = n; omega)
    simp only [read_events, keyboard_read_event, buffer_pop_event, hne, if_false,
      KEYBOARD_BUFFER_SIZE, Option.getD_some]
    rw [hstep]
    have hcont : kb_contents kb = kb.buffer kb.head ::
        kb_contents { kb with head := (kb.head + 1) % 256, count := kb.count - 1 } := by
      apply List.ext_getElem
      · simp [kb_contents_length]; omega
      · intro i hi1 hi2
        rw [kb_contents_getElem]
        cases i with
        | zero => simp [Nat.mod_eq_of_lt h1]
        | succ j =>
          simp only [List.getElem_cons_succ]
          rw [kb_contents_getElem]
          show kb.buffer ((kb.head + (j + 1)) % 256) = kb.buffer (((kb.head + 1) % 256 + j) % 256)
          congr 1; omega
    rw [hcont]
    simp only [List.map_cons, Prod.mk.injEq, true_and]
    congr 1
    omega

theorem kb_empty_inv (kb : keyboard_buffer_t) (h : kb_empty kb) :
    kb_inv kb ∧ kb_contents kb = [] := by
  obtain ⟨h1, h2, h3⟩ := h
  unfold KEYBOARD_BUFFER_SIZE at h3
  refine ⟨⟨h3, by omega, ?_⟩, ?_⟩
  · rw [h1, h2]; omega
  · simp [kb_contents, h1]

/-- C1: pushing n ≤ 256 events onto an empty key event queue and then reading n times
returns code 0 and the events in push order; the following read returns -1 (empty) and
leaves the queue as it was. -/
theorem C1_key_queue_fifo (events : List keyboard_event_t) (kb : keyboard_buffer_t)
    (ev : keyboard_event_t) (hn : events.length ≤ 256) (hempty : kb_empty kb) :
    (read_events events.length ev (push_events events kb)).1
        = events.map (fun e => ((0 : Int), some e)) ∧
    ∀ ev2 : keyboard_event_t,
      keyboard_read_event (some ev2) (read_events events.length ev (push_events events kb)).2
        = (-1, some ev2, (read_events events.length ev (push_events events kb)).2) := by
  obtain ⟨hinv, hc⟩ := kb_empty_inv kb hempty
  obtain ⟨i1, i2⟩ := push_events_spec events kb hinv
  have hcont : kb_contents (push_events events kb) = events := by
    rw [i2, hc, List.nil_append, take_last, Nat.sub_eq_zero_of_le hn, List.drop_zero]
  have hcount : (push_events events kb).count = events.length := by
    rw [← kb_contents_length, hcont]
  rw [read_events_spec events.length (push_events events kb) ev i1 hcount, hcont]
  refine ⟨rfl, ?_⟩
  intro ev2
  simp [keyboard_read_event, buffer_pop_event]

/-- C1 on two events pushed onto an empty queue whose indices stand at 5. -/
theorem C1_key_queue_fifo_witness :
    (read_events 2 {} (push_events [{ scancode := 30, ascii := 97 }, { scancode := 31, ascii := 115 }]
        { buffer := fun _ => {}, head := 5, tail := 5, count := 0 })).1
      = [((0 : Int), some { scancode := 30, ascii := 97 }),
         ((0 : Int), some { scancode := 31, ascii := 115 })] :=
  (C1_key_queue_fifo [{ scancode := 30, ascii := 97 }, { scancode := 31, ascii := 115 }]
    { buffer := fun _ => {}, head := 5, tail := 5, count := 0 } {}
    (by decide) ⟨rfl, rfl, by decide⟩).1

/-- C2: after more than 256 pushes onto an empty key event queue the queue holds exactly
256 events, and reading 256 times returns the last 256 events pushed, in push order (the
oldest events were discarded, the newest never); the following read reports empty. -/
theorem C2_key_queue_drop_oldest (events : List keyboard_event_t) (kb : keyboard_buffer_t)
    (ev : keyboard_event_t) (hn : events.length > 256) (hempty : kb_empty kb) :
    (push_events events kb).count = 256 ∧
    (read_events 256 ev (push_events events kb)).1
        = (events.drop (events.length - 256)).map (fun e => ((0 : Int), some e)) ∧
    ∀ ev2 : keyboard_event_t,
      keyboard_read_event (some ev2) (read_events 256 ev (push_events events kb)).2
        = (-1, some ev2, (read_events 256 ev (push_events events kb)).2) := by
  obtain ⟨hinv, hc⟩ := kb_empty_inv kb hempty
  obtain ⟨i1, i2⟩ := push_events_spec events kb hinv
  have hcont : kb_contents (push_events events kb) = events.drop (events.length - 256) := by
    rw [i2, hc, List.nil_append, take_last]
  have hcount : (push_events events kb).count = 256 := by
    rw [← kb_contents_length, hcont, List.length_drop]; omega
  rw [read_events_spec 256 (push_events events kb) ev i1 hcount, hcont]
  refine ⟨hcount, by dsimp only, ?_⟩
  intro ev2
  simp only [keyboard_read_event, buffer_pop_event, if_true]

/-- C2 on 300 events pushed onto an empty queue. -/
theorem C2_key_queue_drop_oldest_witness :
    (push_events ((List.range 300).map (fun i => ({ scancode := i % 128 } : keyboard_event_t)))
      { buffer := fun _ => {}, head := 0, tail := 0, count := 0 }).count = 256 :=
  (C2_key_queue_drop_oldest ((List.range 300).map (fun i => ({ scancode := i % 128 } : keyboard_event_t)))
    { buffer := fun _ => {}, head := 0, tail := 0, count := 0 } {}
    (by simp only [List.length_map, List.length_range]; decide) ⟨rfl, rfl, by decide⟩).1

/-- C3: with num-lock off, a scancode below 128 translates to the entry of the table the
shift flags select, case-swapped exactly when caps-lock is on and the entry is a letter;
scancode 0x1E gives a, A (shift), A (caps-lock), a (shift and caps-lock). -/
theorem C3_scancode_translation (scancode : Nat) (m : modifier_keys_t)
    (hsc : scancode < 128) (hnum : m.num_lock = false) :
    scancode_to_ascii scancode m
        = (if m.caps_lock = true ∧ is_letter (table_entry scancode m)
            then swap_case (table_entry scancode m) else table_entry scancode m) ∧
    (m.caps_lock = false → scancode_to_ascii scancode m = table_entry scancode m) ∧
    (¬ is_letter (table_entry scancode m) → scancode_to_ascii scancode m = table_entry scancode m) ∧
    scancode_to_ascii 0x1E {} = 97 ∧
    scancode_to_ascii 0x1E { left_shift := true } = 65 ∧
    scancode_to_ascii 0x1E { right_shift := true } = 65 ∧
    scancode_to_ascii 0x1E { caps_lock := true } = 65 ∧
    scancode_to_ascii 0x1E { left_shift := true, caps_lock := true } = 97 ∧
    scancode_to_ascii 0x1E { right_shift := true, caps_lock := true } = 97 := by
  have hmain : scancode_to_ascii scancode m
        = (if m.caps_lock = true ∧ is_letter (table_entry scancode m)
            then swap_case (table_entry scancode m) else table_entry scancode m) := by
    have hge : ¬ scancode ≥ 128 := by omega
    unfold scancode_to_ascii
    simp only [hge, if_false, hnum, Bool.false_eq_true, Bool.or_eq_true]
    change (if m.caps_lock = true ∧ table_entry scancode m ≥ 97 ∧ table_entry scancode m ≤ 122
        then table_entry scancode m - 97 + 65
        else if m.caps_lock = true ∧ table_entry scancode m ≥ 65 ∧ table_entry scancode m ≤ 90
          then table_entry scancode m - 65 + 97 else table_entry scancode m) = _
    generalize table_entry scancode m = a
    unfold is_letter swap_case
    by_cases hc : m.caps_lock = true
    · simp only [hc, true_and]
      split_ifs <;> omega
    · simp [hc]
  refine ⟨hmain, ?_, ?_, by decide, by decide, by decide, by decide, by decide, by decide⟩
  · intro hc
    rw [hmain]
    simp [hc]
  · intro hl
    rw [hmain]
    simp [hl]

/-- C3 on scancode 0x10 (the q key) with right shift and caps-lock: lower-case q. -/
theorem C3_scancode_translation_witness :
    scancode_to_ascii 0x10 { right_shift := true, caps_lock := true } = 113 := by
  have h := (C3_scancode_translation 0x10 { right_shift := true, caps_lock := true }
    (by decide) rfl).1
  rw [h]
  decide

theorem foldl_update_shift {α : Type} (d : Nat) (hd : 0 < d) (b0 : Nat → α) (n j : Nat) :
    ((List.range n).foldl (fun b i => Function.update b i (b (i + d))) b0) j
      = if j < n then b0 (j + d) else b0 j := by
  induction n generalizing j with
  | zero => simp
  | succ n ih =>
    rw [List.range_succ, List.foldl_append, List.foldl_cons, List.foldl_nil]
    by_cases hj : j = n
    · subst hj
      rw [Function.update_same, ih]
      have h1 : ¬ (j + d < j) := by omega
      simp [h1]
    · rw [Function.update_noteq hj, ih]
      by_cases h2 : j < n
      · have h3 : j < n + 1 := by omega
        simp [h2, h3]
      · have h3 : ¬ j < n + 1 := by omega
        simp [h2, h3]

theorem foldl_update_const {α : Type} (start : Nat) (v : α) (b0 : Nat → α) (n j : Nat) :
    ((List.range n).foldl (fun b i => Function.update b (start + i) v) b0) j
      = if start ≤ j ∧ j < start + n then v else b0 j := by
  induction n generalizing j with
  | zero =>
    have : ¬ (start ≤ j ∧ j < start + 0) := by omega
    rw [if_neg this]
    rfl
  | succ n ih =>
    rw [List.range_succ, List.foldl_append, List.foldl_cons, List.foldl_nil]
    by_cases hj : j = start + n
    · subst hj
      rw [Function.update_same]
      have : start ≤ start + n ∧ start + n < start + (n + 1) := by omega
      simp [this]
    · rw [Function.update_noteq hj, ih]
      by_cases h2 : start ≤ j ∧ j < start + n
      · have h3 : start ≤ j ∧ j < start + (n + 1) := by omega
        simp [h2, h3]
      · have h3 : ¬ (start ≤ j ∧ j < start + (n + 1)) := by omega
        simp [h2, h3]

theorem vga_scroll_line_buffer (s : vga_state_t) (j : Nat) :
    (vga_scroll_line s).buffer j
      = if 1920 ≤ j ∧ j < 2000 then { character := 32, color := s.current_color }
        else if j < 1920 then s.buffer (j + 80) else s.buffer j := by
  unfold vga_scroll_line
  simp only [VGA_HEIGHT, VGA_WIDTH]
  have := foldl_update_const 1920 ({ character := 32, color := s.current_color } : vga_cell_t)
    ((List.range 1920).foldl (fun b i => Function.update b i (b (i + 80))) s.buffer) 80 j
  simp only [Nat.reduceSub, Nat.reduceMul, Nat.reduceAdd] at this ⊢
  rw [this, foldl_update_shift 80 (by norm_num)]

theorem vga_clear_buffer (s : vga_state_t) (j : Nat) :
    (vga_clear s).buffer j
      = if j < 2000 then { character := 32, color := s.current_color } else s.buffer j := by
  unfold vga_clear vga_set_cursor
  simp only [VGA_SIZE, VGA_HEIGHT, VGA_WIDTH, Nat.reduceMul]
  have := foldl_update_const 0 ({ character := 32, color := s.current_color } : vga_cell_t)
    s.buffer 2000 j
  simp only [Nat.zero_add, Nat.zero_le, true_and] at this
  exact this

theorem vga_put_char_printable (fuel ch : Nat) (s : vga_state_t) (hp : printable ch) :
    vga_put_char (fuel + 1) ch s = some (vga_put_printable ch s) := by
  obtain ⟨h1, h2⟩ := hp
  have e1 : ¬ ch = 10 := by omega
  have e2 : ¬ ch = 9 := by omega
  have e3 : ¬ ch = 8 := by omega
  have e4 : ¬ ch = 13 := by omega
  have e5 : ch ≥ 32 ∧ ch ≤ 126 := ⟨h1, h2⟩
  simp only [vga_put_char, vga_put_printable, e1, e2, e3, e4, e5, if_false, if_true, and_self]
  split_ifs <;> rfl

theorem vga_put_char_at_eq (x y ch color : Nat) (s : vga_state_t) :
    vga_put_char_at x y ch color s
      = { s with buffer := (vga_put_char_at x y ch color s).buffer } := by
  unfold vga_put_char_at
  split_ifs <;> rfl

theorem vga_put_printable_inrow (ch : Nat) (s : vga_state_t) (hx : s.cursor.x + 1 < 80) :
    vga_put_printable ch s =
      { s with
        buffer := (vga_put_char_at s.cursor.x s.cursor.y ch s.current_color s).buffer
        cursor := { x := s.cursor.x + 1, y := s.cursor.y }
        crtc_cursor := (s.cursor.y * 80 + (s.cursor.x + 1)) % 65536 } := by
  have e6 : (s.cursor.x + 1) % 256 = s.cursor.x + 1 := by omega
  have e7 : ¬ (s.cursor.x + 1 ≥ 80) := by omega
  unfold vga_put_printable
  rw [vga_put_char_at_eq]
  simp only [e6, VGA_WIDTH, e7, if_false, vga_show_cursor]

theorem vga_put_printable_wrap (ch : Nat) (s : vga_state_t) (hx : s.cursor.x = 79)
    (hy : s.cursor.y < 24) :
    vga_put_printable ch s =
      { s with
        buffer := (vga_put_char_at s.cursor.x s.cursor.y ch s.current_color s).buffer
        cursor := { x := 0, y := s.cursor.y + 1 }
        crtc_cursor := ((s.cursor.y + 1) * 80 + 0) % 65536 } := by
  have e6 : (s.cursor.y + 1) % 256 = s.cursor.y + 1 := by omega
  have e7 : ¬ (s.cursor.y + 1 ≥ 25) := by omega
  unfold vga_put_printable
  rw [vga_put_char_at_eq]
  simp only [hx, VGA_WIDTH, VGA_HEIGHT, vga_new_line, e6, e7, if_false,
    vga_show_cursor, Nat.reduceAdd, Nat.reduceMod, ge_iff_le, le_refl, if_true]

theorem vga_put_chars_inrow (fuel : Nat) (cs : List Nat) :
    ∀ s : vga_state_t, (∀ c ∈ cs, printable c) → s.cursor.x + cs.length < 80 →
    ∃ s2, vga_put_chars (fuel + 1) cs s = some s2 ∧
      s2.cursor = { x := s.cursor.x + cs.length, y := s.cursor.y } ∧
      s2.current_color = s.current_color := by
  induction cs with
  | nil => intro s _ _; exact ⟨s, rfl, rfl, rfl⟩
  | cons c cs ih =>
    intro s hp hx
    simp only [List.length_cons] at hx
    have h1 := vga_put_char_printable fuel c s (hp c (List.mem_cons_self _ _))
    have h2 := vga_put_printable_inrow c s (by omega)
    obtain ⟨s2, g1, g2, g3⟩ := ih (vga_put_printable c s)
      (fun c hc => hp c (List.mem_cons_of_mem _ hc)) (by rw [h2]; simp only; omega)
    refine ⟨s2, ?_, ?_, ?_⟩
    · simp only [vga_put_chars, h1, Option.some_bind]
      exact g1
    · rw [g2, h2]
      simp only [List.length_cons, vga_cursor_t.mk.injEq, and_true]
      omega
    · rw [g3, h2]

theorem vga_put_chars_append (fuel : Nat) (cs ds : List Nat) (s : vga_state_t) :
    vga_put_chars fuel (cs ++ ds) s = (vga_put_chars fuel cs s).bind (vga_put_chars fuel ds) := by
  induction cs generalizing s with
  | nil => rfl
  | cons c cs ih =>
    show (vga_put_char fuel c s).bind (vga_put_chars fuel (cs ++ ds)) = _
    simp only [vga_put_chars]
    cases h : vga_put_char fuel c s with
    | none => rfl
    | some s1 => simp only [Option.some_bind, ih]

/-- Writing a full row: 80 printable characters from column 0 of a row above the last put
the cursor at column 0 of the next row. -/
theorem vga_put_chars_full_row (fuel : Nat) (cs : List Nat) (s : vga_state_t)
    (hp : ∀ c ∈ cs, printable c) (hlen : cs.length = 80) (hx : s.cursor.x = 0)
    (hy : s.cursor.y < 24) :
    ∃ s2, vga_put_chars (fuel + 1) cs s = some s2 ∧
      s2.cursor = { x := 0, y := s.cursor.y + 1 } ∧ s2.current_color = s.current_color := by
  have hne : cs ≠ [] := by intro h; rw [h] at hlen; exact absurd hlen (by decide)
  obtain ⟨init, last, rfl⟩ : ∃ init last, cs = init ++ [last] :=
    ⟨cs.dropLast, cs.getLast hne, (List.dropLast_append_getLast hne).symm⟩
  have hl : init.length = 79 := by
    simp only [List.length_append, List.length_singleton] at hlen; omega
  obtain ⟨s1, h1, h2, h3⟩ := vga_put_chars_inrow fuel init s
    (fun c hc => hp c (List.mem_append_left _ hc)) (by omega)
  have g1 := vga_put_char_printable fuel last s1
    (hp _ (List.mem_append_right _ (List.mem_singleton_self _)))
  have g2 := vga_put_printable_wrap last s1
    (by rw [h2]; simp only; omega) (by rw [h2]; exact hy)
  refine ⟨vga_put_printable last s1, ?_, ?_, ?_⟩
  · rw [vga_put_chars_append, h1]
    simp only [Option.some_bind, vga_put_chars, g1]
  · rw [g2, h2]
  · rw [g2]; exact h3

/-- Writing 81 printable characters from column 0 of a row above the last: the first 80
fill the row and move the cursor to column 0 of the next row, the 81st is stored there
and leaves the cursor at column 1. -/
theorem vga_put_chars_row_plus_one (fuel : Nat) (s : vga_state_t) (cs : List Nat) (c81 : Nat)
    (hx : s.cursor.x = 0) (hy : s.cursor.y < 24) (hlen : cs.length = 80)
    (hp : ∀ c ∈ cs, printable c) (hp81 : printable c81) :
    (∃ s80, vga_put_chars (fuel + 1) cs s = some s80 ∧
      s80.cursor = { x := 0, y := s.cursor.y + 1 }) ∧
    (∃ s81, vga_put_chars (fuel + 1) (cs ++ [c81]) s = some s81 ∧
      s81.cursor = { x := 1, y := s.cursor.y + 1 } ∧
      s81.buffer ((s.cursor.y + 1) * 80) = { character := c81, color := s.current_color }) := by
  obtain ⟨s80, h1, h2, h3⟩ := vga_put_chars_full_row fuel cs s hp hlen hx hy
  refine ⟨⟨s80, h1, h2⟩, vga_put_printable c81 s80, ?_, ?_, ?_⟩
  · rw [vga_put_chars_append, h1]
    simp only [Option.some_bind, vga_put_chars, vga_put_char_printable fuel c81 s80 hp81]
  · rw [vga_put_printable_inrow c81 s80 (by rw [h2]; show 0 + 1 < 80; omega), h2]
  · rw [vga_put_printable_inrow c81 s80 (by rw [h2]; show 0 + 1 < 80; omega), h2, h3]
    have hy2 : ¬ (s.cursor.y + 1 ≥ 25) := by omega
    simp only [vga_put_char_at, VGA_WIDTH, VGA_HEIGHT, hy2, ge_iff_le, Nat.reduceLeDiff,
      or_self, if_false, Nat.add_zero, Function.update_same]

/-- C9 (as amended): from column 0 of a row r < 24, 80 printable characters written
through `vga_put_char` fill the row and wrap the cursor to row r+1, column 0; the 81st
character is stored at row r+1, column 0 and leaves the cursor at row r+1, column 1. -/
theorem C9_wrap_at_80_columns (fuel : Nat) (s : vga_state_t) (cs : List Nat) (c81 : Nat)
    (hx : s.cursor.x = 0) (hy : s.cursor.y < 24) (hlen : cs.length = 80)
    (hp : ∀ c ∈ cs, printable c) (hp81 : printable c81) :
    (∃ s80, vga_put_chars (fuel + 1) cs s = some s80 ∧
      s80.cursor = { x := 0, y := s.cursor.y + 1 }) ∧
    (∃ s81, vga_put_chars (fuel + 1) (cs ++ [c81]) s = some s81 ∧
      s81.cursor = { x := 1, y := s.cursor.y + 1 } ∧
      s81.buffer ((s.cursor.y + 1) * 80) = { character := c81, color := s.current_color }) :=
  vga_put_chars_row_plus_one fuel s cs c81 hx hy hlen hp hp81

theorem replicate_printable (n : Nat) : ∀ c ∈ List.replicate n 97, printable c := by
  intro c hc
  rw [List.eq_of_mem_replicate hc]
  decide

/-- C9 on 80 letters a and one letter b written from column 0 of row 3. -/
theorem C9_wrap_at_80_columns_witness :
    ∃ s81, vga_put_chars 1 (List.replicate 80 97 ++ [98]) (vga_blank_at 0 3) = some s81 ∧
      s81.cursor = { x := 1, y := 4 } ∧ s81.buffer 320 = { character := 98, color := 7 } :=
  (C9_wrap_at_80_columns 0 (vga_blank_at 0 3) (List.replicate 80 97) 98 rfl (by decide)
    (by simp) (replicate_printable 80) (by decide)).2

/-- C9 fails as stated: from row 0, column 0, 81 letters a leave the cursor at row 1,
column 1, not column 0. -/
theorem C9_counterexample :
    ∃ s81, vga_put_chars 1 (List.replicate 81 97) (vga_blank_at 0 0) = some s81 ∧
      s81.cursor = { x := 1, y := 1 } ∧ s81.cursor ≠ { x := 0, y := 1 } := by
  obtain ⟨s81, h1, h2, _⟩ := (vga_put_chars_row_plus_one 0 (vga_blank_at 0 0)
    (List.replicate 80 97) 97 rfl (by decide) (by simp) (replicate_printable 80) (by decide)).2
  refine ⟨s81, ?_, h2, ?_⟩
  · rw [← h1]; rfl
  · rw [h2]; decide

/-- C10: `vga_put_char` of a line feed, with the cursor on the last row and auto-scroll
enabled, moves every row up by one, blanks row 24 in the current colour and leaves the
cursor at row 24, column 0; with the cursor on a row r < 24 it changes no cell and moves
the cursor to row r+1, column 0. -/
theorem C10_newline_scrolls_on_last_row (fuel : Nat) (s : vga_state_t) :
    (s.cursor.y = 24 → s.auto_scroll ≠ 0 →
      ∃ s2, vga_put_char (fuel + 1) 10 s = some s2 ∧
        (∀ row col, row < 24 → col < 80 →
          s2.buffer (row * 80 + col) = s.buffer ((row + 1) * 80 + col)) ∧
        (∀ col, col < 80 →
          s2.buffer (24 * 80 + col) = { character := 32, color := s.current_color }) ∧
        s2.cursor = { x := 0, y := 24 }) ∧
    (s.cursor.y < 24 →
      ∃ s2, vga_put_char (fuel + 1) 10 s = some s2 ∧ s2.buffer = s.buffer ∧
        s2.cursor = { x := 0, y := s.cursor.y + 1 }) := by
  have hput : vga_put_char (fuel + 1) 10 s = some (vga_show_cursor (vga_new_line s)) := by
    simp only [vga_put_char, if_true, Option.map_some']
  constructor
  · intro hy ha
    refine ⟨vga_show_cursor (vga_new_line s), hput, ?_, ?_, ?_⟩
    · intro row col hr hc
      simp only [vga_show_cursor, vga_new_line, hy, VGA_HEIGHT, ha, Nat.reduceAdd, Nat.reduceMod,
        ge_iff_le, le_refl, if_true, ne_eq, not_false_eq_true]
      rw [vga_scroll_line_buffer]
      have h1 : ¬ (1920 ≤ row * 80 + col ∧ row * 80 + col < 2000) := by omega
      have h2 : row * 80 + col < 1920 := by omega
      rw [if_neg h1, if_pos h2]
      have h3 : row * 80 + col + 80 = (row + 1) * 80 + col := by ring
      rw [h3]
    · intro col hc
      simp only [vga_show_cursor, vga_new_line, hy, VGA_HEIGHT, ha, Nat.reduceAdd, Nat.reduceMod,
        ge_iff_le, le_refl, if_true, ne_eq, not_false_eq_true]
      rw [vga_scroll_line_buffer]
      have h1 : 1920 ≤ 24 * 80 + col ∧ 24 * 80 + col < 2000 := by omega
      rw [if_pos h1]
    · simp only [vga_show_cursor, vga_new_line, hy, VGA_HEIGHT, ha, Nat.reduceAdd, Nat.reduceMod,
        ge_iff_le, le_refl, if_true, ne_eq, not_false_eq_true]
      rfl
  · intro hy
    have e6 : (s.cursor.y + 1) % 256 = s.cursor.y + 1 := by omega
    have e7 : ¬ (s.cursor.y + 1 ≥ 25) := by omega
    refine ⟨vga_show_cursor (vga_new_line s), hput, ?_, ?_⟩
    · simp only [vga_show_cursor, vga_new_line, VGA_HEIGHT, e6, e7, if_false]
    · simp only [vga_show_cursor, vga_new_line, VGA_HEIGHT, e6, e7, if_false]

/-- C10 on a blank display with the cursor on row 24, and with the cursor on row 7. -/
theorem C10_newline_scrolls_on_last_row_witness :
    (∃ s2, vga_put_char 1 10 (vga_blank_at 5 24) = some s2 ∧
        (∀ row col, row < 24 → col < 80 →
          s2.buffer (row * 80 + col) = (vga_blank_at 5 24).buffer ((row + 1) * 80 + col)) ∧
        (∀ col, col < 80 → s2.buffer (24 * 80 + col) = { character := 32, color := 7 }) ∧
        s2.cursor = { x := 0, y := 24 }) ∧
    (∃ s2, vga_put_char 1 10 (vga_blank_at 5 7) = some s2 ∧
        s2.buffer = (vga_blank_at 5 7).buffer ∧ s2.cursor = { x := 0, y := 8 }) :=
  ⟨(C10_newline_scrolls_on_last_row 0 (vga_blank_at 5 24)).1 rfl (by decide),
   (C10_newline_scrolls_on_last_row 0 (vga_blank_at 5 7)).2 (by decide)⟩

@[simp]
theorem set_tty_tty_same (k : kernel_state) (i : Nat) (t : tty_device_t) :
    (k.set_tty i t).tty i = t := by
  simp [kernel_state.set_tty, kernel_state.tty]

theorem set_tty_tty_other (k : kernel_state) (i j : Nat) (t : tty_device_t) (h : j ≠ i) :
    (k.set_tty i t).tty j = k.tty j := by
  simp [kernel_state.set_tty, kernel_state.tty, Function.update_noteq h]

@[simp]
theorem set_tty_vga_state (k : kernel_state) (i : Nat) (t : tty_device_t) :
    (k.set_tty i t).vga_state = k.vga_state := rfl

@[simp]
theorem set_tty_display_trace (k : kernel_state) (i : Nat) (t : tty_device_t) :
    (k.set_tty i t).display_trace = k.display_trace := rfl

@[simp]
theorem set_tty_current_tty (k : kernel_state) (i : Nat) (t : tty_device_t) :
    (k.set_tty i t).tty_manager.current_tty = k.tty_manager.current_tty := rfl

theorem vga_put_char_notab_eq (fuel ch : Nat) (s : vga_state_t) (h : ch ≠ 9) :
    vga_put_char (fuel + 1) ch s = some (vga_put_char_notab ch s) := by
  unfold vga_put_char_notab
  simp only [vga_put_char, h, if_false]
  split_ifs <;> rfl

theorem tty_render_char_notab (fuel i ch : Nat) (k : kernel_state) (h : ch ≠ 9) :
    tty_render_char (fuel + 1) i ch k = some (render i ch k) := by
  unfold tty_render_char render
  simp only [vga_put_char_notab_eq fuel ch _ h]
  rfl

theorem tty_get_device_open (k : kernel_state) (i : Nat) (hi : i < 8)
    (hst : (k.tty i).state ≠ tty_state_t.TTY_STATE_CLOSED) :
    tty_get_device (i : Int) k = some i := by
  have h1 : tty_is_valid_minor (i : Int) = true := by
    simp only [tty_is_valid_minor, MAX_TTYS, decide_eq_true_eq]
    omega
  simp only [tty_get_device, h1, not_true_eq_false, if_false, Int.toNat_ofNat, hst]

/-- What `tty_write` does with one byte once the device is found Ready and the byte has
been processed with result 0. -/
theorem tty_write_one (fuel : Nat) (i ch : Nat) (k k1 : kernel_state) (hi : i < 8)
    (hst : (k.tty i).state = tty_state_t.TTY_STATE_READY)
    (hproc : tty_process_output_char
      (fun m c k => tty_write fuel m (some (fun _ => c)) 1 k) fuel i ch k = some (0, k1)) :
    tty_putchar (fuel + 1) (i : Int) ch k = some (1, count_byte i k1) := by
  have hopen : (k.tty i).state ≠ tty_state_t.TTY_STATE_CLOSED := by rw [hst]; decide
  have hne : ¬ ((k.tty i).state ≠ tty_state_t.TTY_STATE_READY) := by rw [hst]; decide
  unfold tty_putchar
  simp only [tty_write, tty_get_device_open k i hi hopen, OfNat.one_ne_ofNat, if_false, hne,
    tty_write_loop, hproc, if_true, Option.map_some', one_ne_zero]
  rfl

@[simp]
theorem count_byte_tty (i : Nat) (k : kernel_state) :
    (count_byte i k).tty i
      = { k.tty i with bytes_written := ((k.tty i).bytes_written + 1) % 4294967296 } := by
  simp [count_byte]

@[simp]
theorem count_byte_vga_state (i : Nat) (k : kernel_state) :
    (count_byte i k).vga_state = k.vga_state := rfl

@[simp]
theorem count_byte_display_trace (i : Nat) (k : kernel_state) :
    (count_byte i k).display_trace = k.display_trace := rfl

@[simp]
theorem count_byte_current_tty (i : Nat) (k : kernel_state) :
    (count_byte i k).tty_manager.current_tty = k.tty_manager.current_tty := rfl

@[simp]
theorem render_tty (i ch : Nat) (k : kernel_state) :
    (render i ch k).tty i
      = { k.tty i with cursor := (vga_put_char_notab ch
          (vga_set_color (k.tty i).foreground_color (k.tty i).background_color
            k.vga_state)).cursor } := by
  unfold render
  simp only [set_tty_tty_same]
  rfl

@[simp]
theorem render_vga_state (i ch : Nat) (k : kernel_state) :
    (render i ch k).vga_state = vga_put_char_notab ch
      (vga_set_color (k.tty i).foreground_color (k.tty i).background_color k.vga_state) := rfl

@[simp]
theorem render_display_trace (i ch : Nat) (k : kernel_state) :
    (render i ch k).display_trace = k.display_trace ++ [ch] := rfl

@[simp]
theorem render_current_tty (i ch : Nat) (k : kernel_state) :
    (render i ch k).tty_manager.current_tty = k.tty_manager.current_tty := rfl

/-- Output processing of a byte that is neither translated nor expanded, on the
foreground device: the byte is rendered. -/
theorem process_plain_fg (putchar : Int → Nat → kernel_state → Option (Int × kernel_state))
    (fuel i ch : Nat) (k : kernel_state)
    (hfg : (k.tty i).minor = k.tty_manager.current_tty)
    (hnl : ch ≠ 10 ∨ (k.tty i).config.crlf = 0 ∨ (k.tty i).mode = tty_mode_t.TTY_MODE_RAW)
    (htab : ch ≠ 9) :
    tty_process_output_char putchar (fuel + 1) i ch k = some (0, render i ch k) := by
  unfold tty_process_output_char tty_line_discipline_output
  by_cases hm : (k.tty i).mode = tty_mode_t.TTY_MODE_COOKED
  · have h1 : ¬ ((k.tty i).config.crlf ≠ 0 ∧ ch = 10) := by
      rintro ⟨a, b⟩
      rcases hnl with h | h | h
      · exact h b
      · exact a h
      · rw [hm] at h; exact absurd h (by decide)
    simp only [hm, if_true, h1, if_false, htab, and_false, hfg, tty_render_char_notab fuel i ch k htab,
      Option.map_some']
  · simp only [hm, if_false, hfg, if_true, tty_render_char_notab fuel i ch k htab, Option.map_some']

/-- Output processing of such a byte on a device that is not in the foreground: nothing
is rendered. -/
theorem process_plain_bg (putchar : Int → Nat → kernel_state → Option (Int × kernel_state))
    (fuel i ch : Nat) (k : kernel_state)
    (hbg : (k.tty i).minor ≠ k.tty_manager.current_tty)
    (hnl : ch ≠ 10 ∨ (k.tty i).config.crlf = 0 ∨ (k.tty i).mode = tty_mode_t.TTY_MODE_RAW)
    (htab : ch ≠ 9) :
    tty_process_output_char putchar fuel i ch k = some (0, k) := by
  unfold tty_process_output_char tty_line_discipline_output
  by_cases hm : (k.tty i).mode = tty_mode_t.TTY_MODE_COOKED
  · have h1 : ¬ ((k.tty i).config.crlf ≠ 0 ∧ ch = 10) := by
      rintro ⟨a, b⟩
      rcases hnl with h | h | h
      · exact h b
      · exact a h
      · rw [hm] at h; exact absurd h (by decide)
    simp only [hm, if_true, h1, if_false, htab, and_false, hbg]
  · simp only [hm, if_false, hbg]

theorem putchar_plain_fg (fuel i ch : Nat) (k : kernel_state) (h : ready_fg i k)
    (hnl : ch ≠ 10 ∨ (k.tty i).config.crlf = 0 ∨ (k.tty i).mode = tty_mode_t.TTY_MODE_RAW)
    (htab : ch ≠ 9) :
    tty_putchar (fuel + 2) (i : Int) ch k = some (1, count_byte i (render i ch k)) := by
  obtain ⟨hi, hmin, hst, hcur⟩ := h
  exact tty_write_one (fuel + 1) i ch k _ hi hst
    (process_plain_fg _ fuel i ch k (by rw [hmin, hcur]) hnl htab)

theorem putchar_plain_bg (fuel i ch : Nat) (k : kernel_state) (h : ready_dev i k)
    (hbg : k.tty_manager.current_tty ≠ (i : Int))
    (hnl : ch ≠ 10 ∨ (k.tty i).config.crlf = 0 ∨ (k.tty i).mode = tty_mode_t.TTY_MODE_RAW)
    (htab : ch ≠ 9) :
    tty_putchar (fuel + 1) (i : Int) ch k = some (1, count_byte i k) := by
  obtain ⟨hi, hmin, hst⟩ := h
  exact tty_write_one fuel i ch k _ hi hst
    (process_plain_bg _ fuel i ch k (by rw [hmin]; exact fun h => hbg h.symm) hnl htab)

/-- Writing a line feed on a cooked foreground device with CR-LF translation: a carriage
return is written first, through a nested `tty_putchar`. -/
theorem putchar_crlf_fg (fuel i : Nat) (k : kernel_state) (h : ready_fg i k)
    (hm : (k.tty i).mode = tty_mode_t.TTY_MODE_COOKED) (hcrlf : (k.tty i).config.crlf ≠ 0) :
    tty_putchar (fuel + 3) (i : Int) 10 k
      = some (1, count_byte i (render i 10 (count_byte i (render i 13 k)))) := by
  have h13 := putchar_plain_fg fuel i 13 k h (Or.inl (by decide)) (by decide)
  obtain ⟨hi, hmin, hst, hcur⟩ := h
  apply tty_write_one (fuel + 2) i 10 k _ hi hst
  unfold tty_process_output_char tty_line_discipline_output
  unfold tty_putchar at h13
  have h109 : ¬ ((10 : Nat) = 9) := by decide
  simp only [hm, if_true, hcrlf, ne_eq, not_false_eq_true, and_self, hmin, h13, Option.map_some',
    count_byte_tty, render_tty, h109, and_false, if_false,
    count_byte_current_tty, render_current_tty, hcur,
    tty_render_char_notab (fuel + 1) i 10 _ (by decide)]

theorem tty_input_char_cooked (fuel i ch : Nat) (k : kernel_state) (h : ready_dev i k)
    (hm : (k.tty i).mode = tty_mode_t.TTY_MODE_COOKED) :
    tty_input_char fuel (i : Int) ch k
      = tty_line_discipline_input (tty_putchar fuel) i ch k := by
  obtain ⟨hi, hmin, hst⟩ := h
  have hopen : (k.tty i).state ≠ tty_state_t.TTY_STATE_CLOSED := by rw [hst]; decide
  have hne : ¬ ((k.tty i).state ≠ tty_state_t.TTY_STATE_READY) := by rw [hst]; decide
  simp only [tty_input_char, tty_get_device_open k i hi hopen, hne, if_false,
    tty_process_input_char, hm, if_true]

@[simp]
theorem count_char_tty (i : Nat) (k : kernel_state) :
    (count_char i k).tty i = { k.tty i with
      characters_processed := ((k.tty i).characters_processed + 1) % 4294967296 } := by
  simp [count_char]

@[simp]
theorem count_char_vga_state (i : Nat) (k : kernel_state) :
    (count_char i k).vga_state = k.vga_state := rfl

@[simp]
theorem count_char_display_trace (i : Nat) (k : kernel_state) :
    (count_char i k).display_trace = k.display_trace := rfl

@[simp]
theorem count_char_current_tty (i : Nat) (k : kernel_state) :
    (count_char i k).tty_manager.current_tty = k.tty_manager.current_tty := rfl

@[simp]
theorem erase_last_tty (i : Nat) (k : kernel_state) :
    (erase_last i k).tty i = { k.tty i with line := { (k.tty i).line with
      line_pos := (k.tty i).line.line_pos - 1
      line_count := ((k.tty i).line.line_count + 65535) % 65536 } } := by
  simp [erase_last]

@[simp]
theorem erase_last_vga_state (i : Nat) (k : kernel_state) :
    (erase_last i k).vga_state = k.vga_state := rfl

@[simp]
theorem erase_last_display_trace (i : Nat) (k : kernel_state) :
    (erase_last i k).display_trace = k.display_trace := rfl

@[simp]
theorem erase_last_current_tty (i : Nat) (k : kernel_state) :
    (erase_last i k).tty_manager.current_tty = k.tty_manager.current_tty := rfl

/-- A backspace with nothing to erase only counts the character. -/
theorem backspace_at_zero (putchar : Int → Nat → kernel_state → Option (Int × kernel_state))
    (i : Nat) (k : kernel_state) (hpos : (k.tty i).line.line_pos = 0) :
    tty_line_discipline_input putchar i 8 k = some (0, count_char i k) := by
  have h8a : ¬ ((8 : Nat) = 10 ∨ (8 : Nat) = 13) := by decide
  have hpos2 : ¬ ((k.tty i).line.line_pos > 0) := by omega
  simp only [tty_line_discipline_input, h8a, if_false, if_true, hpos2, Option.map_some']
  rfl

/-- A backspace without echo erases the last character and counts the character. -/
theorem backspace_no_echo (putchar : Int → Nat → kernel_state → Option (Int × kernel_state))
    (i : Nat) (k : kernel_state) (hpos : 0 < (k.tty i).line.line_pos)
    (hecho : (k.tty i).config.echo = 0) :
    tty_line_discipline_input putchar i 8 k = some (0, count_char i (erase_last i k)) := by
  have h8a : ¬ ((8 : Nat) = 10 ∨ (8 : Nat) = 13) := by decide
  have hpos2 : (k.tty i).line.line_pos > 0 := hpos
  have e0 : ¬ (((erase_last i k).tty i).config.echo ≠ 0) := by simp [hecho]
  have hstep : tty_line_discipline_input putchar i 8 k
      = Option.map (fun k2 => ((0 : Int), count_char i k2))
          (if ((erase_last i k).tty i).config.echo ≠ 0 then
            match putchar ((erase_last i k).tty i).minor 8 (erase_last i k) with
            | none => none
            | some r =>
              match putchar (r.2.tty i).minor 32 r.2 with
              | none => none
              | some r => (putchar (r.2.tty i).minor 8 r.2).map (fun r => r.2)
          else some (erase_last i k)) := by
    simp only [tty_line_discipline_input, h8a, if_false, if_true, hpos2]
    rfl
  rw [hstep, if_neg e0]
  rfl

/-- A backspace with echo on the foreground device erases the last character and writes
backspace, space, backspace. -/
theorem backspace_echo_fg (fuel i : Nat) (k : kernel_state) (h : ready_fg i k)
    (hpos : 0 < (k.tty i).line.line_pos) (hecho : (k.tty i).config.echo ≠ 0) :
    tty_line_discipline_input (tty_putchar (fuel + 2)) i 8 k
      = some (0, count_char i (count_byte i (render i 8 (count_byte i (render i 32
          (count_byte i (render i 8 (erase_last i k)))))))) := by
  have h8a : ¬ ((8 : Nat) = 10 ∨ (8 : Nat) = 13) := by decide
  have hpos2 : (k.tty i).line.line_pos > 0 := hpos
  obtain ⟨hi, hmin, hst, hcur⟩ := h
  have p1 := putchar_plain_fg fuel i 8 (erase_last i k)
    ⟨hi, by simp [hmin], by simp [hst], by simp [hcur]⟩ (Or.inl (by decide)) (by decide)
  have p2 := putchar_plain_fg fuel i 32 (count_byte i (render i 8 (erase_last i k)))
    ⟨hi, by simp [hmin], by simp [hst], by simp [hcur]⟩ (Or.inl (by decide)) (by decide)
  have p3 := putchar_plain_fg fuel i 8
    (count_byte i (render i 32 (count_byte i (render i 8 (erase_last i k)))))
    ⟨hi, by simp [hmin], by simp [hst], by simp [hcur]⟩ (Or.inl (by decide)) (by decide)
  have e1 : ((erase_last i k).tty i).minor = (i : Int) := by simp [hmin]
  have e2 : ((count_byte i (render i 8 (erase_last i k))).tty i).minor = (i : Int) := by
    simp [hmin]
  have e3 : ((count_byte i (render i 32 (count_byte i (render i 8 (erase_last i k))))).tty i).minor
      = (i : Int) := by simp [hmin]
  have e0 : ((erase_last i k).tty i).config.echo ≠ 0 := by simp [hecho]
  have hstep : tty_line_discipline_input (tty_putchar (fuel + 2)) i 8 k
      = Option.map (fun k2 => ((0 : Int), count_char i k2))
          (if ((erase_last i k).tty i).config.echo ≠ 0 then
            match tty_putchar (fuel + 2) ((erase_last i k).tty i).minor 8 (erase_last i k) with
            | none => none
            | some r =>
              match tty_putchar (fuel + 2) (r.2.tty i).minor 32 r.2 with
              | none => none
              | some r => (tty_putchar (fuel + 2) (r.2.tty i).minor 8 r.2).map (fun r => r.2)
          else some (erase_last i k)) := by
    simp only [tty_line_discipline_input, h8a, if_false, if_true, hpos2]
    rfl
  rw [hstep, if_pos e0, e1, p1]
  simp only [e2, p2, e3, p3, Option.map_some']

/-- The same on a Ready device that is not in the foreground: the three bytes go through
`tty_write` and nothing reaches the display. -/
theorem backspace_echo_bg (fuel i : Nat) (k : kernel_state) (h : ready_dev i k)
    (hbg : k.tty_manager.current_tty ≠ (i : Int))
    (hpos : 0 < (k.tty i).line.line_pos) (hecho : (k.tty i).config.echo ≠ 0) :
    tty_line_discipline_input (tty_putchar (fuel + 1)) i 8 k
      = some (0, count_char i (count_byte i (count_byte i (count_byte i (erase_last i k))))) := by
  have h8a : ¬ ((8 : Nat) = 10 ∨ (8 : Nat) = 13) := by decide
  have hpos2 : (k.tty i).line.line_pos > 0 := hpos
  obtain ⟨hi, hmin, hst⟩ := h
  have p1 := putchar_plain_bg fuel i 8 (erase_last i k)
    ⟨hi, by simp [hmin], by simp [hst]⟩ (by simp [hbg]) (Or.inl (by decide)) (by decide)
  have p2 := putchar_plain_bg fuel i 32 (count_byte i (erase_last i k))
    ⟨hi, by simp [hmin], by simp [hst]⟩ (by simp [hbg]) (Or.inl (by decide)) (by decide)
  have p3 := putchar_plain_bg fuel i 8 (count_byte i (count_byte i (erase_last i k)))
    ⟨hi, by simp [hmin], by simp [hst]⟩ (by simp [hbg]) (Or.inl (by decide)) (by decide)
  have e1 : ((erase_last i k).tty i).minor = (i : Int) := by simp [hmin]
  have e2 : ((count_byte i (erase_last i k)).tty i).minor = (i : Int) := by simp [hmin]
  have e3 : ((count_byte i (count_byte i (erase_last i k))).tty i).minor = (i : Int) := by
    simp [hmin]
  have e0 : ((erase_last i k).tty i).config.echo ≠ 0 := by simp [hecho]
  have hstep : tty_line_discipline_input (tty_putchar (fuel + 1)) i 8 k
      = Option.map (fun k2 => ((0 : Int), count_char i k2))
          (if ((erase_last i k).tty i).config.echo ≠ 0 then
            match tty_putchar (fuel + 1) ((erase_last i k).tty i).minor 8 (erase_last i k) with
            | none => none
            | some r =>
              match tty_putchar (fuel + 1) (r.2.tty i).minor 32 r.2 with
              | none => none
              | some r => (tty_putchar (fuel + 1) (r.2.tty i).minor 8 r.2).map (fun r => r.2)
          else some (erase_last i k)) := by
    simp only [tty_line_discipline_input, h8a, if_false, if_true, hpos2]
    rfl
  rw [hstep, if_pos e0, e1, p1]
  simp only [e2, p2, e3, p3, Option.map_some']

/-- C6: in Cooked mode a backspace with line position > 0 decrements the line position
and the line count by one (the line buffer itself is untouched) and, with echo enabled,
sends exactly backspace, space, backspace through `tty_putchar` (three bytes written; on
the foreground device the display receives exactly these three); with line position 0
it leaves the line-edit buffer unchanged and emits nothing. -/
theorem C6_backspace_erases_last_char (fuel i : Nat) (k : kernel_state) (h : ready_dev i k)
    (hm : (k.tty i).mode = tty_mode_t.TTY_MODE_COOKED) :
    (0 < (k.tty i).line.line_pos → 0 < (k.tty i).line.line_count →
      (k.tty i).line.line_count < 65536 →
      ∃ k2, tty_input_char (fuel + 2) (i : Int) 8 k = some (0, k2) ∧
        (k2.tty i).line.line_pos = (k.tty i).line.line_pos - 1 ∧
        (k2.tty i).line.line_count = (k.tty i).line.line_count - 1 ∧
        (k2.tty i).line.line_buffer = (k.tty i).line.line_buffer ∧
        ((k.tty i).config.echo ≠ 0 →
          (k2.tty i).bytes_written = ((k.tty i).bytes_written + 3) % 4294967296 ∧
          (k.tty_manager.current_tty = (i : Int) →
            k2.display_trace = k.display_trace ++ [8, 32, 8]) ∧
          (k.tty_manager.current_tty ≠ (i : Int) →
            k2.display_trace = k.display_trace ∧ k2.vga_state = k.vga_state)) ∧
        ((k.tty i).config.echo = 0 →
          (k2.tty i).bytes_written = (k.tty i).bytes_written ∧
          k2.display_trace = k.display_trace ∧ k2.vga_state = k.vga_state)) ∧
    ((k.tty i).line.line_pos = 0 →
      ∃ k2, tty_input_char (fuel + 2) (i : Int) 8 k = some (0, k2) ∧
        (k2.tty i).line = (k.tty i).line ∧
        (k2.tty i).bytes_written = (k.tty i).bytes_written ∧
        k2.display_trace = k.display_trace ∧ k2.vga_state = k.vga_state) := by
  rw [tty_input_char_cooked (fuel + 2) i 8 k h hm]
  constructor
  · intro hpos hcnt hrange
    have hcnt2 : ((k.tty i).line.line_count + 65535) % 65536 = (k.tty i).line.line_count - 1 := by
      omega
    by_cases hecho : (k.tty i).config.echo = 0
    · refine ⟨_, backspace_no_echo _ i k hpos hecho, ?_⟩
      simp [hecho, hcnt2]
    · by_cases hfg : k.tty_manager.current_tty = (i : Int)
      · refine ⟨_, backspace_echo_fg fuel i k ⟨h.1, h.2.1, h.2.2, hfg⟩ hpos hecho, ?_⟩
        simp only [count_char_tty, count_byte_tty, render_tty, erase_last_tty, hcnt2,
          count_char_display_trace, count_byte_display_trace, render_display_trace,
          erase_last_display_trace, List.append_assoc, List.singleton_append, ne_eq,
          hecho, not_false_eq_true, hfg, true_implies, not_true_eq_false, false_implies,
          and_true, true_and, IsEmpty.forall_iff]
        exact ⟨by omega, rfl⟩
      · refine ⟨_, backspace_echo_bg (fuel + 1) i k h hfg hpos hecho, ?_⟩
        simp only [count_char_tty, count_byte_tty, erase_last_tty, hcnt2,
          count_char_display_trace, count_byte_display_trace,
          erase_last_display_trace, count_char_vga_state, count_byte_vga_state,
          erase_last_vga_state, ne_eq,
          hecho, not_false_eq_true, hfg, true_implies, not_true_eq_false, false_implies,
          and_true, true_and, IsEmpty.forall_iff]
        omega
  · intro hpos
    refine ⟨_, backspace_at_zero _ i k hpos, ?_⟩
    simp

@[simp]
theorem append_char_tty (i ch : Nat) (k : kernel_state) :
    (append_char i ch k).tty i = { k.tty i with line := { (k.tty i).line with
      line_buffer := Function.update (k.tty i).line.line_buffer (k.tty i).line.line_pos ch
      line_pos := ((k.tty i).line.line_pos + 1) % 65536
      line_count := ((k.tty i).line.line_count + 1) % 65536 } } := by
  simp [append_char]

@[simp]
theorem append_char_vga_state (i ch : Nat) (k : kernel_state) :
    (append_char i ch k).vga_state = k.vga_state := rfl

@[simp]
theorem append_char_display_trace (i ch : Nat) (k : kernel_state) :
    (append_char i ch k).display_trace = k.display_trace := rfl

@[simp]
theorem append_char_current_tty (i ch : Nat) (k : kernel_state) :
    (append_char i ch k).tty_manager.current_tty = k.tty_manager.current_tty := rfl

@[simp]
theorem commit_line_tty (i : Nat) (k : kernel_state) :
    (commit_line i k).tty i = { k.tty i with
      line := { (tty_buffer_putchar
          (tty_copy_line (k.tty i).line.line_count 0 (k.tty i).line) TTY_BUFFER_SIZE 10).2 with
        line_count := 0, line_pos := 0 }
      lines_processed := ((k.tty i).lines_processed + 1) % 4294967296 } := by
  simp [commit_line]

@[simp]
theorem commit_line_vga_state (i : Nat) (k : kernel_state) :
    (commit_line i k).vga_state = k.vga_state := rfl

@[simp]
theorem commit_line_display_trace (i : Nat) (k : kernel_state) :
    (commit_line i k).display_trace = k.display_trace := rfl

@[simp]
theorem commit_line_current_tty (i : Nat) (k : kernel_state) :
    (commit_line i k).tty_manager.current_tty = k.tty_manager.current_tty := rfl

/-- The default case of `tty_line_discipline_input`, unfolded. -/
theorem input_default_unfold (putchar : Int → Nat → kernel_state → Option (Int × kernel_state))
    (i ch : Nat) (k : kernel_state) (h1 : ch ≠ 10) (h2 : ch ≠ 13) (h3 : ch ≠ 8) :
    tty_line_discipline_input putchar i ch k
      = Option.map (fun k2 => ((0 : Int), count_char i k2))
          (if (k.tty i).line.line_count < TTY_MAX_LINE_LENGTH - 1 then
            if ((append_char i ch k).tty i).config.echo ≠ 0 then
              (putchar ((append_char i ch k).tty i).minor ch (append_char i ch k)).map
                (fun r => r.2)
            else some (append_char i ch k)
          else some k) := by
  have ha : ¬ (ch = 10 ∨ ch = 13) := by omega
  simp only [tty_line_discipline_input, ha, h3, if_false]
  rfl

/-- The CR/LF case of `tty_line_discipline_input`, unfolded. -/
theorem input_newline_unfold (putchar : Int → Nat → kernel_state → Option (Int × kernel_state))
    (i ch : Nat) (k : kernel_state) (h : ch = 10 ∨ ch = 13) :
    tty_line_discipline_input putchar i ch k
      = Option.map (fun k2 => ((0 : Int), count_char i k2))
          (Option.map (commit_line i)
            (if (k.tty i).config.echo ≠ 0 then
              match putchar (k.tty i).minor 13 k with
              | none => none
              | some r => (putchar (r.2.tty i).minor 10 r.2).map (fun r => r.2)
            else some k)) := by
  simp only [tty_line_discipline_input, h, if_true]
  rfl

/-- An ordinary character typed on the cooked foreground device with echo: it is stored
in the line buffer and rendered. -/
theorem input_plain_echo_fg (fuel i ch : Nat) (k : kernel_state) (h : ready_fg i k)
    (h1 : ch ≠ 10) (h2 : ch ≠ 13) (h3 : ch ≠ 8) (h4 : ch ≠ 9)
    (hroom : (k.tty i).line.line_count < 1023) (hecho : (k.tty i).config.echo ≠ 0) :
    tty_line_discipline_input (tty_putchar (fuel + 2)) i ch k
      = some (0, count_char i (count_byte i (render i ch (append_char i ch k)))) := by
  obtain ⟨hi, hmin, hst, hcur⟩ := h
  have p1 := putchar_plain_fg fuel i ch (append_char i ch k)
    ⟨hi, by simp [hmin], by simp [hst], by simp [hcur]⟩ (Or.inl h1) h4
  have e1 : ((append_char i ch k).tty i).minor = (i : Int) := by simp [hmin]
  have e0 : ((append_char i ch k).tty i).config.echo ≠ 0 := by simp [hecho]
  have hroom2 : (k.tty i).line.line_count < TTY_MAX_LINE_LENGTH - 1 := hroom
  rw [input_default_unfold _ i ch k h1 h2 h3, if_pos hroom2, if_pos e0, e1, p1]
  rfl

/-- A line end typed on the cooked foreground device with echo and without CR-LF
translation: carriage return and line feed are rendered, then the line is committed. -/
theorem input_newline_echo_fg_nocrlf (fuel i ch : Nat) (k : kernel_state) (h : ready_fg i k)
    (hch : ch = 10 ∨ ch = 13) (hecho : (k.tty i).config.echo ≠ 0)
    (hcrlf : (k.tty i).config.crlf = 0) :
    tty_line_discipline_input (tty_putchar (fuel + 2)) i ch k
      = some (0, count_char i (commit_line i
          (count_byte i (render i 10 (count_byte i (render i 13 k)))))) := by
  obtain ⟨hi, hmin, hst, hcur⟩ := h
  have p1 := putchar_plain_fg fuel i 13 k ⟨hi, hmin, hst, hcur⟩ (Or.inl (by decide)) (by decide)
  have p2 := putchar_plain_fg fuel i 10 (count_byte i (render i 13 k))
    ⟨hi, by simp [hmin], by simp [hst], by simp [hcur]⟩ (Or.inr (Or.inl (by simp [hcrlf])))
    (by decide)
  have e2 : ((count_byte i (render i 13 k)).tty i).minor = (i : Int) := by simp [hmin]
  rw [input_newline_unfold _ i ch k hch, if_pos hecho, hmin, p1]
  simp only [e2, p2, Option.map_some']

/-- The same with CR-LF translation: the echoed line feed is itself preceded by a
carriage return, so two carriage returns are rendered. -/
theorem input_newline_echo_fg_crlf (fuel i ch : Nat) (k : kernel_state) (h : ready_fg i k)
    (hm : (k.tty i).mode = tty_mode_t.TTY_MODE_COOKED)
    (hch : ch = 10 ∨ ch = 13) (hecho : (k.tty i).config.echo ≠ 0)
    (hcrlf : (k.tty i).config.crlf ≠ 0) :
    tty_line_discipline_input (tty_putchar (fuel + 3)) i ch k
      = some (0, count_char i (commit_line i
          (count_byte i (render i 10 (count_byte i (render i 13
            (count_byte i (render i 13 k)))))))) := by
  obtain ⟨hi, hmin, hst, hcur⟩ := h
  have p1 := putchar_plain_fg (fuel + 1) i 13 k ⟨hi, hmin, hst, hcur⟩ (Or.inl (by decide))
    (by decide)
  have p2 := putchar_crlf_fg fuel i (count_byte i (render i 13 k))
    ⟨hi, by simp [hmin], by simp [hst], by simp [hcur]⟩ (by simp [hm]) (by simp [hcrlf])
  have e2 : ((count_byte i (render i 13 k)).tty i).minor = (i : Int) := by simp [hmin]
  rw [input_newline_unfold _ i ch k hch, if_pos hecho, hmin, p1]
  simp only [e2, p2, Option.map_some']

/-- An ordinary character typed when the line buffer is full is dropped. -/
theorem input_plain_no_room (putchar : Int → Nat → kernel_state → Option (Int × kernel_state))
    (i ch : Nat) (k : kernel_state) (h1 : ch ≠ 10) (h2 : ch ≠ 13) (h3 : ch ≠ 8)
    (hfull : 1023 ≤ (k.tty i).line.line_count) :
    tty_line_discipline_input putchar i ch k = some (0, count_char i k) := by
  have hroom2 : ¬ ((k.tty i).line.line_count < TTY_MAX_LINE_LENGTH - 1) := by
    show ¬ ((k.tty i).line.line_count < 1023)
    omega
  rw [input_default_unfold _ i ch k h1 h2 h3, if_neg hroom2]
  rfl

theorem tty_input_chars_cons (fuel : Nat) (minor : Int) (ch : Nat) (rest : List Nat)
    (k k1 : kernel_state) (r : Int) (h : tty_input_char fuel minor ch k = some (r, k1)) :
    tty_input_chars fuel minor (ch :: rest) k = tty_input_chars fuel minor rest k1 := by
  simp only [tty_input_chars, h]

/-- The characters l, s and line feed typed on the cooked foreground device with echo and
room for two characters: what the display receives. -/
theorem echo_ls_newline (fuel i : Nat) (k : kernel_state) (h : ready_fg i k)
    (hm : (k.tty i).mode = tty_mode_t.TTY_MODE_COOKED) (hecho : (k.tty i).config.echo ≠ 0)
    (hroom : (k.tty i).line.line_count ≤ 1021) :
    ∃ k2, tty_input_chars (fuel + 3) (i : Int) [108, 115, 10] k = some k2 ∧
      ((k.tty i).config.crlf = 0 → k2.display_trace = k.display_trace ++ [108, 115, 13, 10]) ∧
      ((k.tty i).config.crlf ≠ 0 →
        k2.display_trace = k.display_trace ++ [108, 115, 13, 13, 10]) := by
  obtain ⟨hi, hmin, hst, hcur⟩ := h
  have hc1 : ((k.tty i).line.line_count + 1) % 65536 = (k.tty i).line.line_count + 1 := by omega
  -- first character
  have s1 : tty_input_char (fuel + 3) (i : Int) 108 k
      = some (0, count_char i (count_byte i (render i 108 (append_char i 108 k)))) := by
    rw [tty_input_char_cooked _ i 108 k ⟨hi, hmin, hst⟩ hm]
    exact input_plain_echo_fg (fuel + 1) i 108 k ⟨hi, hmin, hst, hcur⟩ (by decide) (by decide)
      (by decide) (by decide) (by omega) hecho
  generalize hk1 : count_char i (count_byte i (render i 108 (append_char i 108 k))) = k1 at s1
  have r1 : ready_fg i k1 := by
    subst hk1; exact ⟨hi, by simp [hmin], by simp [hst], by simp [hcur]⟩
  have m1 : (k1.tty i).mode = tty_mode_t.TTY_MODE_COOKED := by subst hk1; simp [hm]
  have c1 : (k1.tty i).config = (k.tty i).config := by subst hk1; simp
  have l1 : (k1.tty i).line.line_count = (k.tty i).line.line_count + 1 := by
    subst hk1; simp [hc1]
  have t1 : k1.display_trace = k.display_trace ++ [108] := by subst hk1; simp
  -- second character
  have s2 : tty_input_char (fuel + 3) (i : Int) 115 k1
      = some (0, count_char i (count_byte i (render i 115 (append_char i 115 k1)))) := by
    rw [tty_input_char_cooked _ i 115 k1 ⟨r1.1, r1.2.1, r1.2.2.1⟩ m1]
    exact input_plain_echo_fg (fuel + 1) i 115 k1 r1 (by decide) (by decide)
      (by decide) (by decide) (by omega) (by rw [c1]; exact hecho)
  generalize hk2 : count_char i (count_byte i (render i 115 (append_char i 115 k1))) = k2 at s2
  have r2 : ready_fg i k2 := by
    subst hk2; exact ⟨hi, by simp [r1.2.1], by simp [r1.2.2.1], by simp [r1.2.2.2]⟩
  have m2 : (k2.tty i).mode = tty_mode_t.TTY_MODE_COOKED := by subst hk2; simp [m1]
  have c2 : (k2.tty i).config = (k.tty i).config := by subst hk2; simp [c1]
  have t2 : k2.display_trace = k.display_trace ++ [108, 115] := by subst hk2; simp [t1]
  have e2 : (k2.tty i).config.echo ≠ 0 := by rw [c2]; exact hecho
  rw [tty_input_chars_cons _ _ 108 _ k k1 0 s1, tty_input_chars_cons _ _ 115 _ k1 k2 0 s2]
  by_cases hcrlf : (k.tty i).config.crlf = 0
  · have s3 : tty_input_char (fuel + 3) (i : Int) 10 k2 = _ :=
      (tty_input_char_cooked _ i 10 k2 ⟨r2.1, r2.2.1, r2.2.2.1⟩ m2).trans
        (input_newline_echo_fg_nocrlf (fuel + 1) i 10 k2 r2 (Or.inl rfl) e2
          (by rw [c2]; exact hcrlf))
    refine ⟨_, tty_input_chars_cons _ _ 10 [] k2 _ 0 s3, ?_, ?_⟩
    · intro _; simp [t2]
    · intro hc; exact absurd hcrlf hc
  · have s3 : tty_input_char (fuel + 3) (i : Int) 10 k2 = _ :=
      (tty_input_char_cooked _ i 10 k2 ⟨r2.1, r2.2.1, r2.2.2.1⟩ m2).trans
        (input_newline_echo_fg_crlf fuel i 10 k2 r2 m2 (Or.inl rfl) e2
          (by rw [c2]; exact hcrlf))
    refine ⟨_, tty_input_chars_cons _ _ 10 [] k2 _ 0 s3, ?_, ?_⟩
    · intro hc; exact absurd hc hcrlf
    · intro _; simp [t2]

/-- The same three characters when the line buffer is full (1023 characters pending): l
and s are dropped without echo, only the line end is echoed. -/
theorem echo_ls_newline_full (fuel i : Nat) (k : kernel_state) (h : ready_fg i k)
    (hm : (k.tty i).mode = tty_mode_t.TTY_MODE_COOKED) (hecho : (k.tty i).config.echo ≠ 0)
    (hcrlf : (k.tty i).config.crlf = 0) (hfull : 1023 ≤ (k.tty i).line.line_count) :
    ∃ k2, tty_input_chars (fuel + 2) (i : Int) [108, 115, 10] k = some k2 ∧
      k2.display_trace = k.display_trace ++ [13, 10] := by
  obtain ⟨hi, hmin, hst, hcur⟩ := h
  have s1 : tty_input_char (fuel + 2) (i : Int) 108 k = some (0, count_char i k) := by
    rw [tty_input_char_cooked _ i 108 k ⟨hi, hmin, hst⟩ hm]
    exact input_plain_no_room _ i 108 k (by decide) (by decide) (by decide) hfull
  have r1 : ready_fg i (count_char i k) := ⟨hi, by simp [hmin], by simp [hst], by simp [hcur]⟩
  have m1 : ((count_char i k).tty i).mode = tty_mode_t.TTY_MODE_COOKED := by simp [hm]
  have s2 : tty_input_char (fuel + 2) (i : Int) 115 (count_char i k)
      = some (0, count_char i (count_char i k)) := by
    rw [tty_input_char_cooked _ i 115 _ ⟨r1.1, r1.2.1, r1.2.2.1⟩ m1]
    exact input_plain_no_room _ i 115 _ (by decide) (by decide) (by decide) (by simpa using hfull)
  have r2 : ready_fg i (count_char i (count_char i k)) :=
    ⟨hi, by simp [hmin], by simp [hst], by simp [hcur]⟩
  have m2 : ((count_char i (count_char i k)).tty i).mode = tty_mode_t.TTY_MODE_COOKED := by
    simp [hm]
  have s3 : tty_input_char (fuel + 2) (i : Int) 10 (count_char i (count_char i k)) = _ :=
    (tty_input_char_cooked _ i 10 _ ⟨r2.1, r2.2.1, r2.2.2.1⟩ m2).trans
      (input_newline_echo_fg_nocrlf fuel i 10 _ r2 (Or.inl rfl) (by simpa using hecho)
        (by simpa using hcrlf))
  rw [tty_input_chars_cons _ _ 108 _ k _ 0 s1, tty_input_chars_cons _ _ 115 _ _ _ 0 s2]
  refine ⟨_, tty_input_chars_cons _ _ 10 [] _ _ 0 s3, ?_⟩
  simp

/-- C5: on a Ready foreground device in Cooked mode with echo enabled and room for the two
letters in the line-edit buffer (at most 1021 characters pending), the input l, s, line
feed returns and sends to the display exactly l, s, CR, LF, the claimed output, when CR-LF
translation is disabled; when it is enabled, as in the default configuration, the display
receives l, s, CR, CR, LF: the line feed of the echo passes through the output
translation, which puts a second CR in front of it. -/
theorem C5_echo_of_ls_newline (fuel i : Nat) (k : kernel_state) (h : ready_fg i k)
    (hm : (k.tty i).mode = tty_mode_t.TTY_MODE_COOKED) (hecho : (k.tty i).config.echo ≠ 0)
    (hroom : (k.tty i).line.line_count ≤ 1021) :
    ∃ k2, tty_input_chars (fuel + 3) (i : Int) [108, 115, 10] k = some k2 ∧
      ((k.tty i).config.crlf = 0 → k2.display_trace = k.display_trace ++ [108, 115, 13, 10]) ∧
      ((k.tty i).config.crlf ≠ 0 →
        k2.display_trace = k.display_trace ++ [108, 115, 13, 13, 10]) :=
  echo_ls_newline fuel i k h hm hecho hroom

/-- C5 at the console. With the default configuration (echo on, CR-LF translation on) the
display receives l, s, CR, CR, LF and not the claimed l, s, CR, LF; with CR-LF translation
switched off it receives l, s, CR, LF. -/
theorem C5_echo_of_ls_newline_witness :
    (∃ k2, tty_input_chars 3 0 [108, 115, 10] (console_state default_tty_config 0 0 0) = some k2 ∧
      k2.display_trace = [108, 115, 13, 13, 10] ∧ k2.display_trace ≠ [108, 115, 13, 10]) ∧
    (∃ k2, tty_input_chars 3 0 [108, 115, 10]
        (console_state { default_tty_config with crlf := 0 } 0 0 0) = some k2 ∧
      k2.display_trace = [108, 115, 13, 10]) := by
  constructor
  · obtain ⟨k2, h1, _, h3⟩ := C5_echo_of_ls_newline 0 0 (console_state default_tty_config 0 0 0)
      ⟨by decide, rfl, rfl, rfl⟩ rfl (by decide) (by decide)
    have h4 := h3 (by decide)
    exact ⟨k2, h1, h4, by rw [h4]; decide⟩
  · obtain ⟨k2, h1, h2, _⟩ := C5_echo_of_ls_newline 0 0
      (console_state { default_tty_config with crlf := 0 } 0 0 0)
      ⟨by decide, rfl, rfl, rfl⟩ rfl (by decide) (by decide)
    exact ⟨k2, h1, h2 rfl⟩

/-- The same input at the console with CR-LF translation off and the line-edit buffer
full (1023 characters pending): the display receives only CR, LF. -/
theorem echo_ls_newline_full_console :
    ∃ k2, tty_input_chars 3 0 [108, 115, 10]
        (console_state { default_tty_config with crlf := 0 } 1023 0 0) = some k2 ∧
      k2.display_trace = [13, 10] ∧ k2.display_trace ≠ [108, 115, 13, 10] := by
  obtain ⟨k2, h1, h2⟩ := echo_ls_newline_full 1 0
    (console_state { default_tty_config with crlf := 0 } 1023 0 0)
    ⟨by decide, rfl, rfl, rfl⟩ rfl (by decide) rfl (by decide)
  exact ⟨k2, h1, h2, by rw [h2]; decide⟩

/-- C6 at the console with one character pending and echo on: the backspace empties the
line and the display receives backspace, space, backspace. -/
theorem C6_backspace_erases_last_char_witness :
    ∃ k2, tty_input_char 2 0 8 (console_state default_tty_config 1 1 0) = some (0, k2) ∧
      (k2.tty 0).line.line_pos = 0 ∧ (k2.tty 0).line.line_count = 0 ∧
      k2.display_trace = [8, 32, 8] := by
  obtain ⟨k2, h1, h2, h3, _, h5, _⟩ := (C6_backspace_erases_last_char 0 0
    (console_state default_tty_config 1 1 0) ⟨by decide, rfl, rfl⟩ rfl).1
    (by decide) (by decide) (by decide)
  exact ⟨k2, h1, h2, h3, (h5 (by decide)).2.1 rfl⟩

theorem vga_new_line_cursor_x (s : vga_state_t) : (vga_new_line s).cursor.x = 0 := by
  unfold vga_new_line
  simp only
  split_ifs <;> rfl

theorem vga_put_printable_cursor_x_lt (ch : Nat) (s : vga_state_t) :
    (vga_put_printable ch s).cursor.x < 80 := by
  unfold vga_put_printable
  rw [vga_put_char_at_eq]
  simp only [vga_show_cursor, VGA_WIDTH]
  split_ifs with h
  · rw [vga_new_line_cursor_x]; decide
  · simp only at h ⊢
    omega

theorem vga_put_printable_tab_size (ch : Nat) (s : vga_state_t) :
    (vga_put_printable ch s).tab_size = s.tab_size := by
  unfold vga_put_printable
  rw [vga_put_char_at_eq]
  simp only [vga_show_cursor, vga_new_line, vga_scroll_line]
  split_ifs <;> rfl

/-- The loop of `vga_tab` never ends when the next tab stop is column 80: every space
leaves the cursor in a column below 80. -/
theorem vga_tab_loop_never_ends (m : Nat) :
    ∀ (n : Nat) (s : vga_state_t), s.cursor.x < 80 →
      vga_tab_loop (vga_put_char m) 80 n s = none := by
  intro n
  induction n with
  | zero => intro s _; rfl
  | succ n ih =>
    intro s hx
    have hc : s.cursor.x < 80 ∧ s.cursor.x < VGA_WIDTH := ⟨hx, hx⟩
    simp only [vga_tab_loop, hc, and_self, if_true]
    cases m with
    | zero => rfl
    | succ m =>
      rw [vga_put_char_printable m 32 s (by decide)]
      exact ih _ (vga_put_printable_cursor_x_lt 32 s)

/-- `vga_put_char` of a tab never returns when the cursor is in columns 72..79 and the tab
size is 8: no amount of fuel is enough. -/
theorem vga_put_char_tab_never_returns (fuel : Nat) (s : vga_state_t) (hts : s.tab_size = 8)
    (h72 : 72 ≤ s.cursor.x) (h80 : s.cursor.x < 80) :
    vga_put_char fuel 9 s = none := by
  cases fuel with
  | zero => rfl
  | succ fuel =>
    have hnt : ((s.cursor.x / 8 + 1) * 8) % 256 = 80 := by omega
    have h1 : ¬ ((9 : Nat) = 10) := by decide
    simp only [vga_put_char, h1, if_false, if_true, vga_tab, hts, hnt,
      vga_tab_loop_never_ends fuel fuel s h80, Option.map_none']

theorem tty_render_char_tab_never_returns (fuel i : Nat) (k : kernel_state)
    (hts : k.vga_state.tab_size = 8) (h72 : 72 ≤ k.vga_state.cursor.x)
    (h80 : k.vga_state.cursor.x < 80) :
    tty_render_char fuel i 9 k = none := by
  unfold tty_render_char
  simp only [vga_put_char_tab_never_returns fuel (vga_set_color _ _ k.vga_state) hts h72 h80]

theorem tty_putchar_tab_never_returns (fuel i : Nat) (k : kernel_state) (h : ready_fg i k)
    (hte : (k.tty i).config.tab_expand = 0)
    (hts : k.vga_state.tab_size = 8) (h72 : 72 ≤ k.vga_state.cursor.x)
    (h80 : k.vga_state.cursor.x < 80) :
    tty_putchar fuel (i : Int) 9 k = none := by
  obtain ⟨hi, hmin, hst, hcur⟩ := h
  cases fuel with
  | zero => rfl
  | succ fuel =>
    have hopen : (k.tty i).state ≠ tty_state_t.TTY_STATE_CLOSED := by rw [hst]; decide
    have hne : ¬ ((k.tty i).state ≠ tty_state_t.TTY_STATE_READY) := by rw [hst]; decide
    have h1 : ¬ ((9 : Nat) = 10) := by decide
    have hfg : (k.tty i).minor = k.tty_manager.current_tty := by rw [hmin, hcur]
    have hproc : tty_process_output_char
        (fun m c k => tty_write fuel m (some (fun _ => c)) 1 k) fuel i 9 k = none := by
      unfold tty_process_output_char tty_line_discipline_output
      simp only [h1, and_false, if_false, hte, ne_eq, not_true_eq_false, false_and, hfg, if_true,
        tty_render_char_tab_never_returns fuel i k hts h72 h80, Option.map_none', ite_self]
    unfold tty_putchar
    simp only [tty_write, tty_get_device_open k i hi hopen, OfNat.one_ne_ofNat, if_false, hne,
      tty_write_loop, hproc, Option.map_none', one_ne_zero]

/-- A tab typed on the cooked foreground device with echo on and tab expansion off, while
the display cursor is in columns 72..79: `tty_input_char` never returns. -/
theorem tty_input_tab_never_returns (fuel i : Nat) (k : kernel_state) (h : ready_fg i k)
    (hm : (k.tty i).mode = tty_mode_t.TTY_MODE_COOKED) (hecho : (k.tty i).config.echo ≠ 0)
    (hte : (k.tty i).config.tab_expand = 0) (hroom : (k.tty i).line.line_count < 1023)
    (hts : k.vga_state.tab_size = 8) (h72 : 72 ≤ k.vga_state.cursor.x)
    (h80 : k.vga_state.cursor.x < 80) (rest : List Nat) :
    tty_input_chars fuel (i : Int) (9 :: rest) k = none := by
  have hin : tty_input_char fuel (i : Int) 9 k = none := by
    rw [tty_input_char_cooked fuel i 9 k ⟨h.1, h.2.1, h.2.2.1⟩ hm,
      input_default_unfold _ i 9 k (by decide) (by decide) (by decide)]
    have hroom2 : (k.tty i).line.line_count < TTY_MAX_LINE_LENGTH - 1 := hroom
    have e0 : ((append_char i 9 k).tty i).config.echo ≠ 0 := by simp [hecho]
    have e1 : ((append_char i 9 k).tty i).minor = (i : Int) := by simp [h.2.1]
    rw [if_pos hroom2, if_pos e0, e1, tty_putchar_tab_never_returns fuel i (append_char i 9 k)
      ⟨h.1, by simp [h.2.1], by simp [h.2.2.1], by simp [h.2.2.2]⟩ (by simp [hte])
      (by simpa using hts) (by simpa using h72) (by simpa using h80)]
    rfl
  simp only [tty_input_chars, hin]

/-- C4, failing input: on the console with echo on and tab expansion off, and the display
cursor at column 72, typing the line "\\t" followed by a line feed never completes: for
every amount of fuel the run of `tty_input_char` calls has no result, because the echo of
the tab loops for ever in `vga_tab`. -/
theorem C4_tab_echo_never_returns (fuel : Nat) :
    tty_input_chars fuel 0 [9, 10]
      (console_state { default_tty_config with tab_expand := 0 } 0 72 0) = none :=
  tty_input_tab_never_returns fuel 0
    (console_state { default_tty_config with tab_expand := 0 } 0 72 0)
    ⟨by decide, rfl, rfl, rfl⟩ rfl (by decide) rfl (by decide) rfl (by decide) (by decide) [10]

/-- A push below the end of the array stores the byte in the array and advances the
position. -/
theorem esc_push_inside (t : terminal_t) (ch : Nat) (h : t.escape_pos ≠ 32) :
    esc_push t ch = { t with
      escape_buffer := Function.update t.escape_buffer t.escape_pos ch
      escape_pos := (t.escape_pos + 1) % 256 } := by
  unfold esc_push escape_store
  rw [if_neg h]

/-- A push at index 32 stores the byte over the position and leaves the array alone. -/
theorem esc_push_at_end (t : terminal_t) (ch : Nat) (h : t.escape_pos = 32) :
    esc_push t ch = { t with escape_pos := ch % 256 } := by
  unfold esc_push escape_store
  rw [if_pos h]

/-- The terminating NUL below the end of the array is stored in the array. -/
theorem esc_terminate_inside (t : terminal_t) (h : t.escape_pos ≠ 32) :
    esc_terminate t = { t with escape_buffer := Function.update t.escape_buffer t.escape_pos 0 } := by
  unfold esc_terminate escape_store
  rw [if_neg h]

/-- The terminating NUL at index 32 sets the position to 0 and leaves the array alone. -/
theorem esc_terminate_at_end (t : terminal_t) (h : t.escape_pos = 32) :
    esc_terminate t = { t with escape_pos := 0 } := by
  unfold esc_terminate escape_store
  rw [if_pos h]

theorem terminal_base_esc_push (t : terminal_t) (ch : Nat) :
    terminal_base (esc_push t ch) = terminal_base t := by
  unfold esc_push escape_store
  split_ifs <;> rfl

theorem terminal_base_esc_terminate (t : terminal_t) :
    terminal_base (esc_terminate t) = terminal_base t := by
  unfold esc_terminate escape_store
  split_ifs <;> rfl

theorem parse_esc (t : terminal_t) (k : kernel_state) (h0 : t.escape_state = ANSI_STATE_NONE) :
    terminal_parse_ansi_escape t 27 k
      = (1, esc_start t, k) := by
  simp only [terminal_parse_ansi_escape, h0, if_true]
  rfl

theorem parse_bracket (t : terminal_t) (k : kernel_state)
    (h1 : t.escape_state = ANSI_STATE_ESCAPE) :
    terminal_parse_ansi_escape t 91 k
      = (1, { esc_push t 91 with escape_state := ANSI_STATE_CSI }, k) := by
  have hne : ¬ (t.escape_state = ANSI_STATE_NONE) := by rw [h1]; decide
  unfold terminal_parse_ansi_escape
  rw [if_neg hne, if_pos h1]
  rfl

theorem parse_csi_param (t : terminal_t) (k : kernel_state) (ch : Nat)
    (h2 : t.escape_state = ANSI_STATE_CSI) (hch : ¬ is_letter ch) :
    terminal_parse_ansi_escape t ch k = (0, esc_push t ch, k) := by
  have hne1 : ¬ (ANSI_STATE_CSI = ANSI_STATE_NONE) := by decide
  have hne2 : ¬ (ANSI_STATE_CSI = ANSI_STATE_ESCAPE) := by decide
  have hl : ¬ ((ch ≥ 65 ∧ ch ≤ 90) ∨ (ch ≥ 97 ∧ ch ≤ 122)) := by
    unfold is_letter at hch; omega
  simp only [terminal_parse_ansi_escape, h2, hne1, hne2, if_false, if_true, hl, esc_push,
    esc_terminate]

theorem parse_csi_final (t : terminal_t) (k : kernel_state) (ch : Nat)
    (h2 : t.escape_state = ANSI_STATE_CSI) (hch : is_letter ch) :
    terminal_parse_ansi_escape t ch k
      = (1, terminal_reset_escape_state
              (terminal_process_csi_sequence (esc_terminate (esc_push t ch)) k).2.1,
            (terminal_process_csi_sequence (esc_terminate (esc_push t ch)) k).2.2) := by
  have hne1 : ¬ (ANSI_STATE_CSI = ANSI_STATE_NONE) := by decide
  have hne2 : ¬ (ANSI_STATE_CSI = ANSI_STATE_ESCAPE) := by decide
  have hl : (ch ≥ 65 ∧ ch ≤ 90) ∨ (ch ≥ 97 ∧ ch ≤ 122) := by
    unfold is_letter at hch; omega
  simp only [terminal_parse_ansi_escape, h2, hne1, hne2, if_false, if_true, hl, esc_push,
    esc_terminate]

theorem csi_acc_start (t : terminal_t) : csi_acc (csi_start t) [] := by
  refine ⟨rfl, rfl, ?_⟩
  intro j hj
  exact absurd hj (by simp)

theorem csi_acc_push (t : terminal_t) (l : List Nat) (ch : Nat) (h : csi_acc t l)
    (hlen : l.length < 30) : csi_acc (esc_push t ch) (l ++ [ch]) := by
  obtain ⟨h1, h2, h3⟩ := h
  rw [esc_push_inside t ch (by omega)]
  refine ⟨h1, ?_, ?_⟩
  · show (t.escape_pos + 1) % 256 = 2 + (l ++ [ch]).length
    rw [h2, List.length_append, List.length_singleton]
    omega
  · intro j hj
    rw [List.length_append, List.length_singleton] at hj
    show Function.update t.escape_buffer t.escape_pos ch (2 + j) = _
    by_cases hjl : j < l.length
    · rw [Function.update_noteq (by rw [h2]; omega), h3 j hjl,
        List.getD_append _ _ _ _ hjl]
    · have hj2 : j = l.length := by omega
      subst hj2
      rw [h2, Function.update_same, List.getD_append_right _ _ _ _ (le_refl _)]
      simp

/-- The parameter string that `terminal_process_csi_sequence` reads once the final byte
has been buffered and the buffer NUL-terminated inside the array: the buffered bytes
themselves; and the command byte it reads is the last of them. -/
theorem escape_params_terminated (t : terminal_t) (l : List Nat) (h : csi_acc t l)
    (hlen : l.length < 30) (hnz : ∀ c ∈ l, c ≠ 0) :
    escape_params (esc_terminate t) = l ∧
    (0 < l.length → escape_load (esc_terminate t) (((esc_terminate t).escape_pos : Int) - 1)
      = l.getD (l.length - 1) 0) := by
  obtain ⟨h1, h2, h3⟩ := h
  rw [esc_terminate_inside t (by omega)]
  have hload : ∀ j, j < 30 →
      escape_load { t with escape_buffer := Function.update t.escape_buffer t.escape_pos 0 }
          ((2 + j : Nat) : Int)
        = Function.update t.escape_buffer t.escape_pos 0 (2 + j) := by
    intro j hj
    unfold escape_load
    rw [if_neg (by omega), if_neg (by omega), Int.toNat_ofNat]
  have hbuf : ∀ j, j < l.length →
      escape_load { t with escape_buffer := Function.update t.escape_buffer t.escape_pos 0 }
          ((2 + j : Nat) : Int) = l.getD j 0 := by
    intro j hj
    rw [hload j (by omega), Function.update_noteq (by rw [h2]; omega), h3 j hj]
  have hend :
      escape_load { t with escape_buffer := Function.update t.escape_buffer t.escape_pos 0 }
          ((2 + l.length : Nat) : Int) = 0 := by
    rw [hload _ hlen, ← h2, Function.update_same]
  constructor
  · unfold escape_params
    have h31 : 31 = l.length + ((31 - l.length - 1) + 1) := by omega
    rw [h31, List.range_add, List.map_append, List.range_succ_eq_map]
    have hfirst : List.map (fun j =>
          escape_load { t with escape_buffer := Function.update t.escape_buffer t.escape_pos 0 }
            ((2 + j : Nat) : Int)) (List.range l.length) = l := by
      apply List.ext_getElem
      · simp
      · intro j hj1 hj2
        simp only [List.getElem_map, List.getElem_range]
        rw [hbuf j hj2, List.getD_eq_getElem _ _ hj2]
    rw [hfirst, List.takeWhile_append_of_pos (by
      intro c hc
      simpa using hnz c hc)]
    simp only [List.map_cons, Nat.add_zero, hend, List.map_map]
    rw [List.takeWhile_cons_of_neg (by simp)]
    simp
  · intro hpos
    show escape_load { t with escape_buffer := Function.update t.escape_buffer t.escape_pos 0 }
        ((t.escape_pos : Int) - 1) = _
    have hidx : (t.escape_pos : Int) - 1 = ((2 + (l.length - 1) : Nat) : Int) := by omega
    rw [hidx, hbuf (l.length - 1) (by omega)]

theorem terminal_base_foldl_push (l : List Nat) :
    ∀ t : terminal_t, terminal_base (l.foldl esc_push t) = terminal_base t := by
  induction l with
  | nil => intro t; rfl
  | cons c l ih => intro t; rw [List.foldl_cons, ih, terminal_base_esc_push]

/-- The loop of `terminal_write` in state CSI: the parameter bytes `rest` are buffered and
the final letter `fin` dispatches the sequence. -/
theorem parse_loop_csi (data : Nat → Nat) (k : kernel_state) (fin : Nat) (hfin : is_letter fin) :
    ∀ (rest acc : List Nat) (t : terminal_t) (j : Nat),
      csi_acc t acc → acc.length + rest.length < 30 →
      (∀ c ∈ rest, ¬ is_letter c) →
      (∀ m, m < rest.length → data (j + m) = rest.getD m 0) →
      data (j + rest.length) = fin →
      terminal_parse_loop data (rest.length + 1) j t k
        = (terminal_reset_escape_state (terminal_process_csi_sequence
              (esc_terminate (esc_push (rest.foldl esc_push t) fin)) k).2.1,
            (terminal_process_csi_sequence
              (esc_terminate (esc_push (rest.foldl esc_push t) fin)) k).2.2) ∧
      csi_acc (esc_push (rest.foldl esc_push t) fin) (acc ++ rest ++ [fin]) := by
  intro rest
  induction rest with
  | nil =>
    intro acc t j hacc hlen _ _ hd
    simp only [List.length_nil, Nat.add_zero] at hd hlen
    constructor
    · simp only [List.length_nil, Nat.zero_add, terminal_parse_loop, hd, List.foldl_nil,
        parse_csi_final t k fin hacc.1 hfin]
    · simpa using csi_acc_push t acc fin hacc (by omega)
  | cons c rest ih =>
    intro acc t j hacc hlen hnl hdata hd
    simp only [List.length_cons] at hlen hd hdata
    have hc : data j = c := by simpa using hdata 0 (by omega)
    have hacc2 := csi_acc_push t acc c hacc (by omega)
    obtain ⟨i1, i2⟩ := ih (acc ++ [c]) (esc_push t c) (j + 1) hacc2
      (by rw [List.length_append, List.length_singleton]; omega)
      (fun x hx => hnl x (List.mem_cons_of_mem _ hx))
      (fun m hm => by
        have := hdata (m + 1) (by omega)
        rw [List.getD_cons_succ] at this
        rw [← this]; congr 1; omega)
      (by rw [← hd]; congr 1; omega)
    constructor
    · have hstep : terminal_parse_loop data ((c :: rest).length + 1) j t k
          = terminal_parse_loop data (rest.length + 1) (j + 1)
              (terminal_parse_ansi_escape t (data j) k).2.1
              (terminal_parse_ansi_escape t (data j) k).2.2 := rfl
      rw [hstep, hc, parse_csi_param t k c hacc.1 (hnl c (List.mem_cons_self _ _))]
      exact i1
    · simpa using i2

/-- A whole CSI sequence ESC [ ps fin, parsed from the reset state: the bytes are buffered
and the final letter dispatches `terminal_process_csi_sequence` on a terminal whose
parameter string is `ps ++ [fin]`. -/
theorem parse_csi_sequence (t : terminal_t) (k : kernel_state) (ps : List Nat) (fin : Nat)
    (h0 : t.escape_state = ANSI_STATE_NONE) (hps : ∀ c ∈ ps, c ≠ 0 ∧ ¬ is_letter c)
    (hfin : is_letter fin) (hlen : ps.length < 29) :
    ∃ tz, terminal_parse_loop (bytes (27 :: 91 :: (ps ++ [fin]))) (ps.length + 3) 0 t k
        = (terminal_reset_escape_state (terminal_process_csi_sequence tz k).2.1,
            (terminal_process_csi_sequence tz k).2.2) ∧
      escape_params tz = ps ++ [fin] ∧
      escape_load tz ((tz.escape_pos : Int) - 1) = fin ∧
      terminal_base tz = terminal_base t := by
  have hfin0 : fin ≠ 0 := by unfold is_letter at hfin; omega
  have e1 := parse_esc t k h0
  have e2 : terminal_parse_ansi_escape (esc_start t) 91 k = (1, csi_start t, k) :=
    parse_bracket (esc_start t) k rfl
  have hstart := csi_acc_start t
  have hb2 : terminal_base (csi_start t) = terminal_base t := rfl
  generalize csi_start t = t2 at e2 hstart hb2
  obtain ⟨i1, i2⟩ := parse_loop_csi (bytes (27 :: 91 :: (ps ++ [fin]))) k fin hfin ps [] t2 2
    hstart (by simp only [List.length_nil]; omega) (fun c hc => (hps c hc).2)
    (fun m hm => by
      show (27 :: 91 :: (ps ++ [fin])).getD (2 + m) 0 = _
      rw [Nat.add_comm, List.getD_cons_succ, List.getD_cons_succ, List.getD_append _ _ _ _ hm])
    (by
      show (27 :: 91 :: (ps ++ [fin])).getD (2 + ps.length) 0 = _
      rw [Nat.add_comm, List.getD_cons_succ, List.getD_cons_succ,
        List.getD_append_right _ _ _ _ (le_refl _)]
      simp)
  obtain ⟨p1, p2⟩ := escape_params_terminated (esc_push (ps.foldl esc_push t2) fin)
    ([] ++ ps ++ [fin]) i2 (by simp; omega) (by
      intro c hc
      simp only [List.nil_append, List.mem_append, List.mem_singleton] at hc
      rcases hc with hc | hc
      · exact (hps c hc).1
      · rw [hc]; exact hfin0)
  refine ⟨esc_terminate (esc_push (ps.foldl esc_push t2) fin), ?_, ?_, ?_, ?_⟩
  · have hstep : terminal_parse_loop (bytes (27 :: 91 :: (ps ++ [fin]))) (ps.length + 3) 0 t k
        = terminal_parse_loop (bytes (27 :: 91 :: (ps ++ [fin]))) (ps.length + 1) 2
            (terminal_parse_ansi_escape
              (terminal_parse_ansi_escape t 27 k).2.1 91
              (terminal_parse_ansi_escape t 27 k).2.2).2.1
            (terminal_parse_ansi_escape
              (terminal_parse_ansi_escape t 27 k).2.1 91
              (terminal_parse_ansi_escape t 27 k).2.2).2.2 := rfl
    rw [hstep, e1]
    simp only [e2]
    exact i1
  · simpa using p1
  · have := p2 (by simp)
    simpa using this
  · rw [terminal_base_esc_terminate, terminal_base_esc_push, terminal_base_foldl_push, hb2]

/-- One iteration of the loop of `tty_write` whose byte is processed with result 0. -/
theorem tty_write_loop_step (process : Nat → kernel_state → Option (Int × kernel_state))
    (i : Nat) (data : Nat → Nat) (n j bw : Nat) (k k1 : kernel_state)
    (h : process (data j) k = some (0, k1)) :
    tty_write_loop process i data (n + 1) j bw k
      = tty_write_loop process i data n (j + 1) (bw + 1) (count_byte i k1) := by
  simp only [tty_write_loop, h, if_true]
  rfl

/-- `tty_write` on a Ready device, reduced to its loop. -/
theorem tty_write_ready (fuel i : Nat) (d : Nat → Nat) (size : Nat) (k : kernel_state)
    (hi : i < 8) (hst : (k.tty i).state = tty_state_t.TTY_STATE_READY) (hsz : size ≠ 0) :
    tty_write (fuel + 1) (i : Int) (some d) size k
      = (tty_write_loop
          (tty_process_output_char
            (fun m c k => tty_write fuel m (some (fun _ => c)) 1 k) fuel i)
          i d size 0 0 k).map (fun r => ((r.1 : Int), r.2)) := by
  have hopen : (k.tty i).state ≠ tty_state_t.TTY_STATE_CLOSED := by rw [hst]; decide
  have hne : ¬ ((k.tty i).state ≠ tty_state_t.TTY_STATE_READY) := by rw [hst]; decide
  simp only [tty_write, tty_get_device_open k i hi hopen, hsz, if_false, hne]

theorem ready_fg_step (i c : Nat) (k : kernel_state) (h : ready_fg i k) :
    ready_fg i (count_byte i (render i c k)) := by
  obtain ⟨hi, hmin, hst, hcur⟩ := h
  exact ⟨hi, by simp [hmin], by simp [hst], by simp [hcur]⟩

/-- The loop of `tty_write` over plain bytes on the foreground device. -/
theorem tty_write_loop_plain (putchar : Int → Nat → kernel_state → Option (Int × kernel_state))
    (fuel i : Nat) (d : Nat → Nat) :
    ∀ (rest : List Nat) (j bw : Nat) (k : kernel_state), ready_fg i k →
      (∀ c ∈ rest, c ≠ 9 ∧ c ≠ 10) →
      (∀ m, m < rest.length → d (j + m) = rest.getD m 0) →
      tty_write_loop (tty_process_output_char putchar (fuel + 1) i) i d rest.length j bw k
        = some (bw + rest.length, write_plain i rest k) := by
  intro rest
  induction rest with
  | nil => intro j bw k _ _ _; rfl
  | cons c rest ih =>
    intro j bw k h hc hd
    have hcj : d j = c := by simpa using hd 0 (by simp)
    have hp := process_plain_fg putchar fuel i c k (by rw [h.2.1, h.2.2.2])
      (Or.inl (hc c (List.mem_cons_self _ _)).2) (hc c (List.mem_cons_self _ _)).1
    rw [← hcj] at hp
    rw [List.length_cons, tty_write_loop_step _ i d rest.length j bw k _ hp, hcj,
      ih (j + 1) (bw + 1) _ (ready_fg_step i c k h)
        (fun x hx => hc x (List.mem_cons_of_mem _ hx))
        (fun m hm => by
          have := hd (m + 1) (by simp only [List.length_cons]; omega)
          rw [List.getD_cons_succ] at this
          rw [← this]; congr 1; omega)]
    simp only [write_plain, List.foldl_cons, Option.some.injEq, Prod.mk.injEq, and_true]
    omega

/-- Writing the plain bytes `l` to the Ready foreground device: all are written and each is
rendered. -/
theorem tty_write_plain (fuel i : Nat) (l : List Nat) (k : kernel_state) (h : ready_fg i k)
    (hne : l ≠ []) (hc : ∀ c ∈ l, c ≠ 9 ∧ c ≠ 10) :
    tty_write (fuel + 2) (i : Int) (some (bytes l)) l.length k
      = some ((l.length : Int), write_plain i l k) := by
  have hsz : l.length ≠ 0 := by
    intro h0; exact hne (List.length_eq_zero.mp h0)
  rw [tty_write_ready (fuel + 1) i (bytes l) l.length k h.1 h.2.2.1 hsz,
    tty_write_loop_plain _ fuel i (bytes l) l 0 0 k h hc (fun m _ => by rw [Nat.zero_add]; rfl)]
  simp

theorem write_plain_facts (i : Nat) (l : List Nat) :
    ∀ k : kernel_state,
      (write_plain i l k).display_trace = k.display_trace ++ l ∧
      (write_plain i l k).vga_state
        = vga_write_plain (k.tty i).foreground_color (k.tty i).background_color l k.vga_state ∧
      (write_plain i l k).tty_manager.current_tty = k.tty_manager.current_tty := by
  induction l with
  | nil => intro k; exact ⟨by simp [write_plain], rfl, rfl⟩
  | cons c l ih =>
    intro k
    obtain ⟨i1, i2, i3⟩ := ih (count_byte i (render i c k))
    refine ⟨?_, ?_, ?_⟩
    · show (write_plain i l (count_byte i (render i c k))).display_trace = _
      rw [i1]; simp
    · show (write_plain i l (count_byte i (render i c k))).vga_state = _
      rw [i2]; simp [vga_write_plain]
    · show (write_plain i l (count_byte i (render i c k))).tty_manager.current_tty = _
      rw [i3]; simp

theorem vga_put_char_notab_printable (ch : Nat) (s : vga_state_t) (hp : printable ch) :
    vga_put_char_notab ch s = vga_put_printable ch s := by
  unfold vga_put_char_notab
  rw [vga_put_char_printable 0 ch s hp]
  rfl

/-- A byte that is neither a control character of `vga_put_char` nor printable (such as
ESC) draws nothing and does not move the cursor. -/
theorem vga_put_char_notab_ignored (ch : Nat) (s : vga_state_t) (h1 : ch ≠ 10) (h2 : ch ≠ 9)
    (h3 : ch ≠ 8) (h4 : ch ≠ 13) (h5 : ¬ printable ch) :
    vga_put_char_notab ch s = vga_show_cursor s := by
  unfold vga_put_char_notab
  unfold printable at h5
  have h6 : ¬ (ch ≥ 32 ∧ ch ≤ 126) := h5
  simp only [vga_put_char, h1, h2, h3, h4, h6, if_false, Option.map_some', Option.getD_some]

/-- Rendering printable bytes inside one row: the cursor advances by their number, each is
stored in its cell in the device colour, and the cells before the cursor keep their
contents. -/
theorem vga_write_plain_inrow (fg bg : Nat) (l : List Nat) :
    ∀ v : vga_state_t, (∀ c ∈ l, printable c) → v.cursor.x + l.length < 80 → v.cursor.y < 25 →
      (vga_write_plain fg bg l v).cursor = { x := v.cursor.x + l.length, y := v.cursor.y } ∧
      (∀ m, m < l.length →
        (vga_write_plain fg bg l v).buffer (v.cursor.y * 80 + v.cursor.x + m)
          = { character := l.getD m 0, color := vga_make_color fg bg }) ∧
      (∀ p, (p < v.cursor.y * 80 + v.cursor.x ∨ v.cursor.y * 80 + v.cursor.x + l.length ≤ p) →
        (vga_write_plain fg bg l v).buffer p = v.buffer p) := by
  induction l with
  | nil =>
    intro v _ _ _
    exact ⟨rfl, fun m hm => absurd hm (by simp), fun p _ => rfl⟩
  | cons c l ih =>
    intro v hp hx hy
    simp only [List.length_cons] at hx
    have hstep : vga_write_plain fg bg (c :: l) v
        = vga_write_plain fg bg l (vga_put_printable c (vga_set_color fg bg v)) := by
      show vga_write_plain fg bg l (vga_put_char_notab c (vga_set_color fg bg v)) = _
      rw [vga_put_char_notab_printable c _ (hp c (List.mem_cons_self _ _))]
    have h1 := vga_put_printable_inrow c (vga_set_color fg bg v)
      (by show v.cursor.x + 1 < 80; omega)
    generalize vga_put_printable c (vga_set_color fg bg v) = v1 at hstep h1
    have hc1 : v1.cursor = { x := v.cursor.x + 1, y := v.cursor.y } := by rw [h1]; rfl
    have hb1 : v1.buffer = Function.update v.buffer (v.cursor.y * 80 + v.cursor.x)
        { character := c, color := vga_make_color fg bg } := by
      rw [h1]
      have hx2 : ¬ (v.cursor.x ≥ 80 ∨ v.cursor.y ≥ 25) := by omega
      simp only [vga_put_char_at, vga_set_color, VGA_WIDTH, VGA_HEIGHT, hx2, if_false]
    obtain ⟨i1, i2, i3⟩ := ih v1 (fun x hx => hp x (List.mem_cons_of_mem _ hx))
      (by rw [hc1]; show v.cursor.x + 1 + l.length < 80; omega) (by rw [hc1]; exact hy)
    rw [hc1] at i1 i2 i3
    simp only at i1 i2 i3
    rw [hstep]
    refine ⟨?_, ?_, ?_⟩
    · rw [i1]; simp only [List.length_cons, vga_cursor_t.mk.injEq, and_true]; omega
    · intro m hm
      simp only [List.length_cons] at hm
      cases m with
      | zero =>
        rw [i3 _ (Or.inl (by omega)), hb1, Nat.add_zero, Function.update_same]
        rfl
      | succ m =>
        have := i2 m (by omega)
        rw [List.getD_cons_succ, ← this]
        congr 1; omega
    · intro p hp2
      simp only [List.length_cons] at hp2
      rw [i3 p (by omega), hb1, Function.update_noteq (by omega)]

theorem tty_clear_fg (i : Nat) (k : kernel_state) (h : ready_fg i k) :
    (tty_clear (i : Int) k).2 = cleared i k := by
  obtain ⟨hi, hmin, hst, hcur⟩ := h
  have hopen : (k.tty i).state ≠ tty_state_t.TTY_STATE_CLOSED := by rw [hst]; decide
  have hfg : (k.tty i).minor = k.tty_manager.current_tty := by rw [hmin, hcur]
  simp only [tty_clear, tty_get_device_open k i hi hopen]
  rw [if_pos hfg]
  rfl

theorem tty_set_cursor_fg (i x y : Nat) (k : kernel_state) (h : ready_fg i k) :
    (tty_set_cursor (i : Int) x y k).2 = cursor_set i x y k := by
  obtain ⟨hi, hmin, hst, hcur⟩ := h
  have hopen : (k.tty i).state ≠ tty_state_t.TTY_STATE_CLOSED := by rw [hst]; decide
  simp only [tty_set_cursor, tty_get_device_open k i hi hopen]
  rw [if_pos (by simp [hmin, hcur])]
  rfl

@[simp]
theorem cleared_tty (i : Nat) (k : kernel_state) :
    (cleared i k).tty i = { k.tty i with cursor := { x := 0, y := 0 } } := by
  unfold cleared
  simp only [kernel_state.tty, kernel_state.set_tty, Function.update_same]

@[simp]
theorem cleared_vga_state (i : Nat) (k : kernel_state) :
    (cleared i k).vga_state = vga_clear k.vga_state := rfl

@[simp]
theorem cleared_display_trace (i : Nat) (k : kernel_state) :
    (cleared i k).display_trace = k.display_trace := rfl

@[simp]
theorem cleared_current_tty (i : Nat) (k : kernel_state) :
    (cleared i k).tty_manager.current_tty = k.tty_manager.current_tty := rfl

@[simp]
theorem cursor_set_tty (i x y : Nat) (k : kernel_state) :
    (cursor_set i x y k).tty i = { k.tty i with cursor := { x := x % 256, y := y % 256 } } := by
  show (k.set_tty i { k.tty i with cursor := { x := x % 256, y := y % 256 } }).tty i = _
  simp only [set_tty_tty_same]

@[simp]
theorem cursor_set_vga_state (i x y : Nat) (k : kernel_state) :
    (cursor_set i x y k).vga_state = vga_set_cursor x y k.vga_state := rfl

@[simp]
theorem cursor_set_display_trace (i x y : Nat) (k : kernel_state) :
    (cursor_set i x y k).display_trace = k.display_trace := rfl

@[simp]
theorem cursor_set_current_tty (i x y : Nat) (k : kernel_state) :
    (cursor_set i x y k).tty_manager.current_tty = k.tty_manager.current_tty := rfl

/-- Dispatch of the sequence with parameter string "2J": the bound device is cleared. -/
theorem dispatch_clear_screen (tz : terminal_t) (k : kernel_state)
    (hp : escape_params tz = [50, 74]) (hcmd : escape_load tz ((tz.escape_pos : Int) - 1) = 74) :
    terminal_process_csi_sequence tz k = (0, tz, (tty_clear tz.tty_minor k).2) := by
  have hs : sscanf_params [50, 74] 1 1 = (2, 1) := by decide
  simp only [terminal_process_csi_sequence, hcmd, hp, terminal_execute_control, hs,
    terminal_clear_screen]
  rfl

/-- Dispatch of the sequence with parameter string "5;10H": the terminal cursor becomes
column 9, row 4 and is handed to `tty_set_cursor`. -/
theorem dispatch_cursor_home (tz : terminal_t) (k : kernel_state)
    (hp : escape_params tz = [53, 59, 49, 48, 72])
    (hcmd : escape_load tz ((tz.escape_pos : Int) - 1) = 72) :
    terminal_process_csi_sequence tz k
      = (0, { tz with cursor := { x := 9, y := 4 } }, (tty_set_cursor tz.tty_minor 9 4 k).2) := by
  have hs : sscanf_params [53, 59, 49, 48, 72] 1 1 = (5, 10) := by decide
  simp only [terminal_process_csi_sequence, hcmd, hp, terminal_execute_control, hs]
  rfl

theorem terminal_write_unfold (fuel : Nat) (t : terminal_t) (d : Nat → Nat) (size : Nat)
    (k : kernel_state) (hsz : size ≠ 0) :
    terminal_write fuel (some t) (some d) size k
      = (tty_write fuel (terminal_parse_loop d size 0 t k).1.tty_minor (some d) size
          (terminal_parse_loop d size 0 t k).2).map
          (fun w => (w.1, some (terminal_parse_loop d size 0 t k).1, w.2)) := by
  simp only [terminal_write, hsz, if_false]

theorem vga_clear_cursor (s : vga_state_t) : (vga_clear s).cursor = { x := 0, y := 0 } := by
  show (vga_set_cursor 0 0 _).cursor = _
  simp [vga_set_cursor, VGA_WIDTH, VGA_HEIGHT]

theorem vga_set_cursor_cursor (x y : Nat) (s : vga_state_t) (hx : x < 80) (hy : y < 25) :
    (vga_set_cursor x y s).cursor = { x := x, y := y } ∧
    (vga_set_cursor x y s).buffer = s.buffer := by
  have e1 : x % 256 = x := by omega
  have e2 : y % 256 = y := by omega
  have e3 : ¬ (x ≥ 80) := by omega
  have e4 : ¬ (y ≥ 25) := by omega
  simp only [vga_set_cursor, VGA_WIDTH, VGA_HEIGHT, e1, e2, e3, e4, if_false, and_self]

/-- ESC followed by printable bytes that fit in the row, rendered on the display: the ESC
draws nothing, the printable bytes are drawn from the cursor on. -/
theorem vga_write_plain_esc (fg bg : Nat) (l : List Nat) (v : vga_state_t)
    (hp : ∀ c ∈ l, printable c) (hx : v.cursor.x + l.length < 80) (hy : v.cursor.y < 25) :
    (vga_write_plain fg bg (27 :: l) v).cursor
      = { x := v.cursor.x + l.length, y := v.cursor.y } ∧
    (∀ m, m < l.length →
      (vga_write_plain fg bg (27 :: l) v).buffer (v.cursor.y * 80 + v.cursor.x + m)
        = { character := l.getD m 0, color := vga_make_color fg bg }) ∧
    (∀ p, (p < v.cursor.y * 80 + v.cursor.x ∨ v.cursor.y * 80 + v.cursor.x + l.length ≤ p) →
      (vga_write_plain fg bg (27 :: l) v).buffer p = v.buffer p) := by
  have hstep : vga_write_plain fg bg (27 :: l) v
      = vga_write_plain fg bg l (vga_show_cursor (vga_set_color fg bg v)) := by
    show vga_write_plain fg bg l (vga_put_char_notab 27 (vga_set_color fg bg v)) = _
    rw [vga_put_char_notab_ignored 27 _ (by decide) (by decide) (by decide) (by decide)
      (by decide)]
  rw [hstep]
  exact vga_write_plain_inrow fg bg l (vga_show_cursor (vga_set_color fg bg v)) hp hx hy

/-- Writing ESC [ 2 J through `terminal_write` to a terminal bound to the Ready foreground
device: the display is cleared by the dispatch, and then the forwarded bytes `[`, `2`, `J`
are drawn in the first three cells and move the cursor to column 3. -/
theorem write_clear_screen (fuel i : Nat) (t : terminal_t) (k : kernel_state)
    (h0 : t.escape_state = ANSI_STATE_NONE) (hmin : t.tty_minor = (i : Int))
    (h : ready_fg i k) :
    ∃ t2 k2, terminal_write (fuel + 2) (some t) (some (bytes [27, 91, 50, 74])) 4 k
        = some (4, some t2, k2) ∧
      k2.vga_state.cursor = { x := 3, y := 0 } ∧
      k2.vga_state.buffer 0
        = { character := 91
            color := vga_make_color (k.tty i).foreground_color (k.tty i).background_color } ∧
      k2.vga_state.buffer 1
        = { character := 50
            color := vga_make_color (k.tty i).foreground_color (k.tty i).background_color } ∧
      k2.vga_state.buffer 2
        = { character := 74
            color := vga_make_color (k.tty i).foreground_color (k.tty i).background_color } ∧
      (∀ p, 3 ≤ p → p < 2000 →
        k2.vga_state.buffer p = { character := 32, color := k.vga_state.current_color }) ∧
      k2.display_trace = k.display_trace ++ [27, 91, 50, 74] := by
  obtain ⟨tz, hloop, hpar, hcmd, hbase⟩ := parse_csi_sequence t k [50] 74 h0
    (by intro c hc; rw [List.mem_singleton] at hc; subst hc; decide) (by decide) (by decide)
  have hminz : tz.tty_minor = (i : Int) := by
    have := congrArg Prod.fst hbase
    exact this.trans hmin
  rw [dispatch_clear_screen tz k hpar hcmd, hminz, tty_clear_fg i k h] at hloop
  have hloop2 : terminal_parse_loop (bytes [27, 91, 50, 74]) 4 0 t k
      = (terminal_reset_escape_state tz, cleared i k) := hloop
  obtain ⟨hi, hm, hst, hcur⟩ := h
  have hr : ready_fg i (cleared i k) := ⟨hi, by simp [hm], by simp [hst], by simp [hcur]⟩
  have hw := tty_write_plain fuel i [27, 91, 50, 74] (cleared i k) hr (by simp) (by decide)
  obtain ⟨f1, f2, _⟩ := write_plain_facts i [27, 91, 50, 74] (cleared i k)
  obtain ⟨v1, v2, v3⟩ := vga_write_plain_esc (k.tty i).foreground_color
    (k.tty i).background_color [91, 50, 74] (vga_clear k.vga_state)
    (by decide) (by rw [vga_clear_cursor]; decide) (by rw [vga_clear_cursor]; decide)
  rw [vga_clear_cursor] at v1 v2 v3
  simp only [cleared_tty, cleared_vga_state, cleared_display_trace] at f1 f2
  refine ⟨terminal_reset_escape_state tz, write_plain i [27, 91, 50, 74] (cleared i k),
    ?_, ?_, ?_, ?_, ?_, ?_, ?_⟩
  · rw [terminal_write_unfold _ _ _ _ _ (by decide), hloop2]
    show Option.map _ (tty_write (fuel + 2) tz.tty_minor _ _ _) = _
    rw [hminz]
    have hw2 : tty_write (fuel + 2) (i : Int) (some (bytes [27, 91, 50, 74])) 4 (cleared i k)
        = some (4, write_plain i [27, 91, 50, 74] (cleared i k)) := hw
    rw [hw2]
    rfl
  · rw [f2, v1]; rfl
  · rw [f2]; simpa using v2 0 (by decide)
  · rw [f2]; simpa using v2 1 (by decide)
  · rw [f2]; simpa using v2 2 (by decide)
  · intro p hp1 hp2
    rw [f2, v3 p (Or.inr (by simpa using hp1)), vga_clear_buffer, if_pos hp2]
  · exact f1

/-- Writing ESC [ 5 ; 1 0 H through `terminal_write` to a terminal bound to the Ready
foreground device: the dispatch puts the display cursor at row 4, column 9, and then the
forwarded bytes `[5;10H` are drawn in row 4 from column 9 on and leave the cursor at
column 15. -/
theorem write_cursor_home (fuel i : Nat) (t : terminal_t) (k : kernel_state)
    (h0 : t.escape_state = ANSI_STATE_NONE) (hmin : t.tty_minor = (i : Int))
    (h : ready_fg i k) :
    ∃ t2 k2, terminal_write (fuel + 2) (some t) (some (bytes [27, 91, 53, 59, 49, 48, 72])) 7 k
        = some (7, some t2, k2) ∧
      t2.cursor = { x := 9, y := 4 } ∧
      k2.vga_state.cursor = { x := 15, y := 4 } ∧
      (∀ m, m < 6 → (k2.vga_state.buffer (329 + m)).character
        = [91, 53, 59, 49, 48, 72].getD m 0) ∧
      k2.display_trace = k.display_trace ++ [27, 91, 53, 59, 49, 48, 72] := by
  obtain ⟨tz, hloop, hpar, hcmd, hbase⟩ := parse_csi_sequence t k [53, 59, 49, 48] 72 h0
    (by
      intro c hc
      simp only [List.mem_cons, List.mem_singleton, List.not_mem_nil, or_false] at hc
      rcases hc with rfl | rfl | rfl | rfl <;> decide)
    (by decide) (by decide)
  have hminz : tz.tty_minor = (i : Int) := by
    have := congrArg Prod.fst hbase
    exact this.trans hmin
  have hsc : (tty_set_cursor tz.tty_minor 9 4 k).2 = cursor_set i 9 4 k := by
    rw [hminz]; exact tty_set_cursor_fg i 9 4 k h
  rw [dispatch_cursor_home tz k hpar hcmd, hsc] at hloop
  have hloop2 : terminal_parse_loop (bytes [27, 91, 53, 59, 49, 48, 72]) 7 0 t k
      = (terminal_reset_escape_state { tz with cursor := { x := 9, y := 4 } },
          cursor_set i 9 4 k) := hloop
  obtain ⟨hi, hm, hst, hcur⟩ := h
  have hr : ready_fg i (cursor_set i 9 4 k) :=
    ⟨hi, by simp [hm], by simp [hst], by simp [hcur]⟩
  have hw := tty_write_plain fuel i [27, 91, 53, 59, 49, 48, 72] (cursor_set i 9 4 k) hr
    (by simp) (by decide)
  obtain ⟨f1, f2, _⟩ := write_plain_facts i [27, 91, 53, 59, 49, 48, 72] (cursor_set i 9 4 k)
  obtain ⟨c1, _⟩ := vga_set_cursor_cursor 9 4 k.vga_state (by decide) (by decide)
  obtain ⟨v1, v2, _⟩ := vga_write_plain_esc (k.tty i).foreground_color
    (k.tty i).background_color [91, 53, 59, 49, 48, 72] (vga_set_cursor 9 4 k.vga_state)
    (by decide) (by rw [c1]; decide) (by rw [c1]; decide)
  rw [c1] at v1 v2
  simp only [cursor_set_tty, cursor_set_vga_state, cursor_set_display_trace] at f1 f2
  refine ⟨terminal_reset_escape_state { tz with cursor := { x := 9, y := 4 } },
    write_plain i [27, 91, 53, 59, 49, 48, 72] (cursor_set i 9 4 k), ?_, rfl, ?_, ?_, f1⟩
  · rw [terminal_write_unfold _ _ _ _ _ (by decide), hloop2]
    show Option.map _ (tty_write (fuel + 2) tz.tty_minor _ _ _) = _
    rw [hminz]
    have hw2 : tty_write (fuel + 2) (i : Int) (some (bytes [27, 91, 53, 59, 49, 48, 72])) 7
        (cursor_set i 9 4 k)
        = some (7, write_plain i [27, 91, 53, 59, 49, 48, 72] (cursor_set i 9 4 k)) := hw
    rw [hw2]
    rfl
  · rw [f2, v1]; rfl
  · intro m hm6
    rw [f2]
    have := v2 m (by simpa using hm6)
    have h329 : 329 + m = 4 * 80 + 9 + m := by omega
    rw [h329]
    simp only at this
    rw [this]

/-- C7, failing input: ESC [ 2 J written through `terminal_write` to the console terminal
(bound to the Ready foreground device tty0). The display is cleared, but the bytes are
also forwarded to `tty_write`: `[`, `2` and `J` are drawn in cells 0, 1, 2 and the cursor
ends at column 3. -/
theorem C7_clear_sequence_bytes_are_drawn (fuel : Nat) :
    ∃ t2 k2, terminal_write (fuel + 2) (some console_terminal)
        (some (bytes [27, 91, 50, 74])) 4 (console_state default_tty_config 0 0 0)
        = some (4, some t2, k2) ∧
      k2.vga_state.buffer 0 = { character := 91, color := 7 } ∧
      k2.vga_state.buffer 1 = { character := 50, color := 7 } ∧
      k2.vga_state.buffer 2 = { character := 74, color := 7 } ∧
      k2.vga_state.cursor = { x := 3, y := 0 } ∧
      k2.display_trace = [27, 91, 50, 74] := by
  obtain ⟨t2, k2, h1, h2, h3, h4, h5, _, h7⟩ := write_clear_screen fuel 0 console_terminal
    (console_state default_tty_config 0 0 0) rfl rfl ⟨by decide, rfl, rfl, rfl⟩
  exact ⟨t2, k2, h1, h3, h4, h5, h2, h7⟩

/-- C8, failing input: ESC [ 5 ; 1 0 H written through `terminal_write` to the console
terminal. The terminal cursor becomes row 4, column 9, but the forwarded bytes `[5;10H`
are drawn from there on and the display cursor ends at row 4, column 15. -/
theorem C8_cursor_sequence_bytes_move_cursor (fuel : Nat) :
    ∃ t2 k2, terminal_write (fuel + 2) (some console_terminal)
        (some (bytes [27, 91, 53, 59, 49, 48, 72])) 7 (console_state default_tty_config 0 0 0)
        = some (7, some t2, k2) ∧
      t2.cursor = { x := 9, y := 4 } ∧
      k2.vga_state.cursor = { x := 15, y := 4 } ∧
      k2.vga_state.cursor ≠ { x := 9, y := 4 } ∧
      k2.display_trace = [27, 91, 53, 59, 49, 48, 72] := by
  obtain ⟨t2, k2, h1, h2, h3, _, h5⟩ := write_cursor_home fuel 0 console_terminal
    (console_state default_tty_config 0 0 0) rfl rfl ⟨by decide, rfl, rfl, rfl⟩
  exact ⟨t2, k2, h1, h2, h3, by rw [h3]; decide, h5⟩

theorem ring_contents_length (l : tty_line_discipline_t) :
    (ring_contents l).length = l.input_count := by
  simp [ring_contents]

theorem ring_contents_getElem (l : tty_line_discipline_t) (j : Nat)
    (h : j < (ring_contents l).length) :
    (ring_contents l)[j] = l.input_buffer ((l.input_head + j) % 4096) := by
  simp [ring_contents]

/-- `tty_buffer_putchar` on a ring that is not full appends the byte. -/
theorem ring_push (l : tty_line_discipline_t) (ch : Nat) (h : ring_inv l)
    (hroom : l.input_count < 4096) :
    (tty_buffer_putchar l TTY_BUFFER_SIZE ch).1 = 0 ∧
    ring_inv (tty_buffer_putchar l TTY_BUFFER_SIZE ch).2 ∧
    ring_contents (tty_buffer_putchar l TTY_BUFFER_SIZE ch).2 = ring_contents l ++ [ch] ∧
    (tty_buffer_putchar l TTY_BUFFER_SIZE ch).2.input_count = l.input_count + 1 ∧
    (tty_buffer_putchar l TTY_BUFFER_SIZE ch).2.line_buffer = l.line_buffer ∧
    (tty_buffer_putchar l TTY_BUFFER_SIZE ch).2.line_count = l.line_count ∧
    (tty_buffer_putchar l TTY_BUFFER_SIZE ch).2.line_pos = l.line_pos := by
  obtain ⟨h1, h2, h3⟩ := h
  have hnf : ¬ (l.input_count ≥ TTY_BUFFER_SIZE) := by
    show ¬ (l.input_count ≥ 4096); omega
  have hc : (l.input_count + 1) % 65536 = l.input_count + 1 := by omega
  have heq : (tty_buffer_putchar l TTY_BUFFER_SIZE ch).2
      = { l with
          input_buffer := Function.update l.input_buffer l.input_tail ch
          input_tail := (l.input_tail + 1) % 4096
          input_count := l.input_count + 1 } := by
    have hnf2 : ¬ (l.input_count ≥ 4096) := hnf
    simp only [tty_buffer_putchar, hnf2, if_false, hc, TTY_BUFFER_SIZE]
  refine ⟨by simp only [tty_buffer_putchar, hnf, if_false], ?_, ?_, ?_, ?_, ?_, ?_⟩
  · rw [heq]
    exact ⟨h1, by show l.input_count + 1 ≤ 4096; omega,
      by show (l.input_tail + 1) % 4096 = (l.input_head + (l.input_count + 1)) % 4096; omega⟩
  · rw [heq]
    apply List.ext_getElem
    · simp [ring_contents_length]
    · intro j hj1 hj2
      rw [ring_contents_getElem]
      rw [ring_contents_length] at hj1
      show Function.update l.input_buffer l.input_tail ch ((l.input_head + j) % 4096) = _
      by_cases hj : j < l.input_count
      · rw [List.getElem_append_left (by rw [ring_contents_length]; exact hj),
          ring_contents_getElem, Function.update_noteq (by omega)]
      · have hj' : j = l.input_count := by
          have : j < l.input_count + 1 := hj1
          omega
        rw [List.getElem_append_right (by rw [ring_contents_length]; omega)]
        simp only [List.getElem_singleton]
        have : (l.input_head + j) % 4096 = l.input_tail := by omega
        rw [this, Function.update_same]
  · rw [heq]
  · rw [heq]
  · rw [heq]
  · rw [heq]

/-- The copy loop of the CR/LF case appends the line buffer to the input ring when there
is room for it. -/
theorem copy_line_spec : ∀ (n j : Nat) (l : tty_line_discipline_t), ring_inv l →
    l.input_count + n ≤ 4096 →
    ring_inv (tty_copy_line n j l) ∧
    ring_contents (tty_copy_line n j l)
      = ring_contents l ++ (List.range n).map (fun m => l.line_buffer (j + m)) ∧
    (tty_copy_line n j l).input_count = l.input_count + n ∧
    (tty_copy_line n j l).line_buffer = l.line_buffer := by
  intro n
  induction n with
  | zero =>
    intro j l h _
    exact ⟨h, by simp [tty_copy_line], rfl, rfl⟩
  | succ n ih =>
    intro j l h hroom
    obtain ⟨_, p2, p3, p4, p5, _, _⟩ := ring_push l (l.line_buffer j) h (by omega)
    obtain ⟨i1, i2, i3, i4⟩ := ih (j + 1)
      (tty_buffer_putchar l TTY_BUFFER_SIZE (l.line_buffer j)).2 p2 (by rw [p4]; omega)
    have hstep : tty_copy_line (n + 1) j l
        = tty_copy_line n (j + 1) (tty_buffer_putchar l TTY_BUFFER_SIZE (l.line_buffer j)).2 :=
      rfl
    rw [hstep]
    refine ⟨i1, ?_, ?_, ?_⟩
    · rw [i2, p3, p5, List.range_succ_eq_map, List.map_cons, List.map_map, List.append_assoc]
      show ring_contents l ++ ([l.line_buffer j] ++ _) = ring_contents l ++ (_ :: _)
      congr 1
      show l.line_buffer j :: _ = l.line_buffer (j + 0) :: _
      congr 1
      apply List.map_congr_left
      intro m _
      show l.line_buffer (j + 1 + m) = l.line_buffer (j + (m + 1))
      congr 1; omega
    · rw [i3, p4]; omega
    · rw [i4, p5]

/-- Writing a line feed on a cooked device with CR-LF translation that is not in the
foreground: two bytes are counted, nothing is rendered. -/
theorem putchar_crlf_bg (fuel i : Nat) (k : kernel_state) (h : ready_dev i k)
    (hbg : k.tty_manager.current_tty ≠ (i : Int))
    (hm : (k.tty i).mode = tty_mode_t.TTY_MODE_COOKED) (hcrlf : (k.tty i).config.crlf ≠ 0) :
    tty_putchar (fuel + 2) (i : Int) 10 k = some (1, count_byte i (count_byte i k)) := by
  have h13 := putchar_plain_bg fuel i 13 k h hbg (Or.inl (by decide)) (by decide)
  obtain ⟨hi, hmin, hst⟩ := h
  apply tty_write_one (fuel + 1) i 10 k _ hi hst
  unfold tty_process_output_char tty_line_discipline_output
  unfold tty_putchar at h13
  have h109 : ¬ ((10 : Nat) = 9) := by decide
  have hbg2 : ¬ ((i : Int) = k.tty_manager.current_tty) := fun e => hbg e.symm
  simp only [hm, if_true, hcrlf, ne_eq, not_false_eq_true, and_self, hmin, h13, Option.map_some',
    count_byte_tty, h109, and_false, if_false, count_byte_current_tty, hbg2]

theorem putchar_frame (fuel i c : Nat) (k : kernel_state) (h : ready_dev i k) (hc : c ≠ 9) :
    ∃ r k2, tty_putchar (fuel + 3) (i : Int) c k = some (r, k2) ∧ echo_frame i k k2 := by
  by_cases hfg : k.tty_manager.current_tty = (i : Int)
  · by_cases hsp : c = 10 ∧ (k.tty i).config.crlf ≠ 0 ∧ (k.tty i).mode = tty_mode_t.TTY_MODE_COOKED
    · obtain ⟨rfl, h2, h3⟩ := hsp
      refine ⟨_, _, putchar_crlf_fg fuel i k ⟨h.1, h.2.1, h.2.2, hfg⟩ h3 h2, ?_⟩
      simp [echo_frame, input_frame]
    · refine ⟨_, _, putchar_plain_fg (fuel + 1) i c k ⟨h.1, h.2.1, h.2.2, hfg⟩ ?_ hc, ?_⟩
      · by_cases h1 : c = 10
        · by_cases h2 : (k.tty i).config.crlf = 0
          · exact Or.inr (Or.inl h2)
          · right; right
            cases hmode : (k.tty i).mode with
            | TTY_MODE_COOKED => exact absurd ⟨h1, h2, hmode⟩ hsp
            | TTY_MODE_RAW => rfl
        · exact Or.inl h1
      · simp [echo_frame, input_frame]
  · by_cases hsp : c = 10 ∧ (k.tty i).config.crlf ≠ 0 ∧ (k.tty i).mode = tty_mode_t.TTY_MODE_COOKED
    · obtain ⟨rfl, h2, h3⟩ := hsp
      refine ⟨_, _, putchar_crlf_bg (fuel + 1) i k h hfg h3 h2, ?_⟩
      simp [echo_frame, input_frame]
    · refine ⟨_, _, putchar_plain_bg (fuel + 2) i c k h hfg ?_ hc, ?_⟩
      · by_cases h1 : c = 10
        · by_cases h2 : (k.tty i).config.crlf = 0
          · exact Or.inr (Or.inl h2)
          · right; right
            cases hmode : (k.tty i).mode with
            | TTY_MODE_COOKED => exact absurd ⟨h1, h2, hmode⟩ hsp
            | TTY_MODE_RAW => rfl
        · exact Or.inl h1
      · simp [echo_frame, input_frame]

theorem ready_dev_of_frame (i : Nat) (k k2 : kernel_state) (h : ready_dev i k)
    (hf : input_frame i k k2) : ready_dev i k2 := by
  obtain ⟨_, _, f3, f4, _, _⟩ := hf
  exact ⟨h.1, by rw [f4]; exact h.2.1, by rw [f3]; exact h.2.2⟩

theorem input_frame_trans (i : Nat) (k k1 k2 : kernel_state) (h1 : input_frame i k k1)
    (h2 : input_frame i k1 k2) : input_frame i k k2 := by
  unfold input_frame at h1 h2 ⊢
  refine ⟨?_, ?_, ?_, ?_, ?_, ?_⟩
  · rw [h2.1, h1.1]
  · rw [h2.2.1, h1.2.1]
  · rw [h2.2.2.1, h1.2.2.1]
  · rw [h2.2.2.2.1, h1.2.2.2.1]
  · rw [h2.2.2.2.2.1, h1.2.2.2.2.1]
  · rw [h2.2.2.2.2.2, h1.2.2.2.2.2]

/-- One ordinary character (not CR, LF, backspace or tab) typed on a Ready cooked device
with room in the line buffer: it is stored at the line position, whatever the echo does. -/
theorem input_plain_step (fuel i c : Nat) (k : kernel_state) (h : ready_dev i k)
    (hm : (k.tty i).mode = tty_mode_t.TTY_MODE_COOKED)
    (h1 : c ≠ 10) (h2 : c ≠ 13) (h3 : c ≠ 8) (h4 : c ≠ 9)
    (hroom : (k.tty i).line.line_count < 1023) :
    ∃ k2, tty_input_char (fuel + 3) (i : Int) c k = some (0, k2) ∧ input_frame i k k2 ∧
      (k2.tty i).line = ((append_char i c k).tty i).line := by
  have hroom2 : (k.tty i).line.line_count < TTY_MAX_LINE_LENGTH - 1 := hroom
  rw [tty_input_char_cooked _ i c k h hm, input_default_unfold _ i c k h1 h2 h3,
    if_pos hroom2]
  by_cases hecho : ((append_char i c k).tty i).config.echo ≠ 0
  · rw [if_pos hecho]
    have hr : ready_dev i (append_char i c k) :=
      ⟨h.1, by simp [h.2.1], by simp [h.2.2]⟩
    obtain ⟨r, k1, hp, hl, f1, f2, f3, f4, f5, f6⟩ := putchar_frame fuel i c _ hr h4
    have e1 : ((append_char i c k).tty i).minor = (i : Int) := hr.2.1
    rw [e1, hp]
    refine ⟨count_char i k1, rfl, ?_, ?_⟩
    · refine ⟨?_, ?_, ?_, ?_, ?_, ?_⟩
      · simp [f1]
      · simp [f2]
      · simp [f3]
      · simp [f4]
      · simp [f5]
      · simp [f6]
    · simp [hl]
  · rw [if_neg hecho]
    refine ⟨count_char i (append_char i c k), rfl, ?_, ?_⟩
    · refine ⟨?_, ?_, ?_, ?_, ?_, ?_⟩ <;> simp
    · simp

/-- A line end typed on a Ready cooked device: whatever the echo does, the line buffer and
a line feed are copied to the input ring, the line buffer is reset and the line counted. -/
theorem input_newline_step (fuel i term : Nat) (k : kernel_state) (h : ready_dev i k)
    (hm : (k.tty i).mode = tty_mode_t.TTY_MODE_COOKED) (hterm : term = 10 ∨ term = 13) :
    ∃ k2, tty_input_char (fuel + 3) (i : Int) term k = some (0, k2) ∧
      (k2.tty i).config = (k.tty i).config ∧ (k2.tty i).mode = (k.tty i).mode ∧
      (k2.tty i).state = (k.tty i).state ∧ (k2.tty i).minor = (k.tty i).minor ∧
      (k2.tty i).lines_processed = ((k.tty i).lines_processed + 1) % 4294967296 ∧
      (k2.tty i).line = { (tty_buffer_putchar
          (tty_copy_line (k.tty i).line.line_count 0 (k.tty i).line) TTY_BUFFER_SIZE 10).2 with
        line_count := 0, line_pos := 0 } := by
  rw [tty_input_char_cooked _ i term k h hm, input_newline_unfold _ i term k hterm]
  by_cases hecho : (k.tty i).config.echo ≠ 0
  · rw [if_pos hecho]
    obtain ⟨r1, k1, hp1, hl1, f1⟩ := putchar_frame fuel i 13 k h (by decide)
    have hr1 := ready_dev_of_frame i k k1 h f1
    obtain ⟨r2, k2, hp2, hl2, f2⟩ := putchar_frame fuel i 10 k1 hr1 (by decide)
    obtain ⟨g1, g2, g3, g4, g5, _⟩ := input_frame_trans i k k1 k2 f1 f2
    rw [h.2.1, hp1]
    simp only [hr1.2.1, hp2, Option.map_some']
    refine ⟨count_char i (commit_line i k2), rfl, ?_, ?_, ?_, ?_, ?_, ?_⟩
    · simp [g1]
    · simp [g2]
    · simp [g3]
    · simp [g4, h.2.1]
    · simp [g5]
    · simp [hl2, hl1]
  · rw [if_neg hecho]
    refine ⟨count_char i (commit_line i k), rfl, ?_, ?_, ?_, ?_, ?_, ?_⟩ <;> simp

theorem tty_input_chars_append (fuel : Nat) (minor : Int) (a b : List Nat) :
    ∀ k : kernel_state, tty_input_chars fuel minor (a ++ b) k
      = (tty_input_chars fuel minor a k).bind (tty_input_chars fuel minor b) := by
  induction a with
  | nil => intro k; rfl
  | cons c a ih =>
    intro k
    show tty_input_chars fuel minor (c :: (a ++ b)) k = _
    simp only [tty_input_chars]
    cases tty_input_char fuel minor c k with
    | none => rfl
    | some r => exact ih r.2

/-- A run of ordinary characters typed on a Ready cooked device: they are stored in the
line buffer from the line position on, and the input ring is untouched. -/
theorem input_line_chars (fuel i : Nat) : ∀ (line : List Nat) (k : kernel_state),
    ready_dev i k → (k.tty i).mode = tty_mode_t.TTY_MODE_COOKED →
    (∀ c ∈ line, c ≠ 10 ∧ c ≠ 13 ∧ c ≠ 8 ∧ c ≠ 9) →
    (k.tty i).line.line_pos = (k.tty i).line.line_count →
    (k.tty i).line.line_count + line.length ≤ 1023 →
    ∃ k2, tty_input_chars (fuel + 3) (i : Int) line k = some k2 ∧ input_frame i k k2 ∧
      (k2.tty i).line.line_count = (k.tty i).line.line_count + line.length ∧
      (k2.tty i).line.line_pos = (k.tty i).line.line_count + line.length ∧
      (∀ j, j < (k.tty i).line.line_count →
        (k2.tty i).line.line_buffer j = (k.tty i).line.line_buffer j) ∧
      (∀ m, m < line.length →
        (k2.tty i).line.line_buffer ((k.tty i).line.line_count + m) = line.getD m 0) ∧
      ring_same (k.tty i).line (k2.tty i).line := by
  intro line
  induction line with
  | nil =>
    intro k _ _ _ hpos _
    refine ⟨k, rfl, ⟨rfl, rfl, rfl, rfl, rfl, rfl⟩, rfl, ?_, fun _ _ => rfl, ?_,
      ⟨rfl, rfl, rfl, rfl⟩⟩
    · simpa using hpos
    · intro m hm; exact absurd hm (by simp)
  | cons c rest ih =>
    intro k h hm hc hpos hroom
    simp only [List.length_cons] at hroom
    obtain ⟨c1, c2, c3, c4⟩ := hc c (List.mem_cons_self _ _)
    obtain ⟨k1, hs, hf, hl⟩ := input_plain_step fuel i c k h hm c1 c2 c3 c4 (by omega)
    rw [append_char_tty] at hl
    have e1 : ((k.tty i).line.line_pos + 1) % 65536 = (k.tty i).line.line_count + 1 := by
      rw [hpos]; omega
    have e2 : ((k.tty i).line.line_count + 1) % 65536 = (k.tty i).line.line_count + 1 := by
      omega
    have l1 : (k1.tty i).line.line_count = (k.tty i).line.line_count + 1 := by rw [hl]; exact e2
    have l2 : (k1.tty i).line.line_pos = (k.tty i).line.line_count + 1 := by rw [hl]; exact e1
    have l3 : (k1.tty i).line.line_buffer
        = Function.update (k.tty i).line.line_buffer (k.tty i).line.line_count c := by
      rw [hl, ← hpos]
    have l4 : ring_same (k.tty i).line (k1.tty i).line := by
      rw [hl]; exact ⟨rfl, rfl, rfl, rfl⟩
    obtain ⟨k2, i1, i2, i3, i4, i5, i6, i7⟩ := ih k1 (ready_dev_of_frame i k k1 h hf)
      (by rw [hf.2.1]; exact hm) (fun x hx => hc x (List.mem_cons_of_mem _ hx))
      (by rw [l1, l2]) (by rw [l1]; omega)
    refine ⟨k2, ?_, input_frame_trans i k k1 k2 hf i2, ?_, ?_, ?_, ?_, ?_⟩
    · rw [tty_input_chars_cons _ _ c rest k k1 0 hs]; exact i1
    · rw [i3, l1, List.length_cons]; omega
    · rw [i4, l1, List.length_cons]; omega
    · intro j hj
      rw [i5 j (by rw [l1]; omega), l3, Function.update_noteq (by omega)]
    · intro m hm2
      simp only [List.length_cons] at hm2
      cases m with
      | zero =>
        rw [Nat.add_zero, i5 _ (by rw [l1]; omega), l3, Function.update_same]
        rfl
      | succ m =>
        have := i6 m (by omega)
        rw [l1] at this
        rw [List.getD_cons_succ, ← this]
        congr 1; omega
    · obtain ⟨a1, a2, a3, a4⟩ := l4
      obtain ⟨b1, b2, b3, b4⟩ := i7
      exact ⟨b1.trans a1, b2.trans a2, b3.trans a3, b4.trans a4⟩

theorem ring_contents_congr (l l2 : tty_line_discipline_t) (h : ring_same l l2) :
    ring_contents l2 = ring_contents l ∧ (ring_inv l → ring_inv l2) := by
  obtain ⟨a1, a2, a3, a4⟩ := h
  constructor
  · unfold ring_contents; rw [a1, a2, a4]
  · intro hi; unfold ring_inv; rw [a2, a3, a4]; exact hi

/-- The loop of `tty_read` with at least `n` bytes in the input ring: it takes the `n`
oldest bytes in order and leaves the rest. -/
theorem tty_read_loop_spec (i : Nat) : ∀ (n br : Nat) (buf : Nat → Nat) (k : kernel_state),
    ring_inv (k.tty i).line → n ≤ (k.tty i).line.input_count →
    (tty_read_loop i n br buf k).1 = br + n ∧
    (∀ m, m < n → (tty_read_loop i n br buf k).2.1 (br + m)
      = (ring_contents (k.tty i).line).getD m 0) ∧
    (∀ p, p < br → (tty_read_loop i n br buf k).2.1 p = buf p) ∧
    ring_contents ((tty_read_loop i n br buf k).2.2.tty i).line
      = (ring_contents (k.tty i).line).drop n := by
  intro n
  induction n with
  | zero =>
    intro br buf k _ _
    exact ⟨rfl, fun m hm => absurd hm (by simp), fun _ _ => rfl, by simp [tty_read_loop]⟩
  | succ n ih =>
    intro br buf k hinv hn
    obtain ⟨h1, h2, h3⟩ := hinv
    have hpos : (k.tty i).line.input_count > 0 := by omega
    generalize hk1 : k.set_tty i { k.tty i with
        line := { (k.tty i).line with
          input_head := ((k.tty i).line.input_head + 1) % TTY_BUFFER_SIZE
          input_count := (k.tty i).line.input_count - 1 }
        bytes_read := ((k.tty i).bytes_read + 1) % 4294967296 } = k1
    have hstep : tty_read_loop i (n + 1) br buf k
        = tty_read_loop i n (br + 1)
            (Function.update buf br ((k.tty i).line.input_buffer (k.tty i).line.input_head))
            k1 := by
      rw [← hk1]
      simp only [tty_read_loop, hpos, if_true]
    have hline : (k1.tty i).line = { (k.tty i).line with
          input_head := ((k.tty i).line.input_head + 1) % 4096
          input_count := (k.tty i).line.input_count - 1 } := by
      rw [← hk1]; simp [TTY_BUFFER_SIZE]
    have hinv1 : ring_inv (k1.tty i).line := by
      rw [hline]
      refine ⟨Nat.mod_lt _ (by norm_num), ?_, ?_⟩
      · show (k.tty i).line.input_count - 1 ≤ 4096; omega
      · show (k.tty i).line.input_tail
          = (((k.tty i).line.input_head + 1) % 4096 + ((k.tty i).line.input_count - 1)) % 4096
        omega
    have hcont : ring_contents (k.tty i).line
        = (k.tty i).line.input_buffer (k.tty i).line.input_head
            :: ring_contents (k1.tty i).line := by
      apply List.ext_getElem
      · rw [List.length_cons, ring_contents_length, ring_contents_length, hline]
        show _ = (k.tty i).line.input_count - 1 + 1
        omega
      · intro j hj1 hj2
        rw [ring_contents_getElem]
        cases j with
        | zero => simp [Nat.mod_eq_of_lt h1]
        | succ j =>
          simp only [List.getElem_cons_succ]
          rw [ring_contents_getElem, hline]
          show _ = (k.tty i).line.input_buffer ((((k.tty i).line.input_head + 1) % 4096 + j) % 4096)
          congr 1; omega
    obtain ⟨i1, i2, i3, i4⟩ := ih (br + 1)
      (Function.update buf br ((k.tty i).line.input_buffer (k.tty i).line.input_head)) k1 hinv1
      (by rw [hline]; show n ≤ (k.tty i).line.input_count - 1; omega)
    rw [hstep]
    refine ⟨by rw [i1]; omega, ?_, ?_, ?_⟩
    · intro m hm
      cases m with
      | zero =>
        have e := i3 br (by omega)
        rw [Function.update_same] at e
        rw [hcont]
        simpa using e
      | succ m =>
        have := i2 m (by omega)
        have e : br + (m + 1) = br + 1 + m := by omega
        rw [hcont, List.getD_cons_succ, ← this, e]
    · intro p hp
      rw [i3 p (by omega), Function.update_noteq (by omega)]
    · rw [i4, hcont, List.drop_succ_cons]

/-- `tty_read` on a Ready device with a caller's buffer and a non-zero size, reduced to its
loop. -/
theorem tty_read_ready (i : Nat) (b : Nat → Nat) (size : Nat) (k : kernel_state)
    (h : ready_dev i k) (hsz : size ≠ 0) :
    tty_read (i : Int) (some b) size k
      = ((((tty_read_loop i size 0 b k).1 : Nat) : Int), some (tty_read_loop i size 0 b k).2.1,
          (tty_read_loop i size 0 b k).2.2) := by
  obtain ⟨hi, _, hst⟩ := h
  have hopen : (k.tty i).state ≠ tty_state_t.TTY_STATE_CLOSED := by rw [hst]; decide
  simp only [tty_read, tty_get_device_open k i hi hopen, hsz, if_false, hst, ne_eq,
    not_true_eq_false]

/-- Reading as many bytes as the input ring holds returns the ring contents, oldest
first. -/
theorem tty_read_all (i : Nat) (b : Nat → Nat) (k : kernel_state) (h : ready_dev i k)
    (hinv : ring_inv (k.tty i).line) (hpos : (k.tty i).line.input_count ≠ 0) :
    ∃ b2 k3, tty_read (i : Int) (some b) (k.tty i).line.input_count k
        = ((((k.tty i).line.input_count : Nat) : Int), some b2, k3) ∧
      (List.range (k.tty i).line.input_count).map b2 = ring_contents (k.tty i).line := by
  obtain ⟨r1, r2, _, _⟩ := tty_read_loop_spec i (k.tty i).line.input_count 0 b k hinv (le_refl _)
  refine ⟨(tty_read_loop i (k.tty i).line.input_count 0 b k).2.1,
    (tty_read_loop i (k.tty i).line.input_count 0 b k).2.2, ?_, ?_⟩
  · rw [tty_read_ready i b _ k h hpos, r1, Nat.zero_add]
  · apply List.ext_getElem
    · simp [ring_contents_length]
    · intro m hm1 hm2
      simp only [List.getElem_map, List.getElem_range]
      have := r2 m (by simpa using hm1)
      rw [Nat.zero_add] at this
      rw [this, List.getD_eq_getElem _ _ hm2]

/-- The line discipline on a line without tab: on a Ready device in Cooked mode with an
empty line-edit buffer, a line of at most 1023 characters, none of them CR, LF, backspace
or tab, followed by CR or LF, with room in the input ring, is appended to the ring with a
single line feed and returned by `tty_read` in that order; the line-edit buffer is empty
again and the lines-processed counter has grown by one. -/
theorem cooked_line_available (fuel i : Nat) (k : kernel_state) (line : List Nat) (term : Nat)
    (b : Nat → Nat) (h : ready_dev i k)
    (hm : (k.tty i).mode = tty_mode_t.TTY_MODE_COOKED)
    (hp0 : (k.tty i).line.line_pos = 0) (hc0 : (k.tty i).line.line_count = 0)
    (hring : ring_inv (k.tty i).line) (hlen : line.length ≤ 1023)
    (hchars : ∀ c ∈ line, c ≠ 10 ∧ c ≠ 13 ∧ c ≠ 8 ∧ c ≠ 9) (hterm : term = 10 ∨ term = 13)
    (hroom : (k.tty i).line.input_count + line.length + 1 ≤ 4096) :
    ∃ k2, tty_input_chars (fuel + 3) (i : Int) (line ++ [term]) k = some k2 ∧
      ring_contents (k2.tty i).line = ring_contents (k.tty i).line ++ line ++ [10] ∧
      (k2.tty i).line.line_pos = 0 ∧ (k2.tty i).line.line_count = 0 ∧
      (k2.tty i).lines_processed = ((k.tty i).lines_processed + 1) % 4294967296 ∧
      ∃ b2 k3, tty_read (i : Int) (some b) ((k.tty i).line.input_count + line.length + 1) k2
          = ((((k.tty i).line.input_count + line.length + 1 : Nat) : Int), some b2, k3) ∧
        (List.range ((k.tty i).line.input_count + line.length + 1)).map b2
          = ring_contents (k.tty i).line ++ line ++ [10] := by
  obtain ⟨k1, hs1, hf1, lc, _, _, lb, rs⟩ := input_line_chars fuel i line k h hm hchars
    (by rw [hp0, hc0]) (by rw [hc0]; omega)
  rw [hc0, Nat.zero_add] at lc
  have hr1 := ready_dev_of_frame i k k1 h hf1
  obtain ⟨k2, hs2, g1, g2, g3, g4, g5, g6⟩ := input_newline_step fuel i term k1 hr1
    (by rw [hf1.2.1]; exact hm) hterm
  obtain ⟨rc, rinv⟩ := ring_contents_congr (k.tty i).line (k1.tty i).line rs
  have hcnt1 : (k1.tty i).line.input_count = (k.tty i).line.input_count := rs.2.2.2
  obtain ⟨q1, q2, q3, q4⟩ := copy_line_spec line.length 0 (k1.tty i).line (rinv hring)
    (by rw [hcnt1]; omega)
  obtain ⟨_, p2, p3, p4, _, _, _⟩ := ring_push (tty_copy_line line.length 0 (k1.tty i).line) 10
    q1 (by rw [q3, hcnt1]; omega)
  have hline : (List.range line.length).map (fun m => (k1.tty i).line.line_buffer (0 + m))
      = line := by
    apply List.ext_getElem
    · simp
    · intro m hm1 hm2
      simp only [List.getElem_map, List.getElem_range]
      have := lb m hm2
      rw [hc0] at this
      rw [this, List.getD_eq_getElem _ _ hm2]
  rw [lc] at g6
  have hcont : ring_contents (k2.tty i).line = ring_contents (k.tty i).line ++ line ++ [10] := by
    rw [g6]
    show ring_contents (tty_buffer_putchar (tty_copy_line line.length 0 (k1.tty i).line)
      TTY_BUFFER_SIZE 10).2 = _
    rw [p3, q2, hline, rc]
  have hinv2 : ring_inv (k2.tty i).line := by
    rw [g6]; exact p2
  have hcnt2 : (k2.tty i).line.input_count = (k.tty i).line.input_count + line.length + 1 := by
    rw [g6]
    show (tty_buffer_putchar (tty_copy_line line.length 0 (k1.tty i).line)
      TTY_BUFFER_SIZE 10).2.input_count = _
    rw [p4, q3, hcnt1]
  have hr2 : ready_dev i k2 :=
    ⟨h.1, by rw [g4]; exact hr1.2.1, by rw [g3]; exact hr1.2.2⟩
  obtain ⟨b2, k3, t1, t2⟩ := tty_read_all i b k2 hr2 hinv2 (by rw [hcnt2]; omega)
  rw [hcnt2, hcont] at t2
  rw [hcnt2] at t1
  refine ⟨k2, ?_, hcont, ?_, ?_, ?_, b2, k3, t1, t2⟩
  · rw [tty_input_chars_append, hs1]
    exact tty_input_chars_cons _ _ term [] k1 k2 0 hs2
  · rw [g6]
  · rw [g6]
  · rw [g5, hf1.2.2.2.2.1]

/-- The line "ls" typed on the console and ended with a line feed is returned by a read of
three bytes as "ls\n". -/
theorem cooked_line_available_ls (b : Nat → Nat) :
    ∃ k2, tty_input_chars 3 0 [108, 115, 10] (console_state default_tty_config 0 0 0) = some k2 ∧
      ∃ b2 k3, tty_read 0 (some b) 3 k2 = (3, some b2, k3) ∧
        (List.range 3).map b2 = [108, 115, 10] := by
  obtain ⟨k2, h1, _, _, _, _, b2, k3, h2, h3⟩ := cooked_line_available 0 0
    (console_state default_tty_config 0 0 0) [108, 115] 10 b ⟨by decide, rfl, rfl⟩ rfl rfl rfl
    ⟨by decide, by decide, rfl⟩ (by decide) (by decide) (Or.inl rfl) (by decide)
  exact ⟨k2, h1, b2, k3, h2, h3⟩

theorem tty_get_device_some (minor : Int) (k : kernel_state) (i : Nat)
    (h : tty_get_device minor k = some i) :
    (k.tty i).state ≠ tty_state_t.TTY_STATE_CLOSED ∧ i = minor.toNat := by
  unfold tty_get_device at h
  split at h
  · cases h
  · split at h
    · cases h
    · rename_i hst
      cases h
      exact ⟨hst, rfl⟩

/-- Function `tty_open` never gets past its two checks: `tty_get_device` gives no device
for a Closed slot, and a device that is not Closed is refused as already open. -/
theorem tty_open_fails (fuel : Nat) (minor : Int) (k : kernel_state) :
    tty_open fuel minor k = some (-1, k) := by
  unfold tty_open
  cases h : tty_get_device minor k with
  | none => rfl
  | some i =>
    have hst := (tty_get_device_some minor k i h).1
    simp only [hst, ne_eq, not_false_eq_true, if_true]

theorem tty_save_if (c : Prop) [Decidable c] (i : Nat) (k : kernel_state) :
    (∀ j, ((if c then tty_save_cursor_state i k else k).tty_manager.ttys j).state
        = (k.tty_manager.ttys j).state) ∧
    (if c then tty_save_cursor_state i k else k).tty_manager.current_tty
        = k.tty_manager.current_tty := by
  by_cases hc : c
  · simp only [hc, if_true]
    unfold tty_save_cursor_state
    split
    · refine ⟨fun j => ?_, rfl⟩
      show ((k.set_tty i _).tty j).state = (k.tty j).state
      by_cases hj : j = i
      · subst hj; rw [set_tty_tty_same]
      · rw [set_tty_tty_other _ _ _ _ hj]
    · exact ⟨fun _ => rfl, rfl⟩
  · simp only [hc, if_false]
    exact ⟨fun _ => trivial, trivial⟩

theorem tty_restore_if (c : Prop) [Decidable c] (i : Nat) (k : kernel_state) :
    (if c then tty_restore_cursor_state i k else k).tty_manager = k.tty_manager := by
  by_cases hc : c
  · simp only [hc, if_true]
    unfold tty_restore_cursor_state
    split <;> rfl
  · simp only [hc, if_false]

/-- Function `tty_switch` returns for every amount of fuel; it changes the state of no
device, and for a valid minor the foreground device is the one asked for. -/
theorem tty_switch_facts (fuel : Nat) (minor : Int) (k : kernel_state) :
    ∃ r, tty_switch fuel minor k = some r ∧
      (∀ j, (r.2.tty j).state = (k.tty j).state) ∧
      (tty_is_valid_minor minor = true → r.2.tty_manager.current_tty = minor) := by
  unfold tty_switch
  by_cases hv : tty_is_valid_minor minor = true
  · simp only [hv, not_true_eq_false, if_false, tty_open_fails, Option.map_some', ite_self]
    refine ⟨_, rfl, ?_, fun _ => ?_⟩
    · intro j
      simp only [kernel_state.tty, tty_restore_if]
      exact (tty_save_if _ _ k).1 j
    · simp only [tty_restore_if]
  · simp only [hv, Bool.false_eq_true, not_false_eq_true, if_true]
    exact ⟨_, rfl, fun _ => rfl, fun h => absurd h (by simp)⟩

theorem set_terminal_terminal (s : system_state) (i : Nat) (t : terminal_t) (j : Nat) :
    (s.set_terminal i t).terminal j = if j = i then t else s.terminal j := by
  unfold system_state.set_terminal system_state.terminal
  simp only [Function.update_apply]

theorem find_terminal_index_eq (p : Nat) :
    ∀ n i, find_terminal_index p n i = if i ≤ p ∧ p < i + n then some p else none := by
  intro n
  induction n with
  | zero =>
    intro i
    have : ¬ (i ≤ p ∧ p < i + 0) := by omega
    simp only [find_terminal_index, this, if_false]
  | succ n ih =>
    intro i
    unfold find_terminal_index
    by_cases hip : i = p
    · subst hip
      have : i ≤ i ∧ i < i + (n + 1) := by omega
      simp only [if_true, this, and_self]
    · rw [if_neg hip, ih]
      by_cases h : i + 1 ≤ p ∧ p < i + 1 + n
      · have h2 : i ≤ p ∧ p < i + (n + 1) := by omega
        rw [if_pos h, if_pos h2]
      · have h2 : ¬ (i ≤ p ∧ p < i + (n + 1)) := by omega
        rw [if_neg h, if_neg h2]

/-- What the demotion step does to each slot and what it leaves alone. -/
theorem demote_active_facts (s : system_state) :
    (demote_active s).kernel = s.kernel ∧
    (demote_active s).terminal_manager.active_terminal = s.terminal_manager.active_terminal ∧
    (∀ j, (demote_active s).terminal j =
      if 0 ≤ s.terminal_manager.active_terminal ∧ j = s.terminal_manager.active_terminal.toNat ∧
          (s.terminal j).state = terminal_state_t.TERMINAL_STATE_FOCUSED
      then { s.terminal j with state := terminal_state_t.TERMINAL_STATE_ACTIVE }
      else s.terminal j) := by
  unfold demote_active
  by_cases h0 : s.terminal_manager.active_terminal ≥ 0
  · by_cases hf : (s.terminal s.terminal_manager.active_terminal.toNat).state
        = terminal_state_t.TERMINAL_STATE_FOCUSED
    · rw [if_pos h0, if_pos hf]
      refine ⟨rfl, rfl, fun j => ?_⟩
      rw [set_terminal_terminal]
      by_cases hj : j = s.terminal_manager.active_terminal.toNat
      · subst hj
        rw [if_pos rfl, if_pos ⟨h0, rfl, hf⟩]
      · rw [if_neg hj, if_neg (fun h => hj h.2.1)]
    · rw [if_pos h0, if_neg hf]
      refine ⟨rfl, rfl, fun j => ?_⟩
      rw [if_neg]
      rintro ⟨_, hj, hs⟩
      subst hj
      exact hf hs
  · rw [if_neg h0]
    refine ⟨rfl, rfl, fun j => ?_⟩
    rw [if_neg]
    rintro ⟨h, _, _⟩
    exact h0 h

/-- Function `terminal_switch_to` on a slot of the registry returns 0 for every amount of
fuel: the slot is Focused, both indices point at it, every other slot is as the demotion
step left it, and the devices keep their states. -/
theorem terminal_switch_to_facts (fuel p : Nat) (s : system_state) (hp : p < 8) :
    ∃ s2, terminal_switch_to fuel (some p) s = some (0, s2) ∧
      (s2.terminal p).state = terminal_state_t.TERMINAL_STATE_FOCUSED ∧
      s2.terminal_manager.active_terminal = (p : Int) ∧
      s2.terminal_manager.focused_terminal = (p : Int) ∧
      (∀ j, j ≠ p → s2.terminal j = (demote_active s).terminal j) ∧
      (∀ j, (s2.kernel.tty j).state = (s.kernel.tty j).state) ∧
      (tty_is_valid_minor (s.terminal p).tty_minor = true →
        s2.kernel.tty_manager.current_tty = (s.terminal p).tty_minor) := by
  obtain ⟨d1, d2, d3⟩ := demote_active_facts s
  have hminor : ((demote_active s).terminal p).tty_minor = (s.terminal p).tty_minor := by
    rw [d3 p]
    split <;> rfl
  obtain ⟨r, hr, r1, r2⟩ := tty_switch_facts fuel (s.terminal p).tty_minor s.kernel
  have hfind : find_terminal_index p MAX_TTYS 0 = some p := by
    rw [find_terminal_index_eq, if_pos]
    simp only [MAX_TTYS]
    omega
  have hrun : terminal_switch_to fuel (some p) s
      = match tty_switch fuel ((demote_active s).terminal p).tty_minor (demote_active s).kernel with
        | none => none
        | some r =>
          some (0, { ({ demote_active s with kernel := r.2 } : system_state).set_terminal p
              { (demote_active s).terminal p with
                state := terminal_state_t.TERMINAL_STATE_FOCUSED } with
            terminal_manager := { (({ demote_active s with kernel := r.2 } : system_state).set_terminal p
              { (demote_active s).terminal p with
                state := terminal_state_t.TERMINAL_STATE_FOCUSED }).terminal_manager with
              active_terminal := (p : Int)
              focused_terminal := (p : Int) } }) := by
    unfold terminal_switch_to
    simp only [hfind]
    rfl
  rw [hrun, hminor, d1, hr]
  refine ⟨_, rfl, ?_, rfl, rfl, ?_, r1, r2⟩
  · show ((system_state.set_terminal _ p _).terminal p).state = _
    rw [set_terminal_terminal, if_pos rfl]
  · intro j hj
    show (system_state.set_terminal _ p _).terminal j = _
    rw [set_terminal_terminal, if_neg hj]
    rfl

/-- The slot search of `terminal_create` returns the first Inactive slot in its range. -/
theorem find_free_slot_some (m : terminal_manager_t) :
    ∀ n i slot, find_free_slot m n i = some slot →
      i ≤ slot ∧ slot < i + n ∧
      (m.terminals slot).state = terminal_state_t.TERMINAL_STATE_INACTIVE ∧
      ∀ j, i ≤ j → j < slot →
        (m.terminals j).state ≠ terminal_state_t.TERMINAL_STATE_INACTIVE := by
  intro n
  induction n with
  | zero => intro i slot h; simp [find_free_slot] at h
  | succ n ih =>
    intro i slot h
    unfold find_free_slot at h
    by_cases hi : (m.terminals i).state = terminal_state_t.TERMINAL_STATE_INACTIVE
    · rw [if_pos hi] at h
      cases h
      exact ⟨le_refl _, by omega, hi, fun j h1 h2 => by omega⟩
    · rw [if_neg hi] at h
      obtain ⟨a, b, c, d⟩ := ih (i + 1) slot h
      refine ⟨by omega, by omega, c, fun j h1 h2 => ?_⟩
      by_cases hji : j = i
      · subst hji; exact hi
      · exact d j (by omega) h2

/-- The slot search finds nothing exactly when no slot in its range is Inactive. -/
theorem find_free_slot_none (m : terminal_manager_t) :
    ∀ n i, find_free_slot m n i = none ↔
      ∀ j, i ≤ j → j < i + n →
        (m.terminals j).state ≠ terminal_state_t.TERMINAL_STATE_INACTIVE := by
  intro n
  induction n with
  | zero =>
    intro i
    simp only [find_free_slot, true_iff]
    intro j h1 h2
    omega
  | succ n ih =>
    intro i
    unfold find_free_slot
    by_cases hi : (m.terminals i).state = terminal_state_t.TERMINAL_STATE_INACTIVE
    · rw [if_pos hi]
      constructor
      · intro h; cases h
      · intro h; exact absurd hi (h i (le_refl _) (by omega))
    · rw [if_neg hi, ih]
      constructor
      · intro h j h1 h2
        by_cases hji : j = i
        · subst hji; exact hi
        · exact h j (by omega) (by omega)
      · intro h j h1 h2
        exact h j (by omega) (by omega)

/-- Function `terminal_create` with a name, a valid minor and a free slot: the slot is
written, `tty_open` fails, and the null pointer is returned with the terminal count as it
was. -/
theorem terminal_create_slot (fuel : Nat) (nm : List Nat) (type : terminal_type_t)
    (tty_minor : Int) (s : system_state) (slot : Nat)
    (hv : tty_is_valid_minor tty_minor = true)
    (hslot : find_free_slot s.terminal_manager MAX_TTYS 0 = some slot) :
    terminal_create fuel (some nm) type tty_minor s
      = some (none, s.set_terminal slot (created_terminal nm type tty_minor (s.terminal slot))) := by
  unfold terminal_create
  simp only [hv, not_true_eq_false, if_false, hslot, tty_open_fails]
  rfl

/-- Function `terminal_create` returns the null pointer on every input, for every amount
of fuel; the state is either untouched or has the chosen slot written. -/
theorem terminal_create_returns_null (fuel : Nat) (name : Option (List Nat))
    (type : terminal_type_t) (tty_minor : Int) (s : system_state) :
    ∃ s2, terminal_create fuel name type tty_minor s = some (none, s2) ∧
      (s2 = s ∨ ∃ nm slot, slot < 8 ∧
        (s.terminal slot).state = terminal_state_t.TERMINAL_STATE_INACTIVE ∧
        s2 = s.set_terminal slot (created_terminal nm type tty_minor (s.terminal slot))) := by
  cases name with
  | none => exact ⟨s, rfl, Or.inl rfl⟩
  | some nm =>
    by_cases hv : tty_is_valid_minor tty_minor = true
    · cases hslot : find_free_slot s.terminal_manager MAX_TTYS 0 with
      | none =>
        refine ⟨s, ?_, Or.inl rfl⟩
        unfold terminal_create
        simp only [hv, not_true_eq_false, if_false, hslot]
      | some slot =>
        obtain ⟨_, b, c, _⟩ := find_free_slot_some _ _ _ _ hslot
        exact ⟨_, terminal_create_slot fuel nm type tty_minor s slot hv hslot,
          Or.inr ⟨nm, slot, by simpa [MAX_TTYS] using b, c, rfl⟩⟩
    · refine ⟨s, ?_, Or.inl rfl⟩
      unfold terminal_create
      simp only [hv, Bool.false_eq_true, not_false_eq_true, if_true]

/-- C11: for every slot `p` of the registry, in a state where a Focused terminal can only
be the one at the active index (an index below 8, or negative for none),
`terminal_switch_to` returns 0 for every amount of fuel
and leaves slot `p` Focused with the active and the focused index both `p`; a slot other
than `p` that was Focused is Active afterwards, and every other slot is unchanged. -/
theorem C11_switch_to_focuses_target (fuel p : Nat) (s : system_state) (hp : p < 8)
    (_hact : s.terminal_manager.active_terminal < 8)
    (hfoc : ∀ j, j < 8 → (s.terminal j).state = terminal_state_t.TERMINAL_STATE_FOCUSED →
      (j : Int) = s.terminal_manager.active_terminal) :
    ∃ s2, terminal_switch_to fuel (some p) s = some (0, s2) ∧
      (s2.terminal p).state = terminal_state_t.TERMINAL_STATE_FOCUSED ∧
      s2.terminal_manager.active_terminal = (p : Int) ∧
      s2.terminal_manager.focused_terminal = (p : Int) ∧
      (∀ j, j < 8 → j ≠ p →
        (s.terminal j).state = terminal_state_t.TERMINAL_STATE_FOCUSED →
        (s2.terminal j).state = terminal_state_t.TERMINAL_STATE_ACTIVE) ∧
      (∀ j, j < 8 → j ≠ p →
        (s.terminal j).state ≠ terminal_state_t.TERMINAL_STATE_FOCUSED →
        s2.terminal j = s.terminal j) := by
  obtain ⟨s2, h1, h2, h3, h4, h5, _, _⟩ := terminal_switch_to_facts fuel p s hp
  obtain ⟨_, _, d3⟩ := demote_active_facts s
  refine ⟨s2, h1, h2, h3, h4, ?_, ?_⟩
  · intro j hj hjp hst
    have ha := hfoc j hj hst
    rw [h5 j hjp, d3 j, if_pos ⟨by omega, by omega, hst⟩]
  · intro j hj hjp hst
    rw [h5 j hjp, d3 j, if_neg (fun h => hst h.2.2)]

/-- C11 on the two-terminal registry: the switch from the Focused console in slot 0 to the
Active terminal in slot 1. -/
theorem C11_switch_to_focuses_target_witness :
    ∃ s2, terminal_switch_to 0 (some 1) two_terminal_state = some (0, s2) ∧
      (s2.terminal 1).state = terminal_state_t.TERMINAL_STATE_FOCUSED ∧
      s2.terminal_manager.active_terminal = ((1 : Nat) : Int) ∧
      s2.terminal_manager.focused_terminal = ((1 : Nat) : Int) ∧
      (∀ j, j < 8 → j ≠ 1 →
        (two_terminal_state.terminal j).state = terminal_state_t.TERMINAL_STATE_FOCUSED →
        (s2.terminal j).state = terminal_state_t.TERMINAL_STATE_ACTIVE) ∧
      (∀ j, j < 8 → j ≠ 1 →
        (two_terminal_state.terminal j).state ≠ terminal_state_t.TERMINAL_STATE_FOCUSED →
        s2.terminal j = two_terminal_state.terminal j) :=
  C11_switch_to_focuses_target 0 1 two_terminal_state (by decide) (by decide) (by decide)

/-- C12, failing input: after `terminal_create("console", TERMINAL_TYPE_CONSOLE, 0)` at
boot, slot 0 is bound to tty0, which is registered and Closed. `terminal_switch_to` on
slot 0 returns 0 for every amount of fuel and marks the terminal Focused, and tty0 is the
foreground device, but tty0 is still Closed: the `tty_open` that `tty_switch` calls has
failed. -/
theorem C12_switch_to_leaves_device_closed (fuel : Nat) :
    (boot_created.terminal 0).tty_minor = 0 ∧
    (boot_created.kernel.tty 0).state = tty_state_t.TTY_STATE_CLOSED ∧
    ∃ s2, terminal_switch_to fuel (some 0) boot_created = some (0, s2) ∧
      (s2.terminal 0).state = terminal_state_t.TERMINAL_STATE_FOCUSED ∧
      (s2.kernel.tty 0).state = tty_state_t.TTY_STATE_CLOSED ∧
      s2.kernel.tty_manager.current_tty = 0 := by
  obtain ⟨s2, h1, h2, _, _, _, h6, h7⟩ := terminal_switch_to_facts fuel 0 boot_created (by decide)
  have hst : (boot_created.kernel.tty 0).state = tty_state_t.TTY_STATE_CLOSED := by decide
  exact ⟨rfl, hst, s2, h1, h2, by rw [h6 0]; exact hst, h7 (by decide)⟩

/-- C13, failing input: tty0 as `tty_register` leaves it, registered and Closed, the
foreground device. `tty_open(0)` returns -1 for every amount of fuel and changes nothing;
and so does `tty_open` on every minor in every state, whether the device is Closed or
open. -/
theorem C13_open_closed_device_fails (fuel : Nat) :
    (boot_kernel.tty 0).state = tty_state_t.TTY_STATE_CLOSED ∧
    (boot_kernel.tty 0).minor = boot_kernel.tty_manager.current_tty ∧
    tty_open fuel 0 boot_kernel = some (-1, boot_kernel) ∧
    ∀ minor k, tty_open fuel minor k = some (-1, k) :=
  ⟨by decide, by decide, tty_open_fails fuel 0 boot_kernel, fun minor k => tty_open_fails fuel minor k⟩

/-- C14, failing input: at boot, with every slot Inactive and tty0 registered and Closed,
`terminal_create("console", TERMINAL_TYPE_CONSOLE, 0)` returns the null pointer for every
amount of fuel; slot 0 has been initialised and is Active, tty0 is still Closed and the
terminal count is still 0. -/
theorem C14_create_returns_no_terminal (fuel : Nat) :
    (∀ j, j < 8 → (boot_state.terminal j).state = terminal_state_t.TERMINAL_STATE_INACTIVE) ∧
    (boot_state.kernel.tty 0).state = tty_state_t.TTY_STATE_CLOSED ∧
    terminal_create fuel (some console_name) terminal_type_t.TERMINAL_TYPE_CONSOLE 0 boot_state
      = some (none, boot_created) ∧
    (boot_created.terminal 0).state = terminal_state_t.TERMINAL_STATE_ACTIVE ∧
    ((boot_created.terminal 0).width, (boot_created.terminal 0).height,
      (boot_created.terminal 0).default_fg, (boot_created.terminal 0).default_bg,
      (boot_created.terminal 0).escape_state) = (80, 25, 7, 0, ANSI_STATE_NONE) ∧
    (boot_created.kernel.tty 0).state = tty_state_t.TTY_STATE_CLOSED ∧
    boot_created.terminal_manager.terminal_count = 0 :=
  ⟨by decide, by decide,
    terminal_create_slot fuel console_name terminal_type_t.TERMINAL_TYPE_CONSOLE 0 boot_state 0
      (by decide) (by decide),
    by decide, by decide, by decide, by decide⟩

theorem focused_at_active_exactly_one (s : system_state) (h : focused_at_active s) :
    exactly_one_focused s := by
  obtain ⟨a, ha, _, h2⟩ := h
  exact ⟨a, ha, h2⟩

/-- Function `terminal_switch_to` keeps the one Focused slot at the active index, whatever
pointer it is given. -/
theorem switch_to_keeps_focus (fuel : Nat) (s : system_state) (h : focused_at_active s)
    (p : Option Nat) :
    ∃ r, terminal_switch_to fuel p s = some r ∧ focused_at_active r.2 := by
  cases p with
  | none => exact ⟨(-1, s), rfl, h⟩
  | some p =>
    by_cases hp : p < 8
    · obtain ⟨s2, h1, h2, h3, _, h5, _, _⟩ := terminal_switch_to_facts fuel p s hp
      obtain ⟨_, _, d3⟩ := demote_active_facts s
      obtain ⟨a, ha, hact, hiff⟩ := h
      refine ⟨(0, s2), h1, p, hp, h3, fun j hj => ?_⟩
      by_cases hjp : j = p
      · subst hjp
        exact ⟨fun _ => rfl, fun _ => h2⟩
      · rw [h5 j hjp, d3 j]
        constructor
        · intro hst
          exfalso
          by_cases hja : j = a
          · subst hja
            rw [if_pos ⟨by omega, by omega, (hiff j hj).2 rfl⟩] at hst
            cases hst
          · rw [if_neg (fun hc => hja ((hiff j hj).1 hc.2.2))] at hst
            exact hja ((hiff j hj).1 hst)
        · intro hc
          exact absurd hc hjp
    · refine ⟨(-1, s), ?_, h⟩
      unfold terminal_switch_to
      have : find_terminal_index p MAX_TTYS 0 = none := by
        rw [find_terminal_index_eq, if_neg]
        simp only [MAX_TTYS]
        omega
      simp only [this]

/-- Function `terminal_create` keeps the one Focused slot at the active index: the slot
it writes was Inactive and is Active afterwards. -/
theorem create_keeps_focus (fuel : Nat) (s : system_state) (h : focused_at_active s)
    (name : Option (List Nat)) (type : terminal_type_t) (tty_minor : Int) :
    ∃ r, terminal_create fuel name type tty_minor s = some r ∧ focused_at_active r.2 := by
  obtain ⟨s2, h1, h2⟩ := terminal_create_returns_null fuel name type tty_minor s
  refine ⟨(none, s2), h1, ?_⟩
  rcases h2 with h2 | ⟨nm, slot, hslot, hin, h2⟩
  · rw [h2]; exact h
  · obtain ⟨a, ha, hact, hiff⟩ := h
    subst h2
    refine ⟨a, ha, hact, fun j hj => ?_⟩
    show ((s.set_terminal slot _).terminal j).state = _ ↔ _
    rw [set_terminal_terminal]
    by_cases hjs : j = slot
    · subst hjs
      rw [if_pos rfl]
      have hne : j ≠ a := by
        intro hja
        have := (hiff j hj).2 hja
        rw [hin] at this
        cases this
      constructor
      · intro hst; cases hst
      · intro hja; exact absurd hja hne
    · rw [if_neg hjs]
      exact hiff j hj

/-- Function `terminal_set_focus` changes no terminal state and not the active index. -/
theorem set_focus_keeps_focus (s : system_state) (h : focused_at_active s) (p : Option Nat) :
    focused_at_active (terminal_set_focus p s).2 := by
  cases p with
  | none => exact h
  | some p => exact h

/-- Function `terminal_destroy` on a slot of the registry leaves that slot Inactive and the
other slots as they were. -/
theorem terminal_destroy_states (s : system_state) (p j : Nat) :
    ((terminal_destroy (some p) s).2.terminal j).state
      = if j = p then terminal_state_t.TERMINAL_STATE_INACTIVE else (s.terminal j).state := by
  show ((system_state.set_terminal _ p _).terminal j).state = _
  rw [set_terminal_terminal]
  by_cases hj : j = p
  · rw [if_pos hj, if_pos hj]
  · rw [if_neg hj, if_neg hj]
    rfl

/-- Function `terminal_destroy` on a slot other than the Focused one keeps the one Focused
slot at the active index. -/
theorem destroy_other_keeps_focus (s : system_state) (h : focused_at_active s) (p : Nat)
    (hp : (p : Int) ≠ s.terminal_manager.active_terminal) :
    focused_at_active (terminal_destroy (some p) s).2 := by
  obtain ⟨a, ha, hact, hiff⟩ := h
  refine ⟨a, ha, hact, fun j hj => ?_⟩
  rw [terminal_destroy_states]
  by_cases hjp : j = p
  · subst hjp
    rw [if_pos rfl]
    constructor
    · intro hst; cases hst
    · intro hja; subst hja; exact absurd hact.symm hp
  · rw [if_neg hjp]
    exact hiff j hj

/-- Function `terminal_destroy` on the Focused slot leaves no slot Focused. -/
theorem destroy_focused_leaves_none (s : system_state) (h : focused_at_active s) (p : Nat)
    (hp : (p : Int) = s.terminal_manager.active_terminal) :
    ∀ j, j < 8 →
      ((terminal_destroy (some p) s).2.terminal j).state
        ≠ terminal_state_t.TERMINAL_STATE_FOCUSED := by
  obtain ⟨a, ha, hact, hiff⟩ := h
  have hpa : p = a := by omega
  subst hpa
  intro j hj
  rw [terminal_destroy_states]
  by_cases hjp : j = p
  · rw [if_pos hjp]
    intro hc; cases hc
  · rw [if_neg hjp]
    intro hc
    exact hjp ((hiff j hj).1 hc)

/-- C15, amended: from a registry state with exactly one Focused slot, the one at the
active index, `terminal_create` (any arguments), `terminal_switch_to` (any pointer) and
`terminal_set_focus` (any pointer) return and leave exactly one Focused slot, again the one
at the active index; so does `terminal_destroy` on a registry slot other than the Focused
one; `terminal_destroy` on the Focused slot leaves no slot Focused. -/
theorem C15_one_focused_unless_destroyed (fuel : Nat) (s : system_state)
    (h : focused_at_active s) :
    (∀ name type tty_minor, ∃ r, terminal_create fuel name type tty_minor s = some r ∧
      focused_at_active r.2 ∧ exactly_one_focused r.2) ∧
    (∀ p, ∃ r, terminal_switch_to fuel p s = some r ∧
      focused_at_active r.2 ∧ exactly_one_focused r.2) ∧
    (∀ p, focused_at_active (terminal_set_focus p s).2 ∧
      exactly_one_focused (terminal_set_focus p s).2) ∧
    (∀ p : Nat, (p : Int) ≠ s.terminal_manager.active_terminal →
      focused_at_active (terminal_destroy (some p) s).2 ∧
      exactly_one_focused (terminal_destroy (some p) s).2) ∧
    (∀ p : Nat, (p : Int) = s.terminal_manager.active_terminal →
      ∀ j, j < 8 → ((terminal_destroy (some p) s).2.terminal j).state
        ≠ terminal_state_t.TERMINAL_STATE_FOCUSED) := by
  refine ⟨fun name type tty_minor => ?_, fun p => ?_, fun p => ?_, fun p hp => ?_, fun p hp => ?_⟩
  · obtain ⟨r, h1, h2⟩ := create_keeps_focus fuel s h name type tty_minor
    exact ⟨r, h1, h2, focused_at_active_exactly_one _ h2⟩
  · obtain ⟨r, h1, h2⟩ := switch_to_keeps_focus fuel s h p
    exact ⟨r, h1, h2, focused_at_active_exactly_one _ h2⟩
  · exact ⟨set_focus_keeps_focus s h p, focused_at_active_exactly_one _ (set_focus_keeps_focus s h p)⟩
  · exact ⟨destroy_other_keeps_focus s h p hp,
      focused_at_active_exactly_one _ (destroy_other_keeps_focus s h p hp)⟩
  · exact destroy_focused_leaves_none s h p hp

theorem two_terminal_state_focused : focused_at_active two_terminal_state :=
  ⟨0, by decide, rfl, by decide⟩

/-- C15, amended, on the two-terminal registry: a switch to slot 1 keeps exactly one slot
Focused, and the destruction of the Focused slot 0 leaves none of the eight slots
Focused. -/
theorem C15_one_focused_unless_destroyed_witness :
    focused_at_active two_terminal_state ∧
    (∃ r, terminal_switch_to 0 (some 1) two_terminal_state = some r ∧
      focused_at_active r.2 ∧ exactly_one_focused r.2) ∧
    (∀ j, j < 8 → ((terminal_destroy (some 0) two_terminal_state).2.terminal j).state
      ≠ terminal_state_t.TERMINAL_STATE_FOCUSED) :=
  ⟨two_terminal_state_focused,
    (C15_one_focused_unless_destroyed 0 two_terminal_state two_terminal_state_focused).2.1 (some 1),
    (C15_one_focused_unless_destroyed 0 two_terminal_state two_terminal_state_focused).2.2.2.2
      0 rfl⟩

/-- C15 as stated fails for `terminal_destroy`: in the two-terminal registry exactly one
slot, slot 0 at the active index, is Focused, and after `terminal_destroy` on slot 0 it is
not true that exactly one slot is Focused (none is). -/
theorem C15_counterexample :
    focused_at_active two_terminal_state ∧ exactly_one_focused two_terminal_state ∧
    (terminal_destroy (some 0) two_terminal_state).1 = 0 ∧
    ¬ exactly_one_focused (terminal_destroy (some 0) two_terminal_state).2 :=
  ⟨two_terminal_state_focused, focused_at_active_exactly_one _ two_terminal_state_focused, rfl,
    fun ⟨a, ha, hiff⟩ =>
      destroy_focused_leaves_none two_terminal_state two_terminal_state_focused 0 rfl a ha
        ((hiff a ha).2 rfl)⟩

/-- The loop of `terminal_write` in state CSI over parameter bytes that fit the array: each is
buffered at the next position, none is dispatched, and the state stays CSI. -/
theorem parse_loop_params (data : Nat → Nat) (k : kernel_state) :
    ∀ (rest acc : List Nat) (t : terminal_t) (j : Nat),
      csi_acc t acc → acc.length + rest.length < 31 →
      (∀ c ∈ rest, ¬ is_letter c) →
      (∀ m, m < rest.length → data (j + m) = rest.getD m 0) →
      terminal_parse_loop data rest.length j t k = (rest.foldl esc_push t, k) ∧
      csi_acc (rest.foldl esc_push t) (acc ++ rest) := by
  intro rest
  induction rest with
  | nil =>
    intro acc t j hacc _ _ _
    exact ⟨rfl, by simpa using hacc⟩
  | cons c rest ih =>
    intro acc t j hacc hlen hnl hdata
    simp only [List.length_cons] at hlen hdata
    have hc : data j = c := by simpa using hdata 0 (by omega)
    have hacc2 := csi_acc_push t acc c hacc (by omega)
    obtain ⟨i1, i2⟩ := ih (acc ++ [c]) (esc_push t c) (j + 1) hacc2
      (by rw [List.length_append, List.length_singleton]; omega)
      (fun x hx => hnl x (List.mem_cons_of_mem _ hx))
      (fun m hm => by
        have := hdata (m + 1) (by omega)
        rw [List.getD_cons_succ] at this
        rw [← this]; congr 1; omega)
    constructor
    · have hstep : terminal_parse_loop data ((c :: rest).length) j t k
          = terminal_parse_loop data rest.length (j + 1)
              (terminal_parse_ansi_escape t (data j) k).2.1
              (terminal_parse_ansi_escape t (data j) k).2.2 := rfl
      rw [hstep, hc, parse_csi_param t k c hacc.1 (hnl c (List.mem_cons_self _ _))]
      exact i1
    · simpa using i2

/-- A command byte of the table is dispatched to its control with the parameter string. -/
theorem process_csi_command (tz : terminal_t) (k : kernel_state)
    (p : Nat × terminal_control_t) (hp : p ∈ csi_commands)
    (hcmd : escape_load tz ((tz.escape_pos : Int) - 1) = p.1) :
    terminal_process_csi_sequence tz k
      = terminal_execute_control tz p.2 (escape_params tz) k := by
  simp only [csi_commands, List.mem_cons, List.mem_singleton, List.not_mem_nil, or_false] at hp
  rcases hp with h | h | h | h | h | h | h | h <;> subst h <;>
    simp only [terminal_process_csi_sequence, hcmd, if_true, Nat.reduceEqDiff, if_false]

/-- A command byte outside the table dispatches nothing. -/
theorem process_csi_no_command (tz : terminal_t) (k : kernel_state)
    (hcmd : ∀ p ∈ csi_commands, escape_load tz ((tz.escape_pos : Int) - 1) ≠ p.1) :
    terminal_process_csi_sequence tz k = (0, tz, k) := by
  have h1 := hcmd (65, terminal_control_t.TERM_CTRL_CURSOR_UP) (by simp [csi_commands])
  have h2 := hcmd (66, terminal_control_t.TERM_CTRL_CURSOR_DOWN) (by simp [csi_commands])
  have h3 := hcmd (67, terminal_control_t.TERM_CTRL_CURSOR_RIGHT) (by simp [csi_commands])
  have h4 := hcmd (68, terminal_control_t.TERM_CTRL_CURSOR_LEFT) (by simp [csi_commands])
  have h5 := hcmd (72, terminal_control_t.TERM_CTRL_CURSOR_HOME) (by simp [csi_commands])
  have h6 := hcmd (74, terminal_control_t.TERM_CTRL_CLEAR_SCREEN) (by simp [csi_commands])
  have h7 := hcmd (75, terminal_control_t.TERM_CTRL_CLEAR_LINE) (by simp [csi_commands])
  have h8 := hcmd (109, terminal_control_t.TERM_CTRL_COLOR_SET) (by simp [csi_commands])
  simp only [terminal_process_csi_sequence, h1, h2, h3, h4, h5, h6, h7, h8, if_false]

/-- With room for the final byte and the NUL, the command byte that
`terminal_process_csi_sequence` reads is the final byte. -/
theorem final_command_byte (t : terminal_t) (ch : Nat) (h : t.escape_pos < 31) :
    escape_load (esc_terminate (esc_push t ch))
      (((esc_terminate (esc_push t ch)).escape_pos : Int) - 1) = ch := by
  rw [esc_push_inside t ch (by omega),
    esc_terminate_inside _ (show (t.escape_pos + 1) % 256 ≠ 32 by omega)]
  show escape_load _ ((((t.escape_pos + 1) % 256 : Nat) : Int) - 1) = ch
  unfold escape_load
  rw [if_neg (by omega), if_neg (by omega)]
  show Function.update (Function.update t.escape_buffer t.escape_pos ch)
    ((t.escape_pos + 1) % 256) 0 (((((t.escape_pos + 1) % 256 : Nat) : Int) - 1).toNat) = ch
  have e2 : ((((t.escape_pos + 1) % 256 : Nat) : Int) - 1).toNat = t.escape_pos := by omega
  rw [e2, Function.update_noteq (by omega), Function.update_same]

/-- In state CSI with position 31 the final byte fills the array, its terminating NUL is
stored over the position, and the command byte is read in front of the array, from the
state field: nothing is dispatched. -/
theorem final_byte_at_end (t : terminal_t) (ch : Nat) (k : kernel_state)
    (h2 : t.escape_state = ANSI_STATE_CSI) (h : t.escape_pos = 31) :
    (esc_terminate (esc_push t ch)).escape_pos = 0 ∧
    escape_load (esc_terminate (esc_push t ch))
      (((esc_terminate (esc_push t ch)).escape_pos : Int) - 1) = ANSI_STATE_CSI ∧
    terminal_process_csi_sequence (esc_terminate (esc_push t ch)) k
      = (0, esc_terminate (esc_push t ch), k) := by
  have e1 := esc_push_inside t ch (by omega)
  have hp : (esc_push t ch).escape_pos = 32 := by
    rw [e1]; show (t.escape_pos + 1) % 256 = _; omega
  have hs : (esc_push t ch).escape_state = ANSI_STATE_CSI := by rw [e1]; exact h2
  have e2 := esc_terminate_at_end (esc_push t ch) hp
  have hz : (esc_terminate (esc_push t ch)).escape_pos = 0 := by rw [e2]
  have hl : escape_load (esc_terminate (esc_push t ch))
      (((esc_terminate (esc_push t ch)).escape_pos : Int) - 1) = ANSI_STATE_CSI := by
    rw [hz]
    unfold escape_load
    rw [if_pos (by decide), e2]
    exact hs
  refine ⟨hz, hl, ?_⟩
  apply process_csi_no_command
  intro p hp2
  rw [hl]
  simp only [csi_commands, List.mem_cons, List.mem_singleton, List.not_mem_nil, or_false] at hp2
  rcases hp2 with h | h | h | h | h | h | h | h <;> subst h <;> decide

theorem terminal_parse_loop_add (data : Nat → Nat) :
    ∀ (n m j : Nat) (t : terminal_t) (k : kernel_state),
      terminal_parse_loop data (n + m) j t k
        = terminal_parse_loop data m (j + n) (terminal_parse_loop data n j t k).1
            (terminal_parse_loop data n j t k).2 := by
  intro n
  induction n with
  | zero => intro m j t k; rw [Nat.zero_add]; rfl
  | succ n ih =>
    intro m j t k
    have e : n + 1 + m = (n + m) + 1 := by omega
    rw [e]
    show terminal_parse_loop data (n + m) (j + 1) _ _ = _
    rw [ih]
    have e2 : j + 1 + n = j + (n + 1) := by omega
    rw [e2]
    rfl

/-- ESC, `[` and then at most thirty parameter bytes `ps`, the first bytes of a longer
input, fed from the reset state: all are buffered, the `m`-th parameter byte at index
`2 + m`, and the position is the number of bytes taken; nothing ends the accumulation when
the array is full. -/
theorem parse_prefix (t : terminal_t) (k : kernel_state) (ps rest : List Nat)
    (h0 : t.escape_state = ANSI_STATE_NONE) (hps : ∀ c ∈ ps, ¬ is_letter c)
    (hlen : ps.length < 31) :
    ∃ tz, terminal_parse_loop (bytes (27 :: 91 :: (ps ++ rest))) (2 + ps.length) 0 t k = (tz, k) ∧
      csi_acc tz ps ∧ terminal_base tz = terminal_base t := by
  have e1 := parse_esc t k h0
  have e2 : terminal_parse_ansi_escape (esc_start t) 91 k = (1, csi_start t, k) :=
    parse_bracket (esc_start t) k rfl
  obtain ⟨i1, i2⟩ := parse_loop_params (bytes (27 :: 91 :: (ps ++ rest))) k ps []
    (csi_start t) 2 (csi_acc_start t) (by simp only [List.length_nil]; omega) hps
    (fun m hm => by
      show (27 :: 91 :: (ps ++ rest)).getD (2 + m) 0 = _
      rw [Nat.add_comm, List.getD_cons_succ, List.getD_cons_succ, List.getD_append _ _ _ _ hm])
  rw [List.nil_append] at i2
  have h2 : terminal_parse_loop (bytes (27 :: 91 :: (ps ++ rest))) 2 0 t k
      = (csi_start t, k) := by
    have hstep : terminal_parse_loop (bytes (27 :: 91 :: (ps ++ rest))) 2 0 t k
        = ((terminal_parse_ansi_escape (terminal_parse_ansi_escape t 27 k).2.1 91
            (terminal_parse_ansi_escape t 27 k).2.2).2.1,
          (terminal_parse_ansi_escape (terminal_parse_ansi_escape t 27 k).2.1 91
            (terminal_parse_ansi_escape t 27 k).2.2).2.2) := rfl
    rw [hstep, e1, e2]
  refine ⟨ps.foldl esc_push (csi_start t), ?_, i2, ?_⟩
  · rw [terminal_parse_loop_add, h2]
    simp only [Nat.zero_add]
    exact i1
  · rw [terminal_base_foldl_push]; rfl

theorem terminal_parse_loop_last (data : Nat → Nat) (n : Nat) (t tz : terminal_t)
    (k kz : kernel_state) (h : terminal_parse_loop data n 0 t k = (tz, kz)) :
    terminal_parse_loop data (n + 1) 0 t k
      = ((terminal_parse_ansi_escape tz (data n) kz).2.1,
          (terminal_parse_ansi_escape tz (data n) kz).2.2) := by
  rw [terminal_parse_loop_add, h, Nat.zero_add]
  rfl

/-- A sequence of 32 bytes, ESC `[`, twenty-nine parameter bytes and a final letter, fed
from the reset state: the final byte is stored at index 31, nothing is dispatched, and the
parser is reset. -/
theorem parse_sequence_of_32 (t : terminal_t) (k : kernel_state) (ps : List Nat) (fin : Nat)
    (h0 : t.escape_state = ANSI_STATE_NONE) (hps : ∀ c ∈ ps, ¬ is_letter c)
    (hfin : is_letter fin) (hlen : ps.length = 29) :
    ∃ tz, terminal_parse_loop (bytes (27 :: 91 :: (ps ++ [fin]))) 32 0 t k
        = (terminal_reset_escape_state tz, k) ∧
      terminal_base tz = terminal_base t := by
  obtain ⟨t3, i1, i2, hb⟩ := parse_prefix t k ps [fin] h0 hps (by omega)
  have hd : bytes (27 :: 91 :: (ps ++ [fin])) (2 + ps.length) = fin := by
    show (27 :: 91 :: (ps ++ [fin])).getD (2 + ps.length) 0 = _
    rw [Nat.add_comm, List.getD_cons_succ, List.getD_cons_succ,
      List.getD_append_right _ _ _ _ (le_refl _)]
    simp
  obtain ⟨_, _, f3⟩ := final_byte_at_end t3 fin k i2.1 (by rw [i2.2.1, hlen])
  refine ⟨esc_terminate (esc_push t3 fin), ?_, ?_⟩
  · have h32 : (32 : Nat) = 2 + ps.length + 1 := by omega
    rw [h32, terminal_parse_loop_last _ _ _ _ _ _ i1, hd, parse_csi_final t3 k fin i2.1 hfin, f3]
  · rw [terminal_base_esc_terminate, terminal_base_esc_push, hb]

/-- C16, failing input: ESC, `[` and thirty-one bytes '1', fed byte by byte from the reset
state of a freshly created console terminal. After the first 32 bytes the parser is in
state CSI, the 32-byte array is full (the last parameter byte is at index 31) and the
position is 32; nothing has reset the parser. The 33rd byte is then stored at index 32,
which is the position field itself: the parser is still in state CSI, the array is as it
was and the position is 49, the byte '1'. -/
theorem C16_escape_accumulation_overruns_buffer (k : kernel_state) :
    (terminal_parse_loop (bytes (27 :: 91 :: List.replicate 31 49)) 32 0 console_terminal k).1.escape_state
      = ANSI_STATE_CSI ∧
    (terminal_parse_loop (bytes (27 :: 91 :: List.replicate 31 49)) 32 0 console_terminal k).1.escape_pos
      = 32 ∧
    (terminal_parse_loop (bytes (27 :: 91 :: List.replicate 31 49)) 32 0 console_terminal k).1.escape_buffer 31
      = 49 ∧
    (terminal_parse_loop (bytes (27 :: 91 :: List.replicate 31 49)) 33 0 console_terminal k).1.escape_state
      = ANSI_STATE_CSI ∧
    (terminal_parse_loop (bytes (27 :: 91 :: List.replicate 31 49)) 33 0 console_terminal k).1.escape_pos
      = 49 ∧
    (terminal_parse_loop (bytes (27 :: 91 :: List.replicate 31 49)) 33 0 console_terminal k).1.escape_buffer
      = (terminal_parse_loop (bytes (27 :: 91 :: List.replicate 31 49)) 32 0 console_terminal k).1.escape_buffer := by
  have hl : List.replicate 31 49 = List.replicate 30 49 ++ [49] := by decide
  obtain ⟨tz, h1, ⟨h2, h3, h4⟩, _⟩ := parse_prefix console_terminal k (List.replicate 30 49) [49]
    rfl (by intro c hc; rw [List.eq_of_mem_replicate hc]; decide) (by simp)
  rw [← hl] at h1
  have hlen : 2 + (List.replicate 30 49).length = 32 := by simp
  rw [hlen] at h1
  have h5 : tz.escape_pos = 32 := by rw [h3]; simp
  have hd : bytes (27 :: 91 :: List.replicate 31 49) 32 = 49 := by decide
  have h33 := terminal_parse_loop_last _ 32 _ _ _ _ h1
  rw [hd, parse_csi_param tz k 49 h2 (by decide), esc_push_at_end tz 49 h5] at h33
  rw [h33, h1]
  refine ⟨h2, h5, ?_, h2, rfl, rfl⟩
  have := h4 29 (by simp)
  simpa using this


/-- C18, failing input: the bytes ESC, `[`, '5' fed one by one from the reset state of a
freshly created console terminal. ESC and `[` are reported consumed (1); the parameter
byte '5' is stored in the escape buffer, at index 2, with the parser in state CSI, and is
reported not consumed (0). -/
theorem C18_csi_parameter_reported_unconsumed (k : kernel_state) :
    (terminal_parse_ansi_escape console_terminal 27 k).1 = 1 ∧
    (terminal_parse_ansi_escape (esc_start console_terminal) 91 k).1 = 1 ∧
    terminal_parse_ansi_escape console_terminal 27 k = (1, esc_start console_terminal, k) ∧
    terminal_parse_ansi_escape (esc_start console_terminal) 91 k
      = (1, csi_start console_terminal, k) ∧
    (terminal_parse_ansi_escape (csi_start console_terminal) 53 k).1 = 0 ∧
    (terminal_parse_ansi_escape (csi_start console_terminal) 53 k).2.1.escape_state
      = ANSI_STATE_CSI ∧
    (terminal_parse_ansi_escape (csi_start console_terminal) 53 k).2.1.escape_buffer 2 = 53 := by
  have e1 := parse_esc console_terminal k rfl
  have e2 : terminal_parse_ansi_escape (esc_start console_terminal) 91 k
      = (1, csi_start console_terminal, k) := parse_bracket (esc_start console_terminal) k rfl
  have e3 := parse_csi_param (csi_start console_terminal) k 53 rfl (by decide)
  refine ⟨by rw [e1], by rw [e2], e1, e2, by rw [e3], by rw [e3]; rfl, ?_⟩
  rw [e3]
  rfl

theorem reset_escape_facts (t : terminal_t) :
    (terminal_reset_escape_state t).escape_state = ANSI_STATE_NONE ∧
    (terminal_reset_escape_state t).escape_pos = 0 ∧
    (∀ i, i < 32 → (terminal_reset_escape_state t).escape_buffer i = 0) ∧
    terminal_base (terminal_reset_escape_state t) = terminal_base t := by
  refine ⟨rfl, rfl, fun i hi => ?_, rfl⟩
  show (if i < 32 then 0 else t.escape_buffer i) = 0
  rw [if_pos hi]

/-- C17: one step of `terminal_parse_ansi_escape`, for every terminal, byte and kernel
state. In state None, ESC moves to Escape and is buffered at index 0, and any other byte
changes nothing and is passed through. In state Escape, `[` moves to CSI (and is buffered
when the position is inside the array) and any other byte resets to None with position 0
and a zeroed buffer. In state CSI, a letter is consumed and the parser is reset to None
with position 0 and a zeroed buffer; with a position below 31 the letter is dispatched,
each command letter of the table to its control of `terminal_execute_control` with the
buffered parameter string, any other letter to nothing; with position 31, the last index
of the array, the letter is not dispatched, whichever it is. Any other byte keeps the
state CSI; it is appended to the buffer when the position is inside the array, and at
position 32 it overwrites the position instead. -/
theorem C17_escape_state_machine (t : terminal_t) (ch : Nat) (k : kernel_state) :
    (t.escape_state = ANSI_STATE_NONE →
      (ch = 27 →
        (terminal_parse_ansi_escape t ch k).2.1.escape_state = ANSI_STATE_ESCAPE ∧
        (terminal_parse_ansi_escape t ch k).2.1.escape_buffer 0 = 27 ∧
        (terminal_parse_ansi_escape t ch k).2.1.escape_pos = 1 ∧
        (terminal_parse_ansi_escape t ch k).2.2 = k) ∧
      (ch ≠ 27 → terminal_parse_ansi_escape t ch k = (0, t, k))) ∧
    (t.escape_state = ANSI_STATE_ESCAPE →
      (ch = 91 →
        (terminal_parse_ansi_escape t ch k).2.1.escape_state = ANSI_STATE_CSI ∧
        (terminal_parse_ansi_escape t ch k).2.2 = k ∧
        (t.escape_pos < 32 →
          (terminal_parse_ansi_escape t ch k).2.1.escape_buffer
            = Function.update t.escape_buffer t.escape_pos 91 ∧
          (terminal_parse_ansi_escape t ch k).2.1.escape_pos = t.escape_pos + 1)) ∧
      (ch ≠ 91 →
        (terminal_parse_ansi_escape t ch k).2.1.escape_state = ANSI_STATE_NONE ∧
        (terminal_parse_ansi_escape t ch k).2.1.escape_pos = 0 ∧
        (∀ i, i < 32 → (terminal_parse_ansi_escape t ch k).2.1.escape_buffer i = 0) ∧
        (terminal_parse_ansi_escape t ch k).2.2 = k)) ∧
    (t.escape_state = ANSI_STATE_CSI →
      (is_letter ch →
        (terminal_parse_ansi_escape t ch k).1 = 1 ∧
        (terminal_parse_ansi_escape t ch k).2.1.escape_state = ANSI_STATE_NONE ∧
        (terminal_parse_ansi_escape t ch k).2.1.escape_pos = 0 ∧
        (∀ i, i < 32 → (terminal_parse_ansi_escape t ch k).2.1.escape_buffer i = 0) ∧
        (t.escape_pos < 31 →
          (∀ p ∈ csi_commands, ch = p.1 →
            terminal_parse_ansi_escape t ch k
              = (1, terminal_reset_escape_state
                      (terminal_execute_control (esc_terminate (esc_push t ch)) p.2
                        (escape_params (esc_terminate (esc_push t ch))) k).2.1,
                    (terminal_execute_control (esc_terminate (esc_push t ch)) p.2
                        (escape_params (esc_terminate (esc_push t ch))) k).2.2)) ∧
          ((∀ p ∈ csi_commands, ch ≠ p.1) →
            terminal_parse_ansi_escape t ch k
              = (1, terminal_reset_escape_state (esc_terminate (esc_push t ch)), k))) ∧
        (t.escape_pos = 31 →
          terminal_parse_ansi_escape t ch k
            = (1, terminal_reset_escape_state (esc_terminate (esc_push t ch)), k) ∧
          terminal_base (terminal_parse_ansi_escape t ch k).2.1 = terminal_base t)) ∧
      (¬ is_letter ch →
        (terminal_parse_ansi_escape t ch k).1 = 0 ∧
        (terminal_parse_ansi_escape t ch k).2.1.escape_state = ANSI_STATE_CSI ∧
        (terminal_parse_ansi_escape t ch k).2.2 = k ∧
        (t.escape_pos < 32 →
          (terminal_parse_ansi_escape t ch k).2.1.escape_buffer
            = Function.update t.escape_buffer t.escape_pos ch ∧
          (terminal_parse_ansi_escape t ch k).2.1.escape_pos = t.escape_pos + 1) ∧
        (t.escape_pos = 32 →
          (terminal_parse_ansi_escape t ch k).2.1.escape_buffer = t.escape_buffer ∧
          (terminal_parse_ansi_escape t ch k).2.1.escape_pos = ch % 256))) := by
  refine ⟨fun h0 => ⟨fun hch => ?_, fun hch => ?_⟩, fun h1 => ⟨fun hch => ?_, fun hch => ?_⟩,
    fun h2 => ⟨fun hch => ?_, fun hch => ?_⟩⟩
  · subst hch
    rw [parse_esc t k h0]
    exact ⟨rfl, rfl, rfl, rfl⟩
  · simp only [terminal_parse_ansi_escape, h0, if_true, hch, if_false]
  · subst hch
    rw [parse_bracket t k h1]
    refine ⟨rfl, rfl, fun hroom => ?_⟩
    show (esc_push t 91).escape_buffer = _ ∧ (esc_push t 91).escape_pos = _
    rw [esc_push_inside t 91 (by omega)]
    refine ⟨rfl, ?_⟩
    show (t.escape_pos + 1) % 256 = _
    omega
  · have hne : ¬ (t.escape_state = ANSI_STATE_NONE) := by rw [h1]; decide
    unfold terminal_parse_ansi_escape
    rw [if_neg hne, if_pos h1]
    simp only [hch, if_false]
    obtain ⟨r1, r2, r3, _⟩ := reset_escape_facts
      (escape_store { t with escape_pos := (t.escape_pos + 1) % 256 } t.escape_pos ch)
    exact ⟨r1, r2, r3, trivial⟩
  · have hfin := parse_csi_final t k ch h2 hch
    obtain ⟨r1, r2, r3, _⟩ := reset_escape_facts
      (terminal_process_csi_sequence (esc_terminate (esc_push t ch)) k).2.1
    refine ⟨by rw [hfin], by rw [hfin]; exact r1, by rw [hfin]; exact r2,
      fun i hi => by rw [hfin]; exact r3 i hi, fun hroom => ⟨fun p hp hpc => ?_, fun hno => ?_⟩,
      fun hend => ?_⟩
    · rw [hfin, process_csi_command _ k p hp (by rw [final_command_byte t ch hroom]; exact hpc)]
    · rw [hfin, process_csi_no_command _ k (fun p hp => by
        rw [final_command_byte t ch hroom]; exact hno p hp)]
    · obtain ⟨_, _, f3⟩ := final_byte_at_end t ch k h2 hend
      rw [hfin, f3]
      refine ⟨rfl, ?_⟩
      rw [(reset_escape_facts _).2.2.2]
      show terminal_base (esc_terminate (esc_push t ch)) = _
      rw [terminal_base_esc_terminate, terminal_base_esc_push]
  · rw [parse_csi_param t k ch h2 hch]
    refine ⟨rfl, ?_, rfl, fun hroom => ?_, fun hend => ?_⟩
    · show (esc_push t ch).escape_state = _
      unfold esc_push escape_store
      split_ifs <;> exact h2
    · show (esc_push t ch).escape_buffer = _ ∧ (esc_push t ch).escape_pos = _
      rw [esc_push_inside t ch (by omega)]
      refine ⟨rfl, ?_⟩
      show (t.escape_pos + 1) % 256 = _
      omega
    · show (esc_push t ch).escape_buffer = _ ∧ (esc_push t ch).escape_pos = _
      rw [esc_push_at_end t ch hend]
      exact ⟨rfl, rfl⟩

/-- C17 on the console terminal: ESC moves to Escape, `[` to CSI, the parameter byte `;`
stays in CSI; the letter A after ESC `[`, position 2, is dispatched and moves the cursor
from row 10 to row 9; the same letter in state CSI at position 31 is not dispatched and
the cursor stays in row 10. -/
theorem C17_escape_state_machine_witness :
    (terminal_parse_ansi_escape console_terminal 27
        (console_state default_tty_config 0 0 0)).2.1.escape_state = ANSI_STATE_ESCAPE ∧
    (terminal_parse_ansi_escape (esc_start console_terminal) 91
        (console_state default_tty_config 0 0 0)).2.1.escape_state = ANSI_STATE_CSI ∧
    (terminal_parse_ansi_escape (csi_start console_terminal) 59
        (console_state default_tty_config 0 0 0)).2.1.escape_state = ANSI_STATE_CSI ∧
    (terminal_parse_ansi_escape
        { csi_start console_terminal with cursor := { x := 0, y := 10 } } 65
        (console_state default_tty_config 0 0 0)).2.1.cursor = { x := 0, y := 9 } ∧
    (terminal_parse_ansi_escape
        { csi_start console_terminal with escape_pos := 31, cursor := { x := 0, y := 10 } } 65
        (console_state default_tty_config 0 0 0)).2.1.cursor = { x := 0, y := 10 } :=
  ⟨(((C17_escape_state_machine console_terminal 27 (console_state default_tty_config 0 0 0)).1
      rfl).1 rfl).1,
    ((((C17_escape_state_machine (esc_start console_terminal) 91
      (console_state default_tty_config 0 0 0)).2.1) rfl).1 rfl).1,
    ((((C17_escape_state_machine (csi_start console_terminal) 59
      (console_state default_tty_config 0 0 0)).2.2) rfl).2 (by decide)).2.1,
    (congrArg (fun r => r.2.1.cursor)
      ((((((C17_escape_state_machine
        { csi_start console_terminal with cursor := { x := 0, y := 10 } } 65
        (console_state default_tty_config 0 0 0)).2.2) rfl).1 (by decide)).2.2.2.2.1
          (by decide)).1 (65, terminal_control_t.TERM_CTRL_CURSOR_UP) (by decide) rfl)).trans rfl,
    congrArg (fun b => b.2.2.2.2.2)
      ((((((C17_escape_state_machine
        { csi_start console_terminal with escape_pos := 31, cursor := { x := 0, y := 10 } } 65
        (console_state default_tty_config 0 0 0)).2.2) rfl).1 (by decide)).2.2.2.2.2) rfl).2⟩

theorem cursor_dec_loop_eq : ∀ n c, c < 256 → cursor_dec_loop n c = c - n := by
  intro n
  induction n with
  | zero => intro c _; rfl
  | succ n ih =>
    intro c hc
    unfold cursor_dec_loop
    by_cases h0 : c > 0
    · rw [if_pos h0]
      have e : (c + 255) % 256 = c - 1 := by omega
      rw [e, ih (c - 1) (by omega)]
      omega
    · rw [if_neg h0]
      omega

theorem cursor_inc_loop_eq (limit : Nat) (hl : limit ≤ 256) :
    ∀ n c, c < limit → cursor_inc_loop limit n c = min (c + n) (limit - 1) := by
  intro n
  induction n with
  | zero => intro c hc; show c = _; omega
  | succ n ih =>
    intro c hc
    unfold cursor_inc_loop
    by_cases h0 : (c : Int) < (limit : Int) - 1
    · rw [if_pos h0]
      have e : (c + 1) % 256 = c + 1 := by omega
      rw [e, ih (c + 1) (by omega)]
      omega
    · rw [if_neg h0]
      omega

theorem scan_digits_append (fin : Nat) (hfin : c_isdigit fin = false) :
    ∀ (ds : List Nat) (acc : Nat), (∀ c ∈ ds, c_isdigit c = true) →
      scan_digits (ds ++ [fin]) acc
        = (ds.foldl (fun a c => a * 10 + (c - 48)) acc, [fin]) := by
  intro ds
  induction ds with
  | nil =>
    intro acc _
    simp only [List.nil_append, scan_digits, hfin, List.foldl_nil]
    rfl
  | cons d ds ih =>
    intro acc h
    have hd : c_isdigit d = true := h d (List.mem_cons_self _ _)
    simp only [List.cons_append, scan_digits, hd, if_true, List.foldl_cons]
    exact ih _ (fun c hc => h c (List.mem_cons_of_mem _ hc))

theorem scan_int_not_digit (c : Nat) (rest : List Nat) (hs : c_isspace c = false)
    (hd : c_isdigit c = false) (h45 : c ≠ 45) (h43 : c ≠ 43) :
    scan_int (c :: rest) = none := by
  unfold scan_int
  simp only [List.dropWhile, hs]
  split <;> rename_i heq <;> split at heq <;> simp_all

theorem scan_int_digit (d : Nat) (rest : List Nat) (hd : c_isdigit d = true) :
    scan_int (d :: rest)
      = some (((scan_digits (d :: rest) 0).1 : Int), (scan_digits (d :: rest) 0).2) := by
  have hd2 : 48 ≤ d ∧ d ≤ 57 := by simpa [c_isdigit] using hd
  have hs : c_isspace d = false := by
    simp only [c_isspace, decide_eq_false_iff_not]
    omega
  have h45 : d ≠ 45 := by omega
  have h43 : d ≠ 43 := by omega
  unfold scan_int
  simp only [List.dropWhile, hs]
  split <;> rename_i heq <;> split at heq <;> simp_all

/-- What `sscanf(params, "%d;%d", ...)` reads from the parameter string of a sequence
whose parameter bytes are the digits `ds` and whose final byte is a letter: the decimal
value of the digits, or nothing (both defaults kept) when there is no digit. -/
theorem sscanf_params_digits (ds : List Nat) (fin : Nat) (hds : ∀ c ∈ ds, c_isdigit c = true)
    (hfin : is_letter fin) :
    sscanf_params (ds ++ [fin]) 1 1 = (((csi_parameter ds : Nat) : Int), 1) := by
  have hfd : c_isdigit fin = false := by
    unfold is_letter at hfin
    simp only [c_isdigit, decide_eq_false_iff_not]
    omega
  have hfs : c_isspace fin = false := by
    unfold is_letter at hfin
    simp only [c_isspace, decide_eq_false_iff_not]
    omega
  have h59 : fin ≠ 59 := by unfold is_letter at hfin; omega
  cases ds with
  | nil =>
    have hscan : scan_int [fin] = none :=
      scan_int_not_digit fin [] hfs hfd (by unfold is_letter at hfin; omega)
        (by unfold is_letter at hfin; omega)
    simp only [List.nil_append, sscanf_params, hscan, csi_parameter, if_true]
    rfl
  | cons d ds =>
    have hd : c_isdigit d = true := hds d (List.mem_cons_self _ _)
    have hsd := scan_digits_append fin hfd (d :: ds) 0 hds
    have hscan : scan_int (d :: ds ++ [fin])
        = some (((decimal_value (d :: ds) : Nat) : Int), [fin]) := by
      rw [List.cons_append, scan_int_digit d (ds ++ [fin]) hd, ← List.cons_append, hsd]
      rfl
    have hne : ¬ (d :: ds = []) := by simp
    simp only [sscanf_params, hscan, csi_parameter, hne, if_false]
    split
    · rename_i heq; simp only [List.cons.injEq] at heq; exact absurd heq.1 h59
    · rfl

/-- The terminal cursor after the dispatch of a CSI sequence whose parameter bytes are the
digits `ds` and whose final byte is A, B, C or D, in terms of the loops of
`terminal_execute_control`. -/
theorem dispatch_cursor_move (tz : terminal_t) (k : kernel_state) (ds : List Nat) (fin : Nat)
    (hds : ∀ c ∈ ds, c_isdigit c = true) (hfin : is_letter fin)
    (hp : escape_params tz = ds ++ [fin])
    (hcmd : escape_load tz ((tz.escape_pos : Int) - 1) = fin) :
    (fin = 65 → (terminal_process_csi_sequence tz k).2.1.cursor
      = { x := tz.cursor.x, y := cursor_dec_loop (csi_parameter ds) tz.cursor.y }) ∧
    (fin = 66 → (terminal_process_csi_sequence tz k).2.1.cursor
      = { x := tz.cursor.x, y := cursor_inc_loop tz.height (csi_parameter ds) tz.cursor.y }) ∧
    (fin = 67 → (terminal_process_csi_sequence tz k).2.1.cursor
      = { x := cursor_inc_loop tz.width (csi_parameter ds) tz.cursor.x, y := tz.cursor.y }) ∧
    (fin = 68 → (terminal_process_csi_sequence tz k).2.1.cursor
      = { x := cursor_dec_loop (csi_parameter ds) tz.cursor.x, y := tz.cursor.y }) := by
  have hs := sscanf_params_digits ds fin hds hfin
  refine ⟨fun h => ?_, fun h => ?_, fun h => ?_, fun h => ?_⟩ <;> subst h <;>
    simp only [terminal_process_csi_sequence, hcmd, hp, terminal_execute_control, hs,
      Int.toNat_ofNat, if_true, Nat.reduceEqDiff, if_false]

/-- C19: a CSI sequence ESC [ ds fin, fed byte by byte from the reset state, whose
parameter bytes `ds` are decimal digits with a value n that fits an `int` (n = 1 when
there is no digit), on a terminal whose cursor (x, y) is inside its width x height. When
the sequence has at most 31 bytes (at most twenty-eight digits), final byte A leaves the
cursor at row y - n or 0, B at row min(y + n, height - 1), C at column
min(x + n, width - 1), D at column x - n or 0, the other coordinate unchanged. When the
sequence has 32 bytes (twenty-nine digits), the final byte is not dispatched: the cursor
stays at (x, y) whatever the parameter and the letter. -/
theorem C19_cursor_moves_clamped (t : terminal_t) (k : kernel_state) (ds : List Nat)
    (h0 : t.escape_state = ANSI_STATE_NONE)
    (hds : ∀ c ∈ ds, c_isdigit c = true)
    (_hint : csi_parameter ds < 2147483648)
    (hw : t.width ≤ 255) (hh : t.height ≤ 255)
    (hx : t.cursor.x < t.width) (hy : t.cursor.y < t.height) :
    (ds.length < 29 →
      (terminal_parse_loop (bytes (27 :: 91 :: (ds ++ [65]))) (ds.length + 3) 0 t k).1.cursor
        = { x := t.cursor.x, y := t.cursor.y - csi_parameter ds } ∧
      (terminal_parse_loop (bytes (27 :: 91 :: (ds ++ [66]))) (ds.length + 3) 0 t k).1.cursor
        = { x := t.cursor.x, y := min (t.cursor.y + csi_parameter ds) (t.height - 1) } ∧
      (terminal_parse_loop (bytes (27 :: 91 :: (ds ++ [67]))) (ds.length + 3) 0 t k).1.cursor
        = { x := min (t.cursor.x + csi_parameter ds) (t.width - 1), y := t.cursor.y } ∧
      (terminal_parse_loop (bytes (27 :: 91 :: (ds ++ [68]))) (ds.length + 3) 0 t k).1.cursor
        = { x := t.cursor.x - csi_parameter ds, y := t.cursor.y }) ∧
    (ds.length = 29 → ∀ fin, is_letter fin →
      (terminal_parse_loop (bytes (27 :: 91 :: (ds ++ [fin]))) (ds.length + 3) 0 t k).1.cursor
        = t.cursor) := by
  have hps : ∀ c ∈ ds, c ≠ 0 ∧ ¬ is_letter c := by
    intro c hc
    have := hds c hc
    simp only [c_isdigit, decide_eq_true_eq] at this
    unfold is_letter
    omega
  constructor
  · intro hlen
    have key : ∀ fin, is_letter fin →
        ∃ tz, (terminal_parse_loop (bytes (27 :: 91 :: (ds ++ [fin]))) (ds.length + 3) 0 t k).1.cursor
            = (terminal_process_csi_sequence tz k).2.1.cursor ∧
          escape_params tz = ds ++ [fin] ∧ escape_load tz ((tz.escape_pos : Int) - 1) = fin ∧
          tz.cursor = t.cursor ∧ tz.width = t.width ∧ tz.height = t.height := by
      intro fin hfin
      obtain ⟨tz, e1, e2, e3, e4⟩ := parse_csi_sequence t k ds fin h0 hps hfin hlen
      refine ⟨tz, by rw [e1]; rfl, e2, e3, ?_, ?_, ?_⟩
      · exact congrArg (fun b => b.2.2.2.2.2) e4
      · exact congrArg (fun b => b.2.1) e4
      · exact congrArg (fun b => b.2.2.1) e4
    refine ⟨?_, ?_, ?_, ?_⟩
    · obtain ⟨tz, e1, e2, e3, e4, e5, e6⟩ := key 65 (by decide)
      rw [e1, (dispatch_cursor_move tz k ds 65 hds (by decide) e2 e3).1 rfl, e4,
        cursor_dec_loop_eq _ _ (by omega)]
    · obtain ⟨tz, e1, e2, e3, e4, e5, e6⟩ := key 66 (by decide)
      rw [e1, (dispatch_cursor_move tz k ds 66 hds (by decide) e2 e3).2.1 rfl, e4, e6,
        cursor_inc_loop_eq _ (by omega) _ _ hy]
    · obtain ⟨tz, e1, e2, e3, e4, e5, e6⟩ := key 67 (by decide)
      rw [e1, (dispatch_cursor_move tz k ds 67 hds (by decide) e2 e3).2.2.1 rfl, e4, e5,
        cursor_inc_loop_eq _ (by omega) _ _ hx]
    · obtain ⟨tz, e1, e2, e3, e4, e5, e6⟩ := key 68 (by decide)
      rw [e1, (dispatch_cursor_move tz k ds 68 hds (by decide) e2 e3).2.2.2 rfl, e4,
        cursor_dec_loop_eq _ _ (by omega)]
  · intro hlen fin hfin
    obtain ⟨tz, e1, e2⟩ := parse_sequence_of_32 t k ds fin h0 (fun c hc => (hps c hc).2)
      hfin hlen
    have h32 : ds.length + 3 = 32 := by omega
    rw [h32, e1]
    exact congrArg (fun b => b.2.2.2.2.2) e2

/-- C19 on an 80 x 25 terminal with its cursor at column 70 of row 10. With the parameter
30: up to row 0, down to row 24, right to column 79, left to column 40. With the
parameter 3 written with twenty-nine digits, twenty-eight zeros and a 3, and the final byte
A, a sequence of 32 bytes: the cursor stays in row 10. -/
theorem C19_cursor_moves_clamped_witness :
    ((terminal_parse_loop (bytes (27 :: 91 :: ([51, 48] ++ [65]))) (2 + 3) 0
        { console_terminal with cursor := { x := 70, y := 10 } }
        (console_state default_tty_config 0 0 0)).1.cursor = { x := 70, y := 0 } ∧
    (terminal_parse_loop (bytes (27 :: 91 :: ([51, 48] ++ [66]))) (2 + 3) 0
        { console_terminal with cursor := { x := 70, y := 10 } }
        (console_state default_tty_config 0 0 0)).1.cursor = { x := 70, y := 24 } ∧
    (terminal_parse_loop (bytes (27 :: 91 :: ([51, 48] ++ [67]))) (2 + 3) 0
        { console_terminal with cursor := { x := 70, y := 10 } }
        (console_state default_tty_config 0 0 0)).1.cursor = { x := 79, y := 10 } ∧
    (terminal_parse_loop (bytes (27 :: 91 :: ([51, 48] ++ [68]))) (2 + 3) 0
        { console_terminal with cursor := { x := 70, y := 10 } }
        (console_state default_tty_config 0 0 0)).1.cursor = { x := 40, y := 10 }) ∧
    csi_parameter (List.replicate 28 48 ++ [51]) = 3 ∧
    (terminal_parse_loop (bytes (27 :: 91 :: ((List.replicate 28 48 ++ [51]) ++ [65])))
        (29 + 3) 0 { console_terminal with cursor := { x := 70, y := 10 } }
        (console_state default_tty_config 0 0 0)).1.cursor = { x := 70, y := 10 } :=
  ⟨(C19_cursor_moves_clamped { console_terminal with cursor := { x := 70, y := 10 } }
      (console_state default_tty_config 0 0 0) [51, 48] rfl (by decide) (by decide) (by decide)
      (by decide) (by decide) (by decide)).1 (by decide),
    by decide,
    (C19_cursor_moves_clamped { console_terminal with cursor := { x := 70, y := 10 } }
      (console_state default_tty_config 0 0 0) (List.replicate 28 48 ++ [51]) rfl (by decide)
      (by decide) (by decide) (by decide) (by decide) (by decide)).2 (by decide) 65 (by decide)⟩

/-- Dispatch of an SGR sequence (final byte `m`) whose parameter bytes are the digits
`ds`: when the parameter is handled, the selected colours are written to the terminal's
default colours and handed to `tty_set_color`. -/
theorem dispatch_sgr (tz : terminal_t) (k : kernel_state) (ds : List Nat)
    (hds : ∀ c ∈ ds, c_isdigit c = true)
    (hp : escape_params tz = ds ++ [109])
    (hcmd : escape_load tz ((tz.escape_pos : Int) - 1) = 109) (f b : Nat)
    (hsel : sgr_colors (csi_parameter ds) tz.default_fg tz.default_bg = some (f, b)) :
    terminal_process_csi_sequence tz k
      = (0, { tz with default_fg := f, default_bg := b }, (tty_set_color tz.tty_minor f b k).2) := by
  have hs := sscanf_params_digits ds 109 hds (by decide)
  unfold sgr_colors at hsel
  by_cases h0 : csi_parameter ds = 0
  · rw [if_pos h0] at hsel
    simp only [Option.some.injEq, Prod.mk.injEq] at hsel
    obtain ⟨hf, hb⟩ := hsel
    subst hf hb
    simp only [terminal_process_csi_sequence, hcmd, hp, terminal_execute_control, hs, h0,
      Nat.reduceEqDiff, if_false, if_true, Nat.cast_zero, terminal_set_colors]
  · rw [if_neg h0] at hsel
    have h0i : ¬ (((csi_parameter ds : Nat) : Int) = 0) := by omega
    by_cases h3 : 30 ≤ csi_parameter ds ∧ csi_parameter ds ≤ 37
    · rw [if_pos h3] at hsel
      simp only [Option.some.injEq, Prod.mk.injEq] at hsel
      obtain ⟨hf, hb⟩ := hsel
      subst hf hb
      have h3i : 30 ≤ ((csi_parameter ds : Nat) : Int) ∧ ((csi_parameter ds : Nat) : Int) ≤ 37 := by
        omega
      have e : (((csi_parameter ds : Nat) : Int) - 30).toNat = csi_parameter ds - 30 := by omega
      simp only [terminal_process_csi_sequence, hcmd, hp, terminal_execute_control, hs, h0i,
        Nat.reduceEqDiff, if_false, if_true, h3i, and_self, e, terminal_set_colors]
    · rw [if_neg h3] at hsel
      have h3i : ¬ (30 ≤ ((csi_parameter ds : Nat) : Int) ∧ ((csi_parameter ds : Nat) : Int) ≤ 37) := by
        omega
      by_cases h4 : 40 ≤ csi_parameter ds ∧ csi_parameter ds ≤ 47
      · rw [if_pos h4] at hsel
        simp only [Option.some.injEq, Prod.mk.injEq] at hsel
        obtain ⟨hf, hb⟩ := hsel
        subst hf hb
        have h4i : 40 ≤ ((csi_parameter ds : Nat) : Int) ∧ ((csi_parameter ds : Nat) : Int) ≤ 47 := by
          omega
        have e : (((csi_parameter ds : Nat) : Int) - 40).toNat = csi_parameter ds - 40 := by omega
        simp only [terminal_process_csi_sequence, hcmd, hp, terminal_execute_control, hs, h0i,
          Nat.reduceEqDiff, if_false, if_true, h3i, h4i, and_self, e, terminal_set_colors]
      · rw [if_neg h4] at hsel
        cases hsel

/-- A whole SGR sequence ESC [ ds m fed from the reset state to a terminal bound to the
open device at index `i`: the terminal's default colours and the device's colours are both
set to the colours the parameter selects, and the parser is back in its reset state. -/
theorem sgr_sequence (t : terminal_t) (k : kernel_state) (ds : List Nat) (i f b : Nat)
    (h0 : t.escape_state = ANSI_STATE_NONE)
    (hds : ∀ c ∈ ds, c_isdigit c = true) (hlen : ds.length < 28)
    (hdev : tty_get_device t.tty_minor k = some i)
    (hsel : sgr_colors (csi_parameter ds) t.default_fg t.default_bg = some (f, b)) :
    (terminal_parse_loop (bytes (27 :: 91 :: (ds ++ [109]))) (ds.length + 3) 0 t k).1.escape_state
      = ANSI_STATE_NONE ∧
    (terminal_parse_loop (bytes (27 :: 91 :: (ds ++ [109]))) (ds.length + 3) 0 t k).1.tty_minor
      = t.tty_minor ∧
    (terminal_parse_loop (bytes (27 :: 91 :: (ds ++ [109]))) (ds.length + 3) 0 t k).1.default_fg
      = f ∧
    (terminal_parse_loop (bytes (27 :: 91 :: (ds ++ [109]))) (ds.length + 3) 0 t k).1.default_bg
      = b ∧
    ((terminal_parse_loop (bytes (27 :: 91 :: (ds ++ [109]))) (ds.length + 3) 0 t k).2.tty i).foreground_color
      = f % 256 ∧
    ((terminal_parse_loop (bytes (27 :: 91 :: (ds ++ [109]))) (ds.length + 3) 0 t k).2.tty i).background_color
      = b % 256 ∧
    tty_get_device t.tty_minor
      (terminal_parse_loop (bytes (27 :: 91 :: (ds ++ [109]))) (ds.length + 3) 0 t k).2 = some i := by
  have hps : ∀ c ∈ ds, c ≠ 0 ∧ ¬ is_letter c := by
    intro c hc
    have := hds c hc
    simp only [c_isdigit, decide_eq_true_eq] at this
    unfold is_letter
    omega
  obtain ⟨tz, e1, e2, e3, e4⟩ := parse_csi_sequence t k ds 109 h0 hps (by decide) (by omega)
  have em : tz.tty_minor = t.tty_minor := congrArg (fun x => x.1) e4
  have ef : tz.default_fg = t.default_fg := congrArg (fun x => x.2.2.2.1) e4
  have eb : tz.default_bg = t.default_bg := congrArg (fun x => x.2.2.2.2.1) e4
  rw [e1, dispatch_sgr tz k ds hds e2 e3 f b (by rw [ef, eb]; exact hsel), em]
  have hset : tty_set_color t.tty_minor f b k
      = (0, k.set_tty i { k.tty i with
          foreground_color := f % 256
          background_color := b % 256
          current_color := vga_make_color f b }) := by
    simp only [tty_set_color, hdev]
  obtain ⟨hst, hi⟩ := tty_get_device_some _ _ _ hdev
  rw [hset]
  refine ⟨rfl, rfl, rfl, rfl, ?_, ?_, ?_⟩
  · show ((k.set_tty i _).tty i).foreground_color = _
    rw [set_tty_tty_same]
  · show ((k.set_tty i _).tty i).background_color = _
    rw [set_tty_tty_same]
  · show tty_get_device t.tty_minor (k.set_tty i _) = some i
    unfold tty_get_device at hdev ⊢
    by_cases hv : tty_is_valid_minor t.tty_minor = true
    · simp only [hv, not_true_eq_false, if_false] at hdev ⊢
      rw [← hi, set_tty_tty_same]
      rw [← hi] at hdev
      exact hdev
    · simp only [hv, Bool.false_eq_true, not_false_eq_true, if_true] at hdev
      cases hdev

theorem csi_parameter_two_digits (a j : Nat) :
    csi_parameter [48 + a, 48 + j] = a * 10 + j := by
  simp [csi_parameter, decimal_value]

theorem csi_parameter_zero : csi_parameter [48] = 0 := by
  simp [csi_parameter, decimal_value]

/-- An SGR sequence with a two-digit code `a j` that selects colours, followed by ESC [ 0 m,
on a terminal bound to the open device at index `i`: the device has the selected colours
after the first sequence and still has them after the second. -/
theorem sgr_then_reset (t : terminal_t) (k : kernel_state) (i a j f b : Nat)
    (h0 : t.escape_state = ANSI_STATE_NONE)
    (hdev : tty_get_device t.tty_minor k = some i) (ha : a < 10) (hj : j < 10)
    (hsel : sgr_colors (a * 10 + j) t.default_fg t.default_bg = some (f, b)) :
    ((terminal_parse_loop (bytes [27, 91, 48 + a, 48 + j, 109]) 5 0 t k).2.tty i).foreground_color
      = f % 256 ∧
    ((terminal_parse_loop (bytes [27, 91, 48 + a, 48 + j, 109]) 5 0 t k).2.tty i).background_color
      = b % 256 ∧
    (terminal_parse_loop (bytes [27, 91, 48 + a, 48 + j, 109]) 5 0 t k).1.default_fg = f ∧
    (terminal_parse_loop (bytes [27, 91, 48 + a, 48 + j, 109]) 5 0 t k).1.default_bg = b ∧
    ((terminal_parse_loop (bytes [27, 91, 48, 109]) 4 0
        (terminal_parse_loop (bytes [27, 91, 48 + a, 48 + j, 109]) 5 0 t k).1
        (terminal_parse_loop (bytes [27, 91, 48 + a, 48 + j, 109]) 5 0 t k).2).2.tty i).foreground_color
      = f % 256 ∧
    ((terminal_parse_loop (bytes [27, 91, 48, 109]) 4 0
        (terminal_parse_loop (bytes [27, 91, 48 + a, 48 + j, 109]) 5 0 t k).1
        (terminal_parse_loop (bytes [27, 91, 48 + a, 48 + j, 109]) 5 0 t k).2).2.tty i).background_color
      = b % 256 := by
  have hd : ∀ c ∈ [48 + a, 48 + j], c_isdigit c = true := by
    intro c hc
    simp only [List.mem_cons, List.mem_singleton, List.not_mem_nil, or_false] at hc
    simp only [c_isdigit, decide_eq_true_eq]
    omega
  have hd0 : ∀ c ∈ [48], c_isdigit c = true := by decide
  have A := sgr_sequence t k [48 + a, 48 + j] i f b h0 hd (by simp) hdev
    (by rw [csi_parameter_two_digits]; exact hsel)
  simp only [List.cons_append, List.nil_append, List.length_cons, List.length_nil,
    Nat.reduceAdd] at A
  generalize terminal_parse_loop (bytes [27, 91, 48 + a, 48 + j, 109]) 5 0 t k = r1 at A ⊢
  obtain ⟨a1, a2, a3, a4, a5, a6, a7⟩ := A
  have B := sgr_sequence r1.1 r1.2 [48] i f b a1 hd0 (by simp) (by rw [a2]; exact a7)
    (by rw [csi_parameter_zero, a3, a4]; rfl)
  simp only [List.cons_append, List.nil_append, List.length_cons, List.length_nil,
    Nat.reduceAdd] at B
  exact ⟨a5, a6, a3, a4, B.2.2.2.2.1, B.2.2.2.2.2.1⟩

/-- C20, on every terminal in the reset state bound to an open device, for every colour
`j` below 8: ESC [ 3j m sets the device's foreground colour to `j` and ESC [ 4j m its
background colour to `j`, as claimed; but the sequence also overwrites the terminal's
default colour with `j`, so that a following ESC [ 0 m "resets" the device to the colour
`j` just set and not to the default the terminal had before the change. -/
theorem C20_sgr_reset_keeps_changed_colour (t : terminal_t) (k : kernel_state) (i j : Nat)
    (h0 : t.escape_state = ANSI_STATE_NONE)
    (hdev : tty_get_device t.tty_minor k = some i) (hj : j < 8) :
    ((terminal_parse_loop (bytes [27, 91, 51, 48 + j, 109]) 5 0 t k).2.tty i).foreground_color = j ∧
    ((terminal_parse_loop (bytes [27, 91, 51, 48 + j, 109]) 5 0 t k).2.tty i).background_color
      = t.default_bg % 256 ∧
    (terminal_parse_loop (bytes [27, 91, 51, 48 + j, 109]) 5 0 t k).1.default_fg = j ∧
    ((terminal_parse_loop (bytes [27, 91, 48, 109]) 4 0
        (terminal_parse_loop (bytes [27, 91, 51, 48 + j, 109]) 5 0 t k).1
        (terminal_parse_loop (bytes [27, 91, 51, 48 + j, 109]) 5 0 t k).2).2.tty i).foreground_color
      = j ∧
    ((terminal_parse_loop (bytes [27, 91, 52, 48 + j, 109]) 5 0 t k).2.tty i).background_color = j ∧
    ((terminal_parse_loop (bytes [27, 91, 52, 48 + j, 109]) 5 0 t k).2.tty i).foreground_color
      = t.default_fg % 256 ∧
    (terminal_parse_loop (bytes [27, 91, 52, 48 + j, 109]) 5 0 t k).1.default_bg = j ∧
    ((terminal_parse_loop (bytes [27, 91, 48, 109]) 4 0
        (terminal_parse_loop (bytes [27, 91, 52, 48 + j, 109]) 5 0 t k).1
        (terminal_parse_loop (bytes [27, 91, 52, 48 + j, 109]) 5 0 t k).2).2.tty i).background_color
      = j := by
  have hjm : j % 256 = j := by omega
  have s3 : sgr_colors (3 * 10 + j) t.default_fg t.default_bg = some (j, t.default_bg) := by
    unfold sgr_colors
    rw [if_neg (by omega), if_pos (by omega)]
    congr 2
    omega
  have s4 : sgr_colors (4 * 10 + j) t.default_fg t.default_bg = some (t.default_fg, j) := by
    unfold sgr_colors
    rw [if_neg (by omega), if_neg (by omega), if_pos (by omega)]
    congr 2
    omega
  have F := sgr_then_reset t k i 3 j j t.default_bg h0 hdev (by omega) (by omega) s3
  have G := sgr_then_reset t k i 4 j t.default_fg j h0 hdev (by omega) (by omega) s4
  simp only [Nat.reduceAdd, hjm] at F G
  exact ⟨F.1, F.2.1, F.2.2.1, F.2.2.2.2.1, G.2.1, G.1, G.2.2.2.1, G.2.2.2.2.2⟩

/-- C20 on the console: after ESC [ 3 1 m the device's foreground is red, and after the
following ESC [ 0 m it still is, although the terminal's default was light grey. -/
theorem C20_sgr_reset_keeps_changed_colour_witness :
    console_terminal.default_fg = 7 ∧
    ((terminal_parse_loop (bytes [27, 91, 51, 48 + 1, 109]) 5 0 console_terminal
        (console_state default_tty_config 0 0 0)).2.tty 0).foreground_color = 1 ∧
    ((terminal_parse_loop (bytes [27, 91, 48, 109]) 4 0
        (terminal_parse_loop (bytes [27, 91, 51, 48 + 1, 109]) 5 0 console_terminal
          (console_state default_tty_config 0 0 0)).1
        (terminal_parse_loop (bytes [27, 91, 51, 48 + 1, 109]) 5 0 console_terminal
          (console_state default_tty_config 0 0 0)).2).2.tty 0).foreground_color = 1 :=
  ⟨rfl,
    (C20_sgr_reset_keeps_changed_colour console_terminal (console_state default_tty_config 0 0 0)
      0 1 rfl (by decide) (by decide)).1,
    (C20_sgr_reset_keeps_changed_colour console_terminal (console_state default_tty_config 0 0 0)
      0 1 rfl (by decide) (by decide)).2.2.2.1⟩

/-- `tty_input_char` on a Ready device in Raw mode: the byte goes straight to
`tty_buffer_putchar` on the input ring, whatever the fuel. -/
theorem tty_input_char_raw (fuel i ch : Nat) (k : kernel_state) (h : ready_dev i k)
    (hm : (k.tty i).mode = tty_mode_t.TTY_MODE_RAW) :
    tty_input_char fuel (i : Int) ch k
      = some ((tty_buffer_putchar (k.tty i).line TTY_BUFFER_SIZE ch).1,
          k.set_tty i { k.tty i with
            line := (tty_buffer_putchar (k.tty i).line TTY_BUFFER_SIZE ch).2 }) := by
  obtain ⟨hi, _, hst⟩ := h
  have hopen : (k.tty i).state ≠ tty_state_t.TTY_STATE_CLOSED := by rw [hst]; decide
  have hraw : ¬ ((k.tty i).mode = tty_mode_t.TTY_MODE_COOKED) := by rw [hm]; decide
  simp only [tty_input_char, tty_get_device_open k i hi hopen, hst, ne_eq, not_true_eq_false,
    if_false, tty_process_input_char, hraw]

theorem tty_buffer_putchar_room (l : tty_line_discipline_t) (ch : Nat)
    (h : l.input_count < 4096) :
    tty_buffer_putchar l TTY_BUFFER_SIZE ch
      = (0, { l with
          input_buffer := Function.update l.input_buffer l.input_tail ch
          input_tail := (l.input_tail + 1) % 4096
          input_count := l.input_count + 1 }) := by
  have hnf : ¬ (l.input_count ≥ TTY_BUFFER_SIZE) := by
    show ¬ (l.input_count ≥ 4096); omega
  have hc : (l.input_count + 1) % 65536 = l.input_count + 1 := by omega
  simp only [tty_buffer_putchar, hnf, if_false, hc]
  rfl

theorem tty_buffer_putchar_full (l : tty_line_discipline_t) (ch : Nat)
    (h : 4096 ≤ l.input_count) :
    tty_buffer_putchar l TTY_BUFFER_SIZE ch = (-1, l) := by
  have hf : l.input_count ≥ TTY_BUFFER_SIZE := h
  simp only [tty_buffer_putchar, hf, if_true]

/-- C21: on a Ready device in Raw mode, for every character `ch` and every amount of fuel:
with fewer than 4096 bytes in the input ring, `tty_input_char` returns 0, stores `ch`
unmodified at the tail, advances the tail and the count by one, and leaves the head and
the line-edit buffer as they were; with 4096 bytes in the ring it returns -1 and leaves the
whole line discipline (buffer, head, tail, count) as it was. -/
theorem C21_raw_input_appends_or_rejects (fuel i ch : Nat) (k : kernel_state)
    (h : ready_dev i k) (hm : (k.tty i).mode = tty_mode_t.TTY_MODE_RAW) :
    ∃ r, tty_input_char fuel (i : Int) ch k = some r ∧
      ((k.tty i).line.input_count < 4096 →
        r.1 = 0 ∧
        (r.2.tty i).line.input_buffer
          = Function.update (k.tty i).line.input_buffer (k.tty i).line.input_tail ch ∧
        (r.2.tty i).line.input_tail = ((k.tty i).line.input_tail + 1) % 4096 ∧
        (r.2.tty i).line.input_count = (k.tty i).line.input_count + 1 ∧
        (r.2.tty i).line.input_head = (k.tty i).line.input_head ∧
        (r.2.tty i).line.line_buffer = (k.tty i).line.line_buffer ∧
        (r.2.tty i).line.line_pos = (k.tty i).line.line_pos ∧
        (r.2.tty i).line.line_count = (k.tty i).line.line_count ∧
        (ring_inv (k.tty i).line →
          ring_contents (r.2.tty i).line = ring_contents (k.tty i).line ++ [ch])) ∧
      (4096 ≤ (k.tty i).line.input_count →
        r.1 = -1 ∧ (r.2.tty i).line = (k.tty i).line) := by
  refine ⟨_, tty_input_char_raw fuel i ch k h hm, fun hlt => ?_, fun hge => ?_⟩
  · have hinv : ring_inv (k.tty i).line →
        ring_contents (tty_buffer_putchar (k.tty i).line TTY_BUFFER_SIZE ch).2
          = ring_contents (k.tty i).line ++ [ch] :=
      fun hinv => (ring_push (k.tty i).line ch hinv hlt).2.2.1
    rw [tty_buffer_putchar_room _ ch hlt] at hinv ⊢
    simp only [set_tty_tty_same, true_and]
    exact hinv
  · rw [tty_buffer_putchar_full _ ch hge]
    simp only [set_tty_tty_same, and_self]

/-- C21 on the raw console with an empty input ring: a carriage return is stored as it
is. -/
theorem C21_raw_input_appends_or_rejects_witness :
    ∃ r, tty_input_char 0 ((0 : Nat) : Int) 13 (raw_console_state default_tty_config) = some r ∧
      r.1 = 0 ∧ (r.2.tty 0).line.input_count = 1 ∧ (r.2.tty 0).line.input_tail = 1 ∧
      (r.2.tty 0).line.line_count = 0 := by
  obtain ⟨r, h1, h2, _⟩ := C21_raw_input_appends_or_rejects 0 0 13
    (raw_console_state default_tty_config) ⟨by decide, rfl, rfl⟩ rfl
  obtain ⟨a1, _, a3, a4, _, _, _, a8, _⟩ := h2 (by decide)
  exact ⟨r, h1, a1, a4, a3, a8⟩

/-- The loop of `tty_read` stops when the input ring is empty: asked for more bytes than
the ring holds, it does what it does when asked for exactly that many. -/
theorem tty_read_loop_exhaust (i : Nat) : ∀ (n br : Nat) (buf : Nat → Nat) (k : kernel_state),
    (k.tty i).line.input_count ≤ n →
    tty_read_loop i n br buf k = tty_read_loop i (k.tty i).line.input_count br buf k := by
  intro n
  induction n with
  | zero =>
    intro br buf k h
    have : (k.tty i).line.input_count = 0 := by omega
    rw [this]
  | succ n ih =>
    intro br buf k h
    by_cases hpos : (k.tty i).line.input_count > 0
    · obtain ⟨c, hc⟩ : ∃ c, (k.tty i).line.input_count = c + 1 := ⟨_, (Nat.succ_pred_eq_of_pos hpos).symm⟩
      have hstep : ∀ m, tty_read_loop i (m + 1) br buf k
          = tty_read_loop i m (br + 1)
              (Function.update buf br ((k.tty i).line.input_buffer (k.tty i).line.input_head))
              (k.set_tty i { k.tty i with
                line := { (k.tty i).line with
                  input_head := ((k.tty i).line.input_head + 1) % TTY_BUFFER_SIZE
                  input_count := (k.tty i).line.input_count - 1 }
                bytes_read := ((k.tty i).bytes_read + 1) % 4294967296 }) := by
        intro m
        simp only [tty_read_loop, hpos, if_true]
      rw [hstep n, hc, hstep c, ih _ _ _ (by rw [set_tty_tty_same]; simp only; omega)]
      rw [set_tty_tty_same]
      simp only [hc, Nat.add_sub_cancel]
    · have h0 : (k.tty i).line.input_count = 0 := by omega
      rw [h0]
      simp only [tty_read_loop, hpos, if_false]

/-- C22: on a Ready device, in either mode, whose input ring is well formed and holds
`(k.tty i).line.input_count` bytes, `tty_read` with a caller's buffer and a size above zero
returns the smaller of the size and the count; the caller's buffer then starts with that
many of the oldest bytes in FIFO order, and the ring holds the remaining bytes in their
order. With an empty ring it returns 0. The function has no loop that waits. -/
theorem C22_read_drains_oldest_first (i size : Nat) (b : Nat → Nat) (k : kernel_state)
    (h : ready_dev i k) (hinv : ring_inv (k.tty i).line) (hsz : 0 < size) :
    (tty_read (i : Int) (some b) size k).1 = ((min size (k.tty i).line.input_count : Nat) : Int) ∧
    (∃ b2, (tty_read (i : Int) (some b) size k).2.1 = some b2 ∧
      (List.range (min size (k.tty i).line.input_count)).map b2
        = (ring_contents (k.tty i).line).take (min size (k.tty i).line.input_count)) ∧
    ring_contents (((tty_read (i : Int) (some b) size k).2.2).tty i).line
      = (ring_contents (k.tty i).line).drop (min size (k.tty i).line.input_count) ∧
    ((k.tty i).line.input_count = 0 → (tty_read (i : Int) (some b) size k).1 = 0) := by
  have hloop : tty_read_loop i size 0 b k
      = tty_read_loop i (min size (k.tty i).line.input_count) 0 b k := by
    by_cases hle : size ≤ (k.tty i).line.input_count
    · rw [Nat.min_eq_left hle]
    · rw [Nat.min_eq_right (by omega)]
      exact tty_read_loop_exhaust i size 0 b k (by omega)
  obtain ⟨r1, r2, _, r4⟩ := tty_read_loop_spec i (min size (k.tty i).line.input_count) 0 b k hinv
    (Nat.min_le_right _ _)
  rw [tty_read_ready i b size k h (by omega), hloop]
  refine ⟨by rw [r1, Nat.zero_add], ⟨_, rfl, ?_⟩, r4, fun h0 => by rw [r1, h0]; simp⟩
  apply List.ext_getElem
  · simp [ring_contents_length]
  · intro m hm1 hm2
    simp only [List.getElem_map, List.getElem_range, List.getElem_take]
    have hm : m < min size (k.tty i).line.input_count := by simpa using hm1
    have := r2 m hm
    rw [Nat.zero_add] at this
    rw [this, List.getD_eq_getElem _ _ (by rw [ring_contents_length]; omega)]

/-- C22 on the console holding "ls\n": a read of two bytes returns 2 and leaves the line
feed queued; a read of five bytes returns 3. -/
theorem C22_read_drains_oldest_first_witness :
    (tty_read ((0 : Nat) : Int) (some (fun _ => 0)) 2 (console_with_input [108, 115, 10])).1 = 2 ∧
    ring_contents
      ((tty_read ((0 : Nat) : Int) (some (fun _ => 0)) 2 (console_with_input [108, 115, 10])).2.2.tty 0).line
      = [10] ∧
    (tty_read ((0 : Nat) : Int) (some (fun _ => 0)) 5 (console_with_input [108, 115, 10])).1 = 3 :=
  ⟨(C22_read_drains_oldest_first 0 2 (fun _ => 0) (console_with_input [108, 115, 10])
      ⟨by decide, rfl, rfl⟩ ⟨by decide, by decide, rfl⟩ (by decide)).1,
    (C22_read_drains_oldest_first 0 2 (fun _ => 0) (console_with_input [108, 115, 10])
      ⟨by decide, rfl, rfl⟩ ⟨by decide, by decide, rfl⟩ (by decide)).2.2.1,
    (C22_read_drains_oldest_first 0 5 (fun _ => 0) (console_with_input [108, 115, 10])
      ⟨by decide, rfl, rfl⟩ ⟨by decide, by decide, rfl⟩ (by decide)).1⟩

/-- Writing a line feed to the Ready foreground device in Raw mode: the byte is rendered
as it is, whatever the CR-LF flag says. -/
theorem putchar_newline_raw (fuel i : Nat) (k : kernel_state) (h : ready_fg i k)
    (hm : (k.tty i).mode = tty_mode_t.TTY_MODE_RAW) :
    tty_putchar (fuel + 2) (i : Int) 10 k = some (1, count_byte i (render i 10 k)) ∧
    (count_byte i (render i 10 k)).display_trace = k.display_trace ++ [10] :=
  ⟨putchar_plain_fg fuel i 10 k h (Or.inr (Or.inr hm)) (by decide), by simp⟩

/-- C23, amended: on a Ready foreground device with CR-LF translation enabled, writing a
line feed in Cooked mode sends a carriage return to the display immediately before the line
feed; in Raw mode it sends the line feed alone. -/
theorem C23_crlf_in_cooked_mode_only (fuel i : Nat) (k : kernel_state) (h : ready_fg i k)
    (hcrlf : (k.tty i).config.crlf ≠ 0) :
    ((k.tty i).mode = tty_mode_t.TTY_MODE_COOKED →
      ∃ k2, tty_putchar (fuel + 3) (i : Int) 10 k = some (1, k2) ∧
        k2.display_trace = k.display_trace ++ [13, 10]) ∧
    ((k.tty i).mode = tty_mode_t.TTY_MODE_RAW →
      ∃ k2, tty_putchar (fuel + 3) (i : Int) 10 k = some (1, k2) ∧
        k2.display_trace = k.display_trace ++ [10]) := by
  constructor
  · intro hm
    exact ⟨_, putchar_crlf_fg fuel i k h hm hcrlf, by simp⟩
  · intro hm
    exact ⟨_, (putchar_newline_raw (fuel + 1) i k h hm).1, (putchar_newline_raw (fuel + 1) i k h hm).2⟩

/-- C23, amended, on the console in Cooked mode and on the console in Raw mode, both with
the default configuration. -/
theorem C23_crlf_in_cooked_mode_only_witness :
    (∃ k2, tty_putchar 3 ((0 : Nat) : Int) 10 (console_state default_tty_config 0 0 0)
        = some (1, k2) ∧ k2.display_trace = [] ++ [13, 10]) ∧
    (∃ k2, tty_putchar 3 ((0 : Nat) : Int) 10 (raw_console_state default_tty_config)
        = some (1, k2) ∧ k2.display_trace = [] ++ [10]) :=
  ⟨(C23_crlf_in_cooked_mode_only 0 0 (console_state default_tty_config 0 0 0)
      ⟨by decide, rfl, rfl, rfl⟩ (by decide)).1 rfl,
    (C23_crlf_in_cooked_mode_only 0 0 (raw_console_state default_tty_config)
      ⟨by decide, rfl, rfl, rfl⟩ (by decide)).2 rfl⟩

/-- C23 as stated fails in Raw mode: on the Ready foreground console in Raw mode with the
default configuration (CR-LF translation enabled), writing a line feed sends the display
the line feed alone, with no carriage return before it. -/
theorem C23_counterexample :
    ready_fg 0 (raw_console_state default_tty_config) ∧
    ((raw_console_state default_tty_config).tty 0).config.crlf ≠ 0 ∧
    ((raw_console_state default_tty_config).tty 0).mode = tty_mode_t.TTY_MODE_RAW ∧
    ∃ k2, tty_putchar 2 ((0 : Nat) : Int) 10 (raw_console_state default_tty_config) = some (1, k2) ∧
      k2.display_trace = [10] ∧ k2.display_trace ≠ [13, 10] := by
  have hr : ready_fg 0 (raw_console_state default_tty_config) := ⟨by decide, rfl, rfl, rfl⟩
  obtain ⟨h1, h2⟩ := putchar_newline_raw 0 0 (raw_console_state default_tty_config) hr rfl
  refine ⟨hr, by decide, rfl, _, h1, h2, ?_⟩
  rw [h2]
  decide

/-- The space loop of the tab expansion on the Ready foreground device: `n` spaces are
written, each rendered and counted. -/
theorem tty_put_spaces_fg (fuel i : Nat) :
    ∀ (n : Nat) (k : kernel_state), ready_fg i k →
      tty_put_spaces (fun m c k => tty_write (fuel + 2) m (some (fun _ => c)) 1 k) i n k
        = some (write_plain i (List.replicate n 32) k) := by
  intro n
  induction n with
  | zero => intro k _; rfl
  | succ n ih =>
    intro k h
    have hp : tty_write (fuel + 2) (k.tty i).minor (some (fun _ => 32)) 1 k
        = some (1, count_byte i (render i 32 k)) := by
      rw [h.2.1]
      exact putchar_plain_fg fuel i 32 k h (Or.inl (by decide)) (by decide)
    simp only [tty_put_spaces, hp]
    rw [ih _ (ready_fg_step i 32 k h)]
    rfl

/-- Writing a tab to the Ready foreground device in Cooked mode with tab expansion: the
spaces up to the next multiple of 8 of the device's cursor column are written instead. -/
theorem putchar_tab_expanded (fuel i : Nat) (k : kernel_state) (h : ready_fg i k)
    (hm : (k.tty i).mode = tty_mode_t.TTY_MODE_COOKED)
    (hte : (k.tty i).config.tab_expand ≠ 0) :
    tty_putchar (fuel + 3) (i : Int) 9 k
      = some (1, count_byte i
          (write_plain i (List.replicate (8 - (k.tty i).cursor.x % 8) 32) k)) := by
  apply tty_write_one (fuel + 2) i 9 k _ h.1 h.2.2.1
  unfold tty_process_output_char tty_line_discipline_output
  have h910 : ¬ ((9 : Nat) = 10) := by decide
  simp only [hm, if_true, h910, and_false, if_false, hte, ne_eq, not_false_eq_true, and_self,
    tty_put_spaces_fg fuel i _ k h, Option.map_some']

theorem vga_put_printable_wrap_cursor (ch : Nat) (s : vga_state_t) (hx : s.cursor.x = 79)
    (hy : s.cursor.y < 25) :
    (vga_put_printable ch s).cursor = { x := 0, y := min (s.cursor.y + 1) 24 } := by
  unfold vga_put_printable
  rw [vga_put_char_at_eq]
  have e1 : (79 + 1) % 256 = 80 := by decide
  simp only [hx, e1, vga_show_cursor, VGA_WIDTH, ge_iff_le, le_refl, if_true, vga_new_line,
    VGA_HEIGHT]
  have e2 : (s.cursor.y + 1) % 256 = s.cursor.y + 1 := by omega
  rw [e2]
  by_cases h24 : 25 ≤ s.cursor.y + 1
  · have e3 : min (s.cursor.y + 1) 24 = 24 := by omega
    rw [e3]
    simp only [h24, if_true]
    split_ifs <;> rfl
  · have e3 : min (s.cursor.y + 1) 24 = s.cursor.y + 1 := by omega
    rw [e3]
    simp only [h24, if_false]

theorem vga_write_plain_append (fg bg : Nat) (l1 l2 : List Nat) (v : vga_state_t) :
    vga_write_plain fg bg (l1 ++ l2) v = vga_write_plain fg bg l2 (vga_write_plain fg bg l1 v) := by
  unfold vga_write_plain
  rw [List.foldl_append]

/-- The display cursor after the spaces of a tab expansion that starts in column `c` of
row `y`: the next multiple of 8, or column 0 of the next row (the last row after a scroll)
when that multiple is 80. -/
theorem vga_write_spaces_cursor (fg bg : Nat) (v : vga_state_t) (hx : v.cursor.x < 80)
    (hy : v.cursor.y < 25) :
    (vga_write_plain fg bg (List.replicate (8 - v.cursor.x % 8) 32) v).cursor
      = if v.cursor.x < 72 then { x := v.cursor.x + (8 - v.cursor.x % 8), y := v.cursor.y }
        else { x := 0, y := min (v.cursor.y + 1) 24 } := by
  have hpr : ∀ n, ∀ c ∈ List.replicate n 32, printable c := by
    intro n c hc
    rw [List.eq_of_mem_replicate hc]
    decide
  by_cases h72 : v.cursor.x < 72
  · rw [if_pos h72]
    have := (vga_write_plain_inrow fg bg (List.replicate (8 - v.cursor.x % 8) 32) v (hpr _)
      (by rw [List.length_replicate]; omega) hy).1
    rw [List.length_replicate] at this
    exact this
  · rw [if_neg h72]
    obtain ⟨m, hm⟩ : ∃ m, 8 - v.cursor.x % 8 = m + 1 := ⟨7 - v.cursor.x % 8, by omega⟩
    have hsplit : List.replicate (m + 1) 32 = List.replicate m 32 ++ [32] := by
      rw [List.replicate_succ']
    rw [hm, hsplit, vga_write_plain_append]
    have h1 := (vga_write_plain_inrow fg bg (List.replicate m 32) v (hpr _)
      (by rw [List.length_replicate]; omega) hy).1
    rw [List.length_replicate] at h1
    have hstep : vga_write_plain fg bg [32] (vga_write_plain fg bg (List.replicate m 32) v)
        = vga_put_printable 32 (vga_set_color fg bg (vga_write_plain fg bg (List.replicate m 32) v)) := by
      show vga_put_char_notab 32 _ = _
      rw [vga_put_char_notab_printable 32 _ (by decide)]
    rw [hstep, vga_put_printable_wrap_cursor 32 _
      (by show (vga_write_plain fg bg (List.replicate m 32) v).cursor.x = 79; rw [h1]; simp only; omega)
      (by show (vga_write_plain fg bg (List.replicate m 32) v).cursor.y < 25; rw [h1]; exact hy)]
    show _ = ({ x := 0, y := min (v.cursor.y + 1) 24 } : vga_cursor_t)
    have : (vga_set_color fg bg (vga_write_plain fg bg (List.replicate m 32) v)).cursor.y
        = v.cursor.y := by
      show (vga_write_plain fg bg (List.replicate m 32) v).cursor.y = _
      rw [h1]
    rw [this]

/-- C24: on a Ready foreground device in Cooked mode with tab expansion enabled, whose
cursor column is the display's cursor column `c` (below 80, row `y` below 25), writing a
tab returns 1 for every amount of fuel from 3 on and sends the display exactly
8 - (c mod 8) spaces and no tab; the display cursor ends in the next multiple of 8 after
`c` on the same row, or, when that multiple is 80, in column 0 of the next row (of the last
row, after a scroll, when `y` is 24). -/
theorem C24_tab_expands_to_spaces (fuel i : Nat) (k : kernel_state) (h : ready_fg i k)
    (hm : (k.tty i).mode = tty_mode_t.TTY_MODE_COOKED)
    (hte : (k.tty i).config.tab_expand ≠ 0)
    (hc : (k.tty i).cursor.x = k.vga_state.cursor.x)
    (hx : k.vga_state.cursor.x < 80) (hy : k.vga_state.cursor.y < 25) :
    ∃ k2, tty_putchar (fuel + 3) (i : Int) 9 k = some (1, k2) ∧
      k2.display_trace
        = k.display_trace ++ List.replicate (8 - k.vga_state.cursor.x % 8) 32 ∧
      (∀ c ∈ k2.display_trace, c ∈ k.display_trace ∨ c = 32) ∧
      k2.vga_state.cursor
        = (if k.vga_state.cursor.x < 72
            then { x := k.vga_state.cursor.x + (8 - k.vga_state.cursor.x % 8),
                   y := k.vga_state.cursor.y }
            else { x := 0, y := min (k.vga_state.cursor.y + 1) 24 }) ∧
      (k2.vga_state.cursor.x + 80 * (if k.vga_state.cursor.x < 72 then 0 else 1))
        = (k.vga_state.cursor.x / 8 + 1) * 8 := by
  obtain ⟨w1, w2, _⟩ := write_plain_facts i (List.replicate (8 - (k.tty i).cursor.x % 8) 32) k
  have htr : (count_byte i (write_plain i (List.replicate (8 - (k.tty i).cursor.x % 8) 32) k)).display_trace
      = k.display_trace ++ List.replicate (8 - k.vga_state.cursor.x % 8) 32 := by
    rw [count_byte_display_trace, w1, hc]
  have hcur : (count_byte i (write_plain i (List.replicate (8 - (k.tty i).cursor.x % 8) 32) k)).vga_state.cursor
      = (if k.vga_state.cursor.x < 72
          then { x := k.vga_state.cursor.x + (8 - k.vga_state.cursor.x % 8),
                 y := k.vga_state.cursor.y }
          else { x := 0, y := min (k.vga_state.cursor.y + 1) 24 }) := by
    rw [count_byte_vga_state, w2, hc]
    exact vga_write_spaces_cursor _ _ k.vga_state hx hy
  refine ⟨_, putchar_tab_expanded fuel i k h hm hte, htr, ?_, hcur, ?_⟩
  · intro c hcm
    rw [htr, List.mem_append] at hcm
    rcases hcm with hcm | hcm
    · exact Or.inl hcm
    · exact Or.inr (List.eq_of_mem_replicate hcm)
  · rw [hcur]
    by_cases h72 : k.vga_state.cursor.x < 72
    · simp only [h72, if_true]
      omega
    · simp only [h72, if_false]
      omega

/-- C24 on the console with the cursor in column 3 of row 0: five spaces, cursor in
column 8. -/
theorem C24_tab_expands_to_spaces_witness :
    ∃ k2, tty_putchar 3 ((0 : Nat) : Int) 9 (console_state default_tty_config 0 3 0) = some (1, k2) ∧
      k2.display_trace = [32, 32, 32, 32, 32] ∧ k2.vga_state.cursor = { x := 8, y := 0 } := by
  obtain ⟨k2, h1, h2, _, h4, _⟩ := C24_tab_expands_to_spaces 0 0
    (console_state default_tty_config 0 3 0) ⟨by decide, rfl, rfl, rfl⟩ rfl (by decide) rfl
    (by decide) (by decide)
  exact ⟨k2, h1, h2, h4⟩

theorem tty_get_device_some_valid (minor : Int) (k : kernel_state) (i : Nat)
    (h : tty_get_device minor k = some i) : tty_is_valid_minor minor = true := by
  unfold tty_get_device at h
  by_cases hv : tty_is_valid_minor minor = true
  · exact hv
  · simp only [hv, Bool.false_eq_true, not_false_eq_true, if_true] at h
    cases h

/-- `tty_read` returns -1 and changes neither the caller's buffer nor the state when the
minor is invalid, the buffer is null, the size is zero or the device is not Ready (Closed
included). -/
theorem tty_read_fails (minor : Int) (buffer : Option (Nat → Nat)) (size : Nat)
    (k : kernel_state)
    (h : tty_is_valid_minor minor = false ∨ buffer = none ∨ size = 0 ∨
      (k.tty minor.toNat).state ≠ tty_state_t.TTY_STATE_READY) :
    tty_read minor buffer size k = (-1, buffer, k) := by
  unfold tty_read
  cases hd : tty_get_device minor k with
  | none => rfl
  | some i =>
    obtain ⟨_, hi⟩ := tty_get_device_some minor k i hd
    have hv := tty_get_device_some_valid minor k i hd
    cases buffer with
    | none => rfl
    | some b =>
      by_cases hsz : size = 0
      · simp only [hsz, if_true]
      · by_cases hst : (k.tty i).state ≠ tty_state_t.TTY_STATE_READY
        · simp only [hsz, if_false, hst, ne_eq, not_false_eq_true, if_true]
        · exfalso
          rcases h with h | h | h | h
          · rw [hv] at h; cases h
          · cases h
          · exact hsz h
          · rw [← hi] at h; exact hst h

/-- `tty_write` returns -1 and changes nothing, for every amount of fuel above zero, when
the minor is invalid, the data pointer is null, the size is zero or the device is not Ready
(Closed included). -/
theorem tty_write_fails (fuel : Nat) (minor : Int) (data : Option (Nat → Nat)) (size : Nat)
    (k : kernel_state)
    (h : tty_is_valid_minor minor = false ∨ data = none ∨ size = 0 ∨
      (k.tty minor.toNat).state ≠ tty_state_t.TTY_STATE_READY) :
    tty_write (fuel + 1) minor data size k = some (-1, k) := by
  unfold tty_write
  cases hd : tty_get_device minor k with
  | none => rfl
  | some i =>
    obtain ⟨_, hi⟩ := tty_get_device_some minor k i hd
    have hv := tty_get_device_some_valid minor k i hd
    cases data with
    | none => rfl
    | some d =>
      by_cases hsz : size = 0
      · simp only [hsz, if_true]
      · by_cases hst : (k.tty i).state ≠ tty_state_t.TTY_STATE_READY
        · simp only [hsz, if_false, hst, ne_eq, not_false_eq_true, if_true]
        · exfalso
          rcases h with h | h | h | h
          · rw [hv] at h; cases h
          · cases h
          · exact hsz h
          · rw [← hi] at h; exact hst h

/-- C25, amended: `tty_read` and `tty_write` fail fast, with the caller's buffer and the
whole TTY state unchanged, whenever the minor is outside 0..7, the buffer is null, the size
is zero, or the device is Closed or otherwise not Ready; in every one of these cases the
code returned is the same, -1. -/
theorem C25_failures_all_return_minus_one (fuel : Nat) (minor : Int)
    (buffer : Option (Nat → Nat)) (size : Nat) (k : kernel_state)
    (h : ¬ (0 ≤ minor ∧ minor < 8) ∨ buffer = none ∨ size = 0 ∨
      (k.tty minor.toNat).state = tty_state_t.TTY_STATE_CLOSED ∨
      (k.tty minor.toNat).state ≠ tty_state_t.TTY_STATE_READY) :
    tty_read minor buffer size k = (-1, buffer, k) ∧
    tty_write (fuel + 1) minor buffer size k = some (-1, k) := by
  have h2 : tty_is_valid_minor minor = false ∨ buffer = none ∨ size = 0 ∨
      (k.tty minor.toNat).state ≠ tty_state_t.TTY_STATE_READY := by
    rcases h with h | h | h | h | h
    · left
      simp only [tty_is_valid_minor, MAX_TTYS, decide_eq_false_iff_not]
      intro hc
      exact h ⟨by omega, by exact_mod_cast hc.2⟩
    · exact Or.inr (Or.inl h)
    · exact Or.inr (Or.inr (Or.inl h))
    · right; right; right
      rw [h]; decide
    · exact Or.inr (Or.inr (Or.inr h))
  exact ⟨tty_read_fails minor buffer size k h2, tty_write_fails fuel minor buffer size k h2⟩

/-- C25, amended, on the console: a write of size zero to tty0 and a read from the Closed
tty1. -/
theorem C25_failures_all_return_minus_one_witness :
    tty_write 1 0 (some (fun _ => 0)) 0 (console_state default_tty_config 0 0 0)
      = some (-1, console_state default_tty_config 0 0 0) ∧
    tty_read 1 (some (fun _ => 0)) 4 (console_state default_tty_config 0 0 0)
      = (-1, some (fun _ => 0), console_state default_tty_config 0 0 0) :=
  ⟨(C25_failures_all_return_minus_one 0 0 (some (fun _ => 0)) 0
      (console_state default_tty_config 0 0 0) (Or.inr (Or.inr (Or.inl rfl)))).2,
    (C25_failures_all_return_minus_one 0 1 (some (fun _ => 0)) 4
      (console_state default_tty_config 0 0 0) (Or.inr (Or.inr (Or.inr (Or.inl rfl))))).1⟩

/-- C25 as stated fails: on the console, a read with the invalid size zero from the Ready
tty0 and a read from the Closed tty1 return the same code, and so do the two writes; an
invalid argument and a device that is not ready cannot be told apart. -/
theorem C25_counterexample :
    (tty_read 0 (some (fun _ => 0)) 0 (console_state default_tty_config 0 0 0)).1 = -1 ∧
    (tty_read 1 (some (fun _ => 0)) 4 (console_state default_tty_config 0 0 0)).1 = -1 ∧
    tty_write 1 0 (some (fun _ => 0)) 0 (console_state default_tty_config 0 0 0)
      = some (-1, console_state default_tty_config 0 0 0) ∧
    tty_write 1 1 (some (fun _ => 0)) 4 (console_state default_tty_config 0 0 0)
      = some (-1, console_state default_tty_config 0 0 0) ∧
    ¬ ((tty_read 0 (some (fun _ => 0)) 0 (console_state default_tty_config 0 0 0)).1
      ≠ (tty_read 1 (some (fun _ => 0)) 4 (console_state default_tty_config 0 0 0)).1) := by
  have a := tty_read_fails 0 (some (fun _ => 0)) 0 (console_state default_tty_config 0 0 0)
    (Or.inr (Or.inr (Or.inl rfl)))
  have b := tty_read_fails 1 (some (fun _ => 0)) 4 (console_state default_tty_config 0 0 0)
    (Or.inr (Or.inr (Or.inr (by decide))))
  have c := tty_write_fails 0 0 (some (fun _ => 0)) 0 (console_state default_tty_config 0 0 0)
    (Or.inr (Or.inr (Or.inl rfl)))
  have d := tty_write_fails 0 1 (some (fun _ => 0)) 4 (console_state default_tty_config 0 0 0)
    (Or.inr (Or.inr (Or.inr (by decide))))
  refine ⟨by rw [a], by rw [b], c, d, ?_⟩
  rw [a, b]
  simp

/-- C26: with Num Lock on, `scancode_to_ascii` maps the keypad scancodes 0x47, 0x48, 0x49,
0x4B, 0x4C, 0x4D, 0x4F, 0x50, 0x51, 0x52, 0x53 to '7', '8', '9', '4', '5', '6', '1', '2',
'3', '0', '.', whatever the other modifiers are; for every other scancode the result is the
same with Num Lock on and off; and for every scancode from 128 on the result is 0. -/
theorem C26_num_lock_keypad (m : modifier_keys_t) (sc : Nat) :
    (m.num_lock = true →
      scancode_to_ascii 0x47 m = 55 ∧ scancode_to_ascii 0x48 m = 56 ∧
      scancode_to_ascii 0x49 m = 57 ∧ scancode_to_ascii 0x4B m = 52 ∧
      scancode_to_ascii 0x4C m = 53 ∧ scancode_to_ascii 0x4D m = 54 ∧
      scancode_to_ascii 0x4F m = 49 ∧ scancode_to_ascii 0x50 m = 50 ∧
      scancode_to_ascii 0x51 m = 51 ∧ scancode_to_ascii 0x52 m = 48 ∧
      scancode_to_ascii 0x53 m = 46) ∧
    (sc ∉ keypad_scancodes →
      scancode_to_ascii sc { m with num_lock := true }
        = scancode_to_ascii sc { m with num_lock := false }) ∧
    (128 ≤ sc → scancode_to_ascii sc m = 0) := by
  refine ⟨fun hnum => ?_, fun hsc => ?_, fun h128 => ?_⟩
  · refine ⟨?_, ?_, ?_, ?_, ?_, ?_, ?_, ?_, ?_, ?_, ?_⟩ <;>
      simp [scancode_to_ascii, hnum]
  · simp only [keypad_scancodes, List.mem_cons, List.mem_singleton, List.not_mem_nil, or_false,
      not_or] at hsc
    obtain ⟨h1, h2, h3, h4, h5, h6, h7, h8, h9, h10, h11⟩ := hsc
    simp only [scancode_to_ascii, h1, h2, h3, h4, h5, h6, h7, h8, h9, h10, h11, if_false,
      if_true, Bool.false_eq_true]
  · simp only [scancode_to_ascii, h128, ge_iff_le, if_true]

/-- C26 with Num Lock, Caps Lock and the left Shift on (Home gives '7'), and on the letter
key 0x1E, which Num Lock leaves alone. -/
theorem C26_num_lock_keypad_witness :
    scancode_to_ascii 0x47 { num_lock := true, caps_lock := true, left_shift := true } = 55 ∧
    scancode_to_ascii 0x1E { caps_lock := true, num_lock := true }
      = scancode_to_ascii 0x1E { caps_lock := true, num_lock := false } ∧
    scancode_to_ascii 200 { num_lock := true } = 0 :=
  ⟨((C26_num_lock_keypad { num_lock := true, caps_lock := true, left_shift := true } 0).1 rfl).1,
    (C26_num_lock_keypad { caps_lock := true } 0x1E).2.1 (by decide),
    (C26_num_lock_keypad { num_lock := true } 200).2.2 (by decide)⟩

set_option maxRecDepth 100000 in
/-- The two masks of `process_scancode` on a byte: bit 0x80 is set exactly from 128 on, and
the mask 0x7F takes the byte modulo 128. -/
theorem scancode_masks : ∀ b, b < 256 →
    ((b &&& 0x80 ≠ 0 ↔ 128 ≤ b) ∧ b &&& 0x7F = b % 128) := by
  decide

/-- What `process_scancode` does with the raw byte `b`: the event it builds and hands to
the handler and to the key queue, and the keyboard state it leaves, in terms of
`update_modifiers` and `scancode_to_ascii`. -/
theorem process_scancode_eq {κ : Type} (user_handler : Option (keyboard_event_t → κ → Option κ))
    (b : Nat) (hb : b < 256) (ks : keyboard_state) (env : κ) :
    process_scancode user_handler b ks env
      = (run_handler user_handler
              { scancode := b % 128
                ascii := scancode_to_ascii (b % 128)
                  (update_modifiers (b % 128)
                    (if 128 ≤ b then key_state_t.KEY_RELEASED else key_state_t.KEY_PRESSED)
                    ks).keyboard_modifiers
                state := if 128 ≤ b then key_state_t.KEY_RELEASED else key_state_t.KEY_PRESSED
                modifiers := ks.keyboard_modifiers } env).map
        (fun e =>
          ({ scancode := b % 128
             ascii := scancode_to_ascii (b % 128)
               (update_modifiers (b % 128)
                 (if 128 ≤ b then key_state_t.KEY_RELEASED else key_state_t.KEY_PRESSED)
                 ks).keyboard_modifiers
             state := if 128 ≤ b then key_state_t.KEY_RELEASED else key_state_t.KEY_PRESSED
             modifiers := ks.keyboard_modifiers },
            { update_modifiers (b % 128)
                (if 128 ≤ b then key_state_t.KEY_RELEASED else key_state_t.KEY_PRESSED) ks with
              keyboard_buffer := buffer_push_event
                { scancode := b % 128
                  ascii := scancode_to_ascii (b % 128)
                    (update_modifiers (b % 128)
                      (if 128 ≤ b then key_state_t.KEY_RELEASED else key_state_t.KEY_PRESSED)
                      ks).keyboard_modifiers
                  state := if 128 ≤ b then key_state_t.KEY_RELEASED else key_state_t.KEY_PRESSED
                  modifiers := ks.keyboard_modifiers }
                (update_modifiers (b % 128)
                  (if 128 ≤ b then key_state_t.KEY_RELEASED else key_state_t.KEY_PRESSED)
                  ks).keyboard_buffer },
            e)) := by
  obtain ⟨m1, m2⟩ := scancode_masks b hb
  unfold process_scancode
  by_cases h : 128 ≤ b
  · have hbit : b &&& 0x80 ≠ 0 := m1.2 h
    simp only [hbit, ne_eq, not_false_eq_true, if_true, m2, h]
    cases user_handler <;> rfl
  · have hbit : ¬ (b &&& 0x80 ≠ 0) := fun hc => h (m1.1 hc)
    have hmod : b % 128 = b := by omega
    simp only [hbit, if_false, h, hmod]
    cases user_handler <;> rfl

/-- What `update_modifiers` does to the modifier set, by scancode and key state. -/
theorem update_modifiers_spec (sc : Nat) (st : key_state_t) (ks : keyboard_state) :
    (sc = 0x2A → (update_modifiers sc st ks).keyboard_modifiers
      = { ks.keyboard_modifiers with left_shift := decide (st = key_state_t.KEY_PRESSED) }) ∧
    (sc = 0x36 → (update_modifiers sc st ks).keyboard_modifiers
      = { ks.keyboard_modifiers with right_shift := decide (st = key_state_t.KEY_PRESSED) }) ∧
    (sc = 0x1D → (update_modifiers sc st ks).keyboard_modifiers
      = { ks.keyboard_modifiers with left_ctrl := decide (st = key_state_t.KEY_PRESSED) }) ∧
    (sc = 0x38 → (update_modifiers sc st ks).keyboard_modifiers
      = { ks.keyboard_modifiers with left_alt := decide (st = key_state_t.KEY_PRESSED) }) ∧
    (sc = 0x3A → (update_modifiers sc st ks).keyboard_modifiers
      = if st = key_state_t.KEY_PRESSED
        then { ks.keyboard_modifiers with caps_lock := !ks.keyboard_modifiers.caps_lock }
        else ks.keyboard_modifiers) ∧
    (sc = 0x45 → (update_modifiers sc st ks).keyboard_modifiers
      = if st = key_state_t.KEY_PRESSED
        then { ks.keyboard_modifiers with num_lock := !ks.keyboard_modifiers.num_lock }
        else ks.keyboard_modifiers) ∧
    (sc = 0x46 → (update_modifiers sc st ks).keyboard_modifiers
      = if st = key_state_t.KEY_PRESSED
        then { ks.keyboard_modifiers with scroll_lock := !ks.keyboard_modifiers.scroll_lock }
        else ks.keyboard_modifiers) ∧
    (sc ∉ modifier_scancodes → update_modifiers sc st ks = ks) ∧
    (update_modifiers sc st ks).keyboard_buffer = ks.keyboard_buffer := by
  refine ⟨?_, ?_, ?_, ?_, ?_, ?_, ?_, ?_, ?_⟩
  · intro h; subst h; rfl
  · intro h; subst h; rfl
  · intro h; subst h; rfl
  · intro h; subst h; rfl
  · intro h; subst h
    cases st <;> rfl
  · intro h; subst h
    cases st <;> rfl
  · intro h; subst h
    cases st <;> rfl
  · intro h
    simp only [modifier_scancodes, List.mem_cons, List.mem_singleton, List.not_mem_nil,
      or_false, not_or] at h
    obtain ⟨h1, h2, h3, h4, h5, h6, h7⟩ := h
    simp only [update_modifiers, h1, h2, h3, h4, h5, h6, h7, if_false]
  · unfold update_modifiers keyboard_set_leds
    split_ifs <;> rfl

/-- C27: for every raw scancode byte `b`, every prior keyboard state and every handler,
`process_scancode` returns exactly when the handler does (always, when there is none), and
the event it builds has the scancode `b` with the high bit cleared and the state Released
exactly when `b` has bit 0x80 set. The modifier set afterwards: the press of 0x2A, 0x36,
0x1D, 0x38 sets and the release clears the left-shift, right-shift, ctrl, alt flag; a press
of 0x3A, 0x45, 0x46 flips the caps-lock, num-lock, scroll-lock flag and a release leaves
the set unchanged; every other scancode leaves the set unchanged. -/
theorem C27_scancode_event_and_modifiers {κ : Type}
    (user_handler : Option (keyboard_event_t → κ → Option κ))
    (b : Nat) (hb : b < 256) (ks : keyboard_state) (env : κ) :
    ∃ ev ks2,
      process_scancode user_handler b ks env
        = (run_handler user_handler ev env).map (fun e => (ev, ks2, e)) ∧
      ev.scancode = b &&& 0x7F ∧ ev.scancode = b % 128 ∧
      (ev.state = key_state_t.KEY_RELEASED ↔ b &&& 0x80 ≠ 0) ∧
      (ev.state = key_state_t.KEY_PRESSED ↔ b &&& 0x80 = 0) ∧
      ks2.keyboard_buffer = buffer_push_event ev ks.keyboard_buffer ∧
      (b % 128 = 0x2A → ks2.keyboard_modifiers
        = { ks.keyboard_modifiers with left_shift := decide (b < 128) }) ∧
      (b % 128 = 0x36 → ks2.keyboard_modifiers
        = { ks.keyboard_modifiers with right_shift := decide (b < 128) }) ∧
      (b % 128 = 0x1D → ks2.keyboard_modifiers
        = { ks.keyboard_modifiers with left_ctrl := decide (b < 128) }) ∧
      (b % 128 = 0x38 → ks2.keyboard_modifiers
        = { ks.keyboard_modifiers with left_alt := decide (b < 128) }) ∧
      (b % 128 = 0x3A → ks2.keyboard_modifiers
        = if b < 128
          then { ks.keyboard_modifiers with caps_lock := !ks.keyboard_modifiers.caps_lock }
          else ks.keyboard_modifiers) ∧
      (b % 128 = 0x45 → ks2.keyboard_modifiers
        = if b < 128
          then { ks.keyboard_modifiers with num_lock := !ks.keyboard_modifiers.num_lock }
          else ks.keyboard_modifiers) ∧
      (b % 128 = 0x46 → ks2.keyboard_modifiers
        = if b < 128
          then { ks.keyboard_modifiers with scroll_lock := !ks.keyboard_modifiers.scroll_lock }
          else ks.keyboard_modifiers) ∧
      (b % 128 ∉ modifier_scancodes → ks2.keyboard_modifiers = ks.keyboard_modifiers) := by
  obtain ⟨m1, m2⟩ := scancode_masks b hb
  obtain ⟨u1, u2, u3, u4, u5, u6, u7, u8, u9⟩ := update_modifiers_spec (b % 128)
    (if 128 ≤ b then key_state_t.KEY_RELEASED else key_state_t.KEY_PRESSED) ks
  have hpr : decide ((if 128 ≤ b then key_state_t.KEY_RELEASED else key_state_t.KEY_PRESSED)
      = key_state_t.KEY_PRESSED) = decide (b < 128) := by
    by_cases h : 128 ≤ b
    · have h2 : ¬ (b < 128) := by omega
      simp [h, h2]
    · have h2 : b < 128 := by omega
      simp [h, h2]
  have hpr2 : ((if 128 ≤ b then key_state_t.KEY_RELEASED else key_state_t.KEY_PRESSED)
      = key_state_t.KEY_PRESSED) ↔ b < 128 := by
    by_cases h : 128 ≤ b
    · have h2 : ¬ (b < 128) := by omega
      simp [h, h2]
    · have h2 : b < 128 := by omega
      simp [h, h2]
  rw [hpr] at u1 u2 u3 u4
  simp only [hpr2] at u5 u6 u7
  refine ⟨_, _, process_scancode_eq user_handler b hb ks env, m2.symm, rfl, ?_, ?_, ?_,
    u1, u2, u3, u4, u5, u6, u7, fun h =>
      (congrArg keyboard_state.keyboard_modifiers (u8 h) :
        (update_modifiers (b % 128)
          (if 128 ≤ b then key_state_t.KEY_RELEASED else key_state_t.KEY_PRESSED)
          ks).keyboard_modifiers = ks.keyboard_modifiers)⟩
  · show (if 128 ≤ b then key_state_t.KEY_RELEASED else key_state_t.KEY_PRESSED) = _ ↔ _
    rw [m1]
    by_cases h : 128 ≤ b <;> simp [h]
  · show (if 128 ≤ b then key_state_t.KEY_RELEASED else key_state_t.KEY_PRESSED) = _ ↔ _
    have : b &&& 0x80 = 0 ↔ ¬ (128 ≤ b) := by
      rw [← m1]; simp
    rw [this]
    by_cases h : 128 ≤ b <;> simp [h]
  · show buffer_push_event _ _ = _
    rw [u9]

/-- C27 with no handler installed: the release byte 0xAA of the left shift on a keyboard
whose left shift is held. -/
theorem C27_scancode_event_and_modifiers_witness :
    ∃ ev ks2,
      process_scancode (none : Option (keyboard_event_t → Unit → Option Unit)) 0xAA
          { keyboard_buffer := { buffer := fun _ => {}, head := 0, tail := 0, count := 0 }
            keyboard_modifiers := { left_shift := true }
            keyboard_leds := 0 } ()
        = some (ev, ks2, ()) ∧
      ev.scancode = 0x2A ∧ ev.state = key_state_t.KEY_RELEASED ∧
      ks2.keyboard_modifiers = {} := by
  obtain ⟨ev, ks2, h1, _, h3, h4, _, _, h7, _⟩ := C27_scancode_event_and_modifiers
    (none : Option (keyboard_event_t → Unit → Option Unit)) 0xAA (by decide)
    { keyboard_buffer := { buffer := fun _ => {}, head := 0, tail := 0, count := 0 }
      keyboard_modifiers := { left_shift := true }
      keyboard_leds := 0 } ()
  exact ⟨ev, ks2, h1, h3, h4.2 (by decide), h7 (by decide)⟩

theorem vga_put_char_at_buffer (x y ch color : Nat) (s : vga_state_t) (hx : x < 80)
    (hy : y < 25) :
    (vga_put_char_at x y ch color s).buffer
      = Function.update s.buffer (y * 80 + x) { character := ch, color := color } := by
  have h : ¬ (x ≥ VGA_WIDTH ∨ y ≥ VGA_HEIGHT) := by
    simp only [VGA_WIDTH, VGA_HEIGHT]; omega
  unfold vga_put_char_at
  rw [if_neg h]
  rfl

/-- A printable character stored in column 79 of the last row with automatic scrolling on:
the grid is scrolled after the store and the cursor stays in the last row. -/
theorem vga_put_printable_scroll (ch : Nat) (s : vga_state_t) (hx : s.cursor.x = 79)
    (hy : s.cursor.y = 24) (hauto : s.auto_scroll ≠ 0) :
    (vga_put_printable ch s).cursor = { x := 0, y := 24 } ∧
    ∀ j, (vga_put_printable ch s).buffer j
      = if 1920 ≤ j ∧ j < 2000 then { character := 32, color := s.current_color }
        else if j < 1920 then
          Function.update s.buffer 1999 { character := ch, color := s.current_color } (j + 80)
        else Function.update s.buffer 1999 { character := ch, color := s.current_color } j := by
  have hb := vga_put_char_at_buffer s.cursor.x s.cursor.y ch s.current_color s
    (by omega) (by omega)
  have e1 : (79 + 1) % 256 = 80 := by decide
  have e2 : (24 + 1) % 256 = 25 := by decide
  have hrun : vga_put_printable ch s
      = vga_show_cursor
          { vga_scroll_line
              { s with
                buffer := Function.update s.buffer 1999 { character := ch, color := s.current_color }
                cursor := { x := 0, y := 25 } } with
            cursor := { x := 0, y := 24 } } := by
    unfold vga_put_printable
    rw [vga_put_char_at_eq, hb]
    simp only [hx, hy, e1, e2, VGA_WIDTH, ge_iff_le, le_refl, if_true, vga_new_line, VGA_HEIGHT,
      hauto, ne_eq, not_false_eq_true]
    rfl
  rw [hrun]
  refine ⟨rfl, fun j => ?_⟩
  show (vga_scroll_line _).buffer j = _
  rw [vga_scroll_line_buffer]

/-- C28: `vga_put_char` on a display whose cursor row is below 25, for every amount of fuel
above zero. A printable character (space to tilde) with the cursor in a column below 79 is
stored with the current colour in the cursor's cell, no other cell changes, and the cursor
moves one column right. With the cursor in column 79 the cell is stored and the newline
path is taken: the cursor goes to column 0 of the next row, or stays in row 24 with the
grid scrolled one line when automatic scrolling is on. A character that is neither
printable nor line feed, tab, backspace or carriage return changes no cell and leaves the
cursor where it was. -/
theorem C28_put_char_frame (fuel ch : Nat) (s : vga_state_t) (hy : s.cursor.y < 25) :
    (printable ch → s.cursor.x < 79 →
      ∃ s2, vga_put_char (fuel + 1) ch s = some s2 ∧
        s2.buffer = Function.update s.buffer (s.cursor.y * 80 + s.cursor.x)
          { character := ch, color := s.current_color } ∧
        s2.cursor = { x := s.cursor.x + 1, y := s.cursor.y }) ∧
    (printable ch → s.cursor.x = 79 → s.cursor.y < 24 →
      ∃ s2, vga_put_char (fuel + 1) ch s = some s2 ∧
        s2.buffer = Function.update s.buffer (s.cursor.y * 80 + 79)
          { character := ch, color := s.current_color } ∧
        s2.cursor = { x := 0, y := s.cursor.y + 1 }) ∧
    (printable ch → s.cursor.x = 79 → s.cursor.y = 24 → s.auto_scroll ≠ 0 →
      ∃ s2, vga_put_char (fuel + 1) ch s = some s2 ∧
        s2.cursor = { x := 0, y := 24 } ∧
        ∀ j, s2.buffer j
          = if 1920 ≤ j ∧ j < 2000 then { character := 32, color := s.current_color }
            else if j < 1920 then
              Function.update s.buffer 1999 { character := ch, color := s.current_color } (j + 80)
            else Function.update s.buffer 1999 { character := ch, color := s.current_color } j) ∧
    (¬ printable ch → ch ≠ 10 → ch ≠ 9 → ch ≠ 8 → ch ≠ 13 →
      ∃ s2, vga_put_char (fuel + 1) ch s = some s2 ∧
        s2.buffer = s.buffer ∧ s2.cursor = s.cursor) := by
  refine ⟨fun hp hx => ?_, fun hp hx hy2 => ?_, fun hp hx hy2 hauto => ?_,
    fun hp h1 h2 h3 h4 => ?_⟩
  · refine ⟨_, vga_put_char_printable fuel ch s hp, ?_, ?_⟩
    · rw [vga_put_printable_inrow ch s (by omega)]
      exact vga_put_char_at_buffer _ _ _ _ s (by omega) hy
    · rw [vga_put_printable_inrow ch s (by omega)]
  · refine ⟨_, vga_put_char_printable fuel ch s hp, ?_, ?_⟩
    · rw [vga_put_printable_wrap ch s hx hy2]
      have := vga_put_char_at_buffer s.cursor.x s.cursor.y ch s.current_color s (by omega) hy
      rw [hx] at this
      rw [hx]
      exact this
    · rw [vga_put_printable_wrap ch s hx hy2]
  · obtain ⟨c1, c2⟩ := vga_put_printable_scroll ch s hx hy2 hauto
    exact ⟨_, vga_put_char_printable fuel ch s hp, c1, c2⟩
  · have h5 : ¬ (ch ≥ 32 ∧ ch ≤ 126) := hp
    refine ⟨vga_show_cursor s, ?_, rfl, rfl⟩
    simp only [vga_put_char, h1, h2, h3, h4, h5, if_false, Option.map_some']

/-- C28 on the blank display: the letter A in column 5 of row 2, the letter A in column 79
of row 2, and the byte ESC. -/
theorem C28_put_char_frame_witness :
    (∃ s2, vga_put_char 1 65 (vga_blank_at 5 2) = some s2 ∧
      s2.buffer = Function.update (vga_blank_at 5 2).buffer (2 * 80 + 5)
        { character := 65, color := 7 } ∧
      s2.cursor = { x := 5 + 1, y := 2 }) ∧
    (∃ s2, vga_put_char 1 65 (vga_blank_at 79 2) = some s2 ∧
      s2.buffer = Function.update (vga_blank_at 79 2).buffer (2 * 80 + 79)
        { character := 65, color := 7 } ∧
      s2.cursor = { x := 0, y := 2 + 1 }) ∧
    (∃ s2, vga_put_char 1 27 (vga_blank_at 5 2) = some s2 ∧
      s2.buffer = (vga_blank_at 5 2).buffer ∧ s2.cursor = (vga_blank_at 5 2).cursor) :=
  ⟨(C28_put_char_frame 0 65 (vga_blank_at 5 2) (by decide)).1 (by decide) (by decide),
    (C28_put_char_frame 0 65 (vga_blank_at 79 2) (by decide)).2.1 (by decide) rfl (by decide),
    (C28_put_char_frame 0 27 (vga_blank_at 5 2) (by decide)).2.2.2 (by decide) (by decide)
      (by decide) (by decide) (by decide)⟩

/-- The grid after `vga_scroll_lines` with a line count between 1 and 24, cell by cell. -/
theorem vga_scroll_lines_buffer (lines : Nat) (s : vga_state_t) (h0 : 0 < lines)
    (h25 : lines < 25) (j : Nat) :
    (vga_scroll_lines lines s).buffer j
      = if (25 - lines) * 80 ≤ j ∧ j < (25 - lines) * 80 + lines * 80 then
          { character := 32, color := s.current_color }
        else if j < (25 - lines) * 80 then s.buffer (j + lines * 80) else s.buffer j := by
  have hz : ¬ lines = 0 := by omega
  have hge : ¬ lines ≥ VGA_HEIGHT := by simp only [VGA_HEIGHT]; omega
  unfold vga_scroll_lines
  rw [if_neg hz, if_neg hge]
  simp only [VGA_HEIGHT, VGA_WIDTH]
  rw [foldl_update_const, foldl_update_shift (lines * 80) (by omega)]

theorem vga_scroll_lines_cursor (lines : Nat) (s : vga_state_t) (h25 : lines < 25) :
    (vga_scroll_lines lines s).cursor = s.cursor := by
  have hge : ¬ lines ≥ VGA_HEIGHT := by simp only [VGA_HEIGHT]; omega
  unfold vga_scroll_lines
  rw [if_neg hge]
  split <;> rfl

/-- C29: `vga_scroll_lines` with a positive line count. Below 25, row `i` becomes the
previous row `i + lines` for every `i < 25 - lines`, the rows `25 - lines .. 24` are blank
in the current colour and the cursor is unchanged. From 25 on, the result is that of
`vga_clear`: every cell of the grid blank in the current colour and the cursor at (0, 0). -/
theorem C29_scroll_lines (lines : Nat) (s : vga_state_t) (hpos : 0 < lines) :
    (lines < 25 →
      (∀ i x, i < 25 - lines → x < 80 →
        (vga_scroll_lines lines s).buffer (i * 80 + x) = s.buffer ((i + lines) * 80 + x)) ∧
      (∀ i x, 25 - lines ≤ i → i < 25 → x < 80 →
        (vga_scroll_lines lines s).buffer (i * 80 + x)
          = { character := 32, color := s.current_color }) ∧
      (vga_scroll_lines lines s).cursor = s.cursor) ∧
    (25 ≤ lines →
      vga_scroll_lines lines s = vga_clear s ∧
      (∀ i x, i < 25 → x < 80 →
        (vga_scroll_lines lines s).buffer (i * 80 + x)
          = { character := 32, color := s.current_color }) ∧
      (vga_scroll_lines lines s).cursor = { x := 0, y := 0 }) := by
  refine ⟨fun h25 => ⟨fun i x hi hx => ?_, fun i x hi hi2 hx => ?_,
    vga_scroll_lines_cursor lines s h25⟩, fun h25 => ?_⟩
  · rw [vga_scroll_lines_buffer lines s hpos h25]
    have hm : i * 80 + x < (25 - lines) * 80 := by
      have : (i + 1) * 80 ≤ (25 - lines) * 80 := Nat.mul_le_mul_right 80 hi
      omega
    have h1 : ¬ ((25 - lines) * 80 ≤ i * 80 + x ∧
        i * 80 + x < (25 - lines) * 80 + lines * 80) := by omega
    rw [if_neg h1, if_pos hm]
    congr 1
    rw [Nat.add_mul]
    omega
  · rw [vga_scroll_lines_buffer lines s hpos h25]
    have hm : (25 - lines) * 80 ≤ i * 80 := Nat.mul_le_mul_right 80 hi
    have hs : (25 - lines) * 80 + lines * 80 = 2000 := by
      rw [← Nat.add_mul]
      have : 25 - lines + lines = 25 := by omega
      rw [this]
    have h1 : (25 - lines) * 80 ≤ i * 80 + x ∧
        i * 80 + x < (25 - lines) * 80 + lines * 80 := by omega
    rw [if_pos h1]
  · have hz : ¬ lines = 0 := by omega
    have hge : lines ≥ VGA_HEIGHT := by simp only [VGA_HEIGHT]; omega
    have e : vga_scroll_lines lines s = vga_clear s := by
      unfold vga_scroll_lines
      rw [if_neg hz, if_pos hge]
    refine ⟨e, fun i x hi hx => ?_, ?_⟩
    · rw [e, vga_clear_buffer]
      have : i * 80 + x < 2000 := by omega
      rw [if_pos this]
    · rw [e, vga_clear_cursor]

/-- C29 on a display with the cursor at (5, 2): scrolling by 3 lines and by 25 lines. -/
theorem C29_scroll_lines_witness :
    ((∀ i x, i < 25 - 3 → x < 80 →
        (vga_scroll_lines 3 (vga_blank_at 5 2)).buffer (i * 80 + x)
          = (vga_blank_at 5 2).buffer ((i + 3) * 80 + x)) ∧
      (∀ i x, 25 - 3 ≤ i → i < 25 → x < 80 →
        (vga_scroll_lines 3 (vga_blank_at 5 2)).buffer (i * 80 + x)
          = { character := 32, color := (vga_blank_at 5 2).current_color }) ∧
      (vga_scroll_lines 3 (vga_blank_at 5 2)).cursor = (vga_blank_at 5 2).cursor) ∧
    (vga_scroll_lines 25 (vga_blank_at 5 2) = vga_clear (vga_blank_at 5 2) ∧
      (∀ i x, i < 25 → x < 80 →
        (vga_scroll_lines 25 (vga_blank_at 5 2)).buffer (i * 80 + x)
          = { character := 32, color := (vga_blank_at 5 2).current_color }) ∧
      (vga_scroll_lines 25 (vga_blank_at 5 2)).cursor = { x := 0, y := 0 }) :=
  ⟨(C29_scroll_lines 3 (vga_blank_at 5 2) (by decide)).1 (by decide),
    (C29_scroll_lines 25 (vga_blank_at 5 2) (by decide)).2 (by decide)⟩

/-- The loop of `vga_tab` towards a tab stop below column 80 that is `n` columns away: with
`n + 1` iterations of fuel or more it ends, and its result is that of `n` calls of
`vga_put_char` with a space. -/
theorem vga_tab_loop_ends (m nt f : Nat) (hnt : nt < 80) :
    ∀ (n : Nat) (s : vga_state_t), s.cursor.x + n = nt →
      vga_tab_loop (vga_put_char (m + 1)) nt (n + 1 + f) s
        = vga_put_chars (m + 1) (List.replicate n 32) s := by
  intro n
  induction n with
  | zero =>
    intro s hx
    have hc : ¬ (s.cursor.x < nt ∧ s.cursor.x < VGA_WIDTH) := by omega
    have e : 0 + 1 + f = f + 1 := by omega
    rw [e]
    simp only [vga_tab_loop, hc, if_false, List.replicate_zero, vga_put_chars]
  | succ n ih =>
    intro s hx
    have hc : s.cursor.x < nt ∧ s.cursor.x < VGA_WIDTH := by
      simp only [VGA_WIDTH]; omega
    have e : n + 1 + 1 + f = (n + 1 + f) + 1 := by omega
    rw [e]
    have h2 := vga_put_printable_inrow 32 s (by omega)
    simp only [vga_tab_loop, hc, and_self, if_true, List.replicate_succ, vga_put_chars,
      vga_put_char_printable m 32 s (by decide), Option.some_bind]
    exact ih _ (by rw [h2]; simp only; omega)

/-- `vga_put_char` of a tab with the cursor in a column below 72 and tab size 8: with ten
units of fuel or more it returns what the spaces up to the next tab stop give. -/
theorem vga_put_char_tab_returns (fuel : Nat) (s : vga_state_t) (hts : s.tab_size = 8)
    (h72 : s.cursor.x < 72) :
    vga_put_char (fuel + 10) 9 s
      = (vga_put_chars (fuel + 9) (List.replicate (8 - s.cursor.x % 8) 32) s).map
          vga_show_cursor := by
  have hnt : ((s.cursor.x / 8 + 1) * 8) % 256 = (s.cursor.x / 8 + 1) * 8 := by omega
  have h1 : ¬ ((9 : Nat) = 10) := by decide
  have hl := vga_tab_loop_ends (fuel + 8) ((s.cursor.x / 8 + 1) * 8) (fuel + s.cursor.x % 8)
    (by omega) (8 - s.cursor.x % 8) s (by omega)
  have e : 8 - s.cursor.x % 8 + 1 + (fuel + s.cursor.x % 8) = fuel + 9 := by omega
  rw [e] at hl
  have step : ∀ F, vga_put_char (F + 1) 9 s
      = (vga_tab_loop (vga_put_char F) ((s.cursor.x / 8 + 1) * 8) F s).map vga_show_cursor := by
    intro F
    simp only [vga_put_char, h1, if_false, if_true, vga_tab, hts, hnt]
  show vga_put_char ((fuel + 9) + 1) 9 s = _
  rw [step, hl]

/-- C30: `vga_put_char` of a tab on a display with tab size 8 and the cursor in a column
below 80. From a column below 72 the call returns (for every amount of fuel from ten on),
its result is that of the spaces up to the next multiple of 8, and the cursor is in that
column of the same row. From columns 72 to 79 the call never returns: no amount of fuel
gives a result. -/
theorem C30_tab_returns_only_below_column_72 (s : vga_state_t) (hts : s.tab_size = 8)
    (hx : s.cursor.x < 80) :
    (s.cursor.x < 72 → ∀ fuel, ∃ s2, vga_put_char (fuel + 10) 9 s = some s2 ∧
      (vga_put_chars (fuel + 9) (List.replicate (8 - s.cursor.x % 8) 32) s).map
        vga_show_cursor = some s2 ∧
      s2.cursor = { x := (s.cursor.x / 8 + 1) * 8, y := s.cursor.y }) ∧
    (72 ≤ s.cursor.x → ∀ fuel, vga_put_char fuel 9 s = none) := by
  refine ⟨fun h72 fuel => ?_, fun h72 fuel => vga_put_char_tab_never_returns fuel s hts h72 hx⟩
  obtain ⟨s2, g1, g2, _⟩ := vga_put_chars_inrow (fuel + 8)
    (List.replicate (8 - s.cursor.x % 8) 32) s
    (fun c hc => by rw [List.eq_of_mem_replicate hc]; decide)
    (by rw [List.length_replicate]; omega)
  have e := vga_put_char_tab_returns fuel s hts h72
  rw [g1] at e ⊢
  refine ⟨vga_show_cursor s2, e, rfl, ?_⟩
  show s2.cursor = _
  rw [g2, List.length_replicate]
  simp only [vga_cursor_t.mk.injEq, and_true]
  omega

/-- C30 on the blank display: a tab from column 3 of row 0 returns with the cursor in
column 8, a tab from column 72 of row 0 never returns. -/
theorem C30_tab_returns_only_below_column_72_witness :
    (∀ fuel, ∃ s2, vga_put_char (fuel + 10) 9 (vga_blank_at 3 0) = some s2 ∧
      (vga_put_chars (fuel + 9) (List.replicate (8 - (vga_blank_at 3 0).cursor.x % 8) 32)
        (vga_blank_at 3 0)).map vga_show_cursor = some s2 ∧
      s2.cursor = { x := ((vga_blank_at 3 0).cursor.x / 8 + 1) * 8,
                    y := (vga_blank_at 3 0).cursor.y }) ∧
    (∀ fuel, vga_put_char fuel 9 (vga_blank_at 72 0) = none) :=
  ⟨(C30_tab_returns_only_below_column_72 (vga_blank_at 3 0) rfl (by decide)).1 (by decide),
    (C30_tab_returns_only_below_column_72 (vga_blank_at 72 0) rfl (by decide)).2 (by decide)⟩

/-- The scancodes of the modifier keys translate to no character, whatever the modifier
set: their entries in both tables are zero and none of them is a keypad scancode. -/
theorem scancode_to_ascii_modifier_key (sc : Nat) (hsc : sc ∈ modifier_scancodes)
    (m : modifier_keys_t) : scancode_to_ascii sc m = 0 := by
  simp only [modifier_scancodes, List.mem_cons, List.mem_singleton, List.not_mem_nil,
    or_false] at hsc
  obtain ⟨ls, rs, lc, rc, la, ra, cl, nl, sl⟩ := m
  rcases hsc with h | h | h | h | h | h | h <;> subst h <;>
    cases ls <;> cases rs <;> cases cl <;> cases nl <;> rfl

/-- The character of a scancode is the same under the modifier set before
`update_modifiers` and under the set after it. -/
theorem scancode_to_ascii_update_modifiers (sc : Nat) (st : key_state_t) (ks : keyboard_state) :
    scancode_to_ascii sc (update_modifiers sc st ks).keyboard_modifiers
      = scancode_to_ascii sc ks.keyboard_modifiers := by
  by_cases h : sc ∈ modifier_scancodes
  · rw [scancode_to_ascii_modifier_key sc h, scancode_to_ascii_modifier_key sc h]
  · rw [(update_modifiers_spec sc st ks).2.2.2.2.2.2.2.1 h]

/-- C35: for every raw scancode byte `b`, every prior keyboard state and every handler,
`process_scancode` returns exactly when the handler does (always, when there is none), and
the event it builds records the modifier set from before the key is applied, takes its
character from the set after it, and still satisfies
`ascii = scancode_to_ascii event.scancode event.modifiers`. -/
theorem C35_event_ascii_matches_recorded_modifiers {κ : Type}
    (user_handler : Option (keyboard_event_t → κ → Option κ))
    (b : Nat) (hb : b < 256) (ks : keyboard_state) (env : κ) :
    ∃ ev ks2,
      process_scancode user_handler b ks env
        = (run_handler user_handler ev env).map (fun e => (ev, ks2, e)) ∧
      ev.modifiers = ks.keyboard_modifiers ∧
      ev.ascii = scancode_to_ascii ev.scancode ks2.keyboard_modifiers ∧
      ev.ascii = scancode_to_ascii ev.scancode ev.modifiers := by
  refine ⟨_, _, process_scancode_eq user_handler b hb ks env, rfl, rfl, ?_⟩
  exact scancode_to_ascii_update_modifiers _ _ ks

/-- C35 on the press of Caps Lock (byte 0x3A) with no handler installed and no modifier
set before. -/
theorem C35_event_ascii_matches_recorded_modifiers_witness :
    (∃ ev ks2,
      process_scancode (none : Option (keyboard_event_t → Unit → Option Unit)) 0x3A
          { keyboard_buffer := { buffer := fun _ => {}, head := 0, tail := 0, count := 0 }, keyboard_modifiers := {}, keyboard_leds := 0 } ()
        = (run_handler none ev ()).map (fun e => (ev, ks2, e)) ∧
      ev.modifiers = {} ∧
      ev.ascii = scancode_to_ascii ev.scancode ks2.keyboard_modifiers ∧
      ev.ascii = scancode_to_ascii ev.scancode ev.modifiers) :=
  C35_event_ascii_matches_recorded_modifiers none 0x3A (by decide)
    { keyboard_buffer := { buffer := fun _ => {}, head := 0, tail := 0, count := 0 }, keyboard_modifiers := {}, keyboard_leds := 0 } ()

theorem vga_set_cursor_in_grid (x y : Nat) (s : vga_state_t) :
    cursor_in_grid (vga_set_cursor x y s) := by
  unfold cursor_in_grid vga_set_cursor
  simp only [VGA_WIDTH, VGA_HEIGHT]
  constructor <;> split_ifs <;> omega

theorem vga_new_line_in_grid (s : vga_state_t) : cursor_in_grid (vga_new_line s) := by
  refine ⟨by rw [vga_new_line_cursor_x]; decide, ?_⟩
  unfold vga_new_line
  simp only [VGA_HEIGHT]
  split_ifs with h1 h2
  · show 25 - 1 < 25
    decide
  · show 25 - 1 < 25
    decide
  · simp only at h1 ⊢
    omega

theorem vga_backspace_in_grid (s : vga_state_t) (h : cursor_in_grid s) :
    cursor_in_grid (vga_backspace s) := by
  obtain ⟨hx, hy⟩ := h
  unfold cursor_in_grid vga_backspace
  simp only [VGA_WIDTH]
  split_ifs with h1 h2
  · rw [vga_put_char_at_eq]
    simp only
    omega
  · rw [vga_put_char_at_eq]
    simp only
    omega
  · exact ⟨hx, hy⟩

theorem vga_scroll_line_in_grid (s : vga_state_t) (h : cursor_in_grid s) :
    cursor_in_grid (vga_scroll_line s) := h

theorem vga_scroll_lines_in_grid (lines : Nat) (s : vga_state_t) (h : cursor_in_grid s) :
    cursor_in_grid (vga_scroll_lines lines s) := by
  unfold vga_scroll_lines
  split_ifs
  · exact h
  · exact vga_set_cursor_in_grid 0 0 _
  · exact h

theorem vga_put_printable_in_grid (ch : Nat) (s : vga_state_t) (h : cursor_in_grid s) :
    cursor_in_grid (vga_put_printable ch s) := by
  refine ⟨vga_put_printable_cursor_x_lt ch s, ?_⟩
  obtain ⟨hx, hy⟩ := h
  unfold vga_put_printable
  rw [vga_put_char_at_eq]
  simp only [vga_show_cursor, VGA_WIDTH]
  split_ifs with h1
  · exact (vga_new_line_in_grid _).2
  · exact hy

/-- The loop of `vga_tab` keeps the cursor on the grid whenever it ends. -/
theorem vga_tab_loop_in_grid (m nt : Nat) :
    ∀ (n : Nat) (s s2 : vga_state_t), cursor_in_grid s →
      vga_tab_loop (vga_put_char m) nt n s = some s2 → cursor_in_grid s2 := by
  intro n
  induction n with
  | zero => intro s s2 _ h; exact absurd h (by simp [vga_tab_loop])
  | succ n ih =>
    intro s s2 hs h
    simp only [vga_tab_loop] at h
    split_ifs at h with hc
    · cases m with
      | zero => exact absurd h (by simp [vga_put_char])
      | succ m =>
        rw [vga_put_char_printable m 32 s (by decide)] at h
        exact ih _ s2 (vga_put_printable_in_grid 32 s hs) h
    · cases h
      exact hs

theorem vga_show_cursor_in_grid (s : vga_state_t) (h : cursor_in_grid s) :
    cursor_in_grid (vga_show_cursor s) := h

/-- Whenever `vga_put_char` returns, for any byte, a cursor on the grid stays on it. -/
theorem vga_put_char_in_grid (fuel ch : Nat) (s s2 : vga_state_t) (hs : cursor_in_grid s)
    (h : vga_put_char fuel ch s = some s2) : cursor_in_grid s2 := by
  cases fuel with
  | zero => exact absurd h (by simp [vga_put_char])
  | succ fuel =>
    by_cases hp : printable ch
    · rw [vga_put_char_printable fuel ch s hp] at h
      cases h
      exact vga_put_printable_in_grid ch s hs
    · have h5 : ¬ (ch ≥ 32 ∧ ch ≤ 126) := hp
      simp only [vga_put_char, h5, if_false] at h
      split_ifs at h with c1 c2 c3 c4
      · cases h
        exact vga_new_line_in_grid s
      · simp only [vga_tab, Option.map_eq_some'] at h
        obtain ⟨s1, g1, g2⟩ := h
        rw [← g2]
        exact vga_tab_loop_in_grid fuel _ fuel s s1 hs g1
      · cases h
        exact vga_backspace_in_grid s hs
      · cases h
        exact vga_set_cursor_in_grid 0 _ s
      · cases h
        exact hs

theorem vga_apply_in_grid (fuel : Nat) (op : vga_op) (s s2 : vga_state_t)
    (hs : cursor_in_grid s) (h : vga_apply fuel op s = some s2) : cursor_in_grid s2 := by
  cases op with
  | put_char ch => exact vga_put_char_in_grid fuel ch s s2 hs h
  | set_cursor x y =>
    rw [← Option.some.inj h]
    exact vga_set_cursor_in_grid x y s
  | clear =>
    rw [← Option.some.inj h]
    exact vga_set_cursor_in_grid 0 0 _
  | scroll_line =>
    rw [← Option.some.inj h]
    exact hs
  | scroll_lines lines =>
    rw [← Option.some.inj h]
    exact vga_scroll_lines_in_grid lines s hs
  | backspace =>
    rw [← Option.some.inj h]
    exact vga_backspace_in_grid s hs
  | new_line =>
    rw [← Option.some.inj h]
    exact vga_new_line_in_grid s

theorem vga_run_in_grid (fuel : Nat) (ops : List vga_op) :
    ∀ (s s2 : vga_state_t), cursor_in_grid s → vga_run fuel ops s = some s2 →
      cursor_in_grid s2 := by
  induction ops with
  | nil => intro s s2 hs h; cases h; exact hs
  | cons op rest ih =>
    intro s s2 hs h
    simp only [vga_run, Option.bind_eq_some] at h
    obtain ⟨s1, g1, g2⟩ := h
    exact ih s1 s2 (vga_apply_in_grid fuel op s s1 hs g1) g2

theorem vga_init_in_grid (s : vga_state_t) : cursor_in_grid (vga_init s) :=
  vga_set_cursor_in_grid 0 0 _

/-- C36: from the state `vga_init` leaves, after any run of display operations that
returns (`vga_put_char` of any byte, `vga_set_cursor` with any arguments, `vga_clear`,
`vga_scroll_line`, `vga_scroll_lines`, `vga_backspace`, `vga_new_line`, in any order and
with any amount of fuel), the cursor column is below 80 and the cursor row below 25, so the
cell index computed from the cursor is below 2000. -/
theorem C36_cursor_stays_on_grid (fuel : Nat) (ops : List vga_op) (s0 s : vga_state_t)
    (h : vga_run fuel ops (vga_init s0) = some s) :
    s.cursor.x < 80 ∧ s.cursor.y < 25 ∧ s.cursor.y * 80 + s.cursor.x < 2000 := by
  obtain ⟨hx, hy⟩ := vga_run_in_grid fuel ops (vga_init s0) s (vga_init_in_grid s0) h
  exact ⟨hx, hy, by omega⟩

/-- C36 on the run `vga_set_cursor(200, 200)`, `vga_new_line`, `vga_backspace`,
`vga_scroll_lines(30)` from the initialised blank display. -/
theorem C36_cursor_stays_on_grid_witness :
    (vga_scroll_lines 30 (vga_backspace (vga_new_line
      (vga_set_cursor 200 200 (vga_init (vga_blank_at 0 0)))))).cursor.x < 80 ∧
    (vga_scroll_lines 30 (vga_backspace (vga_new_line
      (vga_set_cursor 200 200 (vga_init (vga_blank_at 0 0)))))).cursor.y < 25 ∧
    (vga_scroll_lines 30 (vga_backspace (vga_new_line
      (vga_set_cursor 200 200 (vga_init (vga_blank_at 0 0)))))).cursor.y * 80
      + (vga_scroll_lines 30 (vga_backspace (vga_new_line
          (vga_set_cursor 200 200 (vga_init (vga_blank_at 0 0)))))).cursor.x < 2000 :=
  C36_cursor_stays_on_grid 0
    [vga_op.set_cursor 200 200, vga_op.new_line, vga_op.backspace, vga_op.scroll_lines 30]
    (vga_blank_at 0 0)
    (vga_scroll_lines 30 (vga_backspace (vga_new_line
      (vga_set_cursor 200 200 (vga_init (vga_blank_at 0 0))))))
    (by simp only [vga_run, vga_apply, Option.some_bind])

theorem vga_scroll_lines_current_color (lines : Nat) (s : vga_state_t) :
    (vga_scroll_lines lines s).current_color = s.current_color := by
  unfold vga_scroll_lines
  split_ifs
  · rfl
  · unfold vga_clear vga_set_cursor
    simp only
  · simp only

/-- The grid after `vga_scroll_lines` with any positive line count, cell by cell: a cell of
the grid takes the cell `lines` rows below it when that is on the grid and is blank
otherwise; memory beyond the grid is untouched. -/
theorem vga_scroll_lines_cell (lines : Nat) (s : vga_state_t) (h0 : 0 < lines) (j : Nat) :
    (vga_scroll_lines lines s).buffer j
      = if j < 2000 then
          (if j + lines * 80 < 2000 then s.buffer (j + lines * 80)
            else { character := 32, color := s.current_color })
        else s.buffer j := by
  by_cases h25 : lines < 25
  · rw [vga_scroll_lines_buffer lines s h0 h25]
    have hs : (25 - lines) * 80 + lines * 80 = 2000 := by
      rw [← Nat.add_mul]
      have : 25 - lines + lines = 25 := by omega
      rw [this]
    split_ifs <;> first | rfl | omega
  · have hz : ¬ lines = 0 := by omega
    have hge : lines ≥ VGA_HEIGHT := by simp only [VGA_HEIGHT]; omega
    have e : vga_scroll_lines lines s = vga_clear s := by
      unfold vga_scroll_lines
      rw [if_neg hz, if_pos hge]
    rw [e, vga_clear_buffer]
    have : 2000 ≤ lines * 80 := by omega
    split_ifs <;> first | rfl | omega

/-- C40: for all line counts `a` and `b` from 1 on, `vga_scroll_lines a` followed by
`vga_scroll_lines b` leaves the same grid as `vga_scroll_lines (a + b)` (the current colour
is the same in both runs: no scroll changes it), and `vga_scroll_lines 1` leaves the same
grid as `vga_scroll_line`. -/
theorem C40_scroll_lines_compose (a b : Nat) (s : vga_state_t) (ha : 1 ≤ a) (hb : 1 ≤ b) :
    (vga_scroll_lines b (vga_scroll_lines a s)).buffer = (vga_scroll_lines (a + b) s).buffer ∧
    (vga_scroll_lines b (vga_scroll_lines a s)).current_color = s.current_color ∧
    (vga_scroll_lines (a + b) s).current_color = s.current_color ∧
    (vga_scroll_lines 1 s).buffer = (vga_scroll_line s).buffer := by
  refine ⟨?_, ?_, ?_, ?_⟩
  · funext j
    have ca := vga_scroll_lines_cell a s (by omega)
    rw [vga_scroll_lines_cell b _ (by omega), vga_scroll_lines_cell (a + b) s (by omega),
      ca (j + b * 80), ca j, vga_scroll_lines_current_color]
    have e : (a + b) * 80 = a * 80 + b * 80 := Nat.add_mul a b 80
    by_cases h1 : j < 2000
    · by_cases h2 : j + b * 80 < 2000
      · by_cases h3 : j + b * 80 + a * 80 < 2000
        · have h4 : j + (a + b) * 80 < 2000 := by omega
          have h5 : j + b * 80 + a * 80 = j + (a + b) * 80 := by omega
          simp only [h1, h2, h3, h4, h5, if_true]
        · have h4 : ¬ j + (a + b) * 80 < 2000 := by omega
          simp only [h1, h2, h3, h4, if_true, if_false]
      · have h4 : ¬ j + (a + b) * 80 < 2000 := by omega
        simp only [h1, h2, h4, if_true, if_false]
    · simp only [h1, if_false]
  · rw [vga_scroll_lines_current_color, vga_scroll_lines_current_color]
  · rw [vga_scroll_lines_current_color]
  · funext j
    rw [vga_scroll_lines_cell 1 s (by decide), vga_scroll_line_buffer]
    split_ifs <;> first | rfl | omega

/-- C40 on the blank display with the cursor at (5, 2): scrolling by 3 and then by 4 lines
against scrolling by 7 lines. -/
theorem C40_scroll_lines_compose_witness :
    (vga_scroll_lines 4 (vga_scroll_lines 3 (vga_blank_at 5 2))).buffer
      = (vga_scroll_lines (3 + 4) (vga_blank_at 5 2)).buffer ∧
    (vga_scroll_lines 1 (vga_blank_at 5 2)).buffer = (vga_scroll_line (vga_blank_at 5 2)).buffer :=
  ⟨(C40_scroll_lines_compose 3 4 (vga_blank_at 5 2) (by decide) (by decide)).1,
    (C40_scroll_lines_compose 3 4 (vga_blank_at 5 2) (by decide) (by decide)).2.2.2⟩

theorem copy_cells_frame (pairs : List (Nat × Nat)) :
    ∀ (b : Nat → vga_cell_t) (j : Nat), (∀ p ∈ pairs, p.1 ≠ j) → copy_cells pairs b j = b j := by
  induction pairs with
  | nil => intro b j _; rfl
  | cons p ps ih =>
    intro b j hj
    show copy_cells ps (Function.update b p.1 (b p.2)) j = b j
    rw [ih _ j (fun q hq => hj q (List.mem_cons_of_mem _ hq)),
      Function.update_noteq (fun e => hj p (List.mem_cons_self _ _) e.symm)]

/-- A run of cell copies in which no destination is also a source, and equal destinations
have equal sources: every destination ends with what its source held at the start. -/
theorem copy_cells_disjoint (pairs : List (Nat × Nat)) :
    ∀ (b : Nat → vga_cell_t), (∀ p ∈ pairs, ∀ q ∈ pairs, p.1 ≠ q.2) →
      (∀ p ∈ pairs, ∀ q ∈ pairs, p.1 = q.1 → p.2 = q.2) →
      ∀ p ∈ pairs, copy_cells pairs b p.1 = b p.2 := by
  induction pairs with
  | nil => intro b _ _ p hp; exact absurd hp (List.not_mem_nil _)
  | cons p0 ps ih =>
    intro b hd hf p hp
    show copy_cells ps (Function.update b p0.1 (b p0.2)) p.1 = b p.2
    have hd2 : ∀ p ∈ ps, ∀ q ∈ ps, p.1 ≠ q.2 := fun p hp q hq =>
      hd p (List.mem_cons_of_mem _ hp) q (List.mem_cons_of_mem _ hq)
    have hf2 : ∀ p ∈ ps, ∀ q ∈ ps, p.1 = q.1 → p.2 = q.2 := fun p hp q hq =>
      hf p (List.mem_cons_of_mem _ hp) q (List.mem_cons_of_mem _ hq)
    by_cases hex : ∃ q ∈ ps, q.1 = p.1
    · obtain ⟨q, hq, e⟩ := hex
      rw [← e, ih _ hd2 hf2 q hq]
      have e2 : q.2 = p.2 := hf q (List.mem_cons_of_mem _ hq) p hp e
      rw [e2, Function.update_noteq]
      exact fun c => hd p0 (List.mem_cons_self _ _) p hp c.symm
    · have hp0 : p = p0 := by
        rcases List.mem_cons.1 hp with h | h
        · exact h
        · exact absurd ⟨p, h, rfl⟩ hex
      subst hp0
      rw [copy_cells_frame ps _ p.1 (fun q hq c => hex ⟨q, hq, c⟩), Function.update_same]

theorem copy_row_eq (sx sy dx dy width y : Nat) (b : Nat → vga_cell_t) :
    (List.range width).foldl
        (fun b x => Function.update b ((dy + y) * 80 + (dx + x)) (b ((sy + y) * 80 + (sx + x)))) b
      = copy_cells ((List.range width).map
          (fun x => ((dy + y) * 80 + (dx + x), (sy + y) * 80 + (sx + x)))) b := by
  unfold copy_cells
  rw [List.foldl_map]

theorem copy_rows_eq (sx sy dx dy width : Nat) (ys : List Nat) :
    ∀ b : Nat → vga_cell_t,
      ys.foldl (fun b y => (List.range width).foldl
          (fun b x => Function.update b ((dy + y) * 80 + (dx + x))
            (b ((sy + y) * 80 + (sx + x)))) b) b
        = copy_cells (ys.flatMap (fun y => (List.range width).map
            (fun x => ((dy + y) * 80 + (dx + x), (sy + y) * 80 + (sx + x))))) b := by
  induction ys with
  | nil => intro b; rfl
  | cons y ys ih =>
    intro b
    rw [List.foldl_cons, ih, copy_row_eq]
    simp only [List.flatMap_cons, copy_cells, List.foldl_append]

/-- An in-range `vga_copy_region` is the run of cell copies over `region_pairs`. -/
theorem vga_copy_region_buffer (sx sy dx dy width height : Nat) (s : vga_state_t)
    (h1 : sx + width ≤ 80) (h2 : sy + height ≤ 25) (h3 : dx + width ≤ 80)
    (h4 : dy + height ≤ 25) :
    (vga_copy_region sx sy dx dy width height s).buffer
      = copy_cells (region_pairs sx sy dx dy width height) s.buffer := by
  have hg : ¬ (sx + width > VGA_WIDTH ∨ sy + height > VGA_HEIGHT ∨
      dx + width > VGA_WIDTH ∨ dy + height > VGA_HEIGHT) := by
    simp only [VGA_WIDTH, VGA_HEIGHT]; omega
  unfold vga_copy_region
  rw [if_neg hg]
  simp only [VGA_WIDTH]
  exact copy_rows_eq sx sy dx dy width (List.range height) s.buffer

theorem mem_region_pairs (sx sy dx dy width height : Nat) (p : Nat × Nat) :
    p ∈ region_pairs sx sy dx dy width height ↔
      ∃ y x, y < height ∧ x < width ∧
        p = ((dy + y) * 80 + (dx + x), (sy + y) * 80 + (sx + x)) := by
  unfold region_pairs
  simp only [List.mem_flatMap, List.mem_range, List.mem_map]
  constructor
  · rintro ⟨y, hy, x, hx, e⟩
    exact ⟨y, x, hy, hx, e.symm⟩
  · rintro ⟨y, x, hy, hx, e⟩
    exact ⟨y, hy, x, hx, e.symm⟩

/-- An in-range `vga_copy_region` changes no cell outside the destination rectangle. -/
theorem vga_copy_region_frame (sx sy dx dy width height : Nat) (s : vga_state_t)
    (h1 : sx + width ≤ 80) (h2 : sy + height ≤ 25) (h3 : dx + width ≤ 80)
    (h4 : dy + height ≤ 25) (j : Nat)
    (hj : ∀ y x, y < height → x < width → j ≠ (dy + y) * 80 + (dx + x)) :
    (vga_copy_region sx sy dx dy width height s).buffer j = s.buffer j := by
  rw [vga_copy_region_buffer sx sy dx dy width height s h1 h2 h3 h4]
  apply copy_cells_frame
  intro p hp e
  obtain ⟨y, x, hy, hx, rfl⟩ := (mem_region_pairs sx sy dx dy width height p).1 hp
  exact hj y x hy hx e.symm

/-- An in-range `vga_copy_region` between rectangles that do not overlap: every cell of
the destination rectangle ends with what the matching source cell held. -/
theorem vga_copy_region_disjoint (sx sy dx dy width height : Nat) (s : vga_state_t)
    (h1 : sx + width ≤ 80) (h2 : sy + height ≤ 25) (h3 : dx + width ≤ 80)
    (h4 : dy + height ≤ 25)
    (hd : dx + width ≤ sx ∨ sx + width ≤ dx ∨ dy + height ≤ sy ∨ sy + height ≤ dy)
    (y x : Nat) (hy : y < height) (hx : x < width) :
    (vga_copy_region sx sy dx dy width height s).buffer ((dy + y) * 80 + (dx + x))
      = s.buffer ((sy + y) * 80 + (sx + x)) := by
  rw [vga_copy_region_buffer sx sy dx dy width height s h1 h2 h3 h4]
  refine copy_cells_disjoint (region_pairs sx sy dx dy width height) s.buffer ?_ ?_
    ((dy + y) * 80 + (dx + x), (sy + y) * 80 + (sx + x))
    ((mem_region_pairs sx sy dx dy width height _).2 ⟨y, x, hy, hx, rfl⟩)
  · intro p hp q hq
    obtain ⟨y1, x1, hy1, hx1, rfl⟩ := (mem_region_pairs sx sy dx dy width height p).1 hp
    obtain ⟨y2, x2, hy2, hx2, rfl⟩ := (mem_region_pairs sx sy dx dy width height q).1 hq
    simp only
    omega
  · intro p hp q hq
    obtain ⟨y1, x1, hy1, hx1, rfl⟩ := (mem_region_pairs sx sy dx dy width height p).1 hp
    obtain ⟨y2, x2, hy2, hx2, rfl⟩ := (mem_region_pairs sx sy dx dy width height q).1 hq
    simp only
    intro e
    omega

/-- C33: `vga_copy_region` and `vga_fill_region`. A copy whose rectangles lie inside the
grid changes no cell outside the destination rectangle, and when the two rectangles do not
overlap the destination ends with exactly the cells the source held. An out-of-range copy
and an out-of-range fill change nothing. With overlapping rectangles the destination may
end with something else: on the display that shows A, B, C in cells 0, 1, 2 of row 0,
copying the two cells from column 0 to column 1 leaves A in both destination cells, where
the source held A and B. -/
theorem C33_copy_region_exact_unless_overlapping (sx sy dx dy width height ch color : Nat)
    (s : vga_state_t) :
    (sx + width ≤ 80 → sy + height ≤ 25 → dx + width ≤ 80 → dy + height ≤ 25 →
      (∀ j, (∀ y x, y < height → x < width → j ≠ (dy + y) * 80 + (dx + x)) →
        (vga_copy_region sx sy dx dy width height s).buffer j = s.buffer j) ∧
      ((dx + width ≤ sx ∨ sx + width ≤ dx ∨ dy + height ≤ sy ∨ sy + height ≤ dy) →
        ∀ y x, y < height → x < width →
          (vga_copy_region sx sy dx dy width height s).buffer ((dy + y) * 80 + (dx + x))
            = s.buffer ((sy + y) * 80 + (sx + x)))) ∧
    ((sx + width > 80 ∨ sy + height > 25 ∨ dx + width > 80 ∨ dy + height > 25) →
      vga_copy_region sx sy dx dy width height s = s) ∧
    ((dx + width > 80 ∨ dy + height > 25) →
      vga_fill_region dx dy width height ch color s = s) ∧
    ((vga_copy_region 0 0 1 0 2 1 abc_display).buffer 1 = abc_display.buffer 0 ∧
      (vga_copy_region 0 0 1 0 2 1 abc_display).buffer 2 = abc_display.buffer 0 ∧
      (vga_copy_region 0 0 1 0 2 1 abc_display).buffer 2 ≠ abc_display.buffer 1) := by
  refine ⟨fun h1 h2 h3 h4 => ⟨fun j hj =>
      vga_copy_region_frame sx sy dx dy width height s h1 h2 h3 h4 j hj,
    fun hd y x hy hx =>
      vga_copy_region_disjoint sx sy dx dy width height s h1 h2 h3 h4 hd y x hy hx⟩,
    fun hout => ?_, fun hout => ?_, ?_⟩
  · unfold vga_copy_region
    rw [if_pos (by simp only [VGA_WIDTH, VGA_HEIGHT]; exact hout)]
  · unfold vga_fill_region
    rw [if_pos (by simp only [VGA_WIDTH, VGA_HEIGHT]; exact hout)]
  · rw [vga_copy_region_buffer 0 0 1 0 2 1 abc_display (by decide) (by decide) (by decide)
      (by decide)]
    refine ⟨by decide, by decide, by decide⟩

/-- C33 on the display that shows A, B, C in row 0: copying the three cells to the start
of row 1 (rectangles that do not overlap), and a copy that starts in column 79 with
width 2 (out of range). -/
theorem C33_copy_region_exact_unless_overlapping_witness :
    (∀ y x, y < 1 → x < 3 →
      (vga_copy_region 0 0 0 1 3 1 abc_display).buffer ((1 + y) * 80 + (0 + x))
        = abc_display.buffer ((0 + y) * 80 + (0 + x))) ∧
    vga_copy_region 79 0 0 1 2 1 abc_display = abc_display ∧
    vga_fill_region 79 0 2 1 65 7 abc_display = abc_display :=
  ⟨((C33_copy_region_exact_unless_overlapping 0 0 0 1 3 1 65 7 abc_display).1
      (by decide) (by decide) (by decide) (by decide)).2 (by decide),
    (C33_copy_region_exact_unless_overlapping 79 0 0 1 2 1 65 7 abc_display).2.1
      (Or.inl (by decide)),
    (C33_copy_region_exact_unless_overlapping 0 0 79 0 2 1 65 7 abc_display).2.2.1
      (Or.inl (by decide))⟩

theorem created_terminal_state (nm : List Nat) (type : terminal_type_t) (tty_minor : Int)
    (old : terminal_t) :
    (created_terminal nm type tty_minor old).state = terminal_state_t.TERMINAL_STATE_ACTIVE :=
  rfl

/-- C38: `terminal_create` returns the null pointer for every input and every amount of
fuel. With a null name, an invalid minor or no Inactive slot the whole state is unchanged.
With a name, a valid minor and an Inactive slot the device is not opened, the null pointer
is returned and the terminal count is as before, but the slot chosen, Inactive before the
call, has been initialised and is Active afterwards: the registry has changed. -/
theorem C38_failed_create_keeps_slot_written (fuel : Nat) (name : Option (List Nat))
    (type : terminal_type_t) (tty_minor : Int) (s : system_state) :
    ((name = none ∨ tty_is_valid_minor tty_minor = false ∨
        (∀ j, j < 8 → (s.terminal j).state ≠ terminal_state_t.TERMINAL_STATE_INACTIVE)) →
      terminal_create fuel name type tty_minor s = some (none, s)) ∧
    (∀ nm slot, name = some nm → tty_is_valid_minor tty_minor = true →
      find_free_slot s.terminal_manager MAX_TTYS 0 = some slot →
      ∃ s2, terminal_create fuel name type tty_minor s = some (none, s2) ∧
        slot < 8 ∧
        (s.terminal slot).state = terminal_state_t.TERMINAL_STATE_INACTIVE ∧
        (s2.terminal slot).state = terminal_state_t.TERMINAL_STATE_ACTIVE ∧
        s2.terminal slot = created_terminal nm type tty_minor (s.terminal slot) ∧
        (∀ j, j ≠ slot → s2.terminal j = s.terminal j) ∧
        s2.terminal_manager.terminal_count = s.terminal_manager.terminal_count ∧
        s2.kernel = s.kernel ∧
        s2 ≠ s) := by
  constructor
  · intro h
    cases name with
    | none => rfl
    | some nm =>
      by_cases hv : tty_is_valid_minor tty_minor = true
      · have hno : ∀ j, j < 8 →
            (s.terminal j).state ≠ terminal_state_t.TERMINAL_STATE_INACTIVE := by
          rcases h with h | h | h
          · exact absurd h (by simp)
          · rw [hv] at h; exact absurd h (by simp)
          · exact h
        have hslot : find_free_slot s.terminal_manager MAX_TTYS 0 = none :=
          (find_free_slot_none s.terminal_manager MAX_TTYS 0).2
            (fun j _ hj => hno j (by simpa [MAX_TTYS] using hj))
        unfold terminal_create
        simp only [hv, not_true_eq_false, if_false, hslot]
      · unfold terminal_create
        simp only [hv, Bool.false_eq_true, not_false_eq_true, if_true]
  · intro nm slot hname hv hslot
    subst hname
    obtain ⟨_, b, c, _⟩ := find_free_slot_some _ _ _ _ hslot
    have hst : ((s.set_terminal slot
        (created_terminal nm type tty_minor (s.terminal slot))).terminal slot)
          = created_terminal nm type tty_minor (s.terminal slot) := by
      rw [set_terminal_terminal]
      simp only [if_true]
    refine ⟨_, terminal_create_slot fuel nm type tty_minor s slot hv hslot,
      by simpa [MAX_TTYS] using b, c, ?_, hst, ?_, rfl, rfl, ?_⟩
    · rw [hst]
      rfl
    · intro j hj
      rw [set_terminal_terminal]
      simp only [hj, if_false]
    · intro e
      have e2 := congrArg (fun t => (system_state.terminal t slot).state) e
      simp only [hst] at e2
      rw [created_terminal_state] at e2
      have c2 : (s.terminal slot).state = terminal_state_t.TERMINAL_STATE_INACTIVE := c
      rw [c2] at e2
      exact absurd e2 (by decide)

/-- C38 at boot: `terminal_create("console", TERMINAL_TYPE_CONSOLE, 0)` returns the null
pointer and leaves slot 0, Inactive before, Active. -/
theorem C38_failed_create_keeps_slot_written_witness :
    ∃ s2, terminal_create 0 (some console_name) terminal_type_t.TERMINAL_TYPE_CONSOLE 0 boot_state
        = some (none, s2) ∧
      (boot_state.terminal 0).state = terminal_state_t.TERMINAL_STATE_INACTIVE ∧
      (s2.terminal 0).state = terminal_state_t.TERMINAL_STATE_ACTIVE ∧
      s2 ≠ boot_state := by
  obtain ⟨s2, h1, _, h3, h4, _, _, _, _, h9⟩ :=
    (C38_failed_create_keeps_slot_written 0 (some console_name)
      terminal_type_t.TERMINAL_TYPE_CONSOLE 0 boot_state).2 console_name 0 rfl (by decide)
      (by decide)
  exact ⟨s2, h1, h3, h4, h9⟩

/-- The cursor-movement controls A, B, C, D of `terminal_execute_control`, with any
parameter string, keep a cursor that is inside the terminal's width x height inside it. -/
theorem execute_control_move_in_bounds (t : terminal_t) (k : kernel_state) (params : List Nat)
    (hw : t.width ≤ 255) (hh : t.height ≤ 255)
    (hx : t.cursor.x < t.width) (hy : t.cursor.y < t.height) (ctrl : terminal_control_t)
    (hc : ctrl = terminal_control_t.TERM_CTRL_CURSOR_UP ∨
      ctrl = terminal_control_t.TERM_CTRL_CURSOR_DOWN ∨
      ctrl = terminal_control_t.TERM_CTRL_CURSOR_RIGHT ∨
      ctrl = terminal_control_t.TERM_CTRL_CURSOR_LEFT) :
    (terminal_execute_control t ctrl params k).2.1.cursor.x < t.width ∧
    (terminal_execute_control t ctrl params k).2.1.cursor.y < t.height := by
  rcases hc with h | h | h | h <;> subst h <;> simp only [terminal_execute_control]
  · rw [cursor_dec_loop_eq _ _ (by omega)]
    exact ⟨hx, by omega⟩
  · rw [cursor_inc_loop_eq _ (by omega) _ _ hy]
    exact ⟨hx, by omega⟩
  · rw [cursor_inc_loop_eq _ (by omega) _ _ hx]
    exact ⟨by omega, hy⟩
  · rw [cursor_dec_loop_eq _ _ (by omega)]
    exact ⟨by omega, hy⟩

/-- The control H of `terminal_execute_control` stores the parameters less one, converted
to `uint8_t`, in the terminal cursor, whatever the width and height are. -/
theorem execute_control_home (t : terminal_t) (k : kernel_state) (params : List Nat) :
    (terminal_execute_control t terminal_control_t.TERM_CTRL_CURSOR_HOME params k).2.1.cursor
      = { x := (((sscanf_params params 1 1).2 - 1) % 256).toNat,
          y := (((sscanf_params params 1 1).1 - 1) % 256).toNat } := by
  simp only [terminal_execute_control]

/-- The whole sequence ESC [ 3 0 ; 1 0 0 H parsed from the reset state: the terminal
cursor becomes column 99, row 29. -/
theorem parse_cursor_home_far (t : terminal_t) (k : kernel_state)
    (h0 : t.escape_state = ANSI_STATE_NONE) :
    (terminal_parse_loop (bytes [27, 91, 51, 48, 59, 49, 48, 48, 72]) 9 0 t k).1.cursor
      = { x := 99, y := 29 } ∧
    (terminal_parse_loop (bytes [27, 91, 51, 48, 59, 49, 48, 48, 72]) 9 0 t k).1.width
      = t.width ∧
    (terminal_parse_loop (bytes [27, 91, 51, 48, 59, 49, 48, 48, 72]) 9 0 t k).1.height
      = t.height := by
  obtain ⟨tz, hloop, hpar, hcmd, hbase⟩ := parse_csi_sequence t k [51, 48, 59, 49, 48, 48] 72 h0
    (by
      intro c hc
      simp only [List.mem_cons, List.mem_singleton, List.not_mem_nil, or_false] at hc
      rcases hc with rfl | rfl | rfl | rfl | rfl | rfl <;> decide)
    (by decide) (by decide)
  have hs : sscanf_params [51, 48, 59, 49, 48, 48, 72] 1 1 = (30, 100) := by decide
  have hd : terminal_process_csi_sequence tz k
      = (0, { tz with cursor := { x := 99, y := 29 } },
          (tty_set_cursor tz.tty_minor 99 29 k).2) := by
    simp only [terminal_process_csi_sequence, hcmd, hpar, terminal_execute_control, hs]
    rfl
  have hloop2 : terminal_parse_loop (bytes [27, 91, 51, 48, 59, 49, 48, 48, 72]) 9 0 t k
      = (terminal_reset_escape_state { tz with cursor := { x := 99, y := 29 } },
          (tty_set_cursor tz.tty_minor 99 29 k).2) := by
    rw [hd] at hloop
    exact hloop
  rw [hloop2]
  refine ⟨rfl, ?_, ?_⟩
  · exact congrArg (fun b => b.2.1) hbase
  · exact congrArg (fun b => b.2.2.1) hbase

/-- C39: the dispatch of a cursor control on a terminal whose cursor is inside its
width x height (both at most 255), with any parameter string. The controls A, B, C, D
leave the cursor inside. The control H stores the parameters less one without comparing
them with the width and the height: the sequence ESC [ 3 0 ; 1 0 0 H leaves the cursor of
the 80 x 25 console terminal at column 99, row 29. -/
theorem C39_cursor_home_not_clamped (t : terminal_t) (k : kernel_state) (params : List Nat)
    (hw : t.width ≤ 255) (hh : t.height ≤ 255)
    (hx : t.cursor.x < t.width) (hy : t.cursor.y < t.height) :
    (∀ ctrl, (ctrl = terminal_control_t.TERM_CTRL_CURSOR_UP ∨
        ctrl = terminal_control_t.TERM_CTRL_CURSOR_DOWN ∨
        ctrl = terminal_control_t.TERM_CTRL_CURSOR_RIGHT ∨
        ctrl = terminal_control_t.TERM_CTRL_CURSOR_LEFT) →
      (terminal_execute_control t ctrl params k).2.1.cursor.x < t.width ∧
      (terminal_execute_control t ctrl params k).2.1.cursor.y < t.height ∧
      (terminal_execute_control t ctrl params k).2.1.width = t.width ∧
      (terminal_execute_control t ctrl params k).2.1.height = t.height) ∧
    (terminal_execute_control t terminal_control_t.TERM_CTRL_CURSOR_HOME params k).2.1.cursor
      = { x := (((sscanf_params params 1 1).2 - 1) % 256).toNat,
          y := (((sscanf_params params 1 1).1 - 1) % 256).toNat } ∧
    ((terminal_parse_loop (bytes [27, 91, 51, 48, 59, 49, 48, 48, 72]) 9 0 console_terminal
        (console_state default_tty_config 0 0 0)).1.cursor = { x := 99, y := 29 } ∧
      (terminal_parse_loop (bytes [27, 91, 51, 48, 59, 49, 48, 48, 72]) 9 0 console_terminal
        (console_state default_tty_config 0 0 0)).1.width = 80 ∧
      (terminal_parse_loop (bytes [27, 91, 51, 48, 59, 49, 48, 48, 72]) 9 0 console_terminal
        (console_state default_tty_config 0 0 0)).1.height = 25) := by
  refine ⟨fun ctrl hc => ?_, execute_control_home t k params,
    parse_cursor_home_far console_terminal _ rfl⟩
  obtain ⟨a, b⟩ := execute_control_move_in_bounds t k params hw hh hx hy ctrl hc
  refine ⟨a, b, ?_, ?_⟩ <;>
    rcases hc with h | h | h | h <;> subst h <;> rfl

/-- C39 on the console terminal with its cursor at column 70 of row 10: the control B with
the parameter string "30B" keeps the cursor inside 80 x 25. -/
theorem C39_cursor_home_not_clamped_witness :
    (terminal_execute_control { console_terminal with cursor := { x := 70, y := 10 } }
      terminal_control_t.TERM_CTRL_CURSOR_DOWN [51, 48, 66]
      (console_state default_tty_config 0 0 0)).2.1.cursor.x < 80 ∧
    (terminal_execute_control { console_terminal with cursor := { x := 70, y := 10 } }
      terminal_control_t.TERM_CTRL_CURSOR_DOWN [51, 48, 66]
      (console_state default_tty_config 0 0 0)).2.1.cursor.y < 25 :=
  ⟨((C39_cursor_home_not_clamped { console_terminal with cursor := { x := 70, y := 10 } }
      (console_state default_tty_config 0 0 0) [51, 48, 66] (by decide) (by decide) (by decide)
      (by decide)).1 terminal_control_t.TERM_CTRL_CURSOR_DOWN (Or.inr (Or.inl rfl))).1,
    ((C39_cursor_home_not_clamped { console_terminal with cursor := { x := 70, y := 10 } }
      (console_state default_tty_config 0 0 0) [51, 48, 66] (by decide) (by decide) (by decide)
      (by decide)).1 terminal_control_t.TERM_CTRL_CURSOR_DOWN (Or.inr (Or.inl rfl))).2.1⟩

theorem line_frame_refl (k : kernel_state) : line_frame k k :=
  ⟨fun _ => ⟨rfl, rfl, rfl, rfl, rfl, rfl, rfl⟩, rfl⟩

theorem line_frame_trans (k k1 k2 : kernel_state) (h1 : line_frame k k1)
    (h2 : line_frame k1 k2) : line_frame k k2 := by
  refine ⟨fun j => ?_, h2.2.trans h1.2⟩
  have a := h1.1 j
  have b := h2.1 j
  exact ⟨b.1.trans a.1, b.2.1.trans a.2.1, b.2.2.1.trans a.2.2.1,
    b.2.2.2.1.trans a.2.2.2.1, b.2.2.2.2.1.trans a.2.2.2.2.1,
    b.2.2.2.2.2.1.trans a.2.2.2.2.2.1, b.2.2.2.2.2.2.trans a.2.2.2.2.2.2⟩

/-- A store into device `i` that keeps the framed fields of the device. -/
theorem line_frame_set_tty (k : kernel_state) (i : Nat) (t : tty_device_t)
    (h : t.line = (k.tty i).line ∧ t.state = (k.tty i).state ∧ t.mode = (k.tty i).mode ∧
      t.config = (k.tty i).config ∧ t.minor = (k.tty i).minor ∧
      t.characters_processed = (k.tty i).characters_processed ∧
      t.lines_processed = (k.tty i).lines_processed) :
    line_frame k (k.set_tty i t) := by
  refine ⟨fun j => ?_, rfl⟩
  by_cases hj : j = i
  · subst hj
    rw [set_tty_tty_same]
    exact h
  · rw [set_tty_tty_other k i j t hj]
    exact ⟨rfl, rfl, rfl, rfl, rfl, rfl, rfl⟩

theorem tty_render_char_frame (fuel i ch : Nat) (k k2 : kernel_state)
    (h : tty_render_char fuel i ch k = some k2) : line_frame k k2 := by
  unfold tty_render_char at h
  simp only at h
  split at h
  · exact absurd h (by simp)
  · rename_i vs _
    rw [← Option.some.inj h]
    exact line_frame_set_tty
      { k with vga_state := vs, display_trace := k.display_trace ++ [ch] } i _
      ⟨rfl, rfl, rfl, rfl, rfl, rfl, rfl⟩

theorem tty_put_spaces_frame
    (putchar : Int → Nat → kernel_state → Option (Int × kernel_state))
    (hp : ∀ m c k r, putchar m c k = some r → line_frame k r.2) (i : Nat) :
    ∀ (n : Nat) (k k2 : kernel_state), tty_put_spaces putchar i n k = some k2 →
      line_frame k k2 := by
  intro n
  induction n with
  | zero =>
    intro k k2 h
    rw [← Option.some.inj h]
    exact line_frame_refl k
  | succ n ih =>
    intro k k2 h
    simp only [tty_put_spaces] at h
    split at h
    · exact absurd h (by simp)
    · rename_i r hr
      exact line_frame_trans _ _ _ (hp _ _ _ _ hr) (ih _ _ h)

theorem tty_line_discipline_output_frame
    (putchar : Int → Nat → kernel_state → Option (Int × kernel_state))
    (hp : ∀ m c k r, putchar m c k = some r → line_frame k r.2) (fuel i ch : Nat)
    (k : kernel_state) (r : Int × kernel_state)
    (h : tty_line_discipline_output putchar fuel i ch k = some r) : line_frame k r.2 := by
  unfold tty_line_discipline_output at h
  simp only at h
  split at h
  · exact absurd h (by simp)
  · rename_i k1 hk1
    have f1 : line_frame k k1 := by
      split_ifs at hk1 with hc
      · simp only [Option.map_eq_some'] at hk1
        obtain ⟨r1, g1, g2⟩ := hk1
        rw [← g2]
        exact hp _ _ _ _ g1
      · rw [← Option.some.inj hk1]
        exact line_frame_refl k
    refine line_frame_trans _ _ _ f1 ?_
    split_ifs at h with c1 c2
    · simp only [Option.map_eq_some'] at h
      obtain ⟨k2, g1, g2⟩ := h
      rw [← g2]
      exact tty_put_spaces_frame putchar hp i _ _ _ g1
    · simp only [Option.map_eq_some'] at h
      obtain ⟨k2, g1, g2⟩ := h
      rw [← g2]
      exact tty_render_char_frame fuel i ch k1 k2 g1
    · rw [← Option.some.inj h]
      exact line_frame_refl k1

theorem tty_process_output_char_frame
    (putchar : Int → Nat → kernel_state → Option (Int × kernel_state))
    (hp : ∀ m c k r, putchar m c k = some r → line_frame k r.2) (fuel i ch : Nat)
    (k : kernel_state) (r : Int × kernel_state)
    (h : tty_process_output_char putchar fuel i ch k = some r) : line_frame k r.2 := by
  unfold tty_process_output_char at h
  split_ifs at h with c1 c2
  · exact tty_line_discipline_output_frame putchar hp fuel i ch k r h
  · simp only [Option.map_eq_some'] at h
    obtain ⟨k2, g1, g2⟩ := h
    rw [← g2]
    exact tty_render_char_frame fuel i ch k k2 g1
  · rw [← Option.some.inj h]
    exact line_frame_refl k

theorem tty_write_loop_frame (process : Nat → kernel_state → Option (Int × kernel_state))
    (hp : ∀ c k r, process c k = some r → line_frame k r.2) (i : Nat) (data : Nat → Nat) :
    ∀ (n j bw : Nat) (k : kernel_state) (r : Nat × kernel_state),
      tty_write_loop process i data n j bw k = some r → line_frame k r.2 := by
  intro n
  induction n with
  | zero =>
    intro j bw k r h
    rw [← Option.some.inj h]
    exact line_frame_refl k
  | succ n ih =>
    intro j bw k r h
    simp only [tty_write_loop] at h
    split at h
    · exact absurd h (by simp)
    · rename_i r1 hr1
      have f1 := hp _ _ _ hr1
      split_ifs at h with c
      · refine line_frame_trans _ _ _ f1 (line_frame_trans _ _ _ ?_ (ih _ _ _ _ h))
        exact line_frame_set_tty r1.2 i _ ⟨rfl, rfl, rfl, rfl, rfl, rfl, rfl⟩
      · rw [← Option.some.inj h]
        exact f1

/-- Whenever `tty_write` returns, with any arguments and any amount of fuel, it has left
the line discipline, state, mode, configuration and minor number of every device as they
were. -/
theorem tty_write_frame : ∀ (fuel : Nat) (minor : Int) (data : Option (Nat → Nat))
    (size : Nat) (k : kernel_state) (r : Int × kernel_state),
    tty_write fuel minor data size k = some r → line_frame k r.2 := by
  intro fuel
  induction fuel with
  | zero => intro minor data size k r h; exact absurd h (by simp [tty_write])
  | succ fuel ih =>
    intro minor data size k r h
    unfold tty_write at h
    split at h
    · rename_i i d _
      split_ifs at h
      · rw [← Option.some.inj h]
        exact line_frame_refl k
      · rw [← Option.some.inj h]
        exact line_frame_refl k
      · simp only [Option.map_eq_some'] at h
        obtain ⟨r1, g1, g2⟩ := h
        rw [← g2]
        exact tty_write_loop_frame _
          (fun c k r hr => tty_process_output_char_frame _
            (fun m c k r hr => ih m (some (fun _ => c)) 1 k r hr) fuel i c k r hr)
          i d size 0 0 k r1 g1
    · rw [← Option.some.inj h]
      exact line_frame_refl k

theorem tty_putchar_frame (fuel : Nat) (m : Int) (c : Nat) (k : kernel_state)
    (r : Int × kernel_state) (h : tty_putchar fuel m c k = some r) : line_frame k r.2 :=
  tty_write_frame fuel m _ 1 k r h

theorem pop_inv (e : keyboard_event_t) (kb : keyboard_buffer_t) (h : kb_inv kb) :
    kb_inv (buffer_pop_event e kb).2.2 := by
  obtain ⟨h1, h2, h3⟩ := h
  unfold buffer_pop_event
  by_cases hc : kb.count = 0
  · simp only [hc, if_true]
    exact ⟨h1, by omega, by rw [h3, hc]⟩
  · simp only [hc, if_false, KEYBOARD_BUFFER_SIZE]
    refine ⟨Nat.mod_lt _ (by norm_num), ?_, ?_⟩
    · show kb.count - 1 ≤ 256
      omega
    · show kb.tail = ((kb.head + 1) % 256 + (kb.count - 1)) % 256
      rw [h3]
      omega

theorem flush_inv (kb : keyboard_buffer_t) : kb_inv (keyboard_flush kb) :=
  ⟨Nat.zero_lt_succ 255, Nat.zero_le 256, rfl⟩

theorem kb_run_inv (ops : List kb_op) :
    ∀ kb : keyboard_buffer_t, kb_inv kb → kb_inv (kb_run ops kb) := by
  induction ops with
  | nil => intro kb h; exact h
  | cons op rest ih =>
    intro kb h
    show kb_inv (kb_run rest (kb_apply op kb))
    apply ih
    cases op with
    | push event => exact push_inv event kb h
    | pop => exact pop_inv {} kb h
    | flush => exact flush_inv kb

theorem fresh_line_inv (l : tty_line_discipline_t) (h : fresh_line l) : line_inv l := by
  obtain ⟨h1, h2, h3, h4, h5⟩ := h
  refine ⟨⟨by omega, by omega, ?_⟩, by omega, by omega⟩
  rw [h1, h2, h3]

theorem line_inv_putchar (l : tty_line_discipline_t) (ch : Nat) (h : line_inv l) :
    line_inv (tty_buffer_putchar l TTY_BUFFER_SIZE ch).2 := by
  by_cases hroom : l.input_count < 4096
  · rw [tty_buffer_putchar_room l ch hroom]
    obtain ⟨⟨h1, h2, h3⟩, h4, h5⟩ := h
    refine ⟨⟨h1, ?_, ?_⟩, h4, h5⟩
    · show l.input_count + 1 ≤ 4096
      omega
    · show (l.input_tail + 1) % 4096 = (l.input_head + (l.input_count + 1)) % 4096
      rw [h3]
      omega
  · rw [tty_buffer_putchar_full l ch (by omega)]
    exact h

theorem line_inv_copy_line : ∀ (n j : Nat) (l : tty_line_discipline_t), line_inv l →
    line_inv (tty_copy_line n j l) := by
  intro n
  induction n with
  | zero => intro j l h; exact h
  | succ n ih =>
    intro j l h
    exact ih (j + 1) _ (line_inv_putchar l _ h)

theorem tty_get_device_index (i : Nat) (k : kernel_state) (j : Nat)
    (h : tty_get_device (i : Int) k = some j) : j = i := by
  unfold tty_get_device at h
  split_ifs at h
  have := Option.some.inj h
  rw [Int.toNat_ofNat] at this
  exact this.symm

/-- The backspace case of `tty_line_discipline_input`, unfolded. -/
theorem input_backspace_unfold
    (putchar : Int → Nat → kernel_state → Option (Int × kernel_state)) (i : Nat)
    (k : kernel_state) :
    tty_line_discipline_input putchar i 8 k
      = Option.map (fun k2 => ((0 : Int), count_char i k2))
          (if (k.tty i).line.line_pos > 0 then
            if ((erase_last i k).tty i).config.echo ≠ 0 then
              match putchar ((erase_last i k).tty i).minor 8 (erase_last i k) with
              | none => none
              | some r =>
                match putchar (r.2.tty i).minor 32 r.2 with
                | none => none
                | some r => (putchar (r.2.tty i).minor 8 r.2).map (fun r => r.2)
            else some (erase_last i k)
          else some k) := by
  have h8a : ¬ ((8 : Nat) = 10 ∨ (8 : Nat) = 13) := by decide
  simp only [tty_line_discipline_input, h8a, if_false, if_true]
  rfl

theorem line_inv_of_frame (i : Nat) (k k2 : kernel_state) (hf : line_frame k k2)
    (h : line_inv (k.tty i).line) : line_inv (k2.tty i).line := by
  rw [(hf.1 i).1]
  exact h

/-- Whenever the cooked input of a character returns, it has kept the invariant of the
line discipline of the device. -/
theorem tty_line_discipline_input_inv
    (putchar : Int → Nat → kernel_state → Option (Int × kernel_state))
    (hp : ∀ m c k r, putchar m c k = some r → line_frame k r.2) (i ch : Nat)
    (k : kernel_state) (r : Int × kernel_state)
    (h : tty_line_discipline_input putchar i ch k = some r)
    (hinv : line_inv (k.tty i).line) : line_inv (r.2.tty i).line := by
  by_cases hnl : ch = 10 ∨ ch = 13
  · rw [input_newline_unfold _ i ch k hnl] at h
    simp only [Option.map_eq_some'] at h
    obtain ⟨k3, ⟨k1, hecho, hk3⟩, hr⟩ := h
    have f1 : line_frame k k1 := by
      split_ifs at hecho
      · split at hecho
        · exact absurd hecho (by simp)
        · rename_i r1 hr1
          simp only [Option.map_eq_some'] at hecho
          obtain ⟨r2, g1, g2⟩ := hecho
          rw [← g2]
          exact line_frame_trans _ _ _ (hp _ _ _ _ hr1) (hp _ _ _ _ g1)
      · rw [← Option.some.inj hecho]
        exact line_frame_refl k
    have h1 := line_inv_of_frame i k k1 f1 hinv
    have h2 := line_inv_putchar _ 10
      (line_inv_copy_line (k1.tty i).line.line_count 0 _ h1)
    rw [← hr, ← hk3]
    simp only [count_char_tty, commit_line_tty]
    exact ⟨h2.1, rfl, Nat.zero_le _⟩
  · by_cases h8 : ch = 8
    · subst h8
      rw [input_backspace_unfold] at h
      simp only [Option.map_eq_some'] at h
      obtain ⟨k3, hk3, hr⟩ := h
      rw [← hr]
      simp only [count_char_tty]
      split_ifs at hk3 with hpos hecho
      · have he : line_inv ((erase_last i k).tty i).line := by
          simp only [erase_last_tty]
          obtain ⟨a, b, c⟩ := hinv
          refine ⟨a, ?_, ?_⟩
          · show (k.tty i).line.line_pos - 1 = ((k.tty i).line.line_count + 65535) % 65536
            omega
          · show ((k.tty i).line.line_count + 65535) % 65536 ≤ 1023
            omega
        split at hk3
        · exact absurd hk3 (by simp)
        · rename_i r1 hr1
          split at hk3
          · exact absurd hk3 (by simp)
          · rename_i r2 hr2
            simp only [Option.map_eq_some'] at hk3
            obtain ⟨r3, g1, g2⟩ := hk3
            rw [← g2]
            exact line_inv_of_frame i _ _
              (line_frame_trans _ _ _ (hp _ _ _ _ hr1)
                (line_frame_trans _ _ _ (hp _ _ _ _ hr2) (hp _ _ _ _ g1))) he
      · rw [← Option.some.inj hk3]
        simp only [erase_last_tty]
        obtain ⟨a, b, c⟩ := hinv
        refine ⟨a, ?_, ?_⟩
        · show (k.tty i).line.line_pos - 1 = ((k.tty i).line.line_count + 65535) % 65536
          omega
        · show ((k.tty i).line.line_count + 65535) % 65536 ≤ 1023
          omega
      · rw [← Option.some.inj hk3]
        exact hinv
    · rw [input_default_unfold _ i ch k (by omega) (by omega) h8] at h
      simp only [Option.map_eq_some'] at h
      obtain ⟨k3, hk3, hr⟩ := h
      rw [← hr]
      simp only [count_char_tty]
      have ha : (k.tty i).line.line_count < 1023 →
          line_inv ((append_char i ch k).tty i).line := by
        intro hroom
        simp only [append_char_tty]
        obtain ⟨a, b, c⟩ := hinv
        refine ⟨a, ?_, ?_⟩
        · show ((k.tty i).line.line_pos + 1) % 65536 = ((k.tty i).line.line_count + 1) % 65536
          rw [b]
        · show ((k.tty i).line.line_count + 1) % 65536 ≤ 1023
          omega
      split_ifs at hk3 with hroom hecho
      · simp only [Option.map_eq_some'] at hk3
        obtain ⟨r1, g1, g2⟩ := hk3
        rw [← g2]
        exact line_inv_of_frame i _ _ (hp _ _ _ _ g1) (ha hroom)
      · rw [← Option.some.inj hk3]
        exact ha hroom
      · rw [← Option.some.inj hk3]
        exact hinv

/-- Whenever `tty_input_char` returns, in either mode and whatever the state of the device,
it has kept the invariant of the line discipline of the device. -/
theorem tty_input_char_inv (fuel i ch : Nat) (k : kernel_state) (r : Int × kernel_state)
    (h : tty_input_char fuel (i : Int) ch k = some r) (hinv : line_inv (k.tty i).line) :
    line_inv (r.2.tty i).line := by
  unfold tty_input_char at h
  split at h
  · rw [← Option.some.inj h]
    exact hinv
  · rename_i j hj
    have e := tty_get_device_index i k j hj
    subst e
    split_ifs at h
    · rw [← Option.some.inj h]
      exact hinv
    · unfold tty_process_input_char at h
      split_ifs at h
      · exact tty_line_discipline_input_inv _ (tty_putchar_frame fuel) j ch k r h hinv
      · rw [← Option.some.inj h]
        simp only [set_tty_tty_same]
        exact line_inv_putchar _ ch hinv

theorem tty_read_loop_inv (i : Nat) : ∀ (n br : Nat) (buf : Nat → Nat) (k : kernel_state),
    line_inv (k.tty i).line → line_inv ((tty_read_loop i n br buf k).2.2.tty i).line := by
  intro n
  induction n with
  | zero => intro br buf k h; exact h
  | succ n ih =>
    intro br buf k h
    unfold tty_read_loop
    simp only
    split_ifs with hc
    · apply ih
      rw [set_tty_tty_same]
      obtain ⟨⟨a, b, c⟩, d, e⟩ := h
      refine ⟨⟨Nat.mod_lt _ (by decide), ?_, ?_⟩, d, e⟩
      · show (k.tty i).line.input_count - 1 ≤ 4096
        omega
      · show (k.tty i).line.input_tail
          = (((k.tty i).line.input_head + 1) % TTY_BUFFER_SIZE
              + ((k.tty i).line.input_count - 1)) % 4096
        rw [c]
        simp only [TTY_BUFFER_SIZE]
        omega
    · exact h

theorem tty_read_inv (i : Nat) (buffer : Option (Nat → Nat)) (size : Nat) (k : kernel_state)
    (hinv : line_inv (k.tty i).line) :
    line_inv ((tty_read (i : Int) buffer size k).2.2.tty i).line := by
  unfold tty_read
  split
  · rename_i j b hj
    have e := tty_get_device_index i k j hj
    subst e
    split_ifs
    · exact hinv
    · exact hinv
    · exact tty_read_loop_inv j size 0 b k hinv
  · exact hinv

theorem tty_flush_input_inv (i : Nat) (k : kernel_state) (hinv : line_inv (k.tty i).line) :
    line_inv ((tty_flush_input (i : Int) k).2.tty i).line := by
  unfold tty_flush_input
  split
  · exact hinv
  · rename_i j hj
    have e := tty_get_device_index i k j hj
    subst e
    simp only [set_tty_tty_same]
    exact ⟨⟨Nat.zero_lt_succ _, Nat.zero_le _, rfl⟩, rfl, Nat.zero_le _⟩

theorem tty_flush_output_inv (i : Nat) (k : kernel_state) (hinv : line_inv (k.tty i).line) :
    line_inv ((tty_flush_output (i : Int) k).2.tty i).line := by
  unfold tty_flush_output
  split
  · exact hinv
  · rename_i j hj
    have e := tty_get_device_index i k j hj
    subst e
    simp only [set_tty_tty_same]
    exact hinv

theorem tty_close_inv (i : Nat) (k : kernel_state) (hinv : line_inv (k.tty i).line) :
    line_inv ((tty_close (i : Int) k).2.tty i).line := by
  unfold tty_close
  split
  · exact hinv
  · rename_i j hj
    have e := tty_get_device_index i k j hj
    subst e
    split_ifs
    · exact hinv
    · simp only [set_tty_tty_same]
      exact tty_flush_output_inv j _ (tty_flush_input_inv j k hinv)

theorem tty_set_mode_inv (i : Nat) (mode : tty_mode_t) (k : kernel_state)
    (hinv : line_inv (k.tty i).line) :
    line_inv ((tty_set_mode (i : Int) mode k).2.tty i).line := by
  unfold tty_set_mode
  split
  · exact hinv
  · rename_i j hj
    have e := tty_get_device_index i k j hj
    subst e
    simp only [set_tty_tty_same]
    exact hinv

theorem tty_apply_inv (fuel i : Nat) (op : tty_op) (k k2 : kernel_state)
    (h : tty_apply fuel i op k = some k2) (hinv : line_inv (k.tty i).line) :
    line_inv (k2.tty i).line := by
  cases op with
  | input ch =>
    simp only [tty_apply, Option.map_eq_some'] at h
    obtain ⟨r, g1, g2⟩ := h
    rw [← g2]
    exact tty_input_char_inv fuel i ch k r g1 hinv
  | read size =>
    rw [← Option.some.inj h]
    exact tty_read_inv i _ size k hinv
  | flush =>
    rw [← Option.some.inj h]
    exact tty_flush_input_inv i k hinv
  | close =>
    rw [← Option.some.inj h]
    exact tty_close_inv i k hinv
  | set_mode mode =>
    rw [← Option.some.inj h]
    exact tty_set_mode_inv i mode k hinv

theorem tty_run_inv (fuel i : Nat) (ops : List tty_op) :
    ∀ (k k2 : kernel_state), tty_run fuel i ops k = some k2 → line_inv (k.tty i).line →
      line_inv (k2.tty i).line := by
  induction ops with
  | nil =>
    intro k k2 h hinv
    rw [← Option.some.inj h]
    exact hinv
  | cons op rest ih =>
    intro k k2 h hinv
    simp only [tty_run, Option.bind_eq_some] at h
    obtain ⟨k1, g1, g2⟩ := h
    exact ih k1 k2 g2 (tty_apply_inv fuel i op k k1 g1 hinv)

/-- C32: the key event queue after any run of pushes, pops and flushes from the empty queue
that `keyboard_init` leaves, and the input ring of a device after any run of inputs (in
Raw or Cooked mode, whatever the echo does), reads, flushes, closes and mode changes that
returns, from a freshly opened device: the count is at most the capacity (256, 4096), the
head is inside the array and the tail is (head + count) mod capacity. -/
theorem C32_ring_buffers_stay_well_formed (kops : List kb_op) (kb : keyboard_buffer_t)
    (hkb : kb.head = 0 ∧ kb.tail = 0 ∧ kb.count = 0)
    (fuel i : Nat) (ops : List tty_op) (k0 k : kernel_state)
    (h0 : fresh_line (k0.tty i).line) (hrun : tty_run fuel i ops k0 = some k) :
    ((kb_run kops kb).count ≤ 256 ∧ (kb_run kops kb).head < 256 ∧
      (kb_run kops kb).tail = ((kb_run kops kb).head + (kb_run kops kb).count) % 256) ∧
    ((k.tty i).line.input_count ≤ 4096 ∧ (k.tty i).line.input_head < 4096 ∧
      (k.tty i).line.input_tail
        = ((k.tty i).line.input_head + (k.tty i).line.input_count) % 4096) := by
  have hk : kb_inv kb := by
    obtain ⟨a, b, c⟩ := hkb
    refine ⟨by omega, by omega, ?_⟩
    rw [a, b, c]
  obtain ⟨a1, a2, a3⟩ := kb_run_inv kops kb hk
  obtain ⟨⟨b1, b2, b3⟩, _⟩ := tty_run_inv fuel i ops k0 k hrun (fresh_line_inv _ h0)
  exact ⟨⟨a2, a1, a3⟩, b2, b1, b3⟩

/-- C32 on the queue run push, push, pop, flush, push and on the run: a carriage
return arrives, read of one byte, flush, on the console in Raw mode. -/
theorem C32_ring_buffers_stay_well_formed_witness :
    ∃ k, tty_run 0 0 [tty_op.input 13, tty_op.read 1, tty_op.flush]
        (raw_console_state default_tty_config) = some k ∧
      ((kb_run [kb_op.push {}, kb_op.push {}, kb_op.pop, kb_op.flush, kb_op.push {}]
          { buffer := fun _ => {}, head := 0, tail := 0, count := 0 }).count ≤ 256 ∧
        (kb_run [kb_op.push {}, kb_op.push {}, kb_op.pop, kb_op.flush, kb_op.push {}]
          { buffer := fun _ => {}, head := 0, tail := 0, count := 0 }).head < 256 ∧
        (kb_run [kb_op.push {}, kb_op.push {}, kb_op.pop, kb_op.flush, kb_op.push {}]
          { buffer := fun _ => {}, head := 0, tail := 0, count := 0 }).tail
          = ((kb_run [kb_op.push {}, kb_op.push {}, kb_op.pop, kb_op.flush, kb_op.push {}]
              { buffer := fun _ => {}, head := 0, tail := 0, count := 0 }).head
            + (kb_run [kb_op.push {}, kb_op.push {}, kb_op.pop, kb_op.flush, kb_op.push {}]
              { buffer := fun _ => {}, head := 0, tail := 0, count := 0 }).count) % 256) ∧
      ((k.tty 0).line.input_count ≤ 4096 ∧ (k.tty 0).line.input_head < 4096 ∧
        (k.tty 0).line.input_tail
          = ((k.tty 0).line.input_head + (k.tty 0).line.input_count) % 4096) :=
  ⟨_, rfl,
    C32_ring_buffers_stay_well_formed
      [kb_op.push {}, kb_op.push {}, kb_op.pop, kb_op.flush, kb_op.push {}]
      { buffer := fun _ => {}, head := 0, tail := 0, count := 0 } ⟨rfl, rfl, rfl⟩
      0 0 [tty_op.input 13, tty_op.read 1, tty_op.flush]
      (raw_console_state default_tty_config) _ ⟨rfl, rfl, rfl, rfl, rfl⟩ rfl⟩

/-- C34: after any run of inputs (in either mode, whatever the echo does), reads, flushes,
closes and mode changes that returns, from a freshly opened device, the line position
equals the line count and both are at most 1023, so the index of a store into the
1024-byte line buffer is in range. On any Ready device in Cooked mode whose line holds 1023
characters, a character other than CR, LF and backspace is dropped for every amount of
fuel: the call returns 0, nothing is sent to the display, the line discipline is as it was,
and the characters-processed counter has grown by one. -/
theorem C34_line_position_tracks_count (fuel i : Nat) (ops : List tty_op)
    (k0 k : kernel_state) (h0 : fresh_line (k0.tty i).line)
    (hrun : tty_run fuel i ops k0 = some k) (fuel2 ch : Nat) (k3 : kernel_state) :
    ((k.tty i).line.line_pos = (k.tty i).line.line_count ∧
      (k.tty i).line.line_count ≤ 1023 ∧ (k.tty i).line.line_pos < 1024) ∧
    (ready_dev i k3 → (k3.tty i).mode = tty_mode_t.TTY_MODE_COOKED →
      (k3.tty i).line.line_count = 1023 → ch ≠ 10 → ch ≠ 13 → ch ≠ 8 →
      ∃ k4, tty_input_char fuel2 (i : Int) ch k3 = some (0, k4) ∧
        k4.display_trace = k3.display_trace ∧ k4.vga_state = k3.vga_state ∧
        (k4.tty i).line = (k3.tty i).line ∧
        (k4.tty i).characters_processed
          = ((k3.tty i).characters_processed + 1) % 4294967296) := by
  obtain ⟨_, b, c⟩ := tty_run_inv fuel i ops k0 k hrun (fresh_line_inv _ h0)
  refine ⟨⟨b, c, by omega⟩, fun hr hm hfull h1 h2 h3 => ?_⟩
  refine ⟨count_char i k3, ?_, rfl, rfl, ?_, ?_⟩
  · rw [tty_input_char_cooked fuel2 i ch k3 hr hm,
      input_plain_no_room _ i ch k3 h1 h2 h3 (by omega)]
  · simp only [count_char_tty]
  · simp only [count_char_tty]

/-- C34 on the fresh console with echo off for the run A, backspace, B, line feed, flush,
close, and on the console with 1023 characters in its line for the letter A. -/
theorem C34_line_position_tracks_count_witness :
    (∃ k, tty_run 0 0 [tty_op.input 65, tty_op.input 8, tty_op.input 66, tty_op.input 10, tty_op.flush,
        tty_op.close] (console_state { default_tty_config with echo := 0 } 0 0 0)
        = some k ∧
      (k.tty 0).line.line_pos = (k.tty 0).line.line_count ∧
      (k.tty 0).line.line_count ≤ 1023 ∧ (k.tty 0).line.line_pos < 1024) ∧
    (∃ k4, tty_input_char 0 ((0 : Nat) : Int) 65 (console_state default_tty_config 1023 0 0)
        = some (0, k4) ∧
      k4.display_trace = (console_state default_tty_config 1023 0 0).display_trace ∧
      k4.vga_state = (console_state default_tty_config 1023 0 0).vga_state ∧
      (k4.tty 0).line = ((console_state default_tty_config 1023 0 0).tty 0).line ∧
      (k4.tty 0).characters_processed
        = (((console_state default_tty_config 1023 0 0).tty 0).characters_processed + 1)
            % 4294967296) :=
  ⟨⟨_, rfl, (C34_line_position_tracks_count 0 0 [tty_op.input 65, tty_op.input 8, tty_op.input 66, tty_op.input 10, tty_op.flush,
        tty_op.close]
      (console_state { default_tty_config with echo := 0 } 0 0 0) _ ⟨rfl, rfl, rfl, rfl, rfl⟩ rfl 0 65
      (console_state default_tty_config 1023 0 0)).1⟩,
    (C34_line_position_tracks_count 0 0 [tty_op.input 65, tty_op.input 8, tty_op.input 66, tty_op.input 10, tty_op.flush,
        tty_op.close]
      (console_state { default_tty_config with echo := 0 } 0 0 0) _ ⟨rfl, rfl, rfl, rfl, rfl⟩ rfl 0 65
      (console_state default_tty_config 1023 0 0)).2 ⟨by decide, rfl, rfl⟩ rfl rfl
      (by decide) (by decide) (by decide)⟩

/-- Output processing of a byte other than a tab on a Ready device, in the foreground or
not: it returns 0, and the bytes-written counter of the device has grown by one when the
byte is a line feed that the Cooked device translates (the carriage return has gone through
a nested `tty_write`), and is unchanged otherwise. -/
theorem process_output_counts (fuel i c : Nat) (k : kernel_state) (h : ready_dev i k)
    (hc : c ≠ 9) (hbw : (k.tty i).bytes_written < 4294967296) :
    ∃ k1, tty_process_output_char
        (fun m c k => tty_write (fuel + 2) m (some (fun _ => c)) 1 k) (fuel + 2) i c k
          = some (0, k1) ∧
      (k1.tty i).bytes_written
        = ((k.tty i).bytes_written + translated_extra (k.tty i) c) % 4294967296 := by
  obtain ⟨hi, hmin, hst⟩ := h
  by_cases hsp : c = 10 ∧ (k.tty i).mode = tty_mode_t.TTY_MODE_COOKED ∧ (k.tty i).config.crlf ≠ 0
  · obtain ⟨rfl, hm, hcrlf⟩ := hsp
    have hx : translated_extra (k.tty i) 10 = 1 := by
      unfold translated_extra
      rw [if_pos ⟨rfl, hm, hcrlf⟩]
    have h109 : ¬ ((10 : Nat) = 9) := by decide
    rw [hx]
    by_cases hfg : k.tty_manager.current_tty = (i : Int)
    · have h13 := putchar_plain_fg fuel i 13 k ⟨hi, hmin, hst, hfg⟩ (Or.inl (by decide))
        (by decide)
      unfold tty_putchar at h13
      refine ⟨render i 10 (count_byte i (render i 13 k)), ?_, ?_⟩
      · unfold tty_process_output_char tty_line_discipline_output
        simp only [hm, if_true, hcrlf, ne_eq, not_false_eq_true, and_self, hmin, h13,
          Option.map_some', count_byte_tty, render_tty, h109, and_false, if_false,
          count_byte_current_tty, render_current_tty, hfg,
          tty_render_char_notab (fuel + 1) i 10 _ (by decide)]
      · simp only [render_tty, count_byte_tty]
    · have h13 := putchar_plain_bg (fuel + 1) i 13 k ⟨hi, hmin, hst⟩ hfg (Or.inl (by decide))
        (by decide)
      unfold tty_putchar at h13
      have hbg2 : ¬ ((i : Int) = k.tty_manager.current_tty) := fun e => hfg e.symm
      refine ⟨count_byte i k, ?_, ?_⟩
      · unfold tty_process_output_char tty_line_discipline_output
        simp only [hm, if_true, hcrlf, ne_eq, not_false_eq_true, and_self, hmin, h13,
          Option.map_some', count_byte_tty, h109, and_false, if_false, count_byte_current_tty,
          hbg2]
      · simp only [count_byte_tty]
  · have hx : translated_extra (k.tty i) c = 0 := by
      unfold translated_extra
      rw [if_neg hsp]
    have hnl : c ≠ 10 ∨ (k.tty i).config.crlf = 0 ∨ (k.tty i).mode = tty_mode_t.TTY_MODE_RAW := by
      by_cases h1 : c = 10
      · by_cases h2 : (k.tty i).config.crlf = 0
        · exact Or.inr (Or.inl h2)
        · right; right
          cases hmode : (k.tty i).mode with
          | TTY_MODE_COOKED => exact absurd ⟨h1, hmode, h2⟩ hsp
          | TTY_MODE_RAW => rfl
      · exact Or.inl h1
    have e : ((k.tty i).bytes_written + translated_extra (k.tty i) c) % 4294967296
        = (k.tty i).bytes_written := by
      rw [hx]
      omega
    rw [e]
    by_cases hfg : k.tty_manager.current_tty = (i : Int)
    · exact ⟨render i c k, process_plain_fg _ (fuel + 1) i c k (by rw [hmin, hfg]) hnl hc,
        by simp only [render_tty]⟩
    · exact ⟨k, process_plain_bg _ (fuel + 2) i c k
        (by rw [hmin]; exact fun e => hfg e.symm) hnl hc, rfl⟩

theorem translated_extra_sum (t : tty_device_t) (l : List Nat) :
    (l.map (translated_extra t)).sum
      = if t.mode = tty_mode_t.TTY_MODE_COOKED ∧ t.config.crlf ≠ 0 then l.count 10 else 0 := by
  by_cases hm : t.mode = tty_mode_t.TTY_MODE_COOKED ∧ t.config.crlf ≠ 0
  · rw [if_pos hm]
    induction l with
    | nil => rfl
    | cons c l ih =>
      rw [List.map_cons, List.sum_cons, ih]
      by_cases hc : c = 10
      · subst hc
        have e : translated_extra t 10 = 1 := by
          unfold translated_extra
          rw [if_pos ⟨rfl, hm⟩]
        rw [e, List.count_cons_self]
        omega
      · have e : translated_extra t c = 0 := by
          unfold translated_extra
          rw [if_neg (fun e => hc e.1)]
        rw [e, List.count_cons_of_ne (fun e => hc e.symm)]
        omega
  · rw [if_neg hm]
    induction l with
    | nil => rfl
    | cons c l ih =>
      have e : translated_extra t c = 0 := by
        unfold translated_extra
        rw [if_neg (fun e => hm e.2)]
      rw [List.map_cons, List.sum_cons, ih, e]

/-- The loop of `tty_write` over bytes none of which is a tab, on a Ready device: every
byte is counted in the result, and the bytes-written counter of the device grows by one per
byte and by one more per translated line feed. -/
theorem tty_write_loop_counts (fuel i : Nat) (d : Nat → Nat) :
    ∀ (rest : List Nat) (j bw : Nat) (k : kernel_state), ready_dev i k →
      (k.tty i).bytes_written < 4294967296 →
      (∀ c ∈ rest, c ≠ 9) →
      (∀ m, m < rest.length → d (j + m) = rest.getD m 0) →
      ∃ k2, tty_write_loop
          (tty_process_output_char
            (fun m c k => tty_write (fuel + 2) m (some (fun _ => c)) 1 k) (fuel + 2) i)
          i d rest.length j bw k = some (bw + rest.length, k2) ∧
        (k2.tty i).bytes_written
          = ((k.tty i).bytes_written + rest.length
              + (rest.map (translated_extra (k.tty i))).sum) % 4294967296 := by
  intro rest
  induction rest with
  | nil =>
    intro j bw k _ hbw _ _
    refine ⟨k, rfl, ?_⟩
    simp only [List.length_nil, List.map_nil, List.sum_nil, Nat.add_zero]
    omega
  | cons c rest ih =>
    intro j bw k h hbw hc hd
    have hcj : d j = c := by simpa using hd 0 (by simp)
    obtain ⟨k1, hp, hb1⟩ := process_output_counts fuel i c k h (hc c (List.mem_cons_self _ _)) hbw
    have hf : line_frame k k1 :=
      tty_process_output_char_frame _
        (fun m c k r hr => tty_write_frame (fuel + 2) m _ 1 k r hr) (fuel + 2) i c k _ hp
    obtain ⟨f1, f2, f3, f4, f5, _, _⟩ := hf.1 i
    have hr : ready_dev i (count_byte i k1) := by
      obtain ⟨hi, hmin, hst⟩ := h
      refine ⟨hi, ?_, ?_⟩
      · simp only [count_byte_tty]
        rw [f5]; exact hmin
      · simp only [count_byte_tty]
        rw [f2]; exact hst
    have hb2 : ((count_byte i k1).tty i).bytes_written < 4294967296 := by
      simp only [count_byte_tty]
      exact Nat.mod_lt _ (by decide)
    obtain ⟨k2, hl, hb3⟩ := ih (j + 1) (bw + 1) (count_byte i k1) hr hb2
      (fun c hc2 => hc c (List.mem_cons_of_mem _ hc2))
      (fun m hm => by
        have := hd (m + 1) (by simp only [List.length_cons]; omega)
        rw [List.getD_cons_succ] at this
        rw [← this]
        congr 1
        omega)
    have hx : ∀ c2, translated_extra ((count_byte i k1).tty i) c2
        = translated_extra (k.tty i) c2 := by
      intro c2
      simp only [count_byte_tty]
      unfold translated_extra
      simp only [f3, f4]
    have hsum : (rest.map (translated_extra ((count_byte i k1).tty i))).sum
        = (rest.map (translated_extra (k.tty i))).sum := by
      congr 1
      exact List.map_congr_left (fun c2 _ => hx c2)
    rw [← hcj] at hp
    refine ⟨k2, ?_, ?_⟩
    · rw [List.length_cons, tty_write_loop_step _ i d rest.length j bw k _ hp, hl]
      congr 2
      omega
    · rw [hb3, hsum]
      simp only [count_byte_tty, hb1, List.length_cons, List.map_cons, List.sum_cons]
      omega

/-- C37: `tty_write` of non-empty data of n bytes none of which is a tab, to a Ready device
in any mode and configuration, in the foreground or not, returns n for every amount of fuel
from 3 on. The bytes-written counter of the device (a `uint32_t`) grows by n when the
device is in Raw mode or has CR-LF translation off; on a Cooked device with CR-LF
translation on it grows by n plus the number of line feeds in the data, one more than
is returned for each translated line feed. -/
theorem C37_write_counts_translated_bytes (fuel i : Nat) (l : List Nat) (k : kernel_state)
    (h : ready_dev i k) (hne : l ≠ []) (htab : ∀ c ∈ l, c ≠ 9)
    (hbw : (k.tty i).bytes_written < 4294967296) :
    ∃ k2, tty_write (fuel + 3) (i : Int) (some (bytes l)) l.length k
        = some ((l.length : Int), k2) ∧
      (k2.tty i).bytes_written
        = ((k.tty i).bytes_written + l.length
            + (if (k.tty i).mode = tty_mode_t.TTY_MODE_COOKED ∧ (k.tty i).config.crlf ≠ 0
                then l.count 10 else 0)) % 4294967296 := by
  have hsz : l.length ≠ 0 := by
    intro h0; exact hne (List.length_eq_zero.mp h0)
  obtain ⟨k2, hl, hb⟩ := tty_write_loop_counts fuel i (bytes l) l 0 0 k h hbw htab
    (fun m _ => by rw [Nat.zero_add]; rfl)
  refine ⟨k2, ?_, ?_⟩
  · rw [tty_write_ready (fuel + 2) i (bytes l) l.length k h.1 h.2.2 hsz, hl]
    simp
  · rw [hb, translated_extra_sum]

/-- C37 on the console in Cooked mode with the default configuration (CR-LF translation
on) and its counter at 0: writing the one byte line feed returns 1 and leaves the counter
at 2. -/
theorem C37_write_counts_translated_bytes_witness :
    ∃ k2, tty_write 3 ((0 : Nat) : Int) (some (bytes [10])) 1
        (console_state default_tty_config 0 0 0) = some (1, k2) ∧
      (k2.tty 0).bytes_written = 2 := by
  obtain ⟨k2, h1, h2⟩ := C37_write_counts_translated_bytes 0 0 [10]
    (console_state default_tty_config 0 0 0) ⟨by decide, rfl, rfl⟩ (by decide) (by decide)
    (by decide)
  exact ⟨k2, h1, by rw [h2]; decide⟩

/-- The controller never reports its input buffer empty: the polling loop runs out. -/
theorem wait_ready_loop_busy : ∀ (n : Nat) (p : keyboard_port),
    (∀ m, p.status (p.status_reads + m) &&& 2 ≠ 0) →
    wait_ready_loop n p = (none, { p with status_reads := p.status_reads + n }) := by
  intro n
  induction n with
  | zero => intro p _; rfl
  | succ n ih =>
    intro p h
    have h0 : ¬ (p.status p.status_reads &&& 2 = 0) := h 0
    simp only [wait_ready_loop, keyboard_is_input_buffer_full, KEYBOARD_STATUS_IN_BUF_FULL, h0,
      if_false]
    rw [ih _ (fun m => by
      show p.status (p.status_reads + 1 + m) &&& 2 ≠ 0
      rw [Nat.add_assoc]
      exact h (1 + m))]
    simp only [Nat.add_assoc, Nat.add_comm 1 n]

theorem wait_for_keyboard_ready_busy (p : keyboard_port)
    (h : ∀ m, p.status (p.status_reads + m) &&& 2 ≠ 0) :
    wait_for_keyboard_ready p = (-1, { p with status_reads := p.status_reads + 100000 }) := by
  unfold wait_for_keyboard_ready
  rw [wait_ready_loop_busy 100000 p h]

theorem wait_ready_loop_idle (n : Nat) (p : keyboard_port)
    (h : p.status p.status_reads &&& 2 = 0) :
    wait_ready_loop (n + 1) p = (some 0, { p with status_reads := p.status_reads + 1 }) := by
  simp only [wait_ready_loop, keyboard_is_input_buffer_full, KEYBOARD_STATUS_IN_BUF_FULL, h,
    if_true]

/-- The controller reports its input buffer empty on the first poll. -/
theorem wait_for_keyboard_ready_idle (p : keyboard_port)
    (h : p.status p.status_reads &&& 2 = 0) :
    wait_for_keyboard_ready p = (0, { p with status_reads := p.status_reads + 1 }) := by
  have e : wait_ready_loop 100000 p
      = (some 0, { p with status_reads := p.status_reads + 1 }) :=
    wait_ready_loop_idle 99999 p h
  unfold wait_for_keyboard_ready
  rw [e]

/-- The controller never reports an answer: the response loop of `keyboard_reset` runs
out. -/
theorem reset_response_loop_silent : ∀ (n : Nat) (p : keyboard_port),
    (∀ m, p.status (p.status_reads + m) &&& 1 = 0) →
    reset_response_loop n p = (none, { p with status_reads := p.status_reads + n }) := by
  intro n
  induction n with
  | zero => intro p _; rfl
  | succ n ih =>
    intro p h
    have h0 : ¬ (p.status p.status_reads &&& 1 ≠ 0) := fun c => c (h 0)
    simp only [reset_response_loop, keyboard_is_output_buffer_full,
      KEYBOARD_STATUS_OUT_BUF_FULL, h0, if_false]
    rw [ih _ (fun m => by
      show p.status (p.status_reads + 1 + m) &&& 1 = 0
      rw [Nat.add_assoc]
      exact h (1 + m))]
    simp only [Nat.add_assoc, Nat.add_comm 1 n]

theorem reset_response_loop_answer (n : Nat) (p : keyboard_port)
    (h : p.status p.status_reads &&& 1 ≠ 0) :
    reset_response_loop (n + 1) p
      = if p.data p.data_reads % 256 = 0xAA then
          (some 0, { p with status_reads := p.status_reads + 1, data_reads := p.data_reads + 1 })
        else if p.data p.data_reads % 256 = 0xFC then
          (some (-1),
            { p with status_reads := p.status_reads + 1, data_reads := p.data_reads + 1 })
        else reset_response_loop n
          { p with status_reads := p.status_reads + 1, data_reads := p.data_reads + 1 } := by
  simp only [reset_response_loop, keyboard_is_output_buffer_full, KEYBOARD_STATUS_OUT_BUF_FULL,
    h, ne_eq, not_false_eq_true, if_true, keyboard_read_data]

/-- `keyboard_reset` when the controller never becomes ready: the wait runs out and -1 is
returned without a command having been sent. -/
theorem keyboard_reset_busy (p : keyboard_port)
    (h : ∀ m, p.status (p.status_reads + m) &&& 2 ≠ 0) :
    keyboard_reset p = (-1, { p with status_reads := p.status_reads + 100000 }) := by
  unfold keyboard_reset
  rw [wait_for_keyboard_ready_busy p h]
  rfl

/-- `keyboard_reset` when the controller is ready and then gives no answer: the 1000 polls
run out and -1 is returned. -/
theorem keyboard_reset_silent (p : keyboard_port)
    (h2 : p.status p.status_reads &&& 2 = 0)
    (h1 : ∀ m, p.status (p.status_reads + 1 + m) &&& 1 = 0) :
    keyboard_reset p
      = (-1, { p with status_reads := p.status_reads + 1 + 1000,
                       commands := p.commands ++ [0xFF] }) := by
  unfold keyboard_reset
  rw [wait_for_keyboard_ready_idle p h2]
  have e := reset_response_loop_silent 1000
    (keyboard_write_command KEYBOARD_CMD_RESET
      { p with status_reads := p.status_reads + 1 }) h1
  simp only [ne_eq, not_true_eq_false, if_false, e]
  rfl

/-- `keyboard_reset` when the controller is ready and answers the first poll with the byte
`resp`: 0 for 0xAA (self-test passed), -1 for 0xFC (self-test failed). -/
theorem keyboard_reset_answer (p : keyboard_port)
    (h2 : p.status p.status_reads &&& 2 = 0)
    (h1 : p.status (p.status_reads + 1) &&& 1 ≠ 0) :
    (p.data p.data_reads % 256 = 0xAA → (keyboard_reset p).1 = 0) ∧
    (p.data p.data_reads % 256 = 0xFC → (keyboard_reset p).1 = -1) := by
  have e := reset_response_loop_answer 999
    (keyboard_write_command KEYBOARD_CMD_RESET
      { p with status_reads := p.status_reads + 1 }) h1
  have e2 : reset_response_loop 1000 (keyboard_write_command KEYBOARD_CMD_RESET
      { p with status_reads := p.status_reads + 1 }) = _ := e
  constructor
  · intro hd
    have hd2 : (keyboard_write_command KEYBOARD_CMD_RESET
        { p with status_reads := p.status_reads + 1 }).data
        (keyboard_write_command KEYBOARD_CMD_RESET
          { p with status_reads := p.status_reads + 1 }).data_reads % 256 = 0xAA := hd
    rw [if_pos hd2] at e2
    unfold keyboard_reset
    rw [wait_for_keyboard_ready_idle p h2]
    simp only [ne_eq, not_true_eq_false, if_false, e2]
  · intro hd
    have hd2 : (keyboard_write_command KEYBOARD_CMD_RESET
        { p with status_reads := p.status_reads + 1 }).data
        (keyboard_write_command KEYBOARD_CMD_RESET
          { p with status_reads := p.status_reads + 1 }).data_reads % 256 = 0xFC := hd
    have hd3 : ¬ ((keyboard_write_command KEYBOARD_CMD_RESET
        { p with status_reads := p.status_reads + 1 }).data
        (keyboard_write_command KEYBOARD_CMD_RESET
          { p with status_reads := p.status_reads + 1 }).data_reads % 256 = 0xAA) := by
      rw [hd2]; decide
    rw [if_neg hd3, if_pos hd2] at e2
    unfold keyboard_reset
    rw [wait_for_keyboard_ready_idle p h2]
    simp only [ne_eq, not_true_eq_false, if_false, e2]

theorem keyboard_set_repeat_rate_busy (delay rate : Nat) (p : keyboard_port)
    (h : ∀ m, p.status (p.status_reads + m) &&& 2 ≠ 0) :
    (keyboard_set_repeat_rate delay rate p).1 = -1 := by
  unfold keyboard_set_repeat_rate
  split_ifs with c
  · rfl
  · rw [wait_for_keyboard_ready_busy p h]
    rfl

/-- C31, amended: the hardware commands return the one failure code -1 both when a polling
loop runs out and on a generic failure. When the controller never becomes ready,
`wait_for_keyboard_ready`, `keyboard_reset` and `keyboard_set_repeat_rate` return -1; when
it is ready and gives no answer within the 1000 polls, `keyboard_reset` returns -1; when
it answers 0xFC (self-test failed), `keyboard_reset` returns -1 (and 0 when it answers
0xAA); with a delay above 3 or a rate above 31, `keyboard_set_repeat_rate` returns -1
without touching the ports. -/
theorem C31_timeout_returns_the_failure_code (p : keyboard_port) (delay rate : Nat) :
    ((∀ m, p.status (p.status_reads + m) &&& 2 ≠ 0) →
      (wait_for_keyboard_ready p).1 = -1 ∧ (keyboard_reset p).1 = -1 ∧
      (keyboard_set_repeat_rate delay rate p).1 = -1) ∧
    (p.status p.status_reads &&& 2 = 0 →
      (∀ m, p.status (p.status_reads + 1 + m) &&& 1 = 0) → (keyboard_reset p).1 = -1) ∧
    (p.status p.status_reads &&& 2 = 0 → p.status (p.status_reads + 1) &&& 1 ≠ 0 →
      (p.data p.data_reads % 256 = 0xFC → (keyboard_reset p).1 = -1) ∧
      (p.data p.data_reads % 256 = 0xAA → (keyboard_reset p).1 = 0)) ∧
    ((delay > 3 ∨ rate > 31) → keyboard_set_repeat_rate delay rate p = (-1, p)) := by
  refine ⟨fun h => ⟨?_, ?_, keyboard_set_repeat_rate_busy delay rate p h⟩, fun h2 h1 => ?_,
    fun h2 h1 => ⟨(keyboard_reset_answer p h2 h1).2, (keyboard_reset_answer p h2 h1).1⟩,
    fun hr => ?_⟩
  · rw [wait_for_keyboard_ready_busy p h]
  · rw [keyboard_reset_busy p h]
  · rw [keyboard_reset_silent p h2 h1]
  · unfold keyboard_set_repeat_rate
    rw [if_pos hr]

/-- C31, amended, on three controllers: one that is always busy (status 0x02), one that is
ready and never answers (status 0x00), and one that is ready and answers every poll
(status 0x01) with 0xFC; and the repeat-rate delay 4. -/
theorem C31_timeout_returns_the_failure_code_witness :
    ((wait_for_keyboard_ready (constant_port 2 0)).1 = -1 ∧
      (keyboard_reset (constant_port 2 0)).1 = -1 ∧
      (keyboard_set_repeat_rate 1 1 (constant_port 2 0)).1 = -1) ∧
    (keyboard_reset (constant_port 0 0)).1 = -1 ∧
    (keyboard_reset (constant_port 1 0xFC)).1 = -1 ∧
    keyboard_set_repeat_rate 4 0 (constant_port 1 0) = (-1, constant_port 1 0) :=
  ⟨(C31_timeout_returns_the_failure_code (constant_port 2 0) 1 1).1
      (fun _ => (by decide : (2 : Nat) &&& 2 ≠ 0)),
    (C31_timeout_returns_the_failure_code (constant_port 0 0) 1 1).2.1 (by decide)
      (fun _ => (by decide : (0 : Nat) &&& 1 = 0)),
    ((C31_timeout_returns_the_failure_code (constant_port 1 0xFC) 1 1).2.2.1 (by decide)
      (by decide)).1 (by decide),
    (C31_timeout_returns_the_failure_code (constant_port 1 0) 4 0).2.2.2 (Or.inl (by decide))⟩

/-- C31 as stated fails: `keyboard_reset` returns the same code when the controller never
becomes ready (the wait runs out), when it is ready and never answers (the response loop
runs out) and when it answers 0xFC (self-test failed), and `keyboard_set_repeat_rate`
returns that code for the out-of-range delay 4; a timeout cannot be told from a generic
failure. -/
theorem C31_counterexample :
    (keyboard_reset (constant_port 2 0)).1 = -1 ∧
    (keyboard_reset (constant_port 0 0)).1 = -1 ∧
    (keyboard_reset (constant_port 1 0xFC)).1 = -1 ∧
    (keyboard_set_repeat_rate 4 0 (constant_port 1 0)).1 = -1 ∧
    ¬ ((keyboard_reset (constant_port 0 0)).1 ≠ (keyboard_reset (constant_port 1 0xFC)).1) := by
  have a := keyboard_reset_busy (constant_port 2 0)
    (fun _ => (by decide : (2 : Nat) &&& 2 ≠ 0))
  have b := keyboard_reset_silent (constant_port 0 0) (by decide)
    (fun _ => (by decide : (0 : Nat) &&& 1 = 0))
  have c := (keyboard_reset_answer (constant_port 1 0xFC) (by decide) (by decide)).2
    (by decide)
  refine ⟨by rw [a], by rw [b], c, ?_, ?_⟩
  · unfold keyboard_set_repeat_rate
    rw [if_pos (Or.inl (by decide))]
  · rw [b, c]
    simp

end VestOS
